import Mathlib

/-!
# AVL tree over an unbalanced binary search tree

A pointer-level model of `bst.h` and `avlbst.h`.  Nodes live in a heap, a list of
slots; a pointer is `Option Nat` (`none` is `nullptr`), `new` appends a slot and
`delete` empties one.  Every member function is translated statement by statement
into a function on the pair (heap, `root_`).  Dereferencing `nullptr` or a deleted
node, which is undefined behaviour in C++, is reported as `Fault.nullDeref`.
Loops and recursions carry a step budget; the public operations start them with a
budget larger than the number of heap slots.

The template parameters `Key` and `Value` are instantiated with `Int`.
-/

namespace HW4

/-! ## Results of running code -/

/-- Reasons for which a call yields no ordinary result. -/
inductive Fault where
  /-- A null or dangling pointer was dereferenced. -/
  | nullDeref
  /-- The step budget of a loop ran out. -/
  | outOfFuel
  /-- The exception `std::out_of_range` was thrown. -/
  | outOfRange
deriving DecidableEq, Repr

/-- Outcome of a call: a value, or a fault. -/
inductive Res (α : Type) where
  | ok (a : α)
  | fault (f : Fault)
deriving DecidableEq, Repr

/-- Sequencing of calls: a fault ends the computation. -/
def Res.bind {α β : Type} (x : Res α) (f : α → Res β) : Res β :=
  match x with
  | .ok a => f a
  | .fault e => .fault e

instance : Monad Res where
  pure := Res.ok
  bind := Res.bind

/-! ## Nodes, heap, tree -/

/-- A pointer to a node: `none` is `nullptr`. -/
abbrev Ptr := Option Nat

/-- The class `AVLNode` (a `Node` with the extra member `balance_`). -/
structure Node where
  key : Int
  value : Int
  parent : Ptr
  left : Ptr
  right : Ptr
  balance : Int
deriving DecidableEq, Repr

/-- The heap: slot `a` holds the node at address `a`, or `none` once deleted. -/
abbrev Heap := List (Option Node)

/-- A tree object: the heap and the member `root_`. -/
structure Tree where
  heap : Heap
  root : Ptr
deriving DecidableEq, Repr

/-- The node stored at an address, if the address is allocated and not deleted. -/
def Heap.lookup (h : Heap) (a : Nat) : Option Node :=
  match h[a]? with
  | some (some n) => some n
  | _ => none

/-- Overwrite the slot at an address. -/
def Heap.put (h : Heap) (a : Nat) (n : Node) : Heap := h.set a (some n)

/-- Dereference a pointer. -/
def Tree.getNode (t : Tree) (p : Ptr) : Res Node :=
  match p with
  | none => .fault .nullDeref
  | some a =>
    match t.heap.lookup a with
    | some n => .ok n
    | none => .fault .nullDeref

/-- Update the node a pointer refers to. -/
def Tree.modify (t : Tree) (p : Ptr) (f : Node → Node) : Res Tree :=
  match p with
  | none => .fault .nullDeref
  | some a =>
    match t.heap.lookup a with
    | some n => .ok { t with heap := t.heap.put a (f n) }
    | none => .fault .nullDeref

/-- The setter `p->setParent(v)`. -/
def Tree.setParent (t : Tree) (p v : Ptr) : Res Tree := t.modify p (fun n => { n with parent := v })

/-- The setter `p->setLeft(v)`. -/
def Tree.setLeft (t : Tree) (p v : Ptr) : Res Tree := t.modify p (fun n => { n with left := v })

/-- The setter `p->setRight(v)`. -/
def Tree.setRight (t : Tree) (p v : Ptr) : Res Tree := t.modify p (fun n => { n with right := v })

/-- The setter `p->setValue(v)`. -/
def Tree.setValue (t : Tree) (p : Ptr) (v : Int) : Res Tree := t.modify p (fun n => { n with value := v })

/-- Narrowing of an `int` to `int8_t`. -/
def wrap8 (x : Int) : Int := (x + 128) % 256 - 128

/-- The setter `p->setBalance(b)`; the argument is narrowed to `int8_t`. -/
def Tree.setBalance (t : Tree) (p : Ptr) (b : Int) : Res Tree :=
  t.modify p (fun n => { n with balance := wrap8 b })

/-- The expression `new AVLNode(key, value, parent)`: a fresh node with null children and balance 0. -/
def Tree.newNode (t : Tree) (key value : Int) (parent : Ptr) : Tree × Ptr :=
  ({ t with heap := t.heap ++ [some ⟨key, value, parent, none, none, 0⟩] }, some t.heap.length)

/-- The statement `delete p`. -/
def Tree.delete (t : Tree) (p : Ptr) : Res Tree :=
  match p with
  | none => .ok t
  | some a =>
    match t.heap.lookup a with
    | some _ => .ok { t with heap := t.heap.set a none }
    | none => .fault .nullDeref

/-- The tree made by the constructor: no nodes, `root_ == nullptr`. -/
def Tree.empty : Tree := ⟨[], none⟩

/-- Step budget for the loops of one public call. -/
def Tree.fuel (t : Tree) : Nat := t.heap.length + 2

/-! ## avlbst.h: rotations -/

/-- The member function `AVLTree::rotateLeft`. -/
def AVLTree.rotateLeft (t : Tree) (current : Ptr) : Res Tree := do
  let rightChild := (← t.getNode current).right
  -- Case where there is not rightChild
  if rightChild = none then pure t else do
    let t ← t.setRight current (← t.getNode rightChild).left
    let rl := (← t.getNode rightChild).left
    let t ← if rl ≠ none then t.setParent rl current else pure t
    -- Making rightChild the new root
    let t ← t.setLeft rightChild current
    let t ← t.setParent rightChild (← t.getNode current).parent
    -- Updating current's parent to rightChild
    let cp := (← t.getNode current).parent
    let t ← if cp ≠ none then do
        if (← t.getNode cp).left = current then t.setLeft cp rightChild
        else t.setRight cp rightChild
      else pure { t with root := rightChild }
    let t ← t.setParent current rightChild
    -- Adjusting balances
    let currBalance := (← t.getNode current).balance
    let rightBalance := (← t.getNode rightChild).balance
    let t ← t.setBalance current (currBalance - max rightBalance 0 - 1)
    t.setBalance rightChild (rightBalance - min (← t.getNode current).balance 0 + 1)

/-- The member function `AVLTree::rotateRight`. -/
def AVLTree.rotateRight (t : Tree) (current : Ptr) : Res Tree := do
  let leftChild := (← t.getNode current).left
  -- Case where there is not leftChild
  if leftChild = none then pure t else do
    let t ← t.setLeft current (← t.getNode leftChild).right
    let lr := (← t.getNode leftChild).right
    let t ← if lr ≠ none then t.setParent lr current else pure t
    -- Making leftChild the new root
    let t ← t.setRight leftChild current
    let t ← t.setParent leftChild (← t.getNode current).parent
    -- Updating current's parent to leftChild
    let cp := (← t.getNode current).parent
    let t ← if cp ≠ none then do
        if (← t.getNode cp).left = current then t.setLeft cp leftChild
        else t.setRight cp leftChild
      else pure { t with root := leftChild }
    let t ← t.setParent current leftChild
    -- Adjusting balances
    let currBalance := (← t.getNode current).balance
    let leftBalance := (← t.getNode leftChild).balance
    let t ← t.setBalance current (currBalance - min leftBalance 0 + 1)
    t.setBalance leftChild (leftBalance - max (← t.getNode current).balance 0 - 1)

/-! ## avlbst.h: insert -/

/-- The member function `AVLTree::insertFix`: its `while` loop, one iteration per unit of budget. -/
def AVLTree.insertFix : Nat → Tree → Ptr → Ptr → Res Tree
  | 0, _, _, _ => .fault .outOfFuel
  | fuel + 1, t, child, parent =>
    if parent = none then pure t else do
      let pb := (← t.getNode parent).balance
      -- If left-heavy
      if pb = -2 then do
        let cb := (← t.getNode child).balance
        -- LL case
        if cb = -1 then do
          let t ← AVLTree.rotateRight t parent
          let t ← t.setBalance parent 0
          t.setBalance child 0
        -- LR case
        else if cb = 1 then do
          let rightChild := (← t.getNode child).right
          let t ← AVLTree.rotateLeft t child
          let t ← AVLTree.rotateRight t parent
          let rb := (← t.getNode rightChild).balance
          let t ← if rb = 1 then do
              let t ← t.setBalance parent 0
              t.setBalance child (-1)
            else if rb = 0 then do
              let t ← t.setBalance parent 0
              t.setBalance child 0
            else do
              let t ← t.setBalance parent (-1)
              t.setBalance child 0
          t.setBalance rightChild 0
        else pure t
      -- If right-heavy
      else if pb = 2 then do
        let cb := (← t.getNode child).balance
        -- RR case
        if cb = 1 then do
          let t ← AVLTree.rotateLeft t parent
          let t ← t.setBalance parent 0
          t.setBalance child 0
        -- RL case
        else if cb = -1 then do
          let leftChild := (← t.getNode child).left
          let t ← AVLTree.rotateRight t child
          let t ← AVLTree.rotateLeft t parent
          let lb := (← t.getNode leftChild).balance
          let t ← if lb = -1 then do
              let t ← t.setBalance parent 0
              t.setBalance child (-1)
            else if lb = 0 then do
              let t ← t.setBalance parent 0
              t.setBalance child 0
            else do
              let t ← t.setBalance parent (-1)
              t.setBalance child 0
          t.setBalance leftChild 0
        else pure t
      else do
        -- parent = parent->getParent(); child = parent;
        let parent := (← t.getNode parent).parent
        AVLTree.insertFix fuel t parent parent

/-- Outcome of the downward walk of `insert`: the key was found and its value overwritten,
or the walk fell off the tree below `parent`. -/
inductive Descent where
  | overwritten (t : Tree)
  | bottom (parent : Ptr)
deriving DecidableEq, Repr

/-- The first `while` loop of `AVLTree::insert` (and of `BinarySearchTree::insert`): walk down
comparing keys; on an equal key overwrite the value and stop. -/
def insertDescend : Nat → Tree → Int → Int → Ptr → Ptr → Res Descent
  | 0, _, _, _, _, _ => .fault .outOfFuel
  | fuel + 1, t, key, value, current, parent =>
    if current = none then pure (.bottom parent) else do
      let n ← t.getNode current
      if key < n.key then insertDescend fuel t key value n.left current
      else if key > n.key then insertDescend fuel t key value n.right current
      else do
        let t ← t.setValue current value
        pure (.overwritten t)

/-- The second `while` loop of `AVLTree::insert`: walk up from the new node, adjusting balances. -/
def AVLTree.insertClimb : Nat → Tree → Ptr → Ptr → Res Tree
  | 0, _, _, _ => .fault .outOfFuel
  | fuel + 1, t, child, node =>
    if node = none then pure t else do
      let n ← t.getNode node
      let t ← if child = n.left then t.setBalance node (n.balance - 1)
        else t.setBalance node (n.balance + 1)
      let b := (← t.getNode node).balance
      if b = 0 then pure t
      -- Handling the case where new balance is not 0
      else if b = 2 ∨ b = -2 then AVLTree.insertFix t.fuel t child node
      else AVLTree.insertClimb fuel t node (← t.getNode node).parent

/-- The member function `AVLTree::insert`. -/
def AVLTree.insert (t : Tree) (key value : Int) : Res Tree :=
  -- Base case: empty tree
  if t.root = none then
    let (t, newNode) := t.newNode key value none
    pure { t with root := newNode }
  else do
    match ← insertDescend t.fuel t key value t.root none with
    | .overwritten t => pure t
    | .bottom parent =>
      -- Now we have reached the spot where we can insert the new node
      let (t, newNode) := t.newNode key value parent
      let t ← if key < (← t.getNode parent).key then t.setLeft parent newNode
        else t.setRight parent newNode
      AVLTree.insertClimb t.fuel t newNode parent

/-! ## bst.h: predecessor and nodeSwap -/

/-- The loop `while(temp->getRight() != nullptr) temp = temp->getRight();`. -/
def rightmost : Nat → Tree → Ptr → Res Ptr
  | 0, _, _ => .fault .outOfFuel
  | fuel + 1, t, temp => do
    let r := (← t.getNode temp).right
    if r ≠ none then rightmost fuel t r else pure temp

/-- The loop `while(parent != nullptr && current == parent->getLeft())` of `predecessor`. -/
def climbWhileLeft : Nat → Tree → Ptr → Ptr → Res Ptr
  | 0, _, _, _ => .fault .outOfFuel
  | fuel + 1, t, current, parent =>
    if parent = none then pure parent else do
      let pn ← t.getNode parent
      if current = pn.left then climbWhileLeft fuel t parent pn.parent
      else pure parent

/-- The static member function `BinarySearchTree::predecessor`. -/
def BinarySearchTree.predecessor (t : Tree) (current : Ptr) : Res Ptr := do
  let n ← t.getNode current
  -- 1st case: Current node has left child
  if n.left ≠ none then rightmost t.fuel t n.left
  -- 2nd case: Current node doesn't have a left child
  else climbWhileLeft t.fuel t current n.parent

/-- The member function `BinarySearchTree::nodeSwap`. -/
def BinarySearchTree.nodeSwap (t : Tree) (n1 n2 : Ptr) : Res Tree :=
  if n1 = n2 ∨ n1 = none ∨ n2 = none then pure t else do
    let n1p := (← t.getNode n1).parent
    let n1r := (← t.getNode n1).right
    let n1lt := (← t.getNode n1).left
    let n1isLeft ← if n1p ≠ none then do pure (decide (n1 = (← t.getNode n1p).left)) else pure false
    let n2p := (← t.getNode n2).parent
    let n2r := (← t.getNode n2).right
    let n2lt := (← t.getNode n2).left
    let n2isLeft ← if n2p ≠ none then do pure (decide (n2 = (← t.getNode n2p).left)) else pure false
    -- swap the three links
    let temp := (← t.getNode n1).parent
    let t ← t.setParent n1 (← t.getNode n2).parent
    let t ← t.setParent n2 temp
    let temp := (← t.getNode n1).left
    let t ← t.setLeft n1 (← t.getNode n2).left
    let t ← t.setLeft n2 temp
    let temp := (← t.getNode n1).right
    let t ← t.setRight n1 (← t.getNode n2).right
    let t ← t.setRight n2 temp
    -- the two nodes are parent and child of each other
    let t ← if n1r ≠ none ∧ n1r = n2 then do
        let t ← t.setRight n2 n1
        t.setParent n1 n2
      else if n2r ≠ none ∧ n2r = n1 then do
        let t ← t.setRight n1 n2
        t.setParent n2 n1
      else if n1lt ≠ none ∧ n1lt = n2 then do
        let t ← t.setLeft n2 n1
        t.setParent n1 n2
      else if n2lt ≠ none ∧ n2lt = n1 then do
        let t ← t.setLeft n1 n2
        t.setParent n2 n1
      else pure t
    -- the neighbours of n1 now point to n2
    let t ← if n1p ≠ none ∧ n1p ≠ n2 then
        (if n1isLeft then t.setLeft n1p n2 else t.setRight n1p n2)
      else pure t
    let t ← if n1r ≠ none ∧ n1r ≠ n2 then t.setParent n1r n2 else pure t
    let t ← if n1lt ≠ none ∧ n1lt ≠ n2 then t.setParent n1lt n2 else pure t
    -- the neighbours of n2 now point to n1
    let t ← if n2p ≠ none ∧ n2p ≠ n1 then
        (if n2isLeft then t.setLeft n2p n1 else t.setRight n2p n1)
      else pure t
    let t ← if n2r ≠ none ∧ n2r ≠ n1 then t.setParent n2r n1 else pure t
    let t ← if n2lt ≠ none ∧ n2lt ≠ n1 then t.setParent n2lt n1 else pure t
    if t.root = n1 then pure { t with root := n2 }
    else if t.root = n2 then pure { t with root := n1 }
    else pure t

/-- The member function `AVLTree::nodeSwap`: the base swap, then the two balances are exchanged. -/
def AVLTree.nodeSwap (t : Tree) (n1 n2 : Ptr) : Res Tree := do
  let t ← BinarySearchTree.nodeSwap t n1 n2
  let tempB := (← t.getNode n1).balance
  let t ← t.setBalance n1 (← t.getNode n2).balance
  t.setBalance n2 tempB

/-! ## avlbst.h: remove -/

/-- The member function `AVLTree::removeFix`; each recursive call uses one unit of budget.
The three tests on `childBalance` are written as a chain: `childBalance` is a local that no
branch assigns, so at most one of them holds. -/
def AVLTree.removeFix : Nat → Tree → Ptr → Int → Res Tree
  | 0, _, _, _ => .fault .outOfFuel
  | fuel + 1, t, current, diff =>
    if current = none then pure t else do
      let cn ← t.getNode current
      let parent := cn.parent
      let ndiff : Int ← if parent ≠ none then do
          if current = (← t.getNode parent).left then pure (-1) else pure 1
        else pure 0
      let spread := cn.balance + diff
      -- WHERE DIFF == -1
      if diff = -1 then do
        let child := cn.left
        let childBalance ← if child ≠ none then do pure (← t.getNode child).balance else pure 0
        -- Case 1: balance + diff = -2
        if spread = -2 then do
          -- Case 1a: balance of child = -1
          if childBalance = -1 then do
            let t ← AVLTree.rotateRight t current
            AVLTree.removeFix fuel t parent ndiff
          -- Case 1b: balance of child = 0
          else if childBalance = 0 then AVLTree.rotateRight t current
          -- Case 1c: balance of child = 1
          else if childBalance = 1 then do
            let t ← AVLTree.rotateLeft t child
            let t ← AVLTree.rotateRight t child
            AVLTree.removeFix fuel t parent ndiff
          else pure t
        -- Case 3: balance + diff = 0
        else if spread = 0 then AVLTree.removeFix fuel t parent ndiff
        else pure t
      -- WHERE DIFF == 1
      else if diff = 1 then do
        let child := cn.right
        let childBalance ← if child ≠ none then do pure (← t.getNode child).balance else pure 0
        -- Case 1: balance + diff = 2
        if spread = 2 then do
          -- Case 1a: balance of child = 1
          if childBalance = 1 then do
            let t ← AVLTree.rotateLeft t current
            AVLTree.removeFix fuel t parent ndiff
          -- Case 1b: balance of child = 0
          else if childBalance = 0 then AVLTree.rotateLeft t current
          -- Case 1c: balance of child = -1
          else if childBalance = -1 then do
            let t ← AVLTree.rotateRight t child
            let t ← AVLTree.rotateLeft t child
            AVLTree.removeFix fuel t parent ndiff
          else pure t
        -- Case 3: balance + diff = 0
        else if spread = 0 then AVLTree.removeFix fuel t parent ndiff
        else pure t
      else pure t

/-- The first `while` loop of `remove`: walk down until the key is found or the walk falls off. -/
def removeDescend : Nat → Tree → Int → Ptr → Res Ptr
  | 0, _, _, _ => .fault .outOfFuel
  | fuel + 1, t, key, current =>
    if current = none then pure current else do
      let n ← t.getNode current
      if n.key ≠ key then
        (if key < n.key then removeDescend fuel t key n.left
         else removeDescend fuel t key n.right)
      else pure current

/-- The member function `AVLTree::remove`. -/
def AVLTree.remove (t : Tree) (key : Int) : Res Tree := do
  let current ← removeDescend t.fuel t key t.root
  -- Case where the key wasn't found
  if current = none then pure t else do
    let cn ← t.getNode current
    let parent := cn.parent
    -- Case 1: Has no children
    if cn.left = none ∧ cn.right = none then do
      let (t, diff) ← (
        if current = t.root then pure ({ t with root := none }, (0 : Int))
        else do
          if (← t.getNode parent).left = current then pure ((← t.setLeft parent none), (1 : Int))
          else pure ((← t.setRight parent none), (-1 : Int)))
      let t ← t.delete current
      AVLTree.removeFix t.fuel t parent diff
    -- Case 2: Only one child
    else if cn.left = none ∨ cn.right = none then do
      let child := if cn.left = none then cn.right else cn.left
      let (t, diff) ← (
        if t.root = current then do
          let t := { t with root := child }
          pure ((← t.setParent t.root none), (0 : Int))
        else do
          if (← t.getNode (← t.getNode current).parent).left = current then do
            let t ← t.setLeft (← t.getNode current).parent child
            pure ((← t.setParent child (← t.getNode current).parent), (1 : Int))
          else do
            let t ← t.setRight (← t.getNode current).parent child
            pure ((← t.setParent child (← t.getNode current).parent), (-1 : Int)))
      let t ← t.delete current
      AVLTree.removeFix t.fuel t parent diff
    -- Case 3: Both children
    else do
      let nodeToDelete := current
      let pred ← BinarySearchTree.predecessor t current
      let t ← AVLTree.nodeSwap t current pred
      -- Post-swap, we need to check if pred has children that need to be reassigned
      let dn ← t.getNode nodeToDelete
      let child := if dn.left ≠ none then dn.left else if dn.right ≠ none then dn.right else none
      let parent := dn.parent
      let t ← if child ≠ none then t.setParent child parent else pure t
      let (t, diff) ← (
        if parent ≠ none then do
          if (← t.getNode parent).left = nodeToDelete then pure ((← t.setLeft parent child), (1 : Int))
          else pure ((← t.setRight parent child), (-1 : Int))
        else pure ({ t with root := child }, (0 : Int)))
      let t ← t.delete nodeToDelete
      AVLTree.removeFix t.fuel t parent diff

/-! ## bst.h: insert, remove, find -/

/-- The member function `BinarySearchTree::insert`. -/
def BinarySearchTree.insert (t : Tree) (key value : Int) : Res Tree :=
  -- Base case: empty tree
  if t.root = none then
    let (t, newNode) := t.newNode key value none
    pure { t with root := newNode }
  else do
    match ← insertDescend t.fuel t key value t.root none with
    | .overwritten t => pure t
    | .bottom parent =>
      -- Now we have reached the spot where we can insert the new node
      let pk := (← t.getNode parent).key
      if key < pk then
        let (t, newNode) := t.newNode key value parent
        t.setLeft parent newNode
      else if key > pk then
        let (t, newNode) := t.newNode key value parent
        t.setRight parent newNode
      else pure t

/-- The member function `BinarySearchTree::remove`. -/
def BinarySearchTree.remove (t : Tree) (key : Int) : Res Tree := do
  let current ← removeDescend t.fuel t key t.root
  -- Case where the key wasn't found
  if current = none then pure t else do
    let cn ← t.getNode current
    -- Case 1: Has no children
    if cn.left = none ∧ cn.right = none then do
      let t ← (
        if current = t.root then pure { t with root := none }
        else do
          if (← t.getNode cn.parent).left = current then t.setLeft cn.parent none
          else t.setRight cn.parent none)
      t.delete current
    -- Case 2: Only one child
    else if cn.left = none ∨ cn.right = none then do
      let child := if cn.left = none then cn.right else cn.left
      let t ← (
        if t.root = current then do
          let t := { t with root := child }
          t.setParent t.root none
        else do
          if (← t.getNode (← t.getNode current).parent).left = current then do
            let t ← t.setLeft (← t.getNode current).parent child
            t.setParent child (← t.getNode current).parent
          else do
            let t ← t.setRight (← t.getNode current).parent child
            t.setParent child (← t.getNode current).parent)
      t.delete current
    -- Case 3: Both children
    else do
      let nodeToDelete := current
      let pred ← BinarySearchTree.predecessor t current
      let t ← BinarySearchTree.nodeSwap t current pred
      -- Post-swap, we need to check if pred has children that need to be reassigned
      let dn ← t.getNode nodeToDelete
      let child := if dn.left ≠ none then dn.left else if dn.right ≠ none then dn.right else none
      let parent := dn.parent
      let t ← if child ≠ none then t.setParent child parent else pure t
      let t ← (
        if parent ≠ none then do
          if (← t.getNode parent).left = nodeToDelete then t.setLeft parent child
          else t.setRight parent child
        else pure { t with root := child })
      t.delete nodeToDelete

/-- The `while` loop of `BinarySearchTree::internalFind`. -/
def internalFindLoop : Nat → Tree → Int → Ptr → Res Ptr
  | 0, _, _, _ => .fault .outOfFuel
  | fuel + 1, t, key, current =>
    if current = none then pure none else do
      let n ← t.getNode current
      if n.key = key then pure current
      else if key < n.key then internalFindLoop fuel t key n.left
      else if key > n.key then internalFindLoop fuel t key n.right
      else internalFindLoop fuel t key current

/-- The member function `BinarySearchTree::internalFind`. -/
def BinarySearchTree.internalFind (t : Tree) (key : Int) : Res Ptr :=
  -- Empty tree
  if t.root = none then pure none
  else internalFindLoop t.fuel t key t.root

/-- The member function `BinarySearchTree::find`; the iterator is the pointer it wraps,
and `end()` is the iterator wrapping `nullptr`. -/
def BinarySearchTree.find (t : Tree) (key : Int) : Res Ptr :=
  BinarySearchTree.internalFind t key

/-- The member function `BinarySearchTree::operator[]`: the value the returned reference
refers to, or the fault `outOfRange` where the C++ throws `std::out_of_range`. -/
def BinarySearchTree.index (t : Tree) (key : Int) : Res Int := do
  let curr ← BinarySearchTree.internalFind t key
  if curr = none then .fault .outOfRange
  else pure (← t.getNode curr).value

/-! ## bst.h: height and balance diagnostics -/

/-- The member function `BinarySearchTree::findHeight`. -/
def findHeightAux : Nat → Tree → Ptr → Res Int
  | 0, _, _ => .fault .outOfFuel
  | fuel + 1, t, node =>
    if node = none then pure 0 else do
      let n ← t.getNode node
      let lheight ← findHeightAux fuel t n.left
      let rheight ← findHeightAux fuel t n.right
      pure (max lheight rheight + 1)

/-- The member function `BinarySearchTree::findHeight`, started with the budget of the tree. -/
def BinarySearchTree.findHeight (t : Tree) (node : Ptr) : Res Int :=
  findHeightAux t.fuel t node

/-- The member function `BinarySearchTree::balanceHelper`. -/
def balanceHelperAux : Nat → Tree → Ptr → Res Bool
  | 0, _, _ => .fault .outOfFuel
  | fuel + 1, t, node =>
    if node = none then pure true else do
      let n ← t.getNode node
      let lheight ← BinarySearchTree.findHeight t n.left
      let rheight ← BinarySearchTree.findHeight t n.right
      let currentBalanced := decide (|lheight - rheight| ≤ 1)
      let leftBalanced ← balanceHelperAux fuel t n.left
      let rightBalanced ← balanceHelperAux fuel t n.right
      pure (currentBalanced && leftBalanced && rightBalanced)

/-- The member function `BinarySearchTree::isBalanced`. -/
def BinarySearchTree.isBalanced (t : Tree) : Res Bool :=
  balanceHelperAux t.fuel t t.root

/-- The member function `AVLTree::findBalance`. -/
def AVLTree.findBalance (t : Tree) (node : Ptr) : Res Int := do
  let n ← t.getNode node
  pure ((← BinarySearchTree.findHeight t n.right) - (← BinarySearchTree.findHeight t n.left))

/-! ## bst.h: clear, empty, iterators -/

/-- The loop `while(root_ != nullptr)` of `BinarySearchTree::clear`. -/
def clearLoop : Nat → Tree → Res Tree
  | 0, _ => .fault .outOfFuel
  | fuel + 1, t =>
    if t.root = none then pure t else do
      let rn ← t.getNode t.root
      -- If left child isnt nullptr, we'll make it the root
      if rn.left ≠ none then clearLoop fuel { t with root := rn.left }
      -- If right child isnt nullptr, we'll make it the root
      else if rn.right ≠ none then clearLoop fuel { t with root := rn.right }
      -- If no children, set root to nullptr
      else do
        let t ← t.delete t.root
        clearLoop fuel { t with root := none }

/-- The member function `BinarySearchTree::clear`. -/
def BinarySearchTree.clear (t : Tree) : Res Tree := clearLoop t.fuel t

/-- The member function `BinarySearchTree::empty`. -/
def BinarySearchTree.empty (t : Tree) : Bool := t.root = none

/-- The loop `while(current->getLeft() != nullptr)` of `getSmallestNode` and `operator++`. -/
def leftmost : Nat → Tree → Ptr → Res Ptr
  | 0, _, _ => .fault .outOfFuel
  | fuel + 1, t, current => do
    let l := (← t.getNode current).left
    if l ≠ none then leftmost fuel t l else pure current

/-- The member function `BinarySearchTree::getSmallestNode`. -/
def BinarySearchTree.getSmallestNode (t : Tree) : Res Ptr :=
  if t.root = none then pure none else leftmost t.fuel t t.root

/-- The loop `while(parent != nullptr && current_ == parent->getRight())` of `operator++`. -/
def climbWhileRight : Nat → Tree → Ptr → Ptr → Res Ptr
  | 0, _, _, _ => .fault .outOfFuel
  | fuel + 1, t, current, parent =>
    if parent = none then pure parent else do
      let pn ← t.getNode parent
      if current = pn.right then climbWhileRight fuel t parent pn.parent
      else pure parent

/-- The member function `BinarySearchTree::iterator::operator++`, on the iterator's node
pointer. -/
def BinarySearchTree.iterator.increment (t : Tree) (current : Ptr) : Res Ptr := do
  let n ← t.getNode current
  -- 1st case: Node has a right child -> go to leftmost child of right subtree
  if n.right ≠ none then leftmost t.fuel t n.right
  -- 2nd case: Node doesn't have a right child -> move to parent node
  else climbWhileRight t.fuel t current n.parent

/-- The member function `BinarySearchTree::begin`, as the iterator's node pointer. -/
def BinarySearchTree.begin (t : Tree) : Res Ptr := BinarySearchTree.getSmallestNode t

/-- The member function `BinarySearchTree::end`, as the iterator's node pointer. -/
def BinarySearchTree.end (_t : Tree) : Ptr := none

/-- The client loop `for(it = start; it != end(); ++it)`: the addresses visited, in order. -/
def iterateFrom : Nat → Tree → Ptr → Res (List Nat)
  | 0, _, _ => .fault .outOfFuel
  | fuel + 1, t, it =>
    match it with
    | none => pure []
    | some a => do
      let next ← BinarySearchTree.iterator.increment t it
      pure (a :: (← iterateFrom fuel t next))

/-- The client loop `for(it = begin(); it != end(); ++it)`: the addresses visited, in order. -/
def BinarySearchTree.iterate (t : Tree) : Res (List Nat) := do
  iterateFrom (t.heap.length + 1) t (← BinarySearchTree.begin t)

/-- The stored balance at an address (0 if there is no node there). -/
def Tree.balanceAt (t : Tree) (a : Nat) : Int :=
  match t.heap.lookup a with
  | some n => n.balance
  | none => 0

/-! ## equal-paths.cpp -/

/-- Modelled from the spec: the header `equal-paths.h`, which declares the type `Node` of
`equal-paths.cpp`, is not among the sources. The code reads the members `left` and `right` of a
node and nothing else, and the spec speaks of leaves, nodes with no children, in a binary tree;
whatever else a node stores is the parameter `α`. A value of this type is a `Node*`: `null` is
`nullptr`. -/
inductive EqualPaths.Node (α : Type) where
  | null
  | node (payload : α) (left right : EqualPaths.Node α)
deriving DecidableEq, Repr

/-- The test `p == nullptr`. -/
def EqualPaths.Node.isNull {α : Type} : EqualPaths.Node α → Bool
  | .null => true
  | .node _ _ _ => false

/-- Arithmetic of `int`: the result is reduced to the range of a 32-bit signed integer. -/
def wrap32 (x : Int) : Int := (x + 2147483648) % 4294967296 - 2147483648

/-- The function `depthCheckHelper`. The reference parameter `leafDepth` is passed in and
returned next to the result; `&&` evaluates its right operand only if the left one is true. -/
def EqualPaths.depthCheckHelper {α : Type} :
    EqualPaths.Node α → Int → Int → Bool × Int
  | .null, _, leafDepth => (true, leafDepth)
  | .node _ left right, depth, leafDepth =>
    -- If the current node is a leaf node
    if left.isNull && right.isNull then
      let leafDepth := if leafDepth = -1 then depth else leafDepth
      (decide (leafDepth = depth), leafDepth)
    else
      let (b, leafDepth) := EqualPaths.depthCheckHelper left (wrap32 (depth + 1)) leafDepth
      if b then EqualPaths.depthCheckHelper right (wrap32 (depth + 1)) leafDepth
      else (false, leafDepth)

/-- The function `equalPaths`. -/
def EqualPaths.equalPaths {α : Type} (root : EqualPaths.Node α) : Bool :=
  (EqualPaths.depthCheckHelper root 0 (-1)).1

/-! ## Observations used to state properties -/

/-- In-order walk below a pointer: the addresses of the nodes met, left subtree first. -/
def inorderAux : Nat → Tree → Ptr → Res (List Nat)
  | 0, _, _ => .fault .outOfFuel
  | fuel + 1, t, p =>
    match p with
    | none => pure []
    | some a => do
      let n ← t.getNode (some a)
      let l ← inorderAux fuel t n.left
      let r ← inorderAux fuel t n.right
      pure (l ++ a :: r)

/-- The addresses of the nodes of the tree, in in-order. -/
def Tree.inorderAddrs (t : Tree) : Res (List Nat) := inorderAux t.fuel t t.root

/-- The key and value stored at an address (`(0, 0)` if there is no node there). -/
def Tree.item (t : Tree) (a : Nat) : Int × Int :=
  match t.heap.lookup a with
  | some n => (n.key, n.value)
  | none => (0, 0)

/-- The in-order sequence of (key, value) pairs of the tree. -/
def Tree.inorder (t : Tree) : Res (List (Int × Int)) := do
  pure ((← t.inorderAddrs).map t.item)

/-- An operation of the public interface. -/
inductive Op where
  | insert (key value : Int)
  | remove (key : Int)
deriving DecidableEq, Repr

/-- Run a sequence of operations on an AVL tree, first operation first. -/
def AVLTree.run : List Op → Tree → Res Tree
  | [], t => pure t
  | .insert k v :: ops, t => do AVLTree.run ops (← AVLTree.insert t k v)
  | .remove k :: ops, t => do AVLTree.run ops (← AVLTree.remove t k)

/-- Run a sequence of operations on a plain binary search tree, first operation first. -/
def BinarySearchTree.run : List Op → Tree → Res Tree
  | [], t => pure t
  | .insert k v :: ops, t => do BinarySearchTree.run ops (← BinarySearchTree.insert t k v)
  | .remove k :: ops, t => do BinarySearchTree.run ops (← BinarySearchTree.remove t k)

/-! ## A counter for the rotations made by a removal -/

/-- The member function `AVLTree::removeFix` with a counter added: the tree it returns, and the
number of calls of `rotateLeft` and `rotateRight` it made. -/
def AVLTree.removeFixCount : Nat → Tree → Ptr → Int → Res (Tree × Nat)
  | 0, _, _, _ => .fault .outOfFuel
  | fuel + 1, t, current, diff =>
    if current = none then pure (t, 0) else do
      let cn ← t.getNode current
      let parent := cn.parent
      let ndiff : Int ← if parent ≠ none then do
          if current = (← t.getNode parent).left then pure (-1) else pure 1
        else pure 0
      let spread := cn.balance + diff
      -- WHERE DIFF == -1
      if diff = -1 then do
        let child := cn.left
        let childBalance ← if child ≠ none then do pure (← t.getNode child).balance else pure 0
        -- Case 1: balance + diff = -2
        if spread = -2 then do
          -- Case 1a: balance of child = -1
          if childBalance = -1 then do
            let t ← AVLTree.rotateRight t current
            let r ← AVLTree.removeFixCount fuel t parent ndiff
            pure (r.1, r.2 + 1)
          -- Case 1b: balance of child = 0
          else if childBalance = 0 then do
            let t ← AVLTree.rotateRight t current
            pure (t, 1)
          -- Case 1c: balance of child = 1
          else if childBalance = 1 then do
            let t ← AVLTree.rotateLeft t child
            let t ← AVLTree.rotateRight t child
            let r ← AVLTree.removeFixCount fuel t parent ndiff
            pure (r.1, r.2 + 2)
          else pure (t, 0)
        -- Case 3: balance + diff = 0
        else if spread = 0 then AVLTree.removeFixCount fuel t parent ndiff
        else pure (t, 0)
      -- WHERE DIFF == 1
      else if diff = 1 then do
        let child := cn.right
        let childBalance ← if child ≠ none then do pure (← t.getNode child).balance else pure 0
        -- Case 1: balance + diff = 2
        if spread = 2 then do
          -- Case 1a: balance of child = 1
          if childBalance = 1 then do
            let t ← AVLTree.rotateLeft t current
            let r ← AVLTree.removeFixCount fuel t parent ndiff
            pure (r.1, r.2 + 1)
          -- Case 1b: balance of child = 0
          else if childBalance = 0 then do
            let t ← AVLTree.rotateLeft t current
            pure (t, 1)
          -- Case 1c: balance of child = -1
          else if childBalance = -1 then do
            let t ← AVLTree.rotateRight t child
            let t ← AVLTree.rotateLeft t child
            let r ← AVLTree.removeFixCount fuel t parent ndiff
            pure (r.1, r.2 + 2)
          else pure (t, 0)
        -- Case 3: balance + diff = 0
        else if spread = 0 then AVLTree.removeFixCount fuel t parent ndiff
        else pure (t, 0)
      else pure (t, 0)

/-- The member function `AVLTree::remove` with a counter added: the tree it returns, and the
number of calls of `rotateLeft` and `rotateRight` made by `removeFix`. -/
def AVLTree.removeCount (t : Tree) (key : Int) : Res (Tree × Nat) := do
  let current ← removeDescend t.fuel t key t.root
  -- Case where the key wasn't found
  if current = none then pure (t, 0) else do
    let cn ← t.getNode current
    let parent := cn.parent
    -- Case 1: Has no children
    if cn.left = none ∧ cn.right = none then do
      let (t, diff) ← (
        if current = t.root then pure ({ t with root := none }, (0 : Int))
        else do
          if (← t.getNode parent).left = current then pure ((← t.setLeft parent none), (1 : Int))
          else pure ((← t.setRight parent none), (-1 : Int)))
      let t ← t.delete current
      AVLTree.removeFixCount t.fuel t parent diff
    -- Case 2: Only one child
    else if cn.left = none ∨ cn.right = none then do
      let child := if cn.left = none then cn.right else cn.left
      let (t, diff) ← (
        if t.root = current then do
          let t := { t with root := child }
          pure ((← t.setParent t.root none), (0 : Int))
        else do
          if (← t.getNode (← t.getNode current).parent).left = current then do
            let t ← t.setLeft (← t.getNode current).parent child
            pure ((← t.setParent child (← t.getNode current).parent), (1 : Int))
          else do
            let t ← t.setRight (← t.getNode current).parent child
            pure ((← t.setParent child (← t.getNode current).parent), (-1 : Int)))
      let t ← t.delete current
      AVLTree.removeFixCount t.fuel t parent diff
    -- Case 3: Both children
    else do
      let nodeToDelete := current
      let pred ← BinarySearchTree.predecessor t current
      let t ← AVLTree.nodeSwap t current pred
      -- Post-swap, we need to check if pred has children that need to be reassigned
      let dn ← t.getNode nodeToDelete
      let child := if dn.left ≠ none then dn.left else if dn.right ≠ none then dn.right else none
      let parent := dn.parent
      let t ← if child ≠ none then t.setParent child parent else pure t
      let (t, diff) ← (
        if parent ≠ none then do
          if (← t.getNode parent).left = nodeToDelete then pure ((← t.setLeft parent child), (1 : Int))
          else pure ((← t.setRight parent child), (-1 : Int))
        else pure ({ t with root := child }, (0 : Int)))
      let t ← t.delete nodeToDelete
      AVLTree.removeFixCount t.fuel t parent diff

/-! ## Shapes: the abstract view of a heap-allocated tree -/

/-- A binary tree of node addresses. -/
inductive Shape where
  | nil
  | node (l : Shape) (a : Nat) (r : Shape)
deriving DecidableEq, Repr

/-- The pointer to the root of a shape: `nullptr` for the empty shape. -/
def Shape.ptr : Shape → Ptr
  | .nil => none
  | .node _ a _ => some a

/-- The addresses of a shape in in-order. -/
def Shape.addrs : Shape → List Nat
  | .nil => []
  | .node l a r => l.addrs ++ a :: r.addrs

/-- The height of a shape, the empty shape having height 0. -/
def Shape.height : Shape → Nat
  | .nil => 0
  | .node l _ r => max l.height r.height + 1

/-- The heap holds the shape: every address of the shape is a live node whose left and right
links point to the roots of the two sub-shapes and whose parent link is the address above
(`par` at the root). -/
def Heap.Holds (h : Heap) : Ptr → Shape → Prop
  | _, .nil => True
  | par, .node l a r =>
    ∃ n, h.lookup a = some n ∧ n.parent = par ∧ n.left = l.ptr ∧ n.right = r.ptr ∧
      h.Holds (some a) l ∧ h.Holds (some a) r

/-- The key stored at an address (0 if there is no node there). -/
def Tree.keyAt (t : Tree) (a : Nat) : Int := (t.item a).1

/-- The tree object is well formed with the given shape: `root_` points to the root of the
shape, the root has no parent, all links are consistent and no node occurs twice. -/
def Tree.Valid (t : Tree) (s : Shape) : Prop :=
  t.root = s.ptr ∧ t.heap.Holds none s ∧ s.addrs.Nodup

/-- The BST ordering invariant: the tree is well formed with the given shape and its keys,
read in in-order, are strictly increasing. -/
def Tree.SearchTree (t : Tree) (s : Shape) : Prop :=
  t.Valid s ∧ (s.addrs.map t.keyAt).Pairwise (· < ·)

/-- Binary search in a shape, with the keys read from the tree: the address found, if any. -/
def Shape.locate (t : Tree) (key : Int) : Shape → Ptr
  | .nil => none
  | .node l a r =>
    if t.keyAt a = key then some a
    else if key < t.keyAt a then l.locate t key
    else r.locate t key

/-! ## Contexts: a shape with a hole, for walks along parent links -/

/-- The side of a parent on which a child hangs. -/
inductive Dir where
  | left
  | right
deriving DecidableEq, Repr

/-- One step of a path from a node up to the root: the parent's address, the side of the parent
the path comes from, and the parent's other subtree. -/
structure Frame where
  addr : Nat
  dir : Dir
  sib : Shape
deriving DecidableEq, Repr

/-- The shape rooted at the parent of a frame, once the hole is filled. -/
def Frame.fill (f : Frame) (s : Shape) : Shape :=
  match f.dir with
  | .left => .node s f.addr f.sib
  | .right => .node f.sib f.addr s

/-- Fill the hole of a context (nearest frame first) with a shape. -/
def plug : List Frame → Shape → Shape
  | [], s => s
  | f :: c, s => plug c (f.fill s)

/-- The parent pointer of the node in the hole. -/
def ctxParent : List Frame → Ptr
  | [] => none
  | f :: _ => some f.addr

/-- The root pointer of the plugged shape, given the pointer to the shape in the hole. -/
def ctxRoot : List Frame → Ptr → Ptr
  | [], q => q
  | f :: c, _ => ctxRoot c (some f.addr)

/-- The addresses of a context that come before the hole in in-order. -/
def ctxBefore : List Frame → List Nat
  | [] => []
  | f :: c =>
    match f.dir with
    | .left => ctxBefore c
    | .right => ctxBefore c ++ (f.sib.addrs ++ [f.addr])

/-- The addresses of a context that come after the hole in in-order. -/
def ctxAfter : List Frame → List Nat
  | [] => []
  | f :: c =>
    match f.dir with
    | .left => (f.addr :: f.sib.addrs) ++ ctxAfter c
    | .right => ctxAfter c

/-- The heap holds the context: every frame's parent node is live, links to the hole (pointer
`q`) on the frame's side and to the sibling shape on the other, and holds the sibling. -/
def Heap.HoldsCtx (h : Heap) : List Frame → Ptr → Prop
  | [], _ => True
  | f :: c, q =>
    ∃ n, h.lookup f.addr = some n ∧ n.parent = ctxParent c ∧
      (match f.dir with
        | .left => n.left = q ∧ n.right = f.sib.ptr
        | .right => n.left = f.sib.ptr ∧ n.right = q) ∧
      h.Holds (some f.addr) f.sib ∧ h.HoldsCtx c (some f.addr)

/-- The node at an address has the same three links in both heaps. -/
def Heap.SameLinksAt (h h' : Heap) (a : Nat) : Prop :=
  ∀ n, h.lookup a = some n →
    ∃ n', h'.lookup a = some n' ∧ n'.parent = n.parent ∧ n'.left = n.left ∧ n'.right = n.right

/-- The tree is well formed with shape `plug c s`, spelled out around the hole: the context is
held above the hole, the shape `s` is held in it, and no address occurs twice. -/
structure Tree.Zipped (t : Tree) (c : List Frame) (s : Shape) : Prop where
  root : t.root = ctxRoot c s.ptr
  ctx : t.heap.HoldsCtx c s.ptr
  sub : t.heap.Holds (ctxParent c) s
  nodupSub : s.addrs.Nodup
  nodupCtx : (ctxBefore c ++ ctxAfter c).Nodup
  disjoint : ∀ y ∈ s.addrs, y ∉ ctxBefore c ∧ y ∉ ctxAfter c

/-- The tree is well formed, with the given context above the hole and, in the hole, some
shape whose in-order address sequence is `l`. -/
def Tree.Arranged (t : Tree) (c : List Frame) (l : List Nat) : Prop :=
  ∃ s, t.Zipped c s ∧ s.addrs = l

/-- The second tree stores the same key and value at every address as the first, in a heap
of the same size. -/
def Tree.SameItems (t t' : Tree) : Prop :=
  (∀ y, t'.item y = t.item y) ∧ t'.heap.length = t.heap.length

/-- The key fits the hole of the context: it is larger than every key before the hole and
smaller than every key after it. -/
def Tree.Fits (t : Tree) (key : Int) (c : List Frame) : Prop :=
  (∀ y ∈ ctxBefore c, t.keyAt y < key) ∧ (∀ y ∈ ctxAfter c, key < t.keyAt y)

/-- The computation returns a well-formed tree whose in-order address sequence is `l` and whose
items are those of `t`. -/
def Tree.Goes (t : Tree) (l : List Nat) (r : Res Tree) : Prop :=
  ∃ t', r = .ok t' ∧ t'.Arranged [] l ∧ t.SameItems t'

/-- Height balance of a shape, in the words of the specification: at every node the heights of
the left and right subtrees differ by at most 1. -/
def Shape.Balanced : Shape → Prop
  | .nil => True
  | .node l _ r => (l.height ≤ r.height + 1 ∧ r.height ≤ l.height + 1) ∧ l.Balanced ∧ r.Balanced

instance Shape.decidableBalanced : (s : Shape) → Decidable s.Balanced
  | .nil => isTrue trivial
  | .node l _ r =>
    have := Shape.decidableBalanced l
    have := Shape.decidableBalanced r
    inferInstanceAs (Decidable ((l.height ≤ r.height + 1 ∧ r.height ≤ l.height + 1) ∧
      l.Balanced ∧ r.Balanced))

/-- Every stored balance in the shape is the true one: the height of the right subtree minus
the height of the left subtree. -/
def Tree.BalancesTrue (t : Tree) : Shape → Prop
  | .nil => True
  | .node l a r =>
    t.balanceAt a = (r.height : Int) - (l.height : Int) ∧ t.BalancesTrue l ∧ t.BalancesTrue r

instance Tree.decidableBalancesTrue (t : Tree) : (s : Shape) → Decidable (t.BalancesTrue s)
  | .nil => isTrue trivial
  | .node l a r =>
    have := Tree.decidableBalancesTrue t l
    have := Tree.decidableBalancesTrue t r
    inferInstanceAs (Decidable (t.balanceAt a = (r.height : Int) - (l.height : Int) ∧
      t.BalancesTrue l ∧ t.BalancesTrue r))

/-- The context belongs to a height-balanced tree with true stored balances, for a subtree of
height `h` in the hole. -/
def Tree.CtxTrue (t : Tree) : List Frame → Nat → Prop
  | [], _ => True
  | f :: c, h =>
    f.sib.Balanced ∧ f.sib.height ≤ h + 1 ∧ h ≤ f.sib.height + 1 ∧
      (f.dir = .left → t.balanceAt f.addr = (f.sib.height : Int) - (h : Int)) ∧
      (f.dir = .right → t.balanceAt f.addr = (h : Int) - (f.sib.height : Int)) ∧
      t.CtxTrue c (max h f.sib.height + 1)

/-- One fix-up of `insertFix`: a single rotation (LL, RR) or a double rotation (LR, RL) at the
root of the subtree. -/
def Shape.FixUp (X X' : Shape) : Prop :=
  (∃ A b B a C, X = .node (.node A b B) a C ∧ X' = .node A b (.node B a C)) ∨
  (∃ A b M1 m M2 a C, X = .node (.node A b (.node M1 m M2)) a C ∧
    X' = .node (.node A b M1) m (.node M2 a C)) ∨
  (∃ C a A b B, X = .node C a (.node A b B) ∧ X' = .node (.node C a A) b B) ∨
  (∃ C a M1 m M2 b B, X = .node C a (.node (.node M1 m M2) b B) ∧
    X' = .node (.node C a M1) m (.node M2 b B))

/-- The number of nodes on the longest path from the root down. -/
def EqualPaths.Node.height {α : Type} : EqualPaths.Node α → Nat
  | .null => 0
  | .node _ l r => max l.height r.height + 1

/-- The depths of the leaves (nodes with no children) of a tree whose root is at depth `d`,
from left to right. -/
def EqualPaths.Node.leafDepths {α : Type} : EqualPaths.Node α → Nat → List Nat
  | .null, _ => []
  | .node _ .null .null, d => [d]
  | .node _ l r, d => l.leafDepths (d + 1) ++ r.leafDepths (d + 1)

/-- The AVL tree built by inserting 20, 10, 30: root 20 at address 0, with the leaves 10 at
address 1 and 30 at address 2. -/
def sampleTree : Tree :=
  ⟨[some ⟨20, 200, none, some 1, some 2, 0⟩, some ⟨10, 100, some 0, none, none, 0⟩,
    some ⟨30, 300, some 0, none, none, 0⟩], some 0⟩

/-- The shape of `sampleTree`. -/
def sampleShape : Shape := .node (.node .nil 1 .nil) 0 (.node .nil 2 .nil)

/-- The tree reached by inserting 10, 5, 15, 7, removing 7, inserting 7 and removing 7 again:
keys 5, 10, 15 in a three-node tree whose leaf 5 carries the stale balance 2. -/
def staleTree : Tree :=
  ⟨[some ⟨10, 100, none, some 1, some 2, -1⟩, some ⟨5, 50, some 0, none, none, 2⟩,
    some ⟨15, 150, some 0, none, none, 0⟩, none, none], some 0⟩

/-- The state in which `insert((30, 300))` calls `insertFix` on the tree built by inserting 10 and
20: the chain 10 - 20 - 30 of right children, with the balances as updated on the way up. -/
def chainTree : Tree :=
  ⟨[some ⟨10, 100, none, none, some 1, 2⟩, some ⟨20, 200, some 0, none, some 2, 1⟩,
    some ⟨30, 300, some 1, none, none, 0⟩], some 0⟩

/-- The AVL tree built by inserting 10, 20, 30: root 20 at address 1, with the leaves 10 at
address 0 and 30 at address 2, all balances 0. -/
def rotatedTree : Tree :=
  ⟨[some ⟨10, 100, some 1, none, none, 0⟩, some ⟨20, 200, none, some 0, some 2, 0⟩,
    some ⟨30, 300, some 1, none, none, 0⟩], some 1⟩

/-- The AVL tree built by inserting 1, 2, ..., 7: the perfect tree 4(2(1,3),6(5,7)), the node
with key k at address k - 1. -/
def perfectTree : Tree :=
  ⟨[some ⟨1, 10, some 1, none, none, 0⟩, some ⟨2, 20, some 3, some 0, some 2, 0⟩,
    some ⟨3, 30, some 1, none, none, 0⟩, some ⟨4, 40, none, some 1, some 5, 0⟩,
    some ⟨5, 50, some 5, none, none, 0⟩, some ⟨6, 60, some 3, some 4, some 6, 0⟩,
    some ⟨7, 70, some 5, none, none, 0⟩], some 3⟩

/-- The state in which `insert((40, 400))` calls `insertFix` on the tree built by inserting 50,
20, 60, 10, 30: the node 50 (address 0) has balance -2, its left child 20 (address 1) has balance
+1, and the middle node 30 (address 4), the right child of 20, has balance +1. -/
def lrTree : Tree :=
  ⟨[some ⟨50, 500, none, some 1, some 2, -2⟩, some ⟨20, 200, some 0, some 3, some 4, 1⟩,
    some ⟨60, 600, some 0, none, none, 0⟩, some ⟨10, 100, some 1, none, none, 0⟩,
    some ⟨30, 300, some 1, none, some 5, 1⟩, some ⟨40, 400, some 4, none, none, 0⟩], some 0⟩

/-- The state in which `insert((60, 600))` calls `insertFix` on the tree built by inserting 50,
20, 80, 70, 90: the node 50 (address 0) has balance +2, its right child 80 (address 2) has
balance -1, and the middle node 70 (address 3), the left child of 80, has balance -1. -/
def rlTree : Tree :=
  ⟨[some ⟨50, 500, none, some 1, some 2, 2⟩, some ⟨20, 200, some 0, none, none, 0⟩,
    some ⟨80, 800, some 0, some 3, some 4, -1⟩, some ⟨70, 700, some 2, some 5, none, -1⟩,
    some ⟨90, 900, some 2, none, none, 0⟩, some ⟨60, 600, some 3, none, none, 0⟩], some 0⟩

/-- The state in which `remove(40)` calls `removeFix(node, -1)` on the AVL tree built by inserting
30, 10, 40, 20: the node 30 (address 0, balance -1) has just lost its right child, and its left
child 10 (address 1) has balance +1 and the right child 20 (address 3). -/
def zigzagTree : Tree :=
  ⟨[some ⟨30, 300, none, some 1, none, -1⟩, some ⟨10, 100, some 0, none, some 3, 1⟩, none,
    some ⟨20, 200, some 1, none, none, 0⟩], some 0⟩

/-- The state in which `remove(40)` calls `removeFix(node, -1)` on the AVL tree built by inserting
30, 20, 40, 10: the node 30 (address 0, balance -1) has just lost its right child, and its left
child 20 (address 1) has balance -1 and the left child 10 (address 3). -/
def leftChainTree : Tree :=
  ⟨[some ⟨30, 300, none, some 1, none, -1⟩, some ⟨20, 200, some 0, some 3, none, -1⟩, none,
    some ⟨10, 100, some 1, none, none, 0⟩], some 0⟩

/-- The shape of `perfectTree`. -/
def perfectShape : Shape :=
  .node (.node (.node .nil 0 .nil) 1 (.node .nil 2 .nil)) 3
    (.node (.node .nil 4 .nil) 5 (.node .nil 6 .nil))

/-- A seven-node tree with leaves at depths 2, 2 and 1. -/
def EqualPaths.unevenTree : EqualPaths.Node Int :=
  .node 1 (.node 2 (.node 4 .null .null) (.node 5 .null .null)) (.node 3 .null .null)

/-- A tree whose three leaves are all at depth 2; one inner node has a single child. -/
def EqualPaths.evenTree : EqualPaths.Node Int :=
  .node 1 (.node 2 (.node 4 .null .null) (.node 5 .null .null)) (.node 3 .null (.node 6 .null .null))

/-! ## Basic facts about results and the heap -/

@[simp] theorem Res.pure_eq {α : Type} (a : α) : (pure a : Res α) = Res.ok a := rfl

@[simp] theorem Res.ok_bind {α β : Type} (a : α) (f : α → Res β) : (Res.ok a >>= f) = f a := rfl

@[simp] theorem Res.fault_bind {α β : Type} (e : Fault) (f : α → Res β) :
    (Res.fault e >>= f) = Res.fault e := rfl

theorem Heap.lookup_lt {h : Heap} {a : Nat} {n : Node} (hn : h.lookup a = some n) :
    a < h.length := by
  by_contra hge
  have : h[a]? = none := List.getElem?_eq_none (by omega)
  simp [Heap.lookup, this] at hn

theorem Heap.lookup_put {h : Heap} {a : Nat} (m : Node) (b : Nat) (hlt : a < h.length) :
    (h.put a m).lookup b = if b = a then some m else h.lookup b := by
  unfold Heap.lookup Heap.put
  by_cases hba : b = a
  · subst hba
    simp [List.getElem?_set_self, List.getElem?_eq_getElem, hlt]
  · have hab : a ≠ b := fun e => hba e.symm
    simp [List.getElem?_set_ne hab, hba]

@[simp] theorem Heap.length_put (h : Heap) (a : Nat) (m : Node) : (h.put a m).length = h.length := by
  simp [Heap.put]

theorem Tree.getNode_some {t : Tree} {a : Nat} {n : Node} (hn : t.heap.lookup a = some n) :
    t.getNode (some a) = .ok n := by
  simp [Tree.getNode, hn]

theorem Tree.modify_some {t : Tree} {a : Nat} {n : Node} (f : Node → Node)
    (hn : t.heap.lookup a = some n) :
    t.modify (some a) f = .ok { t with heap := t.heap.put a (f n) } := by
  simp [Tree.modify, hn]

/-! ## Shapes held by the heap -/

theorem Heap.Holds.live {h : Heap} {s : Shape} {par : Ptr} (hs : h.Holds par s) {a : Nat}
    (ha : a ∈ s.addrs) : ∃ n, h.lookup a = some n := by
  induction s generalizing par with
  | nil => simp [Shape.addrs] at ha
  | node l b r ihl ihr =>
    obtain ⟨n, hn, -, -, -, hl, hr⟩ := hs
    simp only [Shape.addrs, List.mem_append, List.mem_cons] at ha
    rcases ha with ha | rfl | ha
    · exact ihl hl ha
    · exact ⟨n, hn⟩
    · exact ihr hr ha

theorem Shape.height_le_length (s : Shape) : s.height ≤ s.addrs.length := by
  induction s with
  | nil => simp [Shape.height]
  | node l a r ihl ihr =>
    simp only [Shape.height, Shape.addrs, List.length_append, List.length_cons]
    omega

theorem Heap.Holds.length_le {h : Heap} {s : Shape} {par : Ptr} (hs : h.Holds par s)
    (hnd : s.addrs.Nodup) : s.addrs.length ≤ h.length := by
  have hsub : s.addrs.toFinset ⊆ Finset.range h.length := by
    intro a ha
    obtain ⟨n, hn⟩ := hs.live (List.mem_toFinset.mp ha)
    exact Finset.mem_range.mpr (Heap.lookup_lt hn)
  have := Finset.card_le_card hsub
  rwa [List.toFinset_card_of_nodup hnd, Finset.card_range] at this

theorem Tree.Valid.height_lt_fuel {t : Tree} {s : Shape} (hv : t.Valid s) : s.height + 1 < t.fuel := by
  have h1 := s.height_le_length
  have h2 := hv.2.1.length_le hv.2.2
  unfold Tree.fuel
  omega

theorem Tree.keyAt_of_lookup {t : Tree} {a : Nat} {n : Node} (hn : t.heap.lookup a = some n) :
    t.keyAt a = n.key := by
  simp [Tree.keyAt, Tree.item, hn]

theorem internalFindLoop_eq (t : Tree) (key : Int) :
    ∀ (s : Shape) (par : Ptr) (fuel : Nat), t.heap.Holds par s → s.height < fuel →
      internalFindLoop fuel t key s.ptr = .ok (s.locate t key) := by
  intro s
  induction s with
  | nil =>
    intro par fuel _ hf
    obtain ⟨f, rfl⟩ : ∃ f, fuel = f + 1 := ⟨fuel - 1, by omega⟩
    simp [internalFindLoop, Shape.ptr, Shape.locate]
  | node l a r ihl ihr =>
    intro par fuel hs hf
    obtain ⟨f, rfl⟩ : ∃ f, fuel = f + 1 := ⟨fuel - 1, by omega⟩
    obtain ⟨n, hn, -, hnl, hnr, hl, hr⟩ := hs
    simp only [Shape.height] at hf
    have hk := Tree.keyAt_of_lookup hn
    simp only [internalFindLoop, Shape.ptr, Shape.locate, Tree.getNode_some hn, hk]
    simp only [reduceCtorEq, ↓reduceIte, Res.ok_bind]
    by_cases h1 : n.key = key
    · simp [h1]
    · simp only [h1, ↓reduceIte]
      by_cases h2 : key < n.key
      · simp only [h2, ↓reduceIte, hnl]
        exact ihl _ _ hl (by omega)
      · have h3 : key > n.key := by omega
        simp only [h2, h3, ↓reduceIte, hnr]
        exact ihr _ _ hr (by omega)

/-! ## Binary search on ordered shapes -/

theorem Shape.sorted_node (k : Nat → Int) (l r : Shape) (a : Nat) :
    ((Shape.node l a r).addrs.map k).Pairwise (· < ·) ↔
      (l.addrs.map k).Pairwise (· < ·) ∧ (r.addrs.map k).Pairwise (· < ·) ∧
      (∀ x ∈ l.addrs, k x < k a) ∧ (∀ y ∈ r.addrs, k a < k y) := by
  simp only [Shape.addrs, List.map_append, List.map_cons, List.pairwise_append,
    List.pairwise_cons, List.mem_map, List.mem_cons, forall_exists_index, and_imp,
    forall_apply_eq_imp_iff₂]
  constructor
  · rintro ⟨hl, ⟨har, hr⟩, hlr⟩
    exact ⟨hl, hr, fun x hx => hlr x hx _ (Or.inl rfl), har⟩
  · rintro ⟨hl, hr, hla, har⟩
    refine ⟨hl, ⟨har, hr⟩, ?_⟩
    intro x hx b hb
    rcases hb with rfl | ⟨y, hy, rfl⟩
    · exact hla x hx
    · exact lt_trans (hla x hx) (har y hy)

theorem Shape.locate_eq_some (t : Tree) (key : Int) :
    ∀ (s : Shape), (s.addrs.map t.keyAt).Pairwise (· < ·) →
      ∀ b, s.locate t key = some b ↔ b ∈ s.addrs ∧ t.keyAt b = key := by
  intro s
  induction s with
  | nil => intro _ b; simp [Shape.locate, Shape.addrs]
  | node l a r ihl ihr =>
    intro hs b
    obtain ⟨hl, hr, hla, har⟩ := (Shape.sorted_node t.keyAt l r a).mp hs
    simp only [Shape.locate, Shape.addrs, List.mem_append, List.mem_cons]
    by_cases h1 : t.keyAt a = key
    · simp only [h1, ↓reduceIte, Option.some.injEq]
      constructor
      · rintro rfl; exact ⟨Or.inr (Or.inl rfl), h1⟩
      · rintro ⟨hb | hb | hb, hk⟩
        · have := hla b hb; omega
        · exact hb.symm
        · have := har b hb; omega
    · simp only [h1, ↓reduceIte]
      by_cases h2 : key < t.keyAt a
      · simp only [h2, ↓reduceIte, ihl hl b]
        constructor
        · rintro ⟨hb, hk⟩; exact ⟨Or.inl hb, hk⟩
        · rintro ⟨hb | hb | hb, hk⟩
          · exact ⟨hb, hk⟩
          · subst hb; exact absurd hk h1
          · have := har b hb; omega
      · simp only [h2, ↓reduceIte, ihr hr b]
        constructor
        · rintro ⟨hb, hk⟩; exact ⟨Or.inr (Or.inr hb), hk⟩
        · rintro ⟨hb | hb | hb, hk⟩
          · have := hla b hb; omega
          · subst hb; exact absurd hk h1
          · exact ⟨hb, hk⟩

theorem Shape.locate_eq_none (t : Tree) (key : Int) (s : Shape)
    (hs : (s.addrs.map t.keyAt).Pairwise (· < ·)) :
    s.locate t key = none ↔ key ∉ s.addrs.map t.keyAt := by
  rw [← Option.not_isSome_iff_eq_none, Option.isSome_iff_exists]
  simp only [Shape.locate_eq_some t key s hs, List.mem_map, not_exists]

/-! ## The downward walks of remove and insert -/

theorem removeDescend_eq (t : Tree) (key : Int) :
    ∀ (s : Shape) (par : Ptr) (fuel : Nat), t.heap.Holds par s → s.height < fuel →
      removeDescend fuel t key s.ptr = .ok (s.locate t key) := by
  intro s
  induction s with
  | nil =>
    intro par fuel _ hf
    obtain ⟨f, rfl⟩ : ∃ f, fuel = f + 1 := ⟨fuel - 1, by omega⟩
    simp [removeDescend, Shape.ptr, Shape.locate]
  | node l a r ihl ihr =>
    intro par fuel hs hf
    obtain ⟨f, rfl⟩ : ∃ f, fuel = f + 1 := ⟨fuel - 1, by omega⟩
    obtain ⟨n, hn, -, hnl, hnr, hl, hr⟩ := hs
    simp only [Shape.height] at hf
    have hk := Tree.keyAt_of_lookup hn
    simp only [removeDescend, Shape.ptr, Shape.locate, Tree.getNode_some hn, hk]
    simp only [reduceCtorEq, ↓reduceIte, Res.ok_bind]
    by_cases h1 : n.key = key
    · simp [h1]
    · simp only [h1, ↓reduceIte, ne_eq, not_false_eq_true]
      by_cases h2 : key < n.key
      · simp only [h2, ↓reduceIte, hnl]
        exact ihl _ _ hl (by omega)
      · simp only [h2, ↓reduceIte, hnr]
        exact ihr _ _ hr (by omega)

theorem insertDescend_found (t : Tree) (key value : Int) :
    ∀ (s : Shape) (par above : Ptr) (fuel : Nat) (a : Nat) (n : Node),
      t.heap.Holds par s → s.height < fuel → s.locate t key = some a →
      t.heap.lookup a = some n →
      insertDescend fuel t key value s.ptr above =
        .ok (.overwritten { t with heap := t.heap.put a { n with value := value } }) := by
  intro s
  induction s with
  | nil => intro par above fuel a n _ _ hloc; simp [Shape.locate] at hloc
  | node l b r ihl ihr =>
    intro par above fuel a n hs hf hloc ha
    obtain ⟨f, rfl⟩ : ∃ f, fuel = f + 1 := ⟨fuel - 1, by omega⟩
    obtain ⟨m, hm, -, hml, hmr, hl, hr⟩ := hs
    simp only [Shape.height] at hf
    have hk := Tree.keyAt_of_lookup hm
    simp only [Shape.locate, hk] at hloc
    simp only [insertDescend, Shape.ptr, Tree.getNode_some hm]
    simp only [reduceCtorEq, ↓reduceIte, Res.ok_bind]
    by_cases h1 : m.key = key
    · simp only [h1, ↓reduceIte, Option.some.injEq] at hloc
      subst hloc
      have : m = n := by rw [hm] at ha; exact Option.some.inj ha
      subst this
      simp [h1, Tree.setValue, Tree.modify_some _ hm]
    · simp only [h1, ↓reduceIte] at hloc
      by_cases h2 : key < m.key
      · simp only [h2, ↓reduceIte] at hloc
        simp only [h2, ↓reduceIte, hml]
        exact ihl _ _ _ _ _ hl (by omega) hloc ha
      · simp only [h2, ↓reduceIte] at hloc
        have h3 : key > m.key := by omega
        simp only [h2, h3, ↓reduceIte, hmr]
        exact ihr _ _ _ _ _ hr (by omega) hloc ha

/-! ## Contexts -/

theorem Frame.fill_ptr (f : Frame) (s : Shape) : (f.fill s).ptr = some f.addr := by
  unfold Frame.fill; cases f.dir <;> rfl

theorem plug_ptr (c : List Frame) (s : Shape) : (plug c s).ptr = ctxRoot c s.ptr := by
  induction c generalizing s with
  | nil => rfl
  | cons f c ih => simp only [plug, ctxRoot, ih, Frame.fill_ptr]

theorem plug_addrs (c : List Frame) (s : Shape) :
    (plug c s).addrs = ctxBefore c ++ s.addrs ++ ctxAfter c := by
  induction c generalizing s with
  | nil => simp [plug, ctxBefore, ctxAfter]
  | cons f c ih =>
    obtain ⟨a, d, sib⟩ := f
    cases d <;> simp [plug, ih, Frame.fill, ctxBefore, ctxAfter, Shape.addrs]

theorem holds_plug (h : Heap) (c : List Frame) (s : Shape) :
    h.Holds none (plug c s) ↔ h.HoldsCtx c s.ptr ∧ h.Holds (ctxParent c) s := by
  induction c generalizing s with
  | nil => simp [plug, Heap.HoldsCtx, ctxParent]
  | cons f c ih =>
    obtain ⟨a, d, sib⟩ := f
    rw [plug, ih, Frame.fill_ptr]
    cases d
    · simp only [Frame.fill, Heap.Holds, Heap.HoldsCtx, ctxParent]
      constructor
      · rintro ⟨hc, n, hn, hp, hl, hr, hs, hsib⟩
        exact ⟨⟨n, hn, hp, ⟨hl, hr⟩, hsib, hc⟩, hs⟩
      · rintro ⟨⟨n, hn, hp, ⟨hl, hr⟩, hsib, hc⟩, hs⟩
        exact ⟨hc, n, hn, hp, hl, hr, hs, hsib⟩
    · simp only [Frame.fill, Heap.Holds, Heap.HoldsCtx, ctxParent]
      constructor
      · rintro ⟨hc, n, hn, hp, hl, hr, hsib, hs⟩
        exact ⟨⟨n, hn, hp, ⟨hl, hr⟩, hsib, hc⟩, hs⟩
      · rintro ⟨⟨n, hn, hp, ⟨hl, hr⟩, hsib, hc⟩, hs⟩
        exact ⟨hc, n, hn, hp, hl, hr, hsib, hs⟩

theorem Heap.SameLinksAt.of_eq {h h' : Heap} {a : Nat} (he : h'.lookup a = h.lookup a) :
    h.SameLinksAt h' a := fun n hn => ⟨n, he.trans hn, rfl, rfl, rfl⟩

theorem Heap.Holds.frame {h h' : Heap} {s : Shape} {par : Ptr}
    (hf : ∀ y ∈ s.addrs, h.SameLinksAt h' y) (hs : h.Holds par s) : h'.Holds par s := by
  induction s generalizing par with
  | nil => trivial
  | node l a r ihl ihr =>
    obtain ⟨n, hn, hp, hl, hr, hsl, hsr⟩ := hs
    obtain ⟨n', hn', hp', hl', hr'⟩ := hf a (by simp [Shape.addrs]) n hn
    refine ⟨n', hn', hp'.trans hp, hl'.trans hl, hr'.trans hr, ?_, ?_⟩
    · exact ihl (fun y hy => hf y (by simp [Shape.addrs, hy])) hsl
    · exact ihr (fun y hy => hf y (by simp [Shape.addrs, hy])) hsr

/-- A shape whose root gets a new parent link: the root node is rewritten, the rest is framed. -/
theorem Heap.Holds.reparent {h h' : Heap} {s : Shape} {par par' : Ptr}
    (hroot : ∀ a, s.ptr = some a → ∀ n, h.lookup a = some n →
      ∃ n', h'.lookup a = some n' ∧ n'.parent = par' ∧ n'.left = n.left ∧ n'.right = n.right)
    (hf : ∀ y ∈ s.addrs, s.ptr ≠ some y → h.SameLinksAt h' y)
    (hnd : s.addrs.Nodup) (hs : h.Holds par s) : h'.Holds par' s := by
  cases s with
  | nil => trivial
  | node l a r =>
    obtain ⟨n, hn, hp, hl, hr, hsl, hsr⟩ := hs
    obtain ⟨n', hn', hp', hl', hr'⟩ := hroot a rfl n hn
    simp only [Shape.addrs, List.nodup_append, List.nodup_cons, List.mem_cons] at hnd
    obtain ⟨-, ⟨har, -⟩, hdis⟩ := hnd
    refine ⟨n', hn', hp', hl'.trans hl, hr'.trans hr, ?_, ?_⟩
    · refine hsl.frame (fun y hy => hf y (by simp [Shape.addrs, hy]) ?_)
      simp only [Shape.ptr, ne_eq, Option.some.injEq]
      rintro rfl
      exact hdis hy (List.mem_cons_self _ _)
    · refine hsr.frame (fun y hy => hf y (by simp [Shape.addrs, hy]) ?_)
      simp only [Shape.ptr, ne_eq, Option.some.injEq]
      rintro rfl
      exact har hy

theorem mem_ctxAddrs_cons (f : Frame) (c : List Frame) (y : Nat) :
    (y ∈ ctxBefore (f :: c) ∨ y ∈ ctxAfter (f :: c)) ↔
      (y = f.addr ∨ y ∈ f.sib.addrs) ∨ (y ∈ ctxBefore c ∨ y ∈ ctxAfter c) := by
  obtain ⟨a, d, sib⟩ := f
  cases d <;> simp [ctxBefore, ctxAfter] <;> tauto

theorem Heap.HoldsCtx.frame_ctx {h h' : Heap} {c : List Frame} {q : Ptr}
    (hf : ∀ y, (y ∈ ctxBefore c ∨ y ∈ ctxAfter c) → h.SameLinksAt h' y)
    (hc : h.HoldsCtx c q) : h'.HoldsCtx c q := by
  induction c generalizing q with
  | nil => trivial
  | cons f c ih =>
    obtain ⟨n, hn, hp, hd, hsib, hrest⟩ := hc
    have hmem := mem_ctxAddrs_cons f c
    obtain ⟨n', hn', hp', hl', hr'⟩ := hf f.addr ((hmem _).mpr (Or.inl (Or.inl rfl))) n hn
    refine ⟨n', hn', hp'.trans hp, ?_, ?_, ?_⟩
    · cases hdir : f.dir <;> simp only [hdir] at hd ⊢
      · exact ⟨hl'.trans hd.1, hr'.trans hd.2⟩
      · exact ⟨hl'.trans hd.1, hr'.trans hd.2⟩
    · exact hsib.frame (fun y hy => hf y ((hmem _).mpr (Or.inl (Or.inr hy))))
    · exact ih (fun y hy => hf y ((hmem _).mpr (Or.inr hy))) hrest

theorem nodup_around (b s a : List Nat) :
    (b ++ s ++ a).Nodup ↔ s.Nodup ∧ (b ++ a).Nodup ∧ ∀ y ∈ s, y ∉ b ∧ y ∉ a := by
  simp only [List.nodup_append, List.mem_append, List.Disjoint]
  constructor
  · rintro ⟨⟨hb, hs, hbs⟩, ha, hbsa⟩
    exact ⟨hs, ⟨hb, ha, fun x hx hxa => hbsa (Or.inl hx) hxa⟩,
      fun y hy => ⟨fun hyb => hbs hyb hy, fun hya => hbsa (Or.inr hy) hya⟩⟩
  · rintro ⟨hs, ⟨hb, ha, hba⟩, hd⟩
    refine ⟨⟨hb, hs, fun x hxb hxs => (hd _ hxs).1 hxb⟩, ha, ?_⟩
    rintro x (hx | hx) hxa
    · exact hba hx hxa
    · exact (hd _ hx).2 hxa

theorem Tree.valid_plug_iff (t : Tree) (c : List Frame) (s : Shape) :
    t.Valid (plug c s) ↔ t.Zipped c s := by
  unfold Tree.Valid
  rw [plug_ptr, holds_plug, plug_addrs, nodup_around]
  constructor
  · rintro ⟨h1, ⟨h2, h3⟩, h4, h5, h6⟩
    exact ⟨h1, h2, h3, h4, h5, h6⟩
  · rintro ⟨h1, h2, h3, h4, h5, h6⟩
    exact ⟨h1, ⟨h2, h3⟩, h4, h5, h6⟩

theorem Tree.Zipped.not_mem_ctx {t : Tree} {f : Frame} {c : List Frame} {s : Shape}
    (hz : t.Zipped (f :: c) s) {y : Nat} (hy : y ∈ s.addrs) :
    y ≠ f.addr ∧ y ∉ f.sib.addrs ∧ y ∉ ctxBefore c ∧ y ∉ ctxAfter c := by
  have h := hz.disjoint y hy
  have hm := mem_ctxAddrs_cons f c y
  refine ⟨fun e => ?_, fun e => ?_, fun e => ?_, fun e => ?_⟩
  · exact absurd (hm.mpr (Or.inl (Or.inl e))) (by tauto)
  · exact absurd (hm.mpr (Or.inl (Or.inr e))) (by tauto)
  · exact absurd (hm.mpr (Or.inr (Or.inl e))) (by tauto)
  · exact absurd (hm.mpr (Or.inr (Or.inr e))) (by tauto)

theorem Tree.Zipped.up {t : Tree} {f : Frame} {c : List Frame} {s : Shape} :
    t.Zipped (f :: c) s ↔ t.Zipped c (f.fill s) := by
  rw [← Tree.valid_plug_iff, ← Tree.valid_plug_iff]; rfl

theorem ctx_cons_perm (f : Frame) (c : List Frame) :
    (ctxBefore (f :: c) ++ ctxAfter (f :: c)).Perm
      ((f.addr :: f.sib.addrs) ++ (ctxBefore c ++ ctxAfter c)) := by
  obtain ⟨a, d, sib⟩ := f
  rw [List.perm_iff_count]
  intro x
  cases d <;> simp only [ctxBefore, ctxAfter, List.count_append, List.count_cons, List.count_nil] <;>
    omega

/-- Facts about the addresses of the nearest frame, from the absence of repetitions. -/
theorem ctx_head_nodup {f : Frame} {c : List Frame}
    (hnd : (ctxBefore (f :: c) ++ ctxAfter (f :: c)).Nodup) :
    f.addr ∉ f.sib.addrs ∧ f.sib.addrs.Nodup ∧ (ctxBefore c ++ ctxAfter c).Nodup ∧
      (∀ y, (y ∈ ctxBefore c ∨ y ∈ ctxAfter c) → y ≠ f.addr ∧ y ∉ f.sib.addrs) := by
  rw [(ctx_cons_perm f c).nodup_iff, List.nodup_append, List.nodup_cons] at hnd
  obtain ⟨⟨h1, h2⟩, h3, h4⟩ := hnd
  refine ⟨h1, h2, h3, fun y hy => ⟨?_, ?_⟩⟩
  · rintro rfl
    exact h4 (List.mem_cons_self _ _) (List.mem_append.mpr hy)
  · intro hys
    exact h4 (List.mem_cons_of_mem _ hys) (List.mem_append.mpr hy)

theorem Tree.Zipped.surgery {t t' : Tree} {c : List Frame} {s s' : Shape} (hz : t.Zipped c s)
    (hsub : t'.heap.Holds (ctxParent c) s')
    (hnd : s'.addrs.Nodup) (hdis : ∀ y ∈ s'.addrs, y ∉ ctxBefore c ∧ y ∉ ctxAfter c)
    (hroot : t'.root = ctxRoot c s'.ptr)
    (hhead : ∀ f c', c = f :: c' → ∀ np, t.heap.lookup f.addr = some np →
      ∃ np', t'.heap.lookup f.addr = some np' ∧ np'.parent = np.parent ∧
        (f.dir = .left → np'.left = s'.ptr ∧ np'.right = np.right) ∧
        (f.dir = .right → np'.left = np.left ∧ np'.right = s'.ptr))
    (hframe : ∀ y, (y ∈ ctxBefore c ∨ y ∈ ctxAfter c) → ctxParent c ≠ some y →
      t.heap.SameLinksAt t'.heap y) :
    t'.Zipped c s' := by
  cases c with
  | nil => exact ⟨hroot, trivial, hsub, hnd, hz.nodupCtx, hdis⟩
  | cons f c =>
    refine ⟨hroot, ?_, hsub, hnd, hz.nodupCtx, hdis⟩
    · obtain ⟨np, hnp, hpp, hd, hsib, hrest⟩ := hz.ctx
      obtain ⟨np', hnp', hpp', hL, hR⟩ := hhead f c rfl np hnp
      obtain ⟨g1, g2, g3, g4⟩ := ctx_head_nodup hz.nodupCtx
      have hmem := mem_ctxAddrs_cons f c
      refine ⟨np', hnp', hpp'.trans hpp, ?_, ?_, ?_⟩
      · cases hdir : f.dir <;> simp only [hdir] at hd ⊢
        · exact ⟨(hL hdir).1, (hL hdir).2.trans hd.2⟩
        · exact ⟨(hR hdir).1.trans hd.1, (hR hdir).2⟩
      · refine hsib.frame (fun y hy => hframe y ((hmem y).mpr (Or.inl (Or.inr hy))) ?_)
        simp only [ctxParent, ne_eq, Option.some.injEq]
        rintro rfl
        exact g1 hy
      · refine hrest.frame_ctx (fun y hy => hframe y ((hmem y).mpr (Or.inr hy)) ?_)
        simp only [ctxParent, ne_eq, Option.some.injEq]
        rintro rfl
        exact (g4 _ hy).1 rfl

theorem nodup_three {A B C : List Nat} {x y : Nat} (h : (A ++ x :: (B ++ y :: C)).Nodup) :
    x ≠ y ∧ x ∉ A ∧ x ∉ B ∧ x ∉ C ∧ y ∉ A ∧ y ∉ B ∧ y ∉ C ∧ A.Nodup ∧ B.Nodup ∧ C.Nodup ∧
      (∀ z ∈ A, z ∉ B ∧ z ∉ C) ∧ (∀ z ∈ B, z ∉ C) := by
  simp only [List.nodup_append, List.nodup_cons, List.mem_append, List.mem_cons, List.Disjoint,
    not_or] at h
  obtain ⟨hA, ⟨⟨hxB, hxy, hxC⟩, hB, ⟨hyC, hC⟩, hBC⟩, hAx⟩ := h
  refine ⟨hxy, fun e => hAx e (Or.inl rfl), hxB, hxC, fun e => hAx e (Or.inr (Or.inr (Or.inl rfl))),
    fun e => hBC e (Or.inl rfl), hyC, hA, hB, hC, fun z hz => ⟨fun e => hAx hz (Or.inr (Or.inl e)),
      fun e => hAx hz (Or.inr (Or.inr (Or.inr e)))⟩, fun z hz e => hBC hz (Or.inr e)⟩

theorem Shape.ptr_mem {s : Shape} {y : Nat} (h : s.ptr = some y) : y ∈ s.addrs := by
  cases s with
  | nil => simp [Shape.ptr] at h
  | node l a r =>
    simp only [Shape.ptr, Option.some.injEq] at h
    subst h
    simp [Shape.addrs]

theorem Shape.ptr_eq_none {s : Shape} (h : s.ptr = none) : s = .nil := by
  cases s with
  | nil => rfl
  | node l a r => simp [Shape.ptr] at h

/-! ## Rotations: effect on the heap -/

@[congr] theorem Res.bind_congr_arg {α β : Type} {x x' : Res α} (k : α → Res β) (h : x = x') :
    (x >>= k) = (x' >>= k) := by rw [h]

theorem rotateRight_local {t : Tree} {a b : Nat} {na nb : Node}
    (hna : t.heap.lookup a = some na) (hnb : t.heap.lookup b = some nb)
    (hla : na.left = some b) (hab : a ≠ b)
    (hx : ∀ x, nb.right = some x → x ≠ a ∧ x ≠ b ∧ ∃ nx, t.heap.lookup x = some nx)
    (hp : ∀ p, na.parent = some p →
      p ≠ a ∧ p ≠ b ∧ nb.right ≠ some p ∧ ∃ np, t.heap.lookup p = some np) :
    ∃ t', AVLTree.rotateRight t (some a) = .ok t' ∧ t'.heap.length = t.heap.length ∧
      t'.root = (if na.parent = none then some b else t.root) ∧
      (∃ na', t'.heap.lookup a = some na' ∧ na'.parent = some b ∧ na'.left = nb.right ∧
        na'.right = na.right ∧ na'.key = na.key ∧ na'.value = na.value) ∧
      (∃ nb', t'.heap.lookup b = some nb' ∧ nb'.parent = na.parent ∧ nb'.left = nb.left ∧
        nb'.right = some a ∧ nb'.key = nb.key ∧ nb'.value = nb.value) ∧
      (∀ x nx, nb.right = some x → t.heap.lookup x = some nx →
        t'.heap.lookup x = some { nx with parent := some a }) ∧
      (∀ p np, na.parent = some p → t.heap.lookup p = some np →
        t'.heap.lookup p =
          some (if np.left = some a then { np with left := some b }
            else { np with right := some b })) ∧
      (∀ y, y ≠ a → y ≠ b → nb.right ≠ some y → na.parent ≠ some y →
        t'.heap.lookup y = t.heap.lookup y) := by
  have hlta := Heap.lookup_lt hna
  have hltb := Heap.lookup_lt hnb
  have hba : b ≠ a := fun e => hab e.symm
  rcases hxr : nb.right with _ | x <;> rcases hpp : na.parent with _ | p
  · apply Exists.intro
    refine ⟨?_, ?_⟩
    · simp [AVLTree.rotateRight, Tree.getNode, Tree.setLeft, Tree.setRight, Tree.setParent,
        Tree.setBalance, Tree.modify, hna, hnb, hla, hxr, hpp, Heap.lookup_put, hlta, hltb, hab, hba]
      rfl
    · simp [Heap.lookup_put, hlta, hltb, hab, hba]
      intro y hya hyb
      simp [hya, hyb]
  · obtain ⟨hpa, hpb, -, np, hnp⟩ := hp p hpp
    have hltp := Heap.lookup_lt hnp
    have hap : a ≠ p := fun e => hpa e.symm
    have hbp : b ≠ p := fun e => hpb e.symm
    by_cases hnpl : np.left = some a
    · apply Exists.intro
      refine ⟨?_, ?_⟩
      · simp [AVLTree.rotateRight, Tree.getNode, Tree.setLeft, Tree.setRight, Tree.setParent,
          Tree.setBalance, Tree.modify, hna, hnb, hla, hxr, hpp, Heap.lookup_put, hlta, hltb, hab, hba,
          hnp, hltp, hpa, hpb, hap, hbp, hnpl]
        rfl
      · simp [Heap.lookup_put, hlta, hltb, hab, hba, hltp, hpa, hpb, hap, hbp]
        refine ⟨?_, ?_⟩
        · rintro q nq rfl hq
          rw [hnp] at hq
          cases hq
          simp [hpa, hpb, hnpl]
        · intro y hya hyb hyp
          have : y ≠ p := fun e => hyp e.symm
          simp [hya, hyb, this]
    · apply Exists.intro
      refine ⟨?_, ?_⟩
      · simp [AVLTree.rotateRight, Tree.getNode, Tree.setLeft, Tree.setRight, Tree.setParent,
          Tree.setBalance, Tree.modify, hna, hnb, hla, hxr, hpp, Heap.lookup_put, hlta, hltb, hab, hba,
          hnp, hltp, hpa, hpb, hap, hbp, hnpl]
        rfl
      · simp [Heap.lookup_put, hlta, hltb, hab, hba, hltp, hpa, hpb, hap, hbp]
        refine ⟨?_, ?_⟩
        · rintro q nq rfl hq
          rw [hnp] at hq
          cases hq
          simp [hpa, hpb, hnpl]
        · intro y hya hyb hyp
          have : y ≠ p := fun e => hyp e.symm
          simp [hya, hyb, this]
  · obtain ⟨hxa, hxb, nx, hnx⟩ := hx x hxr
    have hltx := Heap.lookup_lt hnx
    have hax : a ≠ x := fun e => hxa e.symm
    have hbx : b ≠ x := fun e => hxb e.symm
    apply Exists.intro
    refine ⟨?_, ?_⟩
    · simp [AVLTree.rotateRight, Tree.getNode, Tree.setLeft, Tree.setRight, Tree.setParent,
        Tree.setBalance, Tree.modify, hna, hnb, hla, hxr, hpp, Heap.lookup_put, hlta, hltb, hab, hba,
        hnx, hltx, hxa, hxb, hax, hbx]
      rfl
    · simp [Heap.lookup_put, hlta, hltb, hab, hba, hltx, hxa, hxb, hax, hbx]
      refine ⟨?_, ?_⟩
      · rintro q nq rfl hq
        rw [hnx] at hq
        cases hq
        simp [hxa, hxb]
      · intro y hya hyb hyx
        have : y ≠ x := fun e => hyx e.symm
        simp [hya, hyb, this]
  · obtain ⟨hxa, hxb, nx, hnx⟩ := hx x hxr
    have hltx := Heap.lookup_lt hnx
    have hax : a ≠ x := fun e => hxa e.symm
    have hbx : b ≠ x := fun e => hxb e.symm
    obtain ⟨hpa, hpb, hpx0, np, hnp⟩ := hp p hpp
    have hltp := Heap.lookup_lt hnp
    have hap : a ≠ p := fun e => hpa e.symm
    have hbp : b ≠ p := fun e => hpb e.symm
    have hxp : x ≠ p := fun e => hpx0 (by rw [hxr, e])
    have hpx : p ≠ x := fun e => hxp e.symm
    by_cases hnpl : np.left = some a
    · apply Exists.intro
      refine ⟨?_, ?_⟩
      · simp [AVLTree.rotateRight, Tree.getNode, Tree.setLeft, Tree.setRight, Tree.setParent,
          Tree.setBalance, Tree.modify, hna, hnb, hla, hxr, hpp, Heap.lookup_put, hlta, hltb, hab, hba,
          hnx, hltx, hxa, hxb, hax, hbx, hnp, hltp, hpa, hpb, hap, hbp, hxp, hpx, hnpl]
        rfl
      · simp [Heap.lookup_put, hlta, hltb, hab, hba, hltx, hxa, hxb, hax, hbx, hltp, hpa, hpb, hap,
          hbp, hxp, hpx]
        refine ⟨?_, ?_, ?_⟩
        · rintro q nq rfl hq
          rw [hnx] at hq
          cases hq
          simp [hxa, hxb, hxp]
        · rintro q nq rfl hq
          rw [hnp] at hq
          cases hq
          simp [hpa, hpb, hnpl]
        · intro y hya hyb hyx hyp
          have h1 : y ≠ x := fun e => hyx e.symm
          have h2 : y ≠ p := fun e => hyp e.symm
          simp [hya, hyb, h1, h2]
    · apply Exists.intro
      refine ⟨?_, ?_⟩
      · simp [AVLTree.rotateRight, Tree.getNode, Tree.setLeft, Tree.setRight, Tree.setParent,
          Tree.setBalance, Tree.modify, hna, hnb, hla, hxr, hpp, Heap.lookup_put, hlta, hltb, hab, hba,
          hnx, hltx, hxa, hxb, hax, hbx, hnp, hltp, hpa, hpb, hap, hbp, hxp, hpx, hnpl]
        rfl
      · simp [Heap.lookup_put, hlta, hltb, hab, hba, hltx, hxa, hxb, hax, hbx, hltp, hpa, hpb, hap,
          hbp, hxp, hpx]
        refine ⟨?_, ?_, ?_⟩
        · rintro q nq rfl hq
          rw [hnx] at hq
          cases hq
          simp [hxa, hxb, hxp]
        · rintro q nq rfl hq
          rw [hnp] at hq
          cases hq
          simp [hpa, hpb, hnpl]
        · intro y hya hyb hyx hyp
          have h1 : y ≠ x := fun e => hyx e.symm
          have h2 : y ≠ p := fun e => hyp e.symm
          simp [hya, hyb, h1, h2]

theorem rotateLeft_local {t : Tree} {a b : Nat} {na nb : Node}
    (hna : t.heap.lookup a = some na) (hnb : t.heap.lookup b = some nb)
    (hla : na.right = some b) (hab : a ≠ b)
    (hx : ∀ x, nb.left = some x → x ≠ a ∧ x ≠ b ∧ ∃ nx, t.heap.lookup x = some nx)
    (hp : ∀ p, na.parent = some p →
      p ≠ a ∧ p ≠ b ∧ nb.left ≠ some p ∧ ∃ np, t.heap.lookup p = some np) :
    ∃ t', AVLTree.rotateLeft t (some a) = .ok t' ∧ t'.heap.length = t.heap.length ∧
      t'.root = (if na.parent = none then some b else t.root) ∧
      (∃ na', t'.heap.lookup a = some na' ∧ na'.parent = some b ∧ na'.right = nb.left ∧
        na'.left = na.left ∧ na'.key = na.key ∧ na'.value = na.value) ∧
      (∃ nb', t'.heap.lookup b = some nb' ∧ nb'.parent = na.parent ∧ nb'.right = nb.right ∧
        nb'.left = some a ∧ nb'.key = nb.key ∧ nb'.value = nb.value) ∧
      (∀ x nx, nb.left = some x → t.heap.lookup x = some nx →
        t'.heap.lookup x = some { nx with parent := some a }) ∧
      (∀ p np, na.parent = some p → t.heap.lookup p = some np →
        t'.heap.lookup p =
          some (if np.left = some a then { np with left := some b }
            else { np with right := some b })) ∧
      (∀ y, y ≠ a → y ≠ b → nb.left ≠ some y → na.parent ≠ some y →
        t'.heap.lookup y = t.heap.lookup y) := by
  have hlta := Heap.lookup_lt hna
  have hltb := Heap.lookup_lt hnb
  have hba : b ≠ a := fun e => hab e.symm
  rcases hxr : nb.left with _ | x <;> rcases hpp : na.parent with _ | p
  · apply Exists.intro
    refine ⟨?_, ?_⟩
    · simp [AVLTree.rotateLeft, Tree.getNode, Tree.setRight, Tree.setLeft, Tree.setParent,
        Tree.setBalance, Tree.modify, hna, hnb, hla, hxr, hpp, Heap.lookup_put, hlta, hltb, hab, hba]
      rfl
    · simp [Heap.lookup_put, hlta, hltb, hab, hba]
      intro y hya hyb
      simp [hya, hyb]
  · obtain ⟨hpa, hpb, -, np, hnp⟩ := hp p hpp
    have hltp := Heap.lookup_lt hnp
    have hap : a ≠ p := fun e => hpa e.symm
    have hbp : b ≠ p := fun e => hpb e.symm
    by_cases hnpl : np.left = some a
    · apply Exists.intro
      refine ⟨?_, ?_⟩
      · simp [AVLTree.rotateLeft, Tree.getNode, Tree.setRight, Tree.setLeft, Tree.setParent,
          Tree.setBalance, Tree.modify, hna, hnb, hla, hxr, hpp, Heap.lookup_put, hlta, hltb, hab, hba,
          hnp, hltp, hpa, hpb, hap, hbp, hnpl]
        rfl
      · simp [Heap.lookup_put, hlta, hltb, hab, hba, hltp, hpa, hpb, hap, hbp]
        refine ⟨?_, ?_⟩
        · rintro q nq rfl hq
          rw [hnp] at hq
          cases hq
          simp [hpa, hpb, hnpl]
        · intro y hya hyb hyp
          have : y ≠ p := fun e => hyp e.symm
          simp [hya, hyb, this]
    · apply Exists.intro
      refine ⟨?_, ?_⟩
      · simp [AVLTree.rotateLeft, Tree.getNode, Tree.setRight, Tree.setLeft, Tree.setParent,
          Tree.setBalance, Tree.modify, hna, hnb, hla, hxr, hpp, Heap.lookup_put, hlta, hltb, hab, hba,
          hnp, hltp, hpa, hpb, hap, hbp, hnpl]
        rfl
      · simp [Heap.lookup_put, hlta, hltb, hab, hba, hltp, hpa, hpb, hap, hbp]
        refine ⟨?_, ?_⟩
        · rintro q nq rfl hq
          rw [hnp] at hq
          cases hq
          simp [hpa, hpb, hnpl]
        · intro y hya hyb hyp
          have : y ≠ p := fun e => hyp e.symm
          simp [hya, hyb, this]
  · obtain ⟨hxa, hxb, nx, hnx⟩ := hx x hxr
    have hltx := Heap.lookup_lt hnx
    have hax : a ≠ x := fun e => hxa e.symm
    have hbx : b ≠ x := fun e => hxb e.symm
    apply Exists.intro
    refine ⟨?_, ?_⟩
    · simp [AVLTree.rotateLeft, Tree.getNode, Tree.setRight, Tree.setLeft, Tree.setParent,
        Tree.setBalance, Tree.modify, hna, hnb, hla, hxr, hpp, Heap.lookup_put, hlta, hltb, hab, hba,
        hnx, hltx, hxa, hxb, hax, hbx]
      rfl
    · simp [Heap.lookup_put, hlta, hltb, hab, hba, hltx, hxa, hxb, hax, hbx]
      refine ⟨?_, ?_⟩
      · rintro q nq rfl hq
        rw [hnx] at hq
        cases hq
        simp [hxa, hxb]
      · intro y hya hyb hyx
        have : y ≠ x := fun e => hyx e.symm
        simp [hya, hyb, this]
  · obtain ⟨hxa, hxb, nx, hnx⟩ := hx x hxr
    have hltx := Heap.lookup_lt hnx
    have hax : a ≠ x := fun e => hxa e.symm
    have hbx : b ≠ x := fun e => hxb e.symm
    obtain ⟨hpa, hpb, hpx0, np, hnp⟩ := hp p hpp
    have hltp := Heap.lookup_lt hnp
    have hap : a ≠ p := fun e => hpa e.symm
    have hbp : b ≠ p := fun e => hpb e.symm
    have hxp : x ≠ p := fun e => hpx0 (by rw [hxr, e])
    have hpx : p ≠ x := fun e => hxp e.symm
    by_cases hnpl : np.left = some a
    · apply Exists.intro
      refine ⟨?_, ?_⟩
      · simp [AVLTree.rotateLeft, Tree.getNode, Tree.setRight, Tree.setLeft, Tree.setParent,
          Tree.setBalance, Tree.modify, hna, hnb, hla, hxr, hpp, Heap.lookup_put, hlta, hltb, hab, hba,
          hnx, hltx, hxa, hxb, hax, hbx, hnp, hltp, hpa, hpb, hap, hbp, hxp, hpx, hnpl]
        rfl
      · simp [Heap.lookup_put, hlta, hltb, hab, hba, hltx, hxa, hxb, hax, hbx, hltp, hpa, hpb, hap,
          hbp, hxp, hpx]
        refine ⟨?_, ?_, ?_⟩
        · rintro q nq rfl hq
          rw [hnx] at hq
          cases hq
          simp [hxa, hxb, hxp]
        · rintro q nq rfl hq
          rw [hnp] at hq
          cases hq
          simp [hpa, hpb, hnpl]
        · intro y hya hyb hyx hyp
          have h1 : y ≠ x := fun e => hyx e.symm
          have h2 : y ≠ p := fun e => hyp e.symm
          simp [hya, hyb, h1, h2]
    · apply Exists.intro
      refine ⟨?_, ?_⟩
      · simp [AVLTree.rotateLeft, Tree.getNode, Tree.setRight, Tree.setLeft, Tree.setParent,
          Tree.setBalance, Tree.modify, hna, hnb, hla, hxr, hpp, Heap.lookup_put, hlta, hltb, hab, hba,
          hnx, hltx, hxa, hxb, hax, hbx, hnp, hltp, hpa, hpb, hap, hbp, hxp, hpx, hnpl]
        rfl
      · simp [Heap.lookup_put, hlta, hltb, hab, hba, hltx, hxa, hxb, hax, hbx, hltp, hpa, hpb, hap,
          hbp, hxp, hpx]
        refine ⟨?_, ?_, ?_⟩
        · rintro q nq rfl hq
          rw [hnx] at hq
          cases hq
          simp [hxa, hxb, hxp]
        · rintro q nq rfl hq
          rw [hnp] at hq
          cases hq
          simp [hpa, hpb, hnpl]
        · intro y hya hyb hyx hyp
          have h1 : y ≠ x := fun e => hyx e.symm
          have h2 : y ≠ p := fun e => hyp e.symm
          simp [hya, hyb, h1, h2]

/-! ## Rotations: effect on the shape -/

theorem Tree.item_of_lookup {t : Tree} {a : Nat} {n : Node} (hn : t.heap.lookup a = some n) :
    t.item a = (n.key, n.value) := by
  simp [Tree.item, hn]

theorem Tree.item_congr {t t' : Tree} {a : Nat} (h : t'.heap.lookup a = t.heap.lookup a) :
    t'.item a = t.item a := by
  simp [Tree.item, h]

theorem Tree.Zipped.parent_ne {t : Tree} {c : List Frame} {s : Shape} (hz : t.Zipped c s)
    {y : Nat} (hy : y ∈ s.addrs) : ctxParent c ≠ some y := by
  cases c with
  | nil => simp [ctxParent]
  | cons f c =>
    simp only [ctxParent, ne_eq, Option.some.injEq]
    exact fun e => (hz.not_mem_ctx hy).1 e.symm

theorem Tree.Zipped.ctx_not_mem {t : Tree} {c : List Frame} {s : Shape} (hz : t.Zipped c s)
    {y : Nat} (hy : y ∈ ctxBefore c ∨ y ∈ ctxAfter c) : y ∉ s.addrs := by
  intro hys
  have := hz.disjoint y hys
  tauto

theorem rotateRight_zipped {t : Tree} {c : List Frame} {A B C : Shape} {a b : Nat}
    (hz : t.Zipped c (.node (.node A b B) a C)) :
    ∃ t', AVLTree.rotateRight t (some a) = .ok t' ∧ t'.Zipped c (.node A b (.node B a C)) ∧
      (∀ y, t'.item y = t.item y) ∧ t'.heap.length = t.heap.length := by
  obtain ⟨na, hna, hpa, hla, hra, ⟨nb, hnb, hpb, hlb, hrb, hA, hB⟩, hC⟩ := hz.sub
  have hnd3 : (A.addrs ++ b :: (B.addrs ++ a :: C.addrs)).Nodup := by
    simpa [Shape.addrs] using hz.nodupSub
  obtain ⟨hba, hbA, hbB, hbC, haA, haB, haC, hAn, hBn, hCn, hAd, hBd⟩ := nodup_three hnd3
  have hma : a ∈ (Shape.node (.node A b B) a C).addrs := by simp [Shape.addrs]
  have hmb : b ∈ (Shape.node (.node A b B) a C).addrs := by simp [Shape.addrs]
  have hmA : ∀ y ∈ A.addrs, y ∈ (Shape.node (.node A b B) a C).addrs := by
    intro y hy; simp [Shape.addrs, hy]
  have hmB : ∀ y ∈ B.addrs, y ∈ (Shape.node (.node A b B) a C).addrs := by
    intro y hy; simp [Shape.addrs, hy]
  have hmC : ∀ y ∈ C.addrs, y ∈ (Shape.node (.node A b B) a C).addrs := by
    intro y hy; simp [Shape.addrs, hy]
  simp only [Shape.ptr] at hla
  have hxs : ∀ x, nb.right = some x → x ≠ a ∧ x ≠ b ∧ ∃ nx, t.heap.lookup x = some nx := by
    intro x hx
    rw [hrb] at hx
    have hxB := Shape.ptr_mem hx
    exact ⟨fun e => haB (e ▸ hxB), fun e => hbB (e ▸ hxB), hB.live hxB⟩
  have hpar : ∀ p, na.parent = some p →
      p ≠ a ∧ p ≠ b ∧ nb.right ≠ some p ∧ ∃ np, t.heap.lookup p = some np := by
    intro p hp
    rw [hpa] at hp
    refine ⟨fun e => hz.parent_ne hma (e ▸ hp), fun e => hz.parent_ne hmb (e ▸ hp), ?_, ?_⟩
    · intro e
      rw [hrb] at e
      exact hz.parent_ne (hmB _ (Shape.ptr_mem e)) hp
    · cases c with
      | nil => simp [ctxParent] at hp
      | cons f c' =>
        simp only [ctxParent, Option.some.injEq] at hp
        subst hp
        obtain ⟨np, hnp, -⟩ := hz.ctx
        exact ⟨np, hnp⟩
  obtain ⟨t', hrun, hlen, hroot', ⟨na', hna', hpa', hla', hra', hka, hva⟩,
    ⟨nb', hnb', hpb', hlb', hrb', hkb, hvb⟩, hx', hp', hoth⟩ :=
    rotateRight_local hna hnb hla hba.symm hxs hpar
  rw [hrb, hpa] at hoth
  refine ⟨t', hrun, ?_, ?_, hlen⟩
  · refine hz.surgery ?_ ?_ ?_ ?_ ?_ ?_
    · refine ⟨nb', hnb', hpb'.trans hpa, hlb'.trans hlb, by simp [hrb', Shape.ptr], ?_,
        ⟨na', hna', hpa', hla'.trans hrb, hra'.trans hra, ?_, ?_⟩⟩
      · refine hA.frame (fun y hy => .of_eq (hoth y ?_ ?_ ?_ (hz.parent_ne (hmA y hy))))
        · rintro rfl; exact haA hy
        · rintro rfl; exact hbA hy
        · intro e; exact (hAd y hy).1 (Shape.ptr_mem e)
      · refine hB.reparent ?_ ?_ hBn
        · intro x hx nx hnx
          rw [← hrb] at hx
          exact ⟨_, hx' x nx hx hnx, rfl, rfl, rfl⟩
        · intro y hy hne
          refine .of_eq (hoth y ?_ ?_ hne (hz.parent_ne (hmB y hy)))
          · rintro rfl; exact haB hy
          · rintro rfl; exact hbB hy
      · refine hC.frame (fun y hy => .of_eq (hoth y ?_ ?_ ?_ (hz.parent_ne (hmC y hy))))
        · rintro rfl; exact haC hy
        · rintro rfl; exact hbC hy
        · intro e; exact hBd y (Shape.ptr_mem e) hy
    · simpa [Shape.addrs] using hz.nodupSub
    · intro y hy
      exact hz.disjoint y (by simpa [Shape.addrs] using hy)
    · rw [hroot', hpa]
      have := hz.root
      cases c with
      | nil => simp [ctxParent, ctxRoot, Shape.ptr]
      | cons f c' => simpa [ctxParent, ctxRoot] using this
    · rintro f c' rfl np hnp
      have hnp' := hp' f.addr np hpa hnp
      obtain ⟨np0, hnp0, -, hd, -, -⟩ := hz.ctx
      rw [hnp] at hnp0
      cases hnp0
      cases hdir : f.dir <;> simp only [hdir] at hd
      · have : np.left = some a := hd.1
        refine ⟨_, hnp', ?_⟩
        simp [this, Shape.ptr]
      · have : np.left ≠ some a := by
          rw [hd.1]
          intro e
          exact (hz.not_mem_ctx hma).2.1 (Shape.ptr_mem e)
        refine ⟨_, hnp', ?_⟩
        simp [this, Shape.ptr]
    · intro y hy hne
      have hys := hz.ctx_not_mem hy
      refine .of_eq (hoth y ?_ ?_ ?_ hne)
      · rintro rfl; exact hys hma
      · rintro rfl; exact hys hmb
      · intro e; exact hys (hmB y (Shape.ptr_mem e))
  · intro y
    by_cases hya : y = a
    · subst hya; rw [Tree.item_of_lookup hna', Tree.item_of_lookup hna, hka, hva]
    by_cases hyb : y = b
    · subst hyb; rw [Tree.item_of_lookup hnb', Tree.item_of_lookup hnb, hkb, hvb]
    by_cases hyx : B.ptr = some y
    · obtain ⟨nx, hnx⟩ := hB.live (Shape.ptr_mem hyx)
      rw [← hrb] at hyx
      rw [Tree.item_of_lookup (hx' y nx hyx hnx), Tree.item_of_lookup hnx]
    by_cases hyp : ctxParent c = some y
    · rw [← hpa] at hyp
      obtain ⟨-, -, -, np, hnp⟩ := hpar y hyp
      rw [Tree.item_of_lookup (hp' y np hyp hnp), Tree.item_of_lookup hnp]
      split <;> rfl
    · exact Tree.item_congr (hoth y hya hyb hyx hyp)

theorem rotateLeft_zipped {t : Tree} {c : List Frame} {A B C : Shape} {a b : Nat}
    (hz : t.Zipped c (.node A a (.node B b C))) :
    ∃ t', AVLTree.rotateLeft t (some a) = .ok t' ∧ t'.Zipped c (.node (.node A a B) b C) ∧
      (∀ y, t'.item y = t.item y) ∧ t'.heap.length = t.heap.length := by
  obtain ⟨na, hna, hpa, hla, hra, hA, ⟨nb, hnb, hpb, hlb, hrb, hB, hC⟩⟩ := hz.sub
  have hnd3 : (A.addrs ++ a :: (B.addrs ++ b :: C.addrs)).Nodup := by
    simpa [Shape.addrs] using hz.nodupSub
  obtain ⟨hab, haA, haB, haC, hbA, hbB, hbC, hAn, hBn, hCn, hAd, hBd⟩ := nodup_three hnd3
  have hba : b ≠ a := fun e => hab e.symm
  have hma : a ∈ (Shape.node A a (.node B b C)).addrs := by simp [Shape.addrs]
  have hmb : b ∈ (Shape.node A a (.node B b C)).addrs := by simp [Shape.addrs]
  have hmA : ∀ y ∈ A.addrs, y ∈ (Shape.node A a (.node B b C)).addrs := by
    intro y hy; simp [Shape.addrs, hy]
  have hmB : ∀ y ∈ B.addrs, y ∈ (Shape.node A a (.node B b C)).addrs := by
    intro y hy; simp [Shape.addrs, hy]
  have hmC : ∀ y ∈ C.addrs, y ∈ (Shape.node A a (.node B b C)).addrs := by
    intro y hy; simp [Shape.addrs, hy]
  simp only [Shape.ptr] at hra
  have hxs : ∀ x, nb.left = some x → x ≠ a ∧ x ≠ b ∧ ∃ nx, t.heap.lookup x = some nx := by
    intro x hx
    rw [hlb] at hx
    have hxB := Shape.ptr_mem hx
    exact ⟨fun e => haB (e ▸ hxB), fun e => hbB (e ▸ hxB), hB.live hxB⟩
  have hpar : ∀ p, na.parent = some p →
      p ≠ a ∧ p ≠ b ∧ nb.left ≠ some p ∧ ∃ np, t.heap.lookup p = some np := by
    intro p hp
    rw [hpa] at hp
    refine ⟨fun e => hz.parent_ne hma (e ▸ hp), fun e => hz.parent_ne hmb (e ▸ hp), ?_, ?_⟩
    · intro e
      rw [hlb] at e
      exact hz.parent_ne (hmB _ (Shape.ptr_mem e)) hp
    · cases c with
      | nil => simp [ctxParent] at hp
      | cons f c' =>
        simp only [ctxParent, Option.some.injEq] at hp
        subst hp
        obtain ⟨np, hnp, -⟩ := hz.ctx
        exact ⟨np, hnp⟩
  obtain ⟨t', hrun, hlen, hroot', ⟨na', hna', hpa', hra', hla', hka, hva⟩,
    ⟨nb', hnb', hpb', hrb', hlb', hkb, hvb⟩, hx', hp', hoth⟩ :=
    rotateLeft_local hna hnb hra hba.symm hxs hpar
  rw [hlb, hpa] at hoth
  refine ⟨t', hrun, ?_, ?_, hlen⟩
  · refine hz.surgery ?_ ?_ ?_ ?_ ?_ ?_
    · refine ⟨nb', hnb', hpb'.trans hpa, by simp [hlb', Shape.ptr], hrb'.trans hrb,
        ⟨na', hna', hpa', hla'.trans hla, hra'.trans hlb, ?_, ?_⟩, ?_⟩
      · refine hA.frame (fun y hy => .of_eq (hoth y ?_ ?_ ?_ (hz.parent_ne (hmA y hy))))
        · rintro rfl; exact haA hy
        · rintro rfl; exact hbA hy
        · intro e; exact (hAd y hy).1 (Shape.ptr_mem e)
      · refine hB.reparent ?_ ?_ hBn
        · intro x hx nx hnx
          rw [← hlb] at hx
          exact ⟨_, hx' x nx hx hnx, rfl, rfl, rfl⟩
        · intro y hy hne
          refine .of_eq (hoth y ?_ ?_ hne (hz.parent_ne (hmB y hy)))
          · rintro rfl; exact haB hy
          · rintro rfl; exact hbB hy
      · refine hC.frame (fun y hy => .of_eq (hoth y ?_ ?_ ?_ (hz.parent_ne (hmC y hy))))
        · rintro rfl; exact haC hy
        · rintro rfl; exact hbC hy
        · intro e; exact hBd y (Shape.ptr_mem e) hy
    · simpa [Shape.addrs] using hz.nodupSub
    · intro y hy
      exact hz.disjoint y (by simpa [Shape.addrs] using hy)
    · rw [hroot', hpa]
      have := hz.root
      cases c with
      | nil => simp [ctxParent, ctxRoot, Shape.ptr]
      | cons f c' => simpa [ctxParent, ctxRoot] using this
    · rintro f c' rfl np hnp
      have hnp' := hp' f.addr np hpa hnp
      obtain ⟨np0, hnp0, -, hd, -, -⟩ := hz.ctx
      rw [hnp] at hnp0
      cases hnp0
      cases hdir : f.dir <;> simp only [hdir] at hd
      · have : np.left = some a := hd.1
        refine ⟨_, hnp', ?_⟩
        simp [this, Shape.ptr]
      · have : np.left ≠ some a := by
          rw [hd.1]
          intro e
          exact (hz.not_mem_ctx hma).2.1 (Shape.ptr_mem e)
        refine ⟨_, hnp', ?_⟩
        simp [this, Shape.ptr]
    · intro y hy hne
      have hys := hz.ctx_not_mem hy
      refine .of_eq (hoth y ?_ ?_ ?_ hne)
      · rintro rfl; exact hys hma
      · rintro rfl; exact hys hmb
      · intro e; exact hys (hmB y (Shape.ptr_mem e))
  · intro y
    by_cases hya : y = a
    · subst hya; rw [Tree.item_of_lookup hna', Tree.item_of_lookup hna, hka, hva]
    by_cases hyb : y = b
    · subst hyb; rw [Tree.item_of_lookup hnb', Tree.item_of_lookup hnb, hkb, hvb]
    by_cases hyx : B.ptr = some y
    · obtain ⟨nx, hnx⟩ := hB.live (Shape.ptr_mem hyx)
      rw [← hlb] at hyx
      rw [Tree.item_of_lookup (hx' y nx hyx hnx), Tree.item_of_lookup hnx]
    by_cases hyp : ctxParent c = some y
    · rw [← hpa] at hyp
      obtain ⟨-, -, -, np, hnp⟩ := hpar y hyp
      rw [Tree.item_of_lookup (hp' y np hyp hnp), Tree.item_of_lookup hnp]
      split <;> rfl
    · exact Tree.item_congr (hoth y hya hyb hyx hyp)


theorem rotateRight_nil {t : Tree} {a : Nat} {na : Node} (hna : t.heap.lookup a = some na)
    (hl : na.left = none) : AVLTree.rotateRight t (some a) = .ok t := by
  simp [AVLTree.rotateRight, Tree.getNode, hna, hl]

theorem rotateLeft_nil {t : Tree} {a : Nat} {na : Node} (hna : t.heap.lookup a = some na)
    (hr : na.right = none) : AVLTree.rotateLeft t (some a) = .ok t := by
  simp [AVLTree.rotateLeft, Tree.getNode, hna, hr]

theorem plug_append (c1 c2 : List Frame) (s : Shape) :
    plug (c1 ++ c2) s = plug c2 (plug c1 s) := by
  induction c1 generalizing s with
  | nil => rfl
  | cons f c ih => exact ih (f.fill s)

theorem Shape.focus {s : Shape} {a : Nat} (ha : a ∈ s.addrs) :
    ∃ c L R, s = plug c (.node L a R) := by
  induction s with
  | nil => simp [Shape.addrs] at ha
  | node l x r ihl ihr =>
    simp only [Shape.addrs, List.mem_append, List.mem_cons] at ha
    rcases ha with ha | rfl | ha
    · obtain ⟨c, L, R, rfl⟩ := ihl ha
      exact ⟨c ++ [⟨x, .left, r⟩], L, R, by rw [plug_append]; rfl⟩
    · exact ⟨[], l, r, rfl⟩
    · obtain ⟨c, L, R, rfl⟩ := ihr ha
      exact ⟨c ++ [⟨x, .right, l⟩], L, R, by rw [plug_append]; rfl⟩

theorem Tree.Zipped.append {t : Tree} {c1 c : List Frame} {s : Shape} :
    t.Zipped (c1 ++ c) s ↔ t.Zipped c (plug c1 s) := by
  rw [← Tree.valid_plug_iff, ← Tree.valid_plug_iff, plug_append]

theorem plug_addrs_congr (c : List Frame) {s s' : Shape} (h : s'.addrs = s.addrs) :
    (plug c s').addrs = (plug c s).addrs := by
  rw [plug_addrs, plug_addrs, h]

theorem rotateRight_focus {t : Tree} {c : List Frame} {L R : Shape} {a : Nat}
    (hz : t.Zipped c (.node L a R)) :
    ∃ t' s', AVLTree.rotateRight t (some a) = .ok t' ∧ t'.Zipped c s' ∧
      s'.addrs = (Shape.node L a R).addrs ∧ (∀ y, t'.item y = t.item y) ∧
      t'.heap.length = t.heap.length := by
  cases L with
  | nil =>
    obtain ⟨na, hna, -, hla, -⟩ := hz.sub
    exact ⟨t, _, rotateRight_nil hna hla, hz, rfl, fun _ => rfl, rfl⟩
  | node A b B =>
    obtain ⟨t', hrun, hz', hit, hlen⟩ := rotateRight_zipped hz
    exact ⟨t', _, hrun, hz', by simp [Shape.addrs], hit, hlen⟩

theorem rotateLeft_focus {t : Tree} {c : List Frame} {L R : Shape} {a : Nat}
    (hz : t.Zipped c (.node L a R)) :
    ∃ t' s', AVLTree.rotateLeft t (some a) = .ok t' ∧ t'.Zipped c s' ∧
      s'.addrs = (Shape.node L a R).addrs ∧ (∀ y, t'.item y = t.item y) ∧
      t'.heap.length = t.heap.length := by
  cases R with
  | nil =>
    obtain ⟨na, hna, -, -, hra, -⟩ := hz.sub
    exact ⟨t, _, rotateLeft_nil hna hra, hz, rfl, fun _ => rfl, rfl⟩
  | node B b C =>
    obtain ⟨t', hrun, hz', hit, hlen⟩ := rotateLeft_zipped hz
    exact ⟨t', _, hrun, hz', by simp [Shape.addrs], hit, hlen⟩

theorem rotateRight_within {t : Tree} {c : List Frame} {s : Shape} {a : Nat}
    (hz : t.Zipped c s) (ha : a ∈ s.addrs) :
    ∃ t' s', AVLTree.rotateRight t (some a) = .ok t' ∧ t'.Zipped c s' ∧
      s'.addrs = s.addrs ∧ (∀ y, t'.item y = t.item y) ∧ t'.heap.length = t.heap.length := by
  obtain ⟨c1, L, R, rfl⟩ := Shape.focus ha
  obtain ⟨t', s', hrun, hz', hadd, hit, hlen⟩ := rotateRight_focus (Tree.Zipped.append.mpr hz)
  exact ⟨t', plug c1 s', hrun, Tree.Zipped.append.mp hz', plug_addrs_congr c1 hadd, hit, hlen⟩

theorem rotateLeft_within {t : Tree} {c : List Frame} {s : Shape} {a : Nat}
    (hz : t.Zipped c s) (ha : a ∈ s.addrs) :
    ∃ t' s', AVLTree.rotateLeft t (some a) = .ok t' ∧ t'.Zipped c s' ∧
      s'.addrs = s.addrs ∧ (∀ y, t'.item y = t.item y) ∧ t'.heap.length = t.heap.length := by
  obtain ⟨c1, L, R, rfl⟩ := Shape.focus ha
  obtain ⟨t', s', hrun, hz', hadd, hit, hlen⟩ := rotateLeft_focus (Tree.Zipped.append.mpr hz)
  exact ⟨t', plug c1 s', hrun, Tree.Zipped.append.mp hz', plug_addrs_congr c1 hadd, hit, hlen⟩

/-! ## Steps that keep the in-order sequence -/

theorem Tree.SameItems.refl (t : Tree) : t.SameItems t := ⟨fun _ => rfl, rfl⟩

theorem Tree.SameItems.trans {t1 t2 t3 : Tree} (h12 : t1.SameItems t2) (h23 : t2.SameItems t3) :
    t1.SameItems t3 :=
  ⟨fun y => (h23.1 y).trans (h12.1 y), h23.2.trans h12.2⟩

theorem Tree.Arranged.live_mem {t : Tree} {c : List Frame} {l : List Nat} (h : t.Arranged c l)
    {a : Nat} (ha : a ∈ l) : ∃ n, t.heap.lookup a = some n := by
  obtain ⟨s, hz, rfl⟩ := h
  exact hz.sub.live ha

theorem Tree.Arranged.getNode_mem {t : Tree} {c : List Frame} {l : List Nat} (h : t.Arranged c l)
    {a : Nat} (ha : a ∈ l) : ∃ n, t.heap.lookup a = some n ∧ t.getNode (some a) = .ok n := by
  obtain ⟨n, hn⟩ := h.live_mem ha
  exact ⟨n, hn, Tree.getNode_some hn⟩

/-- The children of a node of the shape in the hole are in that shape as well. -/
theorem Tree.Arranged.children {t : Tree} {c : List Frame} {l : List Nat} (h : t.Arranged c l)
    {a : Nat} (ha : a ∈ l) {n : Node} (hn : t.heap.lookup a = some n) :
    (∀ x, n.left = some x → x ∈ l) ∧ (∀ x, n.right = some x → x ∈ l) := by
  obtain ⟨s, hz, rfl⟩ := h
  obtain ⟨c1, L, R, rfl⟩ := Shape.focus ha
  obtain ⟨m, hm, -, hl, hr, -, -⟩ := (Tree.Zipped.append.mpr hz).sub
  rw [hn] at hm
  cases hm
  rw [plug_addrs]
  constructor
  · intro x hx
    rw [hl] at hx
    simp [Shape.addrs, Shape.ptr_mem hx]
  · intro x hx
    rw [hr] at hx
    simp [Shape.addrs, Shape.ptr_mem hx]

theorem Tree.Arranged.rotateRight_arranged {t : Tree} {c : List Frame} {l : List Nat}
    (h : t.Arranged c l) {a : Nat} (ha : a ∈ l) :
    ∃ t', AVLTree.rotateRight t (some a) = .ok t' ∧ t'.Arranged c l ∧ t.SameItems t' := by
  obtain ⟨s, hz, rfl⟩ := h
  obtain ⟨t', s', hrun, hz', hadd, hit, hlen⟩ := rotateRight_within hz ha
  exact ⟨t', hrun, ⟨s', hz', hadd⟩, hit, hlen⟩

theorem Tree.Arranged.rotateLeft_arranged {t : Tree} {c : List Frame} {l : List Nat}
    (h : t.Arranged c l) {a : Nat} (ha : a ∈ l) :
    ∃ t', AVLTree.rotateLeft t (some a) = .ok t' ∧ t'.Arranged c l ∧ t.SameItems t' := by
  obtain ⟨s, hz, rfl⟩ := h
  obtain ⟨t', s', hrun, hz', hadd, hit, hlen⟩ := rotateLeft_within hz ha
  exact ⟨t', hrun, ⟨s', hz', hadd⟩, hit, hlen⟩

theorem Tree.Valid.same_links {t t' : Tree} {s : Shape} (hv : t.Valid s)
    (hroot : t'.root = t.root) (hl : ∀ y, t.heap.SameLinksAt t'.heap y) : t'.Valid s :=
  ⟨hroot.trans hv.1, hv.2.1.frame (fun y _ => hl y), hv.2.2⟩

/-- Writing a balance into a live node changes neither the links nor the items. -/
theorem Tree.setBalance_spec {t : Tree} {a : Nat} {n : Node} (hn : t.heap.lookup a = some n)
    (v : Int) :
    ∃ t', t.setBalance (some a) v = .ok t' ∧ t'.root = t.root ∧
      t'.heap.lookup a = some { n with balance := wrap8 v } ∧
      (∀ y, y ≠ a → t'.heap.lookup y = t.heap.lookup y) ∧
      (∀ y, t.heap.SameLinksAt t'.heap y) ∧ t.SameItems t' := by
  have hlt := Heap.lookup_lt hn
  refine ⟨_, Tree.modify_some _ hn, rfl, by simp [Heap.lookup_put, hlt], ?_, ?_, ?_, ?_⟩
  · intro y hy
    simp [Heap.lookup_put, hlt, hy]
  · intro y m hm
    by_cases hy : y = a
    · subst hy
      rw [hn] at hm
      cases hm
      exact ⟨{ n with balance := wrap8 v }, by simp [Heap.lookup_put, hlt], rfl, rfl, rfl⟩
    · exact ⟨m, by simp [Heap.lookup_put, hlt, hy, hm], rfl, rfl, rfl⟩
  · intro y
    by_cases hy : y = a
    · subst hy
      simp [Tree.item, Heap.lookup_put, hlt, hn]
    · simp [Tree.item, Heap.lookup_put, hlt, hy]
  · simp

theorem Tree.Arranged.same_links_arranged {t t' : Tree} {c : List Frame} {l : List Nat}
    (h : t.Arranged c l) (hroot : t'.root = t.root) (hl : ∀ y, t.heap.SameLinksAt t'.heap y) :
    t'.Arranged c l := by
  obtain ⟨s, hz, rfl⟩ := h
  exact ⟨s, (Tree.valid_plug_iff _ _ _).mp (((Tree.valid_plug_iff _ _ _).mpr hz).same_links hroot hl),
    rfl⟩

theorem Tree.Arranged.setBalance_arranged {t : Tree} {c : List Frame} {l : List Nat}
    (h : t.Arranged c l) {a : Nat} {n : Node} (hn : t.heap.lookup a = some n) (v : Int) :
    ∃ t', t.setBalance (some a) v = .ok t' ∧ t'.Arranged c l ∧ t.SameItems t' ∧
      t'.heap.lookup a = some { n with balance := wrap8 v } := by
  obtain ⟨t', hrun, hroot, hla, -, hlinks, hsame⟩ := Tree.setBalance_spec hn v
  exact ⟨t', hrun, h.same_links_arranged hroot hlinks, hsame, hla⟩

/-! ## insertFix and the upward walk of insert -/

theorem Tree.Arranged.setBalance_mem {t : Tree} {c : List Frame} {l : List Nat}
    (h : t.Arranged c l) {a : Nat} (ha : a ∈ l) (v : Int) :
    ∃ t', t.setBalance (some a) v = .ok t' ∧ t'.Arranged c l ∧ t.SameItems t' := by
  obtain ⟨n, hn⟩ := h.live_mem ha
  obtain ⟨t', hrun, ha', hs, -⟩ := h.setBalance_arranged hn v
  exact ⟨t', hrun, ha', hs⟩

theorem Tree.Arranged.setBalance_two {t : Tree} {c : List Frame} {l : List Nat}
    (h : t.Arranged c l) {a b : Nat} (ha : a ∈ l) (hb : b ∈ l) (v w : Int) :
    ∃ t', (t.setBalance (some a) v >>= fun t1 => t1.setBalance (some b) w) = .ok t' ∧
      t'.Arranged c l ∧ t.SameItems t' := by
  obtain ⟨t1, hr1, ha1, hs1⟩ := h.setBalance_mem ha v
  obtain ⟨t2, hr2, ha2, hs2⟩ := ha1.setBalance_mem hb w
  exact ⟨t2, by simp only [hr1, Res.ok_bind, hr2], ha2, hs1.trans hs2⟩

theorem Tree.Arranged.setBalance_three {t : Tree} {c : List Frame} {l : List Nat}
    (h : t.Arranged c l) {a b x : Nat} (ha : a ∈ l) (hb : b ∈ l) (hx : x ∈ l) (v w u : Int) :
    ∃ t', (do
        let t1 ← t.setBalance (some a) v
        let t2 ← t1.setBalance (some b) w
        t2.setBalance (some x) u) = .ok t' ∧
      t'.Arranged c l ∧ t.SameItems t' := by
  obtain ⟨t1, hr1, ha1, hs1⟩ := h.setBalance_mem ha v
  obtain ⟨t2, hr2, ha2, hs2⟩ := ha1.setBalance_mem hb w
  obtain ⟨t3, hr3, ha3, hs3⟩ := ha2.setBalance_mem hx u
  exact ⟨t3, by simp only [hr1, Res.ok_bind, hr2, hr3], ha3, (hs1.trans hs2).trans hs3⟩

theorem insertFix_arranged {t : Tree} {c : List Frame} {l : List Nat} {child parent : Nat}
    (fuel : Nat) (h : t.Arranged c l) (hc : child ∈ l) (hp : parent ∈ l) {np : Node}
    (hnp : t.heap.lookup parent = some np) (hb : np.balance = 2 ∨ np.balance = -2) :
    AVLTree.insertFix (fuel + 1) t (some child) (some parent) = .fault .nullDeref ∨
      ∃ t', AVLTree.insertFix (fuel + 1) t (some child) (some parent) = .ok t' ∧
        t'.Arranged c l ∧ t.SameItems t' := by
  obtain ⟨nc, hnc, hgc⟩ := h.getNode_mem hc
  simp only [AVLTree.insertFix, reduceCtorEq, ↓reduceIte, Tree.getNode_some hnp, Res.ok_bind, hgc]
  rcases hb with hb | hb
  · -- right-heavy
    have hb2 : ¬ np.balance = -2 := by omega
    simp only [hb2, ↓reduceIte]
    simp only [hb, ↓reduceIte]
    by_cases hc1 : nc.balance = 1
    · simp only [hc1, ↓reduceIte]
      obtain ⟨t1, hr1, ha1, hs1⟩ := h.rotateLeft_arranged hp
      obtain ⟨t2, hr2, ha2, hs2⟩ := ha1.setBalance_two hp hc 0 0
      simp only [hr1, Res.ok_bind]
      exact Or.inr ⟨t2, hr2, ha2, hs1.trans hs2⟩
    · simp only [hc1, ↓reduceIte]
      by_cases hc2 : nc.balance = -1
      · simp only [hc2, ↓reduceIte]
        obtain ⟨t1, hr1, ha1, hs1⟩ := h.rotateRight_arranged hc
        obtain ⟨t2, hr2, ha2, hs2⟩ := ha1.rotateLeft_arranged hp
        simp only [hr1, hr2, Res.ok_bind]
        rcases hlc : nc.left with _ | x
        · exact Or.inl (by simp [Tree.getNode])
        · have hx : x ∈ l := (h.children hc hnc).1 x hlc
          obtain ⟨nx, hnx, hgx⟩ := ha2.getNode_mem hx
          simp only [hgx, Res.ok_bind]
          split_ifs
          · obtain ⟨t3, hr3, ha3, hs3⟩ := ha2.setBalance_three hp hc hx 0 (-1) 0
            exact Or.inr ⟨t3, hr3, ha3, (hs1.trans hs2).trans hs3⟩
          · obtain ⟨t3, hr3, ha3, hs3⟩ := ha2.setBalance_three hp hc hx 0 0 0
            exact Or.inr ⟨t3, hr3, ha3, (hs1.trans hs2).trans hs3⟩
          · obtain ⟨t3, hr3, ha3, hs3⟩ := ha2.setBalance_three hp hc hx (-1) 0 0
            exact Or.inr ⟨t3, hr3, ha3, (hs1.trans hs2).trans hs3⟩
      · simp only [hc2, ↓reduceIte]
        exact Or.inr ⟨t, rfl, h, Tree.SameItems.refl t⟩
  · -- left-heavy
    simp only [hb, ↓reduceIte]
    by_cases hc1 : nc.balance = -1
    · simp only [hc1, ↓reduceIte]
      obtain ⟨t1, hr1, ha1, hs1⟩ := h.rotateRight_arranged hp
      obtain ⟨t2, hr2, ha2, hs2⟩ := ha1.setBalance_two hp hc 0 0
      simp only [hr1, Res.ok_bind]
      exact Or.inr ⟨t2, hr2, ha2, hs1.trans hs2⟩
    · simp only [hc1, ↓reduceIte]
      by_cases hc2 : nc.balance = 1
      · simp only [hc2, ↓reduceIte]
        obtain ⟨t1, hr1, ha1, hs1⟩ := h.rotateLeft_arranged hc
        obtain ⟨t2, hr2, ha2, hs2⟩ := ha1.rotateRight_arranged hp
        simp only [hr1, hr2, Res.ok_bind]
        rcases hlc : nc.right with _ | x
        · exact Or.inl (by simp [Tree.getNode])
        · have hx : x ∈ l := (h.children hc hnc).2 x hlc
          obtain ⟨nx, hnx, hgx⟩ := ha2.getNode_mem hx
          simp only [hgx, Res.ok_bind]
          split_ifs
          · obtain ⟨t3, hr3, ha3, hs3⟩ := ha2.setBalance_three hp hc hx 0 (-1) 0
            exact Or.inr ⟨t3, hr3, ha3, (hs1.trans hs2).trans hs3⟩
          · obtain ⟨t3, hr3, ha3, hs3⟩ := ha2.setBalance_three hp hc hx 0 0 0
            exact Or.inr ⟨t3, hr3, ha3, (hs1.trans hs2).trans hs3⟩
          · obtain ⟨t3, hr3, ha3, hs3⟩ := ha2.setBalance_three hp hc hx (-1) 0 0
            exact Or.inr ⟨t3, hr3, ha3, (hs1.trans hs2).trans hs3⟩
      · simp only [hc2, ↓reduceIte]
        exact Or.inr ⟨t, rfl, h, Tree.SameItems.refl t⟩

theorem Tree.Zipped.same_links_zipped {t t' : Tree} {c : List Frame} {s : Shape}
    (hz : t.Zipped c s) (hroot : t'.root = t.root) (hl : ∀ y, t.heap.SameLinksAt t'.heap y) :
    t'.Zipped c s :=
  (Tree.valid_plug_iff _ _ _).mp (((Tree.valid_plug_iff _ _ _).mpr hz).same_links hroot hl)

theorem Tree.Zipped.arranged {t : Tree} {c : List Frame} {s : Shape} (hz : t.Zipped c s) :
    t.Arranged [] (plug c s).addrs :=
  ⟨plug c s, (Tree.valid_plug_iff t [] (plug c s)).mp ((Tree.valid_plug_iff t c s).mpr hz), rfl⟩

theorem mem_plug_of_mem {c : List Frame} {s : Shape} {y : Nat} (hy : y ∈ s.addrs) :
    y ∈ (plug c s).addrs := by
  rw [plug_addrs]; simp [hy]

theorem mem_plug_head {f : Frame} {c : List Frame} {s : Shape} :
    f.addr ∈ (plug (f :: c) s).addrs := by
  have : f.addr ∈ (f.fill s).addrs := by
    obtain ⟨a, d, sib⟩ := f
    cases d <;> simp [Frame.fill, Shape.addrs]
  exact (mem_plug_of_mem this : f.addr ∈ (plug c (f.fill s)).addrs)

theorem insertClimb_arranged :
    ∀ (c : List Frame) (s : Shape) (t : Tree) (child : Nat) (fuel : Nat),
      t.Zipped c s → child ∈ (plug c s).addrs → c.length < fuel →
      AVLTree.insertClimb fuel t (some child) (ctxParent c) = .fault .nullDeref ∨
        ∃ t', AVLTree.insertClimb fuel t (some child) (ctxParent c) = .ok t' ∧
          t'.Arranged [] (plug c s).addrs ∧ t.SameItems t' := by
  intro c
  induction c with
  | nil =>
    intro s t child fuel hz _ hf
    obtain ⟨k, rfl⟩ : ∃ k, fuel = k + 1 := ⟨fuel - 1, by simp at hf; omega⟩
    exact Or.inr ⟨t, by simp [AVLTree.insertClimb, ctxParent], hz.arranged, Tree.SameItems.refl t⟩
  | cons f c ih =>
    intro s t child fuel hz hchild hf
    obtain ⟨k, rfl⟩ : ∃ k, fuel = k + 1 := ⟨fuel - 1, by simp at hf; omega⟩
    obtain ⟨n, hn, hpar, -, -, -⟩ := hz.ctx
    have key : ∀ v, AVLTree.insertClimb (k + 1) t (some child) (some f.addr) =
        (t.setBalance (some f.addr) v >>= fun t1 =>
          t1.getNode (some f.addr) >>= fun n1 =>
            if n1.balance = 0 then pure t1
            else if n1.balance = 2 ∨ n1.balance = -2 then
              AVLTree.insertFix t1.fuel t1 (some child) (some f.addr)
            else t1.getNode (some f.addr) >>= fun n2 =>
              AVLTree.insertClimb k t1 (some f.addr) n2.parent) →
        AVLTree.insertClimb (k + 1) t (some child) (some f.addr) = .fault .nullDeref ∨
          ∃ t', AVLTree.insertClimb (k + 1) t (some child) (some f.addr) = .ok t' ∧
            t'.Arranged [] (plug (f :: c) s).addrs ∧ t.SameItems t' := by
      intro v hv
      rw [hv]
      obtain ⟨t1, hr1, hroot1, hl1, -, hlinks, hs1⟩ := Tree.setBalance_spec hn v
      have hz1 : t1.Zipped (f :: c) s := hz.same_links_zipped hroot1 hlinks
      simp only [hr1, Res.ok_bind, Tree.getNode_some hl1]
      by_cases hb0 : wrap8 v = 0
      · simp only [hb0, ↓reduceIte]
        exact Or.inr ⟨t1, rfl, hz1.arranged, hs1⟩
      · simp only [hb0, ↓reduceIte]
        by_cases hb2 : wrap8 v = 2 ∨ wrap8 v = -2
        · simp only [hb2, ↓reduceIte]
          rcases insertFix_arranged (t1.heap.length + 1) hz1.arranged hchild mem_plug_head hl1 hb2
            with hfault | ⟨t2, hr2, ha2, hs2⟩
          · exact Or.inl hfault
          · exact Or.inr ⟨t2, hr2, ha2, hs1.trans hs2⟩
        · simp only [hb2, ↓reduceIte, hpar, Res.pure_eq]
          rcases ih (f.fill s) t1 f.addr k (Tree.Zipped.up.mp hz1) mem_plug_head
            (by simp at hf; omega) with hfault | ⟨t2, hr2, ha2, hs2⟩
          · exact Or.inl hfault
          · exact Or.inr ⟨t2, hr2, ha2, hs1.trans hs2⟩
    simp only [ctxParent]
    by_cases hcl : some child = n.left
    · exact key (n.balance - 1) (by
        simp only [AVLTree.insertClimb, reduceCtorEq, ↓reduceIte, Tree.getNode_some hn,
          Res.ok_bind, hcl])
    · exact key (n.balance + 1) (by
        simp only [AVLTree.insertClimb, reduceCtorEq, ↓reduceIte, Tree.getNode_some hn,
          Res.ok_bind, hcl])

/-! ## insert: reaching the hole and attaching the new node -/

theorem insertDescend_bottom (t : Tree) (key value : Int) :
    ∀ (s : Shape) (c : List Frame) (fuel : Nat), t.Zipped c s →
      (s.addrs.map t.keyAt).Pairwise (· < ·) → t.Fits key c → s.locate t key = none →
      s.height < fuel →
      ∃ c', insertDescend fuel t key value s.ptr (ctxParent c) = .ok (.bottom (ctxParent c')) ∧
        t.Zipped c' .nil ∧ t.Fits key c' ∧ plug c' .nil = plug c s := by
  intro s
  induction s with
  | nil =>
    intro c fuel hz _ hfit _ hf
    obtain ⟨k, rfl⟩ : ∃ k, fuel = k + 1 := ⟨fuel - 1, by omega⟩
    exact ⟨c, by simp [insertDescend, Shape.ptr], hz, hfit, rfl⟩
  | node l a r ihl ihr =>
    intro c fuel hz hsorted hfit hloc hf
    obtain ⟨k, rfl⟩ : ∃ k, fuel = k + 1 := ⟨fuel - 1, by omega⟩
    obtain ⟨n, hn, -, hnl, hnr, -, -⟩ := hz.sub
    obtain ⟨hsl, hsr, hla, har⟩ := (Shape.sorted_node t.keyAt l r a).mp hsorted
    have hk := Tree.keyAt_of_lookup hn
    simp only [Shape.height] at hf
    simp only [Shape.locate, hk] at hloc
    simp only [insertDescend, Shape.ptr, reduceCtorEq, ↓reduceIte, Tree.getNode_some hn,
      Res.ok_bind]
    by_cases h1 : n.key = key
    · simp [h1] at hloc
    · simp only [h1, ↓reduceIte] at hloc
      by_cases h2 : key < n.key
      · simp only [h2, ↓reduceIte] at hloc
        simp only [h2, ↓reduceIte, hnl]
        have hz1 : t.Zipped (⟨a, .left, r⟩ :: c) l := Tree.Zipped.up.mpr hz
        have hfit1 : t.Fits key (⟨a, .left, r⟩ :: c) := by
          refine ⟨hfit.1, ?_⟩
          intro y hy
          simp only [ctxAfter, List.cons_append, List.mem_cons, List.mem_append] at hy
          rcases hy with rfl | hy | hy
          · rw [hk]; exact h2
          · have := har y hy; rw [hk] at this; omega
          · exact hfit.2 y hy
        obtain ⟨c', hrun, hz', hfit', hplug⟩ := ihl _ k hz1 hsl hfit1 hloc (by omega)
        exact ⟨c', hrun, hz', hfit', hplug⟩
      · simp only [h2, ↓reduceIte] at hloc
        have h3 : key > n.key := by omega
        simp only [h2, h3, ↓reduceIte, hnr]
        have hz1 : t.Zipped (⟨a, .right, l⟩ :: c) r := Tree.Zipped.up.mpr hz
        have hfit1 : t.Fits key (⟨a, .right, l⟩ :: c) := by
          refine ⟨?_, hfit.2⟩
          intro y hy
          simp only [ctxBefore, List.mem_append, List.mem_singleton] at hy
          rcases hy with hy | hy | rfl
          · exact hfit.1 y hy
          · have := hla y hy; rw [hk] at this; omega
          · rw [hk]; omega
        obtain ⟨c', hrun, hz', hfit', hplug⟩ := ihr _ k hz1 hsr hfit1 hloc (by omega)
        exact ⟨c', hrun, hz', hfit', hplug⟩

theorem Heap.lookup_append (h : Heap) (x : Node) (y : Nat) :
    (h ++ [some x]).lookup y = if y = h.length then some x else h.lookup y := by
  unfold Heap.lookup
  by_cases hy : y = h.length
  · subst hy; simp
  · simp only [hy, ↓reduceIte]
    by_cases hlt : y < h.length
    · rw [List.getElem?_append_left hlt]
    · have : h.length < y := by omega
      rw [List.getElem?_eq_none (by simp; omega), List.getElem?_eq_none (by omega)]

theorem pairwise_insert {k : Nat → Int} {b a : List Nat} {x : Nat}
    (h : ((b ++ a).map k).Pairwise (· < ·)) (hb : ∀ y ∈ b, k y < k x)
    (ha : ∀ y ∈ a, k x < k y) : ((b ++ x :: a).map k).Pairwise (· < ·) := by
  simp only [List.map_append, List.map_cons, List.pairwise_append, List.pairwise_cons,
    List.mem_map, List.mem_cons, forall_exists_index, and_imp, forall_apply_eq_imp_iff₂] at h ⊢
  obtain ⟨h1, h2, h3⟩ := h
  refine ⟨h1, ⟨ha, h2⟩, ?_⟩
  intro y hy z hz
  rcases hz with rfl | ⟨w, hw, rfl⟩
  · exact hb y hy
  · exact h3 y hy w hw

theorem ctx_length_le (c : List Frame) : c.length ≤ (ctxBefore c ++ ctxAfter c).length := by
  induction c with
  | nil => simp
  | cons f c ih =>
    have := (ctx_cons_perm f c).length_eq
    rw [this]
    simp only [List.length_append, List.length_cons] at ih ⊢
    omega

theorem Tree.Zipped.ctx_live {t : Tree} {c : List Frame} {s : Shape} (hz : t.Zipped c s)
    {y : Nat} (hy : y ∈ ctxBefore c ∨ y ∈ ctxAfter c) : ∃ n, t.heap.lookup y = some n := by
  have hv := (Tree.valid_plug_iff t c s).mpr hz
  apply hv.2.1.live
  rw [plug_addrs]
  simp only [List.mem_append]
  tauto

/-- Attaching a fresh leaf below the nearest frame of a context with an empty hole. -/
theorem attach_leaf {t : Tree} {f : Frame} {c : List Frame} (key value : Int)
    (hz : t.Zipped (f :: c) .nil) {np : Node} (hnp : t.heap.lookup f.addr = some np)
    (t2 : Tree)
    (hroot : t2.root = t.root)
    (hnew : t2.heap.lookup t.heap.length = some ⟨key, value, some f.addr, none, none, 0⟩)
    (hheadL : f.dir = .left →
      t2.heap.lookup f.addr = some { np with left := some t.heap.length })
    (hheadR : f.dir = .right →
      t2.heap.lookup f.addr = some { np with right := some t.heap.length })
    (hoth : ∀ y, y ≠ t.heap.length → y ≠ f.addr → t2.heap.lookup y = t.heap.lookup y) :
    t2.Zipped (f :: c) (.node .nil t.heap.length .nil) := by
  have hfresh : ∀ y, (y ∈ ctxBefore (f :: c) ∨ y ∈ ctxAfter (f :: c)) → y ≠ t.heap.length := by
    intro y hy
    obtain ⟨n, hn⟩ := hz.ctx_live hy
    exact Nat.ne_of_lt (Heap.lookup_lt hn)
  refine hz.surgery ?_ ?_ ?_ ?_ ?_ ?_
  · exact ⟨_, hnew, rfl, rfl, rfl, trivial, trivial⟩
  · simp [Shape.addrs]
  · intro y hy
    simp only [Shape.addrs, List.nil_append, List.mem_singleton] at hy
    subst hy
    exact ⟨fun e => hfresh _ (Or.inl e) rfl, fun e => hfresh _ (Or.inr e) rfl⟩
  · rw [hroot, hz.root]; rfl
  · rintro g c' hgc m hm
    cases hgc
    rw [hnp] at hm
    cases hm
    cases hdir : f.dir
    · exact ⟨_, hheadL hdir, by simp [Shape.ptr]⟩
    · exact ⟨_, hheadR hdir, by simp [Shape.ptr]⟩
  · intro y hy hne
    refine .of_eq (hoth y (hfresh y hy) ?_)
    simpa [ctxParent, eq_comm] using hne

theorem Tree.Valid.zipped {t : Tree} {s : Shape} (hv : t.Valid s) : t.Zipped [] s :=
  (Tree.valid_plug_iff t [] s).mp hv

theorem Tree.Zipped.valid {t : Tree} {s : Shape} (hz : t.Zipped [] s) : t.Valid s :=
  (Tree.valid_plug_iff t [] s).mpr hz

theorem Tree.keyAt_eq_of_item {t t' : Tree} {y : Nat} (h : t'.item y = t.item y) :
    t'.keyAt y = t.keyAt y := by
  simp [Tree.keyAt, h]

/-- The tree in which a fresh node is appended to the heap and the node at `p` is replaced. -/
theorem attach_run {t : Tree} {f : Frame} {c : List Frame} {key value : Int}
    (hz : t.Zipped (f :: c) .nil) {np : Node} (hnp : t.heap.lookup f.addr = some np)
    (np' : Node)
    (hL : f.dir = .left → np' = { np with left := some t.heap.length })
    (hR : f.dir = .right → np' = { np with right := some t.heap.length }) :
    (Tree.mk ((t.heap ++ [some (Node.mk key value (some f.addr) none none 0)]).put f.addr np')
        t.root).Zipped (f :: c) (.node .nil t.heap.length .nil) ∧
      (∀ y, y ≠ t.heap.length →
        (Tree.mk ((t.heap ++ [some (Node.mk key value (some f.addr) none none 0)]).put f.addr np')
          t.root).item y = t.item y) ∧
      (Tree.mk ((t.heap ++ [some (Node.mk key value (some f.addr) none none 0)]).put f.addr np')
        t.root).item t.heap.length = (key, value) := by
  have hltp := Heap.lookup_lt hnp
  have hne : f.addr ≠ t.heap.length := Nat.ne_of_lt hltp
  have hlt1 : f.addr < (t.heap ++ [some (Node.mk key value (some f.addr) none none 0)]).length := by
    simp only [List.length_append, List.length_singleton]; omega
  have hlt2 : f.addr < t.heap.length + 1 := by omega
  refine ⟨?_, ?_, ?_⟩
  · refine attach_leaf key value hz hnp _ rfl ?_ ?_ ?_ ?_
    · simp [Heap.lookup_put, hlt1, hlt2, hne.symm, Heap.lookup_append]
    · intro hd
      simp [Heap.lookup_put, hlt1, hlt2, hL hd]
    · intro hd
      simp [Heap.lookup_put, hlt1, hlt2, hR hd]
    · intro y hy1 hy2
      simp [Heap.lookup_put, hlt1, hlt2, hy2, Heap.lookup_append, hy1]
  · intro y hy
    by_cases hyp : y = f.addr
    · subst hyp
      cases hd : f.dir
      · simp [Tree.item, Heap.lookup_put, hlt1, hlt2, hnp, hL hd]
      · simp [Tree.item, Heap.lookup_put, hlt1, hlt2, hnp, hR hd]
    · simp [Tree.item, Heap.lookup_put, hlt1, hlt2, hyp, Heap.lookup_append, hy]
  · simp [Tree.item, Heap.lookup_put, hlt1, hlt2, hne.symm, Heap.lookup_append]


/-- Inserting a key that is absent: the call either dereferences a null pointer (in `insertFix`)
or returns a tree whose in-order address sequence is the old one with the new address put at
the place of the key. -/
theorem AVLTree.insert_new {t : Tree} {s : Shape} (key value : Int) (hs : t.SearchTree s)
    (habs : s.locate t key = none) :
    AVLTree.insert t key value = .fault .nullDeref ∨
      ∃ t' s', AVLTree.insert t key value = .ok t' ∧ t'.SearchTree s' ∧
        t'.heap.length = t.heap.length + 1 ∧ t'.item t.heap.length = (key, value) ∧
        (∀ y, y ≠ t.heap.length → t'.item y = t.item y) ∧
        ∃ b a, s.addrs = b ++ a ∧ s'.addrs = b ++ t.heap.length :: a := by
  obtain ⟨hv, hsorted⟩ := hs
  cases s with
  | nil =>
    have hroot : t.root = none := hv.1
    refine Or.inr ⟨Tree.mk (t.heap ++ [some (Node.mk key value none none none 0)])
      (some t.heap.length), .node .nil t.heap.length .nil, ?_, ⟨⟨rfl, ?_, ?_⟩, ?_⟩, ?_, ?_, ?_,
      [], [], ?_⟩
    · simp [AVLTree.insert, hroot, Tree.newNode]
    · exact ⟨Node.mk key value none none none 0, by simp [Heap.lookup_append], rfl, rfl, rfl,
        trivial, trivial⟩
    · simp [Shape.addrs]
    · simp [Shape.addrs]
    · simp
    · simp [Tree.item, Heap.lookup_append]
    · intro y hy
      simp [Tree.item, Heap.lookup_append, hy]
    · simp [Shape.addrs]
  | node l0 a0 r0 =>
    have hroot : t.root ≠ none := by rw [hv.1]; simp [Shape.ptr]
    obtain ⟨c, hrun, hz, hfit, hplug⟩ := insertDescend_bottom t key value _ [] t.fuel hv.zipped
      hsorted ⟨by simp [ctxBefore], by simp [ctxAfter]⟩ habs
      (by have := hv.height_lt_fuel; omega)
    rw [← hv.1] at hrun
    simp only [ctxParent] at hrun
    have hplug' : plug c .nil = .node l0 a0 r0 := hplug
    have haddrs : (Shape.node l0 a0 r0).addrs = ctxBefore c ++ ctxAfter c := by
      rw [← hplug', plug_addrs]; simp [Shape.addrs]
    cases c with
    | nil => simp [plug] at hplug'
    | cons f c =>
      obtain ⟨np, hnp, -, -, -, -⟩ := hz.ctx
      have hltp := Heap.lookup_lt hnp
      have hne : f.addr ≠ t.heap.length := Nat.ne_of_lt hltp
      have hkp := Tree.keyAt_of_lookup hnp
      -- the tree after the new node is linked below its parent
      obtain ⟨t2, hins, hz2, hlen2, hitem2, hitemnew⟩ : ∃ t2,
          AVLTree.insert t key value =
            AVLTree.insertClimb t2.fuel t2 (some t.heap.length) (some f.addr) ∧
            t2.Zipped (f :: c) (.node .nil t.heap.length .nil) ∧
            t2.heap.length = t.heap.length + 1 ∧
            (∀ y, y ≠ t.heap.length → t2.item y = t.item y) ∧
            t2.item t.heap.length = (key, value) := by
        by_cases hlt : key < np.key
        · have hdir : f.dir = .left := by
            cases hd : f.dir
            · rfl
            · have hmem : f.addr ∈ ctxBefore (f :: c) := by simp [ctxBefore, hd]
              have := hfit.1 _ hmem
              rw [hkp] at this
              omega
          obtain ⟨h1, h2, h3⟩ := attach_run hz hnp { np with left := some t.heap.length }
            (fun _ => rfl) (fun hd => by rw [hdir] at hd; cases hd)
          refine ⟨_, ?_, h1, by simp, h2, h3⟩
          simp [AVLTree.insert, hroot, hrun, Tree.newNode, Tree.getNode, Tree.setLeft,
            Tree.modify, Heap.lookup_append, hne, hnp, hlt]
        · have hdir : f.dir = .right := by
            cases hd : f.dir
            · have hmem : f.addr ∈ ctxAfter (f :: c) := by simp [ctxAfter, hd]
              have := hfit.2 _ hmem
              rw [hkp] at this
              omega
            · rfl
          obtain ⟨h1, h2, h3⟩ := attach_run hz hnp { np with right := some t.heap.length }
            (fun hd => by rw [hdir] at hd; cases hd) (fun _ => rfl)
          refine ⟨_, ?_, h1, by simp, h2, h3⟩
          simp [AVLTree.insert, hroot, hrun, Tree.newNode, Tree.getNode, Tree.setRight,
            Tree.modify, Heap.lookup_append, hne, hnp, hlt]
      have hmemnew : t.heap.length ∈ (plug (f :: c) (.node .nil t.heap.length .nil)).addrs :=
        mem_plug_of_mem (by simp [Shape.addrs])
      have hfuel : (f :: c).length < t2.fuel := by
        have h1 := ctx_length_le (f :: c)
        have h2 := hv.2.1.length_le hv.2.2
        rw [haddrs] at h2
        unfold Tree.fuel
        omega
      rw [hins]
      rcases insertClimb_arranged (f :: c) _ t2 t.heap.length t2.fuel hz2 hmemnew hfuel with
        hfault | ⟨t', hrun', ⟨s', hz', hs'⟩, hsame⟩
      · exact Or.inl hfault
      · refine Or.inr ⟨t', s', hrun', ⟨hz'.valid, ?_⟩, ?_, ?_, ?_,
          ctxBefore (f :: c), ctxAfter (f :: c), haddrs, ?_⟩
        · -- the keys are still strictly increasing
          have hs'' : s'.addrs = ctxBefore (f :: c) ++ t.heap.length :: ctxAfter (f :: c) := by
            rw [hs', plug_addrs]
            simp [Shape.addrs]
          rw [hs'']
          have hk' : ∀ y, y ≠ t.heap.length → t'.keyAt y = t.keyAt y := fun y hy =>
            (Tree.keyAt_eq_of_item (hsame.1 y)).trans (Tree.keyAt_eq_of_item (hitem2 y hy))
          have hknew : t'.keyAt t.heap.length = key := by
            rw [Tree.keyAt_eq_of_item (hsame.1 _)]
            simp [Tree.keyAt, hitemnew]
          have hfresh : ∀ y, (y ∈ ctxBefore (f :: c) ∨ y ∈ ctxAfter (f :: c)) →
              y ≠ t.heap.length := by
            intro y hy
            obtain ⟨n, hn⟩ := hz.ctx_live hy
            exact Nat.ne_of_lt (Heap.lookup_lt hn)
          apply pairwise_insert
          · rw [haddrs] at hsorted
            have : (ctxBefore (f :: c) ++ ctxAfter (f :: c)).map t'.keyAt =
                (ctxBefore (f :: c) ++ ctxAfter (f :: c)).map t.keyAt := by
              apply List.map_congr_left
              intro y hy
              exact hk' y (hfresh y (List.mem_append.mp hy))
            rw [this]
            exact hsorted
          · intro y hy
            rw [hknew, hk' y (hfresh y (Or.inl hy))]
            exact hfit.1 y hy
          · intro y hy
            rw [hknew, hk' y (hfresh y (Or.inr hy))]
            exact hfit.2 y hy
        · rw [hsame.2, hlen2]
        · rw [hsame.1, hitemnew]
        · intro y hy
          rw [hsame.1, hitem2 y hy]
        · rw [hs', plug_addrs]
          simp [Shape.addrs]

/-! ## removeFix keeps the in-order sequence -/

theorem fill_addrs_plug (f : Frame) (c : List Frame) (s : Shape) :
    ctxBefore c ++ (f.fill s).addrs ++ ctxAfter c =
      ctxBefore (f :: c) ++ s.addrs ++ ctxAfter (f :: c) := by
  rw [← plug_addrs, ← plug_addrs]; rfl

theorem Tree.Arranged.up_arranged {t : Tree} {f : Frame} {c : List Frame} {s : Shape}
    (hz : t.Zipped (f :: c) s) : t.Arranged c (f.fill s).addrs :=
  ⟨f.fill s, Tree.Zipped.up.mp hz, rfl⟩

theorem Tree.Arranged.close {t : Tree} {c : List Frame} {l : List Nat} (h : t.Arranged c l) :
    t.Arranged [] (ctxBefore c ++ l ++ ctxAfter c) := by
  obtain ⟨s, hz, rfl⟩ := h
  have := hz.arranged
  rwa [plug_addrs] at this

set_option maxHeartbeats 3200000 in
theorem removeFix_arranged :
    ∀ (c : List Frame) (l : List Nat) (t : Tree) (diff : Int) (fuel : Nat),
      t.Arranged c l → c.length < fuel →
      t.Goes (ctxBefore c ++ l ++ ctxAfter c) (AVLTree.removeFix fuel t (ctxParent c) diff) := by
  intro c
  induction c with
  | nil =>
    intro l t diff fuel h hf
    obtain ⟨k, rfl⟩ : ∃ k, fuel = k + 1 := ⟨fuel - 1, by simp at hf; omega⟩
    exact ⟨t, by simp [AVLTree.removeFix, ctxParent], by simpa [ctxBefore, ctxAfter] using h,
      Tree.SameItems.refl t⟩
  | cons f c ih =>
    intro l t diff fuel h hf
    obtain ⟨k, rfl⟩ : ∃ k, fuel = k + 1 := ⟨fuel - 1, by simp at hf; omega⟩
    obtain ⟨s, hz, rfl⟩ := h
    obtain ⟨cn, hcn, hpar, -, -, hrest⟩ := hz.ctx
    have hk : c.length < k := by simp at hf; omega
    rw [← fill_addrs_plug]
    have h1 : t.Arranged c (f.fill s).addrs := Tree.Arranged.up_arranged hz
    have hcur : f.addr ∈ (f.fill s).addrs := by
      obtain ⟨a, d, sib⟩ := f
      cases d <;> simp [Frame.fill, Shape.addrs]
    -- the possible continuations
    have hrec : ∀ (t1 : Tree) (y : Int), t1.Arranged c (f.fill s).addrs → t.SameItems t1 →
        t.Goes (ctxBefore c ++ (f.fill s).addrs ++ ctxAfter c)
          (AVLTree.removeFix k t1 (ctxParent c) y) := by
      intro t1 y ha hs
      obtain ⟨t2, hr, ha2, hs2⟩ := ih _ t1 y k ha hk
      exact ⟨t2, hr, ha2, hs.trans hs2⟩
    have hpure : t.Goes (ctxBefore c ++ (f.fill s).addrs ++ ctxAfter c) (pure t) :=
      ⟨t, rfl, h1.close, Tree.SameItems.refl t⟩
    have hrotR : ∀ a, a ∈ (f.fill s).addrs →
        t.Goes (ctxBefore c ++ (f.fill s).addrs ++ ctxAfter c)
          (AVLTree.rotateRight t (some a)) := by
      intro a ha
      obtain ⟨t1, hr, ha1, hs1⟩ := h1.rotateRight_arranged ha
      exact ⟨t1, hr, ha1.close, hs1⟩
    have hrotL : ∀ a, a ∈ (f.fill s).addrs →
        t.Goes (ctxBefore c ++ (f.fill s).addrs ++ ctxAfter c)
          (AVLTree.rotateLeft t (some a)) := by
      intro a ha
      obtain ⟨t1, hr, ha1, hs1⟩ := h1.rotateLeft_arranged ha
      exact ⟨t1, hr, ha1.close, hs1⟩
    have hrotRrec : ∀ a (y : Int), a ∈ (f.fill s).addrs →
        t.Goes (ctxBefore c ++ (f.fill s).addrs ++ ctxAfter c)
          (AVLTree.rotateRight t (some a) >>= fun t1 =>
            AVLTree.removeFix k t1 (ctxParent c) y) := by
      intro a y ha
      obtain ⟨t1, hr, ha1, hs1⟩ := h1.rotateRight_arranged ha
      rw [hr, Res.ok_bind]
      exact hrec t1 y ha1 hs1
    have hrotLrec : ∀ a (y : Int), a ∈ (f.fill s).addrs →
        t.Goes (ctxBefore c ++ (f.fill s).addrs ++ ctxAfter c)
          (AVLTree.rotateLeft t (some a) >>= fun t1 =>
            AVLTree.removeFix k t1 (ctxParent c) y) := by
      intro a y ha
      obtain ⟨t1, hr, ha1, hs1⟩ := h1.rotateLeft_arranged ha
      rw [hr, Res.ok_bind]
      exact hrec t1 y ha1 hs1
    have hrotLRrec : ∀ a (y : Int), a ∈ (f.fill s).addrs →
        t.Goes (ctxBefore c ++ (f.fill s).addrs ++ ctxAfter c)
          (AVLTree.rotateLeft t (some a) >>= fun t1 =>
            AVLTree.rotateRight t1 (some a) >>= fun t2 =>
              AVLTree.removeFix k t2 (ctxParent c) y) := by
      intro a y ha
      obtain ⟨t1, hr, ha1, hs1⟩ := h1.rotateLeft_arranged ha
      obtain ⟨t2, hr2, ha2, hs2⟩ := ha1.rotateRight_arranged ha
      rw [hr, Res.ok_bind, hr2, Res.ok_bind]
      exact hrec t2 y ha2 (hs1.trans hs2)
    have hrotRLrec : ∀ a (y : Int), a ∈ (f.fill s).addrs →
        t.Goes (ctxBefore c ++ (f.fill s).addrs ++ ctxAfter c)
          (AVLTree.rotateRight t (some a) >>= fun t1 =>
            AVLTree.rotateLeft t1 (some a) >>= fun t2 =>
              AVLTree.removeFix k t2 (ctxParent c) y) := by
      intro a y ha
      obtain ⟨t1, hr, ha1, hs1⟩ := h1.rotateRight_arranged ha
      obtain ⟨t2, hr2, ha2, hs2⟩ := ha1.rotateLeft_arranged ha
      rw [hr, Res.ok_bind, hr2, Res.ok_bind]
      exact hrec t2 y ha2 (hs1.trans hs2)
    have hchild := h1.children hcur hcn
    -- the parent of the current node
    have hpnode : ∀ p, ctxParent c = some p → ∃ np, t.getNode (some p) = .ok np := by
      intro p hp
      cases c with
      | nil => simp [ctxParent] at hp
      | cons g c' =>
        simp only [ctxParent, Option.some.injEq] at hp
        subst hp
        obtain ⟨np, hnp, -⟩ := hrest
        exact ⟨np, Tree.getNode_some hnp⟩
    have h0a : ¬ (0 : Int) = -1 := by decide
    have h0b : ¬ (0 : Int) = 1 := by decide
    -- the value of `ndiff`
    obtain ⟨nd, hnd⟩ : ∃ nd : Int, AVLTree.removeFix (k + 1) t (some f.addr) diff =
        (if diff = -1 then
          (if cn.left ≠ none then t.getNode cn.left >>= fun n => pure n.balance else pure 0) >>=
            fun childBalance =>
              if cn.balance + diff = -2 then
                if childBalance = -1 then
                  AVLTree.rotateRight t (some f.addr) >>= fun t1 =>
                    AVLTree.removeFix k t1 (ctxParent c) nd
                else if childBalance = 0 then AVLTree.rotateRight t (some f.addr)
                else if childBalance = 1 then
                  AVLTree.rotateLeft t cn.left >>= fun t1 =>
                    AVLTree.rotateRight t1 cn.left >>= fun t2 =>
                      AVLTree.removeFix k t2 (ctxParent c) nd
                else pure t
              else if cn.balance + diff = 0 then AVLTree.removeFix k t (ctxParent c) nd
              else pure t
        else if diff = 1 then
          (if cn.right ≠ none then t.getNode cn.right >>= fun n => pure n.balance else pure 0) >>=
            fun childBalance =>
              if cn.balance + diff = 2 then
                if childBalance = 1 then
                  AVLTree.rotateLeft t (some f.addr) >>= fun t1 =>
                    AVLTree.removeFix k t1 (ctxParent c) nd
                else if childBalance = 0 then AVLTree.rotateLeft t (some f.addr)
                else if childBalance = -1 then
                  AVLTree.rotateRight t cn.right >>= fun t1 =>
                    AVLTree.rotateLeft t1 cn.right >>= fun t2 =>
                      AVLTree.removeFix k t2 (ctxParent c) nd
                else pure t
              else if cn.balance + diff = 0 then AVLTree.removeFix k t (ctxParent c) nd
              else pure t
        else pure t) := by
      rcases hcp : ctxParent c with _ | p
      · refine ⟨0, ?_⟩
        simp only [AVLTree.removeFix, reduceCtorEq, ↓reduceIte, Tree.getNode_some hcn,
          Res.ok_bind, hpar, hcp, ne_eq, not_true_eq_false, Res.pure_eq]
        split_ifs <;>
          first
          | rfl
          | (cases t.getNode cn.left <;> rfl)
          | (cases t.getNode cn.right <;> rfl)
      · obtain ⟨np, hnp⟩ := hpnode p hcp
        by_cases hl : some f.addr = np.left
        · refine ⟨-1, ?_⟩
          simp only [AVLTree.removeFix, reduceCtorEq, ↓reduceIte, Tree.getNode_some hcn,
            Res.ok_bind, hpar, hcp, ne_eq, not_false_eq_true, Res.pure_eq, hnp]
          rw [if_pos hl]
          split_ifs <;>
          first
          | rfl
          | (cases t.getNode cn.left <;> rfl)
          | (cases t.getNode cn.right <;> rfl)
        · refine ⟨1, ?_⟩
          simp only [AVLTree.removeFix, reduceCtorEq, ↓reduceIte, Tree.getNode_some hcn,
            Res.ok_bind, hpar, hcp, ne_eq, not_false_eq_true, Res.pure_eq, hnp]
          rw [if_neg hl]
          split_ifs <;>
          first
          | rfl
          | (cases t.getNode cn.left <;> rfl)
          | (cases t.getNode cn.right <;> rfl)
    show t.Goes _ (AVLTree.removeFix (k + 1) t (some f.addr) diff)
    rw [hnd]
    by_cases hd1 : diff = -1
    · simp only [hd1, ↓reduceIte]
      rcases hcl : cn.left with _ | x
      · simp only [ne_eq, not_true_eq_false, ↓reduceIte, Res.pure_eq, Res.ok_bind, h0a, h0b]
        split_ifs
        · exact hrotR _ hcur
        · exact hrec _ _ h1 (Tree.SameItems.refl t)
        · exact hpure
      · have hx : x ∈ (f.fill s).addrs := hchild.1 x hcl
        obtain ⟨nx, -, hgx⟩ := h1.getNode_mem hx
        simp only [ne_eq, reduceCtorEq, not_false_eq_true, ↓reduceIte, hgx, Res.pure_eq,
          Res.ok_bind]
        split_ifs
        · exact hrotRrec _ _ hcur
        · exact hrotR _ hcur
        · exact hrotLRrec _ _ hx
        · exact hpure
        · exact hrec _ _ h1 (Tree.SameItems.refl t)
        · exact hpure
    · simp only [hd1, ↓reduceIte]
      by_cases hd2 : diff = 1
      · simp only [hd2, ↓reduceIte]
        rcases hcr : cn.right with _ | x
        · simp only [ne_eq, not_true_eq_false, ↓reduceIte, Res.pure_eq, Res.ok_bind, h0a, h0b]
          split_ifs
          · exact hrotL _ hcur
          · exact hrec _ _ h1 (Tree.SameItems.refl t)
          · exact hpure
        · have hx : x ∈ (f.fill s).addrs := hchild.2 x hcr
          obtain ⟨nx, -, hgx⟩ := h1.getNode_mem hx
          simp only [ne_eq, reduceCtorEq, not_false_eq_true, ↓reduceIte, hgx, Res.pure_eq,
            Res.ok_bind]
          split_ifs
          · exact hrotLrec _ _ hcur
          · exact hrotL _ hcur
          · exact hrotRLrec _ _ hx
          · exact hpure
          · exact hrec _ _ h1 (Tree.SameItems.refl t)
          · exact hpure
      · simp only [hd2, ↓reduceIte]
        exact hpure

/-! ## remove: taking a node out of the shape -/

/-- Removing the node in focus when it has at most one child: the child takes its place. -/
theorem splice_zipped {t t' : Tree} {c : List Frame} {L R K : Shape} {a : Nat}
    (hz : t.Zipped c (.node L a R)) (hK : (L = .nil ∧ K = R) ∨ (R = .nil ∧ K = L))
    (hroot : t'.root = ctxRoot c K.ptr)
    (hhead : ∀ f c', c = f :: c' → ∀ np, t.heap.lookup f.addr = some np →
      ∃ np', t'.heap.lookup f.addr = some np' ∧ np'.parent = np.parent ∧
        (f.dir = .left → np'.left = K.ptr ∧ np'.right = np.right) ∧
        (f.dir = .right → np'.left = np.left ∧ np'.right = K.ptr))
    (hkroot : ∀ x nx, K.ptr = some x → t.heap.lookup x = some nx →
      ∃ nx', t'.heap.lookup x = some nx' ∧ nx'.parent = ctxParent c ∧ nx'.left = nx.left ∧
        nx'.right = nx.right)
    (hoth : ∀ y, y ≠ a → ctxParent c ≠ some y → K.ptr ≠ some y →
      t.heap.SameLinksAt t'.heap y) :
    t'.Zipped c K := by
  obtain ⟨na, hna, hpa, hla, hra, hL, hR⟩ := hz.sub
  have hnd := hz.nodupSub
  simp only [Shape.addrs, List.nodup_append, List.nodup_cons, List.Disjoint, List.mem_cons] at hnd
  obtain ⟨hLn, ⟨haR, hRn⟩, hdLR⟩ := hnd
  have hKsub : ∀ y ∈ K.addrs, y ∈ (Shape.node L a R).addrs := by
    intro y hy
    rcases hK with ⟨-, rfl⟩ | ⟨-, rfl⟩ <;> simp [Shape.addrs, hy]
  have hKa : a ∉ K.addrs := by
    rcases hK with ⟨-, rfl⟩ | ⟨-, rfl⟩
    · exact haR
    · exact fun h => hdLR h (Or.inl rfl)
  have hKn : K.addrs.Nodup := by
    rcases hK with ⟨-, rfl⟩ | ⟨-, rfl⟩
    · exact hRn
    · exact hLn
  have hKh : t.heap.Holds (some a) K := by
    rcases hK with ⟨-, rfl⟩ | ⟨-, rfl⟩
    · exact hR
    · exact hL
  refine hz.surgery ?_ hKn ?_ hroot hhead ?_
  · refine hKh.reparent ?_ ?_ hKn
    · intro x hx nx hnx
      exact hkroot x nx hx hnx
    · intro y hy hne
      refine hoth y ?_ (hz.parent_ne (hKsub y hy)) hne
      rintro rfl
      exact hKa hy
  · intro y hy
    exact hz.disjoint y (hKsub y hy)
  · intro y hy hne
    have hys := hz.ctx_not_mem hy
    refine hoth y ?_ hne ?_
    · rintro rfl
      exact hys (by simp [Shape.addrs])
    · intro e
      exact hys (hKsub y (Shape.ptr_mem e))

/-- Putting a node from outside the tree at the place of the node in focus. -/
theorem replace_zipped {t t' : Tree} {c : List Frame} {L R : Shape} {a p : Nat}
    (hz : t.Zipped c (.node L a R))
    (hfresh : p ∉ (plug c (.node L a R)).addrs)
    (hroot : t'.root = ctxRoot c (some p))
    (hp : ∃ m, t'.heap.lookup p = some m ∧ m.parent = ctxParent c ∧ m.left = L.ptr ∧
      m.right = R.ptr)
    (hhead : ∀ f c', c = f :: c' → ∀ np, t.heap.lookup f.addr = some np →
      ∃ np', t'.heap.lookup f.addr = some np' ∧ np'.parent = np.parent ∧
        (f.dir = .left → np'.left = some p ∧ np'.right = np.right) ∧
        (f.dir = .right → np'.left = np.left ∧ np'.right = some p))
    (hlroot : ∀ x nx, L.ptr = some x → t.heap.lookup x = some nx →
      ∃ nx', t'.heap.lookup x = some nx' ∧ nx'.parent = some p ∧ nx'.left = nx.left ∧
        nx'.right = nx.right)
    (hrroot : ∀ x nx, R.ptr = some x → t.heap.lookup x = some nx →
      ∃ nx', t'.heap.lookup x = some nx' ∧ nx'.parent = some p ∧ nx'.left = nx.left ∧
        nx'.right = nx.right)
    (hoth : ∀ y, y ≠ a → y ≠ p → ctxParent c ≠ some y → L.ptr ≠ some y → R.ptr ≠ some y →
      t.heap.SameLinksAt t'.heap y) :
    t'.Zipped c (.node L p R) := by
  obtain ⟨na, hna, hpa, hla, hra, hL, hR⟩ := hz.sub
  have hnd := hz.nodupSub
  simp only [Shape.addrs, List.nodup_append, List.nodup_cons, List.Disjoint, List.mem_cons] at hnd
  obtain ⟨hLn, ⟨haR, hRn⟩, hdLR⟩ := hnd
  rw [plug_addrs] at hfresh
  simp only [Shape.addrs, List.mem_append, List.mem_cons, not_or] at hfresh
  obtain ⟨⟨hpB, hpL, hpa', hpR⟩, hpA⟩ := hfresh
  have hmL : ∀ y ∈ L.addrs, y ∈ (Shape.node L a R).addrs := by
    intro y hy; simp [Shape.addrs, hy]
  have hmR : ∀ y ∈ R.addrs, y ∈ (Shape.node L a R).addrs := by
    intro y hy; simp [Shape.addrs, hy]
  obtain ⟨m, hm, hmp, hml, hmr⟩ := hp
  refine hz.surgery ?_ ?_ ?_ hroot ?_ ?_
  · refine ⟨m, hm, hmp, hml, hmr, ?_, ?_⟩
    · refine hL.reparent (fun x hx nx hnx => hlroot x nx hx hnx) ?_ hLn
      intro y hy hne
      refine hoth y ?_ ?_ (hz.parent_ne (hmL y hy)) hne ?_
      · rintro rfl; exact hdLR hy (Or.inl rfl)
      · rintro rfl; exact hpL hy
      · intro e; exact hdLR hy (Or.inr (Shape.ptr_mem e))
    · refine hR.reparent (fun x hx nx hnx => hrroot x nx hx hnx) ?_ hRn
      intro y hy hne
      refine hoth y ?_ ?_ (hz.parent_ne (hmR y hy)) ?_ hne
      · rintro rfl; exact haR hy
      · rintro rfl; exact hpR hy
      · intro e; exact hdLR (Shape.ptr_mem e) (Or.inr hy)
  · simp only [Shape.addrs, List.nodup_append, List.nodup_cons, List.Disjoint, List.mem_cons]
    refine ⟨hLn, ⟨hpR, hRn⟩, ?_⟩
    rintro y hy (rfl | hyr)
    · exact hpL hy
    · exact hdLR hy (Or.inr hyr)
  · intro y hy
    simp only [Shape.addrs, List.mem_append, List.mem_cons] at hy
    rcases hy with hy | rfl | hy
    · exact hz.disjoint y (hmL y hy)
    · exact ⟨hpB, hpA⟩
    · exact hz.disjoint y (hmR y hy)
  · exact hhead
  · intro y hy hne
    have hys := hz.ctx_not_mem hy
    refine hoth y ?_ ?_ hne ?_ ?_
    · rintro rfl; exact hys (by simp [Shape.addrs])
    · rintro rfl
      rcases hy with hy | hy
      · exact hpB hy
      · exact hpA hy
    · intro e; exact hys (hmL y (Shape.ptr_mem e))
    · intro e; exact hys (hmR y (Shape.ptr_mem e))

theorem Heap.lookup_set_none (h : Heap) (a y : Nat) :
    Heap.lookup (h.set a none) y = if y = a then none else h.lookup y := by
  unfold Heap.lookup
  by_cases hy : y = a
  · subst hy
    by_cases hlt : y < h.length
    · simp [List.getElem?_set_self, hlt]
    · simp [List.getElem?_eq_none, Nat.le_of_not_lt hlt]
  · have hay : a ≠ y := fun e => hy e.symm
    simp [List.getElem?_set_ne hay, hy]

theorem ctxRoot_cons_mem (f : Frame) (c : List Frame) (q : Ptr) :
    ∃ x, ctxRoot (f :: c) q = some x ∧ (x ∈ ctxBefore (f :: c) ∨ x ∈ ctxAfter (f :: c)) := by
  induction c generalizing f q with
  | nil =>
    refine ⟨f.addr, rfl, ?_⟩
    obtain ⟨a, d, sib⟩ := f
    cases d <;> simp [ctxBefore, ctxAfter]
  | cons g c ih =>
    obtain ⟨x, hx, hmem⟩ := ih g (some f.addr)
    refine ⟨x, hx, ?_⟩
    exact (mem_ctxAddrs_cons f (g :: c) x).mpr (Or.inr hmem)

/-- The node in focus is the root exactly when the context is empty. -/
theorem Tree.Zipped.root_eq_iff {t : Tree} {c : List Frame} {L R : Shape} {a : Nat}
    (hz : t.Zipped c (.node L a R)) : t.root = some a ↔ c = [] := by
  constructor
  · intro h
    cases c with
    | nil => rfl
    | cons f c =>
      obtain ⟨x, hx, hmem⟩ := ctxRoot_cons_mem f c (some a)
      have := hz.root
      rw [h, Shape.ptr, hx] at this
      cases this
      exact absurd (by simp [Shape.addrs]) (hz.ctx_not_mem hmem)
  · rintro rfl
    exact hz.root

theorem Tree.item_delete (t : Tree) (r : Ptr) (a : Nat) {y : Nat} (hy : y ≠ a) :
    (Tree.mk (t.heap.set a none) r).item y = t.item y := by
  simp [Tree.item, Heap.lookup_set_none, hy]

/-- The code of `AVLTree::remove` for a node without children, up to the call of `removeFix`:
the counting copy follows the same path, and no stored balance is written. -/
theorem AVLTree.remove_leaf_count {t : Tree} {c : List Frame} {a : Nat} (key : Int)
    (hz : t.Zipped c (.node .nil a .nil))
    (hdesc : removeDescend t.fuel t key t.root = .ok (some a)) :
    ∃ t1 diff, AVLTree.remove t key = AVLTree.removeFix t1.fuel t1 (ctxParent c) diff ∧
      AVLTree.removeCount t key = AVLTree.removeFixCount t1.fuel t1 (ctxParent c) diff ∧
      t1.Zipped c .nil ∧ t1.heap.length = t.heap.length ∧ (∀ y, y ≠ a → t1.item y = t.item y) ∧
      ∀ y, y ≠ a → t1.balanceAt y = t.balanceAt y := by
  obtain ⟨na, hna, hpa, hla, hra, -, -⟩ := hz.sub
  simp only [Shape.ptr] at hla hra
  have hlta := Heap.lookup_lt hna
  cases c with
  | nil =>
    have hroot : t.root = some a := hz.root_eq_iff.mpr rfl
    simp only [ctxParent] at hpa
    rw [hroot] at hdesc
    refine ⟨Tree.mk (t.heap.set a none) none, 0, ?_, ?_, ?_,
      by simp, ?_, ?_⟩
    · simp [AVLTree.remove, hdesc, Tree.getNode, hna, hla, hra, hroot, Tree.delete, hpa, ctxParent]
    · simp [AVLTree.removeCount, hdesc, Tree.getNode, hna, hla, hra, hroot, Tree.delete, hpa, ctxParent]
    · refine splice_zipped hz (Or.inl ⟨rfl, rfl⟩) rfl ?_ ?_ ?_
      · intro f c' h; cases h
      · intro x nx hx; simp [Shape.ptr] at hx
      · intro y hy _ _
        exact .of_eq (by simp [Heap.lookup_set_none, hy])
    · intro y hy
      exact Tree.item_delete t none a hy
    · intro y hy
      simp [Tree.balanceAt, Heap.lookup_set_none, hy]
  | cons f c =>
    have hroot : t.root ≠ some a := fun h => by simpa using hz.root_eq_iff.mp h
    have hroot' : ¬ some a = t.root := fun h => hroot h.symm
    obtain ⟨np, hnp, -, hd, -, -⟩ := hz.ctx
    have hma : a ∈ (Shape.node .nil a .nil).addrs := by simp [Shape.addrs]
    have hpne : f.addr ≠ a := ((hz.not_mem_ctx hma).1).symm
    have hltp := Heap.lookup_lt hnp
    simp only [ctxParent] at hpa
    simp only [Shape.ptr] at hd
    by_cases hl : np.left = some a
    · have hdir : f.dir = .left := by
        cases hdir : f.dir
        · rfl
        · simp only [hdir] at hd
          rw [hd.1] at hl
          exact absurd (Shape.ptr_mem hl) (hz.not_mem_ctx hma).2.1
      refine ⟨Tree.mk ((t.heap.put f.addr { np with left := none }).set a none) t.root, 1, ?_, ?_, ?_,
        by simp, ?_, ?_⟩
      · simp [AVLTree.remove, hdesc, Tree.getNode, hna, hla, hra, hroot, hroot', Tree.delete, hpa,
          ctxParent, hnp, hl, Tree.setLeft, Tree.modify, Heap.lookup_put, hltp, hpne.symm]
      · simp [AVLTree.removeCount, hdesc, Tree.getNode, hna, hla, hra, hroot, hroot', Tree.delete, hpa,
          ctxParent, hnp, hl, Tree.setLeft, Tree.modify, Heap.lookup_put, hltp, hpne.symm]
      · refine splice_zipped hz (Or.inl ⟨rfl, rfl⟩) ?_ ?_ ?_ ?_
        · exact hz.root
        · rintro g c' hgc m hm
          cases hgc
          rw [hnp] at hm
          cases hm
          refine ⟨{ np with left := none }, ?_, rfl, ?_, ?_⟩
          · simp [Heap.lookup_set_none, hpne, Heap.lookup_put, hltp]
          · intro _; simp [Shape.ptr]
          · intro h; rw [hdir] at h; cases h
        · intro x nx hx; simp [Shape.ptr] at hx
        · intro y hy hyp _
          have : y ≠ f.addr := fun e => hyp (by simp [ctxParent, e])
          exact .of_eq (by simp [Heap.lookup_set_none, hy, Heap.lookup_put, hltp, this])
      · intro y hy
        by_cases hyp : y = f.addr
        · subst hyp
          simp [Tree.item, Heap.lookup_set_none, hy, Heap.lookup_put, hltp, hnp]
        · simp [Tree.item, Heap.lookup_set_none, hy, Heap.lookup_put, hltp, hyp]
      · intro y hy
        by_cases hyp : y = f.addr
        · subst hyp
          simp [Tree.balanceAt, Heap.lookup_set_none, hy, Heap.lookup_put, hltp, hnp]
        · simp [Tree.balanceAt, Heap.lookup_set_none, hy, Heap.lookup_put, hltp, hyp]
    · have hdir : f.dir = .right := by
        cases hdir : f.dir
        · simp only [hdir] at hd
          exact absurd hd.1 hl
        · rfl
      refine ⟨Tree.mk ((t.heap.put f.addr { np with right := none }).set a none) t.root, -1, ?_, ?_, ?_,
        by simp, ?_, ?_⟩
      · simp [AVLTree.remove, hdesc, Tree.getNode, hna, hla, hra, hroot, hroot', Tree.delete, hpa,
          ctxParent, hnp, hl, Tree.setRight, Tree.modify, Heap.lookup_put, hltp, hpne.symm]
      · simp [AVLTree.removeCount, hdesc, Tree.getNode, hna, hla, hra, hroot, hroot', Tree.delete, hpa,
          ctxParent, hnp, hl, Tree.setRight, Tree.modify, Heap.lookup_put, hltp, hpne.symm]
      · refine splice_zipped hz (Or.inl ⟨rfl, rfl⟩) ?_ ?_ ?_ ?_
        · exact hz.root
        · rintro g c' hgc m hm
          cases hgc
          rw [hnp] at hm
          cases hm
          refine ⟨{ np with right := none }, ?_, rfl, ?_, ?_⟩
          · simp [Heap.lookup_set_none, hpne, Heap.lookup_put, hltp]
          · intro h; rw [hdir] at h; cases h
          · intro _; simp [Shape.ptr]
        · intro x nx hx; simp [Shape.ptr] at hx
        · intro y hy hyp _
          have : y ≠ f.addr := fun e => hyp (by simp [ctxParent, e])
          exact .of_eq (by simp [Heap.lookup_set_none, hy, Heap.lookup_put, hltp, this])
      · intro y hy
        by_cases hyp : y = f.addr
        · subst hyp
          simp [Tree.item, Heap.lookup_set_none, hy, Heap.lookup_put, hltp, hnp]
        · simp [Tree.item, Heap.lookup_set_none, hy, Heap.lookup_put, hltp, hyp]
      · intro y hy
        by_cases hyp : y = f.addr
        · subst hyp
          simp [Tree.balanceAt, Heap.lookup_set_none, hy, Heap.lookup_put, hltp, hnp]
        · simp [Tree.balanceAt, Heap.lookup_set_none, hy, Heap.lookup_put, hltp, hyp]

/-- The code of `AVLTree::remove` for a node with exactly one child, up to the call of
`removeFix`: the counting copy follows the same path, and no stored balance is written. -/
theorem AVLTree.remove_one_child_count {t : Tree} {c : List Frame} {L R Kl Kr : Shape} {a x : Nat}
    (key : Int) (hz : t.Zipped c (.node L a R))
    (hK : (L = .nil ∧ .node Kl x Kr = R) ∨ (R = .nil ∧ .node Kl x Kr = L))
    (hdesc : removeDescend t.fuel t key t.root = .ok (some a)) :
    ∃ t1 diff, AVLTree.remove t key = AVLTree.removeFix t1.fuel t1 (ctxParent c) diff ∧
      AVLTree.removeCount t key = AVLTree.removeFixCount t1.fuel t1 (ctxParent c) diff ∧
      t1.Zipped c (.node Kl x Kr) ∧ t1.heap.length = t.heap.length ∧
      (∀ y, y ≠ a → t1.item y = t.item y) ∧ ∀ y, y ≠ a → t1.balanceAt y = t.balanceAt y := by
  obtain ⟨na, hna, hpa, hla, hra, hL, hR⟩ := hz.sub
  have hlta := Heap.lookup_lt hna
  have hma : a ∈ (Shape.node L a R).addrs := by simp [Shape.addrs]
  have hmx : x ∈ (Shape.node L a R).addrs := by
    rcases hK with ⟨-, rfl⟩ | ⟨-, rfl⟩ <;> simp [Shape.addrs]
  obtain ⟨nx, hnx⟩ := hz.sub.live hmx
  have hltx := Heap.lookup_lt hnx
  have hxa : x ≠ a := by
    have hnd := hz.nodupSub
    rcases hK with ⟨rfl, rfl⟩ | ⟨rfl, rfl⟩ <;>
      simp only [Shape.addrs, List.nodup_append, List.nodup_cons, List.mem_append, List.mem_cons,
        List.Disjoint] at hnd
    · intro e; subst e; exact hnd.2.1.1 (by simp)
    · intro e; subst e; exact hnd.2.2 (Or.inr (Or.inl rfl)) (Or.inl rfl)
  have hax : a ≠ x := fun e => hxa e.symm
  -- the child pointer computed by the code
  have hchild : (if na.left = none then na.right else na.left) = some x := by
    rcases hK with ⟨rfl, rfl⟩ | ⟨rfl, rfl⟩
    · simp [hla, hra, Shape.ptr]
    · simp [hla, Shape.ptr]
  have hnotleaf : ¬ (na.left = none ∧ na.right = none) := by
    rcases hK with ⟨rfl, rfl⟩ | ⟨rfl, rfl⟩
    · simp [hra, Shape.ptr]
    · simp [hla, Shape.ptr]
  have hone : na.left = none ∨ na.right = none := by
    rcases hK with ⟨rfl, rfl⟩ | ⟨rfl, rfl⟩
    · exact Or.inl hla
    · exact Or.inr hra
  have hK' : (L = .nil ∧ Shape.node Kl x Kr = R) ∨ (R = .nil ∧ Shape.node Kl x Kr = L) := hK
  cases c with
  | nil =>
    have hroot : t.root = some a := hz.root_eq_iff.mpr rfl
    simp only [ctxParent] at hpa
    refine ⟨Tree.mk ((t.heap.put x { nx with parent := none }).set a none) (some x), 0, ?_, ?_, ?_,
      by simp, ?_, ?_⟩
    · rw [hroot] at hdesc
      simp [AVLTree.remove, hdesc, Tree.getNode, hna, hnotleaf, hone, hchild, hroot, Tree.delete,
        hpa, ctxParent, Tree.setParent, Tree.modify, hnx, Heap.lookup_put, hltx, hax]
    · rw [hroot] at hdesc
      simp [AVLTree.removeCount, hdesc, Tree.getNode, hna, hnotleaf, hone, hchild, hroot, Tree.delete,
        hpa, ctxParent, Tree.setParent, Tree.modify, hnx, Heap.lookup_put, hltx, hax]
    · refine splice_zipped hz hK' rfl ?_ ?_ ?_
      · intro f c' h; cases h
      · intro y ny hy hny
        simp only [Shape.ptr, Option.some.injEq] at hy
        subst hy
        rw [hnx] at hny
        cases hny
        exact ⟨{ nx with parent := none }, by simp [Heap.lookup_set_none, hxa, Heap.lookup_put, hltx],
          rfl, rfl, rfl⟩
      · intro y hy _ hyx
        have : y ≠ x := fun e => hyx (by simp [Shape.ptr, e])
        exact .of_eq (by simp [Heap.lookup_set_none, hy, Heap.lookup_put, hltx, this])
    · intro y hy
      by_cases hyx : y = x
      · subst hyx
        simp [Tree.item, Heap.lookup_set_none, hy, Heap.lookup_put, hltx, hnx]
      · simp [Tree.item, Heap.lookup_set_none, hy, Heap.lookup_put, hltx, hyx]
    · intro y hy
      by_cases hyx : y = x
      · subst hyx
        simp [Tree.balanceAt, Heap.lookup_set_none, hy, Heap.lookup_put, hltx, hnx]
      · simp [Tree.balanceAt, Heap.lookup_set_none, hy, Heap.lookup_put, hltx, hyx]
  | cons f c =>
    have hroot : t.root ≠ some a := fun h => by simpa using hz.root_eq_iff.mp h
    have hroot' : ¬ some a = t.root := fun h => hroot h.symm
    obtain ⟨np, hnp, -, hd, -, -⟩ := hz.ctx
    have hpne : f.addr ≠ a := ((hz.not_mem_ctx hma).1).symm
    have hpx : f.addr ≠ x := ((hz.not_mem_ctx hmx).1).symm
    have hltp := Heap.lookup_lt hnp
    simp only [ctxParent] at hpa
    simp only [Shape.ptr] at hd
    by_cases hl : np.left = some a
    · have hdir : f.dir = .left := by
        cases hdir : f.dir
        · rfl
        · simp only [hdir] at hd
          rw [hd.1] at hl
          exact absurd (Shape.ptr_mem hl) (hz.not_mem_ctx hma).2.1
      refine ⟨Tree.mk (((t.heap.put f.addr { np with left := some x }).put x
        { nx with parent := some f.addr }).set a none) t.root, 1, ?_, ?_, ?_,
        by simp, ?_, ?_⟩
      · simp [AVLTree.remove, hdesc, Tree.getNode, hna, hnotleaf, hone, hchild, hroot, hroot',
          Tree.delete, hpa, ctxParent, Tree.setParent, Tree.setLeft, Tree.modify, hnx, hnp, hl,
          Heap.lookup_put, hltx, hltp, hax, hxa, hpne, hpne.symm, hpx, hpx.symm]
      · simp [AVLTree.removeCount, hdesc, Tree.getNode, hna, hnotleaf, hone, hchild, hroot, hroot',
          Tree.delete, hpa, ctxParent, Tree.setParent, Tree.setLeft, Tree.modify, hnx, hnp, hl,
          Heap.lookup_put, hltx, hltp, hax, hxa, hpne, hpne.symm, hpx, hpx.symm]
      · refine splice_zipped hz hK' ?_ ?_ ?_ ?_
        · exact hz.root
        · rintro g c' hgc m hm
          cases hgc
          rw [hnp] at hm
          cases hm
          refine ⟨{ np with left := some x }, ?_, rfl, ?_, ?_⟩
          · simp [Heap.lookup_set_none, hpne, Heap.lookup_put, hltp, hltx, hpx]
          · intro _; simp [Shape.ptr]
          · intro h; rw [hdir] at h; cases h
        · intro y ny hy hny
          simp only [Shape.ptr, Option.some.injEq] at hy
          subst hy
          rw [hnx] at hny
          cases hny
          exact ⟨{ nx with parent := some f.addr },
            by simp [Heap.lookup_set_none, hxa, Heap.lookup_put, hltx, hltp], rfl, rfl, rfl⟩
        · intro y hy hyp hyx
          have h1 : y ≠ x := fun e => hyx (by simp [Shape.ptr, e])
          have h2 : y ≠ f.addr := fun e => hyp (by simp [ctxParent, e])
          exact .of_eq (by simp [Heap.lookup_set_none, hy, Heap.lookup_put, hltx, hltp, h1, h2])
      · intro y hy
        by_cases hyx : y = x
        · subst hyx
          simp [Tree.item, Heap.lookup_set_none, hy, Heap.lookup_put, hltx, hltp, hnx]
        · by_cases hyp : y = f.addr
          · subst hyp
            simp [Tree.item, Heap.lookup_set_none, hy, Heap.lookup_put, hltx, hltp, hnp, hyx]
          · simp [Tree.item, Heap.lookup_set_none, hy, Heap.lookup_put, hltx, hltp, hyx, hyp]
      · intro y hy
        by_cases hyx : y = x
        · subst hyx
          simp [Tree.balanceAt, Heap.lookup_set_none, hy, Heap.lookup_put, hltx, hltp, hnx]
        · by_cases hyp : y = f.addr
          · subst hyp
            simp [Tree.balanceAt, Heap.lookup_set_none, hy, Heap.lookup_put, hltx, hltp, hnp, hyx]
          · simp [Tree.balanceAt, Heap.lookup_set_none, hy, Heap.lookup_put, hltx, hltp, hyx, hyp]
    · have hdir : f.dir = .right := by
        cases hdir : f.dir
        · simp only [hdir] at hd
          exact absurd hd.1 hl
        · rfl
      refine ⟨Tree.mk (((t.heap.put f.addr { np with right := some x }).put x
        { nx with parent := some f.addr }).set a none) t.root, -1, ?_, ?_, ?_,
        by simp, ?_, ?_⟩
      · simp [AVLTree.remove, hdesc, Tree.getNode, hna, hnotleaf, hone, hchild, hroot, hroot',
          Tree.delete, hpa, ctxParent, Tree.setParent, Tree.setRight, Tree.modify, hnx, hnp, hl,
          Heap.lookup_put, hltx, hltp, hax, hxa, hpne, hpne.symm, hpx, hpx.symm]
      · simp [AVLTree.removeCount, hdesc, Tree.getNode, hna, hnotleaf, hone, hchild, hroot, hroot',
          Tree.delete, hpa, ctxParent, Tree.setParent, Tree.setRight, Tree.modify, hnx, hnp, hl,
          Heap.lookup_put, hltx, hltp, hax, hxa, hpne, hpne.symm, hpx, hpx.symm]
      · refine splice_zipped hz hK' ?_ ?_ ?_ ?_
        · exact hz.root
        · rintro g c' hgc m hm
          cases hgc
          rw [hnp] at hm
          cases hm
          refine ⟨{ np with right := some x }, ?_, rfl, ?_, ?_⟩
          · simp [Heap.lookup_set_none, hpne, Heap.lookup_put, hltp, hltx, hpx]
          · intro h; rw [hdir] at h; cases h
          · intro _; simp [Shape.ptr]
        · intro y ny hy hny
          simp only [Shape.ptr, Option.some.injEq] at hy
          subst hy
          rw [hnx] at hny
          cases hny
          exact ⟨{ nx with parent := some f.addr },
            by simp [Heap.lookup_set_none, hxa, Heap.lookup_put, hltx, hltp], rfl, rfl, rfl⟩
        · intro y hy hyp hyx
          have h1 : y ≠ x := fun e => hyx (by simp [Shape.ptr, e])
          have h2 : y ≠ f.addr := fun e => hyp (by simp [ctxParent, e])
          exact .of_eq (by simp [Heap.lookup_set_none, hy, Heap.lookup_put, hltx, hltp, h1, h2])
      · intro y hy
        by_cases hyx : y = x
        · subst hyx
          simp [Tree.item, Heap.lookup_set_none, hy, Heap.lookup_put, hltx, hltp, hnx]
        · by_cases hyp : y = f.addr
          · subst hyp
            simp [Tree.item, Heap.lookup_set_none, hy, Heap.lookup_put, hltx, hltp, hnp, hyx]
          · simp [Tree.item, Heap.lookup_set_none, hy, Heap.lookup_put, hltx, hltp, hyx, hyp]
      · intro y hy
        by_cases hyx : y = x
        · subst hyx
          simp [Tree.balanceAt, Heap.lookup_set_none, hy, Heap.lookup_put, hltx, hltp, hnx]
        · by_cases hyp : y = f.addr
          · subst hyp
            simp [Tree.balanceAt, Heap.lookup_set_none, hy, Heap.lookup_put, hltx, hltp, hnp, hyx]
          · simp [Tree.balanceAt, Heap.lookup_set_none, hy, Heap.lookup_put, hltx, hltp, hyx, hyp]

/-- The code of `AVLTree::remove` for a node without children, up to the call of `removeFix`. -/
theorem AVLTree.remove_leaf {t : Tree} {c : List Frame} {a : Nat} (key : Int)
    (hz : t.Zipped c (.node .nil a .nil))
    (hdesc : removeDescend t.fuel t key t.root = .ok (some a)) :
    ∃ t1 diff, AVLTree.remove t key = AVLTree.removeFix t1.fuel t1 (ctxParent c) diff ∧
      t1.Zipped c .nil ∧ t1.heap.length = t.heap.length ∧ ∀ y, y ≠ a → t1.item y = t.item y := by
  obtain ⟨t1, diff, hrun, -, hz1, hlen, hit, -⟩ := AVLTree.remove_leaf_count key hz hdesc
  exact ⟨t1, diff, hrun, hz1, hlen, hit⟩

/-- The code of `AVLTree::remove` for a node with exactly one child, up to the call of
`removeFix`. -/
theorem AVLTree.remove_one_child {t : Tree} {c : List Frame} {L R Kl Kr : Shape} {a x : Nat}
    (key : Int) (hz : t.Zipped c (.node L a R))
    (hK : (L = .nil ∧ .node Kl x Kr = R) ∨ (R = .nil ∧ .node Kl x Kr = L))
    (hdesc : removeDescend t.fuel t key t.root = .ok (some a)) :
    ∃ t1 diff, AVLTree.remove t key = AVLTree.removeFix t1.fuel t1 (ctxParent c) diff ∧
      t1.Zipped c (.node Kl x Kr) ∧ t1.heap.length = t.heap.length ∧
      ∀ y, y ≠ a → t1.item y = t.item y := by
  obtain ⟨t1, diff, hrun, -, hz1, hlen, hit, -⟩ := AVLTree.remove_one_child_count key hz hK hdesc
  exact ⟨t1, diff, hrun, hz1, hlen, hit⟩

theorem findHeightAux_eq (t : Tree) :
    ∀ (s : Shape) (par : Ptr) (fuel : Nat), t.heap.Holds par s → s.height < fuel →
      findHeightAux fuel t s.ptr = .ok (s.height : Int) := by
  intro s
  induction s with
  | nil =>
    intro par fuel _ hf
    cases fuel with
    | zero => omega
    | succ fuel => simp [findHeightAux, Shape.ptr, Shape.height]
  | node l a r ihl ihr =>
    intro par fuel hs hf
    obtain ⟨n, hn, -, hl, hr, hsl, hsr⟩ := hs
    cases fuel with
    | zero => omega
    | succ fuel =>
      simp only [Shape.height] at hf
      have h1 : l.height < fuel := by have := Nat.le_max_left l.height r.height; omega
      have h2 : r.height < fuel := by have := Nat.le_max_right l.height r.height; omega
      have hp : (Shape.node l a r).ptr = some a := rfl
      simp [findHeightAux, hp, Tree.getNode, hn, hl, hr, ihl _ _ hsl h1, ihr _ _ hsr h2,
        Shape.height]

theorem balanceHelperAux_eq (t : Tree) :
    ∀ (s : Shape) (par : Ptr) (fuel : Nat), t.heap.Holds par s → s.height < fuel →
      s.height < t.fuel + 1 →
      balanceHelperAux fuel t s.ptr = .ok (decide s.Balanced) := by
  intro s
  induction s with
  | nil =>
    intro par fuel _ hf _
    cases fuel with
    | zero => omega
    | succ fuel => simp [balanceHelperAux, Shape.ptr, Shape.Balanced]
  | node l a r ihl ihr =>
    intro par fuel hs hf hfuel
    obtain ⟨n, hn, -, hl, hr, hsl, hsr⟩ := hs
    cases fuel with
    | zero => omega
    | succ fuel =>
      simp only [Shape.height] at hf hfuel
      have h1 : l.height < fuel := by have := Nat.le_max_left l.height r.height; omega
      have h2 : r.height < fuel := by have := Nat.le_max_right l.height r.height; omega
      have h3 : l.height < t.fuel := by have := Nat.le_max_left l.height r.height; omega
      have h4 : r.height < t.fuel := by have := Nat.le_max_right l.height r.height; omega
      have e1 : BinarySearchTree.findHeight t l.ptr = .ok (l.height : Int) :=
        findHeightAux_eq t l _ _ hsl h3
      have e2 : BinarySearchTree.findHeight t r.ptr = .ok (r.height : Int) :=
        findHeightAux_eq t r _ _ hsr h4
      have hc : (|(l.height : Int) - (r.height : Int)| ≤ 1) ↔
          (l.height ≤ r.height + 1 ∧ r.height ≤ l.height + 1) := by
        rw [abs_le]; omega
      have hp : (Shape.node l a r).ptr = some a := rfl
      simp [balanceHelperAux, hp, Tree.getNode, hn, hl, hr, e1, e2,
        ihl _ _ hsl h1 (by omega), ihr _ _ hsr h2 (by omega), Shape.Balanced, hc, and_assoc,
        Bool.and_assoc]

/-- On a well-formed tree the heights computed by `findHeight` at the children of every node
differ by at most 1 exactly when the shape is height-balanced. -/
theorem balanced_iff_heights (t : Tree) :
    ∀ (s : Shape) (par : Ptr), t.heap.Holds par s → s.height < t.fuel + 1 →
      (s.Balanced ↔ ∀ a ∈ s.addrs, ∃ n hl hr, t.heap.lookup a = some n ∧
        BinarySearchTree.findHeight t n.left = .ok hl ∧
        BinarySearchTree.findHeight t n.right = .ok hr ∧ |hl - hr| ≤ 1) := by
  intro s
  induction s with
  | nil => intro par _ _; simp [Shape.Balanced, Shape.addrs]
  | node l a r ihl ihr =>
    intro par hs hfuel
    obtain ⟨n, hn, -, hl, hr, hsl, hsr⟩ := hs
    simp only [Shape.height] at hfuel
    have h3 : l.height < t.fuel := by have := Nat.le_max_left l.height r.height; omega
    have h4 : r.height < t.fuel := by have := Nat.le_max_right l.height r.height; omega
    have e1 : BinarySearchTree.findHeight t n.left = .ok (l.height : Int) := by
      rw [hl]; exact findHeightAux_eq t l _ _ hsl h3
    have e2 : BinarySearchTree.findHeight t n.right = .ok (r.height : Int) := by
      rw [hr]; exact findHeightAux_eq t r _ _ hsr h4
    have hc : (|(l.height : Int) - (r.height : Int)| ≤ 1) ↔
        (l.height ≤ r.height + 1 ∧ r.height ≤ l.height + 1) := by
      rw [abs_le]; omega
    simp only [Shape.Balanced, Shape.addrs, List.mem_append, List.mem_cons]
    rw [ihl _ hsl (by omega), ihr _ hsr (by omega)]
    constructor
    · rintro ⟨hb, hL, hR⟩ y (hy | rfl | hy)
      · exact hL y hy
      · exact ⟨n, _, _, hn, e1, e2, hc.mpr hb⟩
      · exact hR y hy
    · intro h
      refine ⟨?_, fun y hy => h y (Or.inl hy), fun y hy => h y (Or.inr (Or.inr hy))⟩
      obtain ⟨n', x, y, hn', hx, hy, hxy⟩ := h a (Or.inr (Or.inl rfl))
      rw [hn] at hn'
      cases hn'
      rw [e1] at hx
      rw [e2] at hy
      cases hx
      cases hy
      exact hc.mp hxy

/-! ## Removal of a node with two children -/

/-- Writing a slot twice keeps the second write. -/
theorem Heap.put_put (h : Heap) (a : Nat) (m m' : Node) : (h.put a m).put a m' = h.put a m' := by
  simp [Heap.put, List.set_set]

/-- Writes to different slots commute. -/
theorem Heap.put_comm (h : Heap) {a b : Nat} (hab : a ≠ b) (m m' : Node) :
    (h.put a m).put b m' = (h.put b m').put a m :=
  List.set_comm _ _ _ hab

set_option maxHeartbeats 1600000 in
/-- The code of `AVLTree::remove` for a node `a` with two children whose predecessor `p` is its
left child, up to the call of `removeFix`: effect on the heap. -/
theorem AVLTree.remove_two_adjacent_run {t : Tree} {a p r0 : Nat} {na np nr0 : Node} (key : Int)
    (hdesc : removeDescend t.fuel t key t.root = .ok (some a))
    (hpred : BinarySearchTree.predecessor t (some a) = .ok (some p))
    (hna : t.heap.lookup a = some na) (hnp : t.heap.lookup p = some np)
    (hnr0 : t.heap.lookup r0 = some nr0)
    (hal : na.left = some p) (har : na.right = some r0) (hpr : np.right = none)
    (hpp : np.parent = some a)
    (hap : a ≠ p) (har0 : a ≠ r0) (hpr0 : p ≠ r0)
    (hx : ∀ x, np.left = some x → x ≠ a ∧ x ≠ p ∧ x ≠ r0 ∧ ∃ nx, t.heap.lookup x = some nx)
    (hpa : ∀ q, na.parent = some q → q ≠ a ∧ q ≠ p ∧ q ≠ r0 ∧ np.left ≠ some q ∧
      ∃ nq, t.heap.lookup q = some nq)
    (hroot : t.root = some a ↔ na.parent = none) (hrootp : t.root ≠ some p) :
    ∃ t1 diff, AVLTree.remove t key = AVLTree.removeFix t1.fuel t1 (some p) diff ∧
      t1.heap.length = t.heap.length ∧
      t1.root = (if na.parent = none then some p else t.root) ∧
      t1.heap.lookup a = none ∧
      t1.heap.lookup p = some { np with parent := na.parent, right := some r0,
                                        balance := wrap8 na.balance } ∧
      t1.heap.lookup r0 = some { nr0 with parent := some p } ∧
      (∀ x nx, np.left = some x → t.heap.lookup x = some nx →
        t1.heap.lookup x = some { nx with parent := some p }) ∧
      (∀ q nq, na.parent = some q → t.heap.lookup q = some nq →
        t1.heap.lookup q = some (if nq.left = some a then { nq with left := some p }
          else { nq with right := some p })) ∧
      (∀ y, y ≠ a → y ≠ p → y ≠ r0 → np.left ≠ some y → na.parent ≠ some y →
        t1.heap.lookup y = t.heap.lookup y) := by
  have hlta := Heap.lookup_lt hna
  have hltp := Heap.lookup_lt hnp
  have hltr := Heap.lookup_lt hnr0
  have hpa' : p ≠ a := fun e => hap e.symm
  have hr0a : r0 ≠ a := fun e => har0 e.symm
  have hr0p : r0 ≠ p := fun e => hpr0 e.symm
  have hnl : ¬ (na.left = none ∧ na.right = none) := by simp [hal]
  have hno : ¬ (na.left = none ∨ na.right = none) := by simp [hal, har]
  have c1 := fun (h : Heap) m m' => Heap.put_comm h hpa' m m'
  have c2 := fun (h : Heap) m m' => Heap.put_comm h hr0a m m'
  have c5 := fun (h : Heap) m m' => Heap.put_comm h hr0p m m'
  rcases hxl : np.left with _ | x <;> rcases hpq : na.parent with _ | q <;>
    simp only [hxl, hpq] at hx hpa hroot
  · have hr : t.root = some a := hroot.mpr trivial
    rw [hr] at hdesc
    apply Exists.intro
    apply Exists.intro
    refine ⟨?_, ?_⟩
    · simp [AVLTree.remove, hdesc, hpred, Tree.getNode, hna, hnl, hno, AVLTree.nodeSwap,
        BinarySearchTree.nodeSwap, Tree.setParent, Tree.setLeft, Tree.setRight, Tree.setBalance,
        Tree.modify, Tree.delete, hnp, hnr0, hal, har, hpr, hpp, hxl, hpq,
        Heap.lookup_put, Heap.length_put, hlta, hltp, hltr, hap, hpa', har0, hr0a, hpr0, hr0p,
        Heap.put_put, c1, c2, c5, hr]
      rfl
    · refine ⟨?_, ?_, ?_, ?_, ?_, ?_, ?_, ?_⟩
      · simp [Tree.fuel, Heap.length_put, Heap.lookup_put, Heap.lookup_set_none, hlta, hltp, hltr,
        hap, hpa', har0, hr0a, hpr0, hr0p, hxl, hpq, hnp, hnr0, hna, hr]
      · simp [Tree.fuel, Heap.length_put, Heap.lookup_put, Heap.lookup_set_none, hlta, hltp, hltr,
        hap, hpa', har0, hr0a, hpr0, hr0p, hxl, hpq, hnp, hnr0, hna, hr]
      · simp [Tree.fuel, Heap.length_put, Heap.lookup_put, Heap.lookup_set_none, hlta, hltp, hltr,
        hap, hpa', har0, hr0a, hpr0, hr0p, hxl, hpq, hnp, hnr0, hna, hr]
      · simp [Tree.fuel, Heap.length_put, Heap.lookup_put, Heap.lookup_set_none, hlta, hltp, hltr,
        hap, hpa', har0, hr0a, hpr0, hr0p, hxl, hpq, hnp, hnr0, hna, hr]
      · simp [Tree.fuel, Heap.length_put, Heap.lookup_put, Heap.lookup_set_none, hlta, hltp, hltr,
        hap, hpa', har0, hr0a, hpr0, hr0p, hxl, hpq, hnp, hnr0, hna, hr]
      · intro x1 nx1 h1
        cases h1
      · intro q1 nq1 h1
        cases h1
      · intro y h1 h2 h3 h4 h5
        simp [Tree.fuel, Heap.length_put, Heap.lookup_put, Heap.lookup_set_none, hlta, hltp, hltr,
        hap, hpa', har0, hr0a, hpr0, hr0p, hxl, hpq, hnp, hnr0, hna, hr, h1, h2, h3]
  · obtain ⟨hqa, hqp, hqr, hqx, nq, hnq⟩ := hpa q rfl
    have hlq := Heap.lookup_lt hnq
    have haq : a ≠ q := fun e => hqa e.symm
    have hpq2 : p ≠ q := fun e => hqp e.symm
    have hrq : r0 ≠ q := fun e => hqr e.symm
    have hra : ¬ t.root = some a := by rw [hroot]; simp
    have c4 := fun (h : Heap) m m' => Heap.put_comm h hqa m m'
    have c7 := fun (h : Heap) m m' => Heap.put_comm h hqp m m'
    have c9 := fun (h : Heap) m m' => Heap.put_comm h hqr m m'
    by_cases hql : nq.left = some a
    · apply Exists.intro
      apply Exists.intro
      refine ⟨?_, ?_⟩
      · simp [AVLTree.remove, hdesc, hpred, Tree.getNode, hna, hnl, hno, AVLTree.nodeSwap,
          BinarySearchTree.nodeSwap, Tree.setParent, Tree.setLeft, Tree.setRight, Tree.setBalance,
          Tree.modify, Tree.delete, hnp, hnr0, hal, har, hpr, hpp, hxl, hpq,
          Heap.lookup_put, Heap.length_put, hlta, hltp, hltr, hap, hpa', har0, hr0a, hpr0, hr0p,
          Heap.put_put, c1, c2, c5, hnq, hlq, hqa, hqp, hqr, haq, hpq2, hrq, hra, hrootp, hql, c4, c7, c9]
        rfl
      · refine ⟨?_, ?_, ?_, ?_, ?_, ?_, ?_, ?_⟩
        · simp [Tree.fuel, Heap.length_put, Heap.lookup_put, Heap.lookup_set_none, hlta, hltp, hltr,
          hap, hpa', har0, hr0a, hpr0, hr0p, hxl, hpq, hnp, hnr0, hna, hnq, hlq, hqa, hqp, hqr, haq, hpq2, hrq, hra, hrootp, hql, c4, c7, c9]
        · simp [Tree.fuel, Heap.length_put, Heap.lookup_put, Heap.lookup_set_none, hlta, hltp, hltr,
          hap, hpa', har0, hr0a, hpr0, hr0p, hxl, hpq, hnp, hnr0, hna, hnq, hlq, hqa, hqp, hqr, haq, hpq2, hrq, hra, hrootp, hql, c4, c7, c9]
        · simp [Tree.fuel, Heap.length_put, Heap.lookup_put, Heap.lookup_set_none, hlta, hltp, hltr,
          hap, hpa', har0, hr0a, hpr0, hr0p, hxl, hpq, hnp, hnr0, hna, hnq, hlq, hqa, hqp, hqr, haq, hpq2, hrq, hra, hrootp, hql, c4, c7, c9]
        · simp [Tree.fuel, Heap.length_put, Heap.lookup_put, Heap.lookup_set_none, hlta, hltp, hltr,
          hap, hpa', har0, hr0a, hpr0, hr0p, hxl, hpq, hnp, hnr0, hna, hnq, hlq, hqa, hqp, hqr, haq, hpq2, hrq, hra, hrootp, hql, c4, c7, c9]
        · simp [Tree.fuel, Heap.length_put, Heap.lookup_put, Heap.lookup_set_none, hlta, hltp, hltr,
          hap, hpa', har0, hr0a, hpr0, hr0p, hxl, hpq, hnp, hnr0, hna, hnq, hlq, hqa, hqp, hqr, haq, hpq2, hrq, hra, hrootp, hql, c4, c7, c9]
        · intro x1 nx1 h1
          cases h1
        · intro q1 nq1 h1 h2
          have e1 : q1 = q := Option.some.inj (h1.symm.trans rfl)
          subst e1
          have e2 : nq1 = nq := Option.some.inj (h2.symm.trans hnq)
          subst e2
          simp [Tree.fuel, Heap.length_put, Heap.lookup_put, Heap.lookup_set_none, hlta, hltp, hltr,
          hap, hpa', har0, hr0a, hpr0, hr0p, hxl, hpq, hnp, hnr0, hna, hnq, hlq, hqa, hqp, hqr, haq, hpq2, hrq, hra, hrootp, hql, c4, c7, c9]
        · intro y h1 h2 h3 h4 h5
          have h7 : y ≠ q := fun e => h5 (by rw [e])
          simp [Tree.fuel, Heap.length_put, Heap.lookup_put, Heap.lookup_set_none, hlta, hltp, hltr,
          hap, hpa', har0, hr0a, hpr0, hr0p, hxl, hpq, hnp, hnr0, hna, hnq, hlq, hqa, hqp, hqr, haq, hpq2, hrq, hra, hrootp, hql, c4, c7, c9, h1, h2, h3, h7]
    · have hql2 : ¬ some a = nq.left := fun e => hql e.symm
      apply Exists.intro
      apply Exists.intro
      refine ⟨?_, ?_⟩
      · simp [AVLTree.remove, hdesc, hpred, Tree.getNode, hna, hnl, hno, AVLTree.nodeSwap,
          BinarySearchTree.nodeSwap, Tree.setParent, Tree.setLeft, Tree.setRight, Tree.setBalance,
          Tree.modify, Tree.delete, hnp, hnr0, hal, har, hpr, hpp, hxl, hpq,
          Heap.lookup_put, Heap.length_put, hlta, hltp, hltr, hap, hpa', har0, hr0a, hpr0, hr0p,
          Heap.put_put, c1, c2, c5, hnq, hlq, hqa, hqp, hqr, haq, hpq2, hrq, hra, hrootp, hql, hql2, c4, c7, c9]
        rfl
      · refine ⟨?_, ?_, ?_, ?_, ?_, ?_, ?_, ?_⟩
        · simp [Tree.fuel, Heap.length_put, Heap.lookup_put, Heap.lookup_set_none, hlta, hltp, hltr,
          hap, hpa', har0, hr0a, hpr0, hr0p, hxl, hpq, hnp, hnr0, hna, hnq, hlq, hqa, hqp, hqr, haq, hpq2, hrq, hra, hrootp, hql, hql2, c4, c7, c9]
        · simp [Tree.fuel, Heap.length_put, Heap.lookup_put, Heap.lookup_set_none, hlta, hltp, hltr,
          hap, hpa', har0, hr0a, hpr0, hr0p, hxl, hpq, hnp, hnr0, hna, hnq, hlq, hqa, hqp, hqr, haq, hpq2, hrq, hra, hrootp, hql, hql2, c4, c7, c9]
        · simp [Tree.fuel, Heap.length_put, Heap.lookup_put, Heap.lookup_set_none, hlta, hltp, hltr,
          hap, hpa', har0, hr0a, hpr0, hr0p, hxl, hpq, hnp, hnr0, hna, hnq, hlq, hqa, hqp, hqr, haq, hpq2, hrq, hra, hrootp, hql, hql2, c4, c7, c9]
        · simp [Tree.fuel, Heap.length_put, Heap.lookup_put, Heap.lookup_set_none, hlta, hltp, hltr,
          hap, hpa', har0, hr0a, hpr0, hr0p, hxl, hpq, hnp, hnr0, hna, hnq, hlq, hqa, hqp, hqr, haq, hpq2, hrq, hra, hrootp, hql, hql2, c4, c7, c9]
        · simp [Tree.fuel, Heap.length_put, Heap.lookup_put, Heap.lookup_set_none, hlta, hltp, hltr,
          hap, hpa', har0, hr0a, hpr0, hr0p, hxl, hpq, hnp, hnr0, hna, hnq, hlq, hqa, hqp, hqr, haq, hpq2, hrq, hra, hrootp, hql, hql2, c4, c7, c9]
        · intro x1 nx1 h1
          cases h1
        · intro q1 nq1 h1 h2
          have e1 : q1 = q := Option.some.inj (h1.symm.trans rfl)
          subst e1
          have e2 : nq1 = nq := Option.some.inj (h2.symm.trans hnq)
          subst e2
          simp [Tree.fuel, Heap.length_put, Heap.lookup_put, Heap.lookup_set_none, hlta, hltp, hltr,
          hap, hpa', har0, hr0a, hpr0, hr0p, hxl, hpq, hnp, hnr0, hna, hnq, hlq, hqa, hqp, hqr, haq, hpq2, hrq, hra, hrootp, hql, hql2, c4, c7, c9]
        · intro y h1 h2 h3 h4 h5
          have h7 : y ≠ q := fun e => h5 (by rw [e])
          simp [Tree.fuel, Heap.length_put, Heap.lookup_put, Heap.lookup_set_none, hlta, hltp, hltr,
          hap, hpa', har0, hr0a, hpr0, hr0p, hxl, hpq, hnp, hnr0, hna, hnq, hlq, hqa, hqp, hqr, haq, hpq2, hrq, hra, hrootp, hql, hql2, c4, c7, c9, h1, h2, h3, h7]
  · have hr : t.root = some a := hroot.mpr trivial
    rw [hr] at hdesc
    obtain ⟨hxa, hxp, hxr, nx, hnx⟩ := hx x rfl
    have hlx := Heap.lookup_lt hnx
    have hax : a ≠ x := fun e => hxa e.symm
    have hpx : p ≠ x := fun e => hxp e.symm
    have hrx : r0 ≠ x := fun e => hxr e.symm
    have c3 := fun (h : Heap) m m' => Heap.put_comm h hxa m m'
    have c6 := fun (h : Heap) m m' => Heap.put_comm h hxp m m'
    have c8 := fun (h : Heap) m m' => Heap.put_comm h hxr m m'
    apply Exists.intro
    apply Exists.intro
    refine ⟨?_, ?_⟩
    · simp [AVLTree.remove, hdesc, hpred, Tree.getNode, hna, hnl, hno, AVLTree.nodeSwap,
        BinarySearchTree.nodeSwap, Tree.setParent, Tree.setLeft, Tree.setRight, Tree.setBalance,
        Tree.modify, Tree.delete, hnp, hnr0, hal, har, hpr, hpp, hxl, hpq,
        Heap.lookup_put, Heap.length_put, hlta, hltp, hltr, hap, hpa', har0, hr0a, hpr0, hr0p,
        Heap.put_put, c1, c2, c5, hr, hnx, hlx, hxa, hxp, hxr, hax, hpx, hrx, c3, c6, c8]
      rfl
    · refine ⟨?_, ?_, ?_, ?_, ?_, ?_, ?_, ?_⟩
      · simp [Tree.fuel, Heap.length_put, Heap.lookup_put, Heap.lookup_set_none, hlta, hltp, hltr,
        hap, hpa', har0, hr0a, hpr0, hr0p, hxl, hpq, hnp, hnr0, hna, hr, hnx, hlx, hxa, hxp, hxr, hax, hpx, hrx, c3, c6, c8]
      · simp [Tree.fuel, Heap.length_put, Heap.lookup_put, Heap.lookup_set_none, hlta, hltp, hltr,
        hap, hpa', har0, hr0a, hpr0, hr0p, hxl, hpq, hnp, hnr0, hna, hr, hnx, hlx, hxa, hxp, hxr, hax, hpx, hrx, c3, c6, c8]
      · simp [Tree.fuel, Heap.length_put, Heap.lookup_put, Heap.lookup_set_none, hlta, hltp, hltr,
        hap, hpa', har0, hr0a, hpr0, hr0p, hxl, hpq, hnp, hnr0, hna, hr, hnx, hlx, hxa, hxp, hxr, hax, hpx, hrx, c3, c6, c8]
      · simp [Tree.fuel, Heap.length_put, Heap.lookup_put, Heap.lookup_set_none, hlta, hltp, hltr,
        hap, hpa', har0, hr0a, hpr0, hr0p, hxl, hpq, hnp, hnr0, hna, hr, hnx, hlx, hxa, hxp, hxr, hax, hpx, hrx, c3, c6, c8]
      · simp [Tree.fuel, Heap.length_put, Heap.lookup_put, Heap.lookup_set_none, hlta, hltp, hltr,
        hap, hpa', har0, hr0a, hpr0, hr0p, hxl, hpq, hnp, hnr0, hna, hr, hnx, hlx, hxa, hxp, hxr, hax, hpx, hrx, c3, c6, c8]
      · intro x1 nx1 h1 h2
        have e1 : x1 = x := Option.some.inj (h1.symm.trans rfl)
        subst e1
        have e2 : nx1 = nx := Option.some.inj (h2.symm.trans hnx)
        subst e2
        simp [Tree.fuel, Heap.length_put, Heap.lookup_put, Heap.lookup_set_none, hlta, hltp, hltr,
        hap, hpa', har0, hr0a, hpr0, hr0p, hxl, hpq, hnp, hnr0, hna, hr, hnx, hlx, hxa, hxp, hxr, hax, hpx, hrx, c3, c6, c8]
      · intro q1 nq1 h1
        cases h1
      · intro y h1 h2 h3 h4 h5
        have h6 : y ≠ x := fun e => h4 (by rw [e])
        simp [Tree.fuel, Heap.length_put, Heap.lookup_put, Heap.lookup_set_none, hlta, hltp, hltr,
        hap, hpa', har0, hr0a, hpr0, hr0p, hxl, hpq, hnp, hnr0, hna, hr, hnx, hlx, hxa, hxp, hxr, hax, hpx, hrx, c3, c6, c8, h1, h2, h3, h6]
  · obtain ⟨hxa, hxp, hxr, nx, hnx⟩ := hx x rfl
    have hlx := Heap.lookup_lt hnx
    have hax : a ≠ x := fun e => hxa e.symm
    have hpx : p ≠ x := fun e => hxp e.symm
    have hrx : r0 ≠ x := fun e => hxr e.symm
    have c3 := fun (h : Heap) m m' => Heap.put_comm h hxa m m'
    have c6 := fun (h : Heap) m m' => Heap.put_comm h hxp m m'
    have c8 := fun (h : Heap) m m' => Heap.put_comm h hxr m m'
    obtain ⟨hqa, hqp, hqr, hqx, nq, hnq⟩ := hpa q rfl
    have hlq := Heap.lookup_lt hnq
    have haq : a ≠ q := fun e => hqa e.symm
    have hpq2 : p ≠ q := fun e => hqp e.symm
    have hrq : r0 ≠ q := fun e => hqr e.symm
    have hra : ¬ t.root = some a := by rw [hroot]; simp
    have c4 := fun (h : Heap) m m' => Heap.put_comm h hqa m m'
    have c7 := fun (h : Heap) m m' => Heap.put_comm h hqp m m'
    have c9 := fun (h : Heap) m m' => Heap.put_comm h hqr m m'
    have hxq : x ≠ q := fun e => hqx (by rw [e])
    have hqx2 : q ≠ x := fun e => hxq e.symm
    have c10 := fun (h : Heap) m m' => Heap.put_comm h hqx2 m m'
    by_cases hql : nq.left = some a
    · apply Exists.intro
      apply Exists.intro
      refine ⟨?_, ?_⟩
      · simp [AVLTree.remove, hdesc, hpred, Tree.getNode, hna, hnl, hno, AVLTree.nodeSwap,
          BinarySearchTree.nodeSwap, Tree.setParent, Tree.setLeft, Tree.setRight, Tree.setBalance,
          Tree.modify, Tree.delete, hnp, hnr0, hal, har, hpr, hpp, hxl, hpq,
          Heap.lookup_put, Heap.length_put, hlta, hltp, hltr, hap, hpa', har0, hr0a, hpr0, hr0p,
          Heap.put_put, c1, c2, c5, hnx, hlx, hxa, hxp, hxr, hax, hpx, hrx, c3, c6, c8, hnq, hlq, hqa, hqp, hqr, haq, hpq2, hrq, hra, hrootp, hql, c4, c7, c9, hxq, hqx2, c10]
        rfl
      · refine ⟨?_, ?_, ?_, ?_, ?_, ?_, ?_, ?_⟩
        · simp [Tree.fuel, Heap.length_put, Heap.lookup_put, Heap.lookup_set_none, hlta, hltp, hltr,
          hap, hpa', har0, hr0a, hpr0, hr0p, hxl, hpq, hnp, hnr0, hna, hnx, hlx, hxa, hxp, hxr, hax, hpx, hrx, c3, c6, c8, hnq, hlq, hqa, hqp, hqr, haq, hpq2, hrq, hra, hrootp, hql, c4, c7, c9, hxq, hqx2, c10]
        · simp [Tree.fuel, Heap.length_put, Heap.lookup_put, Heap.lookup_set_none, hlta, hltp, hltr,
          hap, hpa', har0, hr0a, hpr0, hr0p, hxl, hpq, hnp, hnr0, hna, hnx, hlx, hxa, hxp, hxr, hax, hpx, hrx, c3, c6, c8, hnq, hlq, hqa, hqp, hqr, haq, hpq2, hrq, hra, hrootp, hql, c4, c7, c9, hxq, hqx2, c10]
        · simp [Tree.fuel, Heap.length_put, Heap.lookup_put, Heap.lookup_set_none, hlta, hltp, hltr,
          hap, hpa', har0, hr0a, hpr0, hr0p, hxl, hpq, hnp, hnr0, hna, hnx, hlx, hxa, hxp, hxr, hax, hpx, hrx, c3, c6, c8, hnq, hlq, hqa, hqp, hqr, haq, hpq2, hrq, hra, hrootp, hql, c4, c7, c9, hxq, hqx2, c10]
        · simp [Tree.fuel, Heap.length_put, Heap.lookup_put, Heap.lookup_set_none, hlta, hltp, hltr,
          hap, hpa', har0, hr0a, hpr0, hr0p, hxl, hpq, hnp, hnr0, hna, hnx, hlx, hxa, hxp, hxr, hax, hpx, hrx, c3, c6, c8, hnq, hlq, hqa, hqp, hqr, haq, hpq2, hrq, hra, hrootp, hql, c4, c7, c9, hxq, hqx2, c10]
        · simp [Tree.fuel, Heap.length_put, Heap.lookup_put, Heap.lookup_set_none, hlta, hltp, hltr,
          hap, hpa', har0, hr0a, hpr0, hr0p, hxl, hpq, hnp, hnr0, hna, hnx, hlx, hxa, hxp, hxr, hax, hpx, hrx, c3, c6, c8, hnq, hlq, hqa, hqp, hqr, haq, hpq2, hrq, hra, hrootp, hql, c4, c7, c9, hxq, hqx2, c10]
        · intro x1 nx1 h1 h2
          have e1 : x1 = x := Option.some.inj (h1.symm.trans rfl)
          subst e1
          have e2 : nx1 = nx := Option.some.inj (h2.symm.trans hnx)
          subst e2
          simp [Tree.fuel, Heap.length_put, Heap.lookup_put, Heap.lookup_set_none, hlta, hltp, hltr,
          hap, hpa', har0, hr0a, hpr0, hr0p, hxl, hpq, hnp, hnr0, hna, hnx, hlx, hxa, hxp, hxr, hax, hpx, hrx, c3, c6, c8, hnq, hlq, hqa, hqp, hqr, haq, hpq2, hrq, hra, hrootp, hql, c4, c7, c9, hxq, hqx2, c10]
        · intro q1 nq1 h1 h2
          have e1 : q1 = q := Option.some.inj (h1.symm.trans rfl)
          subst e1
          have e2 : nq1 = nq := Option.some.inj (h2.symm.trans hnq)
          subst e2
          simp [Tree.fuel, Heap.length_put, Heap.lookup_put, Heap.lookup_set_none, hlta, hltp, hltr,
          hap, hpa', har0, hr0a, hpr0, hr0p, hxl, hpq, hnp, hnr0, hna, hnx, hlx, hxa, hxp, hxr, hax, hpx, hrx, c3, c6, c8, hnq, hlq, hqa, hqp, hqr, haq, hpq2, hrq, hra, hrootp, hql, c4, c7, c9, hxq, hqx2, c10]
        · intro y h1 h2 h3 h4 h5
          have h6 : y ≠ x := fun e => h4 (by rw [e])
          have h7 : y ≠ q := fun e => h5 (by rw [e])
          simp [Tree.fuel, Heap.length_put, Heap.lookup_put, Heap.lookup_set_none, hlta, hltp, hltr,
          hap, hpa', har0, hr0a, hpr0, hr0p, hxl, hpq, hnp, hnr0, hna, hnx, hlx, hxa, hxp, hxr, hax, hpx, hrx, c3, c6, c8, hnq, hlq, hqa, hqp, hqr, haq, hpq2, hrq, hra, hrootp, hql, c4, c7, c9, hxq, hqx2, c10, h1, h2, h3, h6, h7]
    · have hql2 : ¬ some a = nq.left := fun e => hql e.symm
      apply Exists.intro
      apply Exists.intro
      refine ⟨?_, ?_⟩
      · simp [AVLTree.remove, hdesc, hpred, Tree.getNode, hna, hnl, hno, AVLTree.nodeSwap,
          BinarySearchTree.nodeSwap, Tree.setParent, Tree.setLeft, Tree.setRight, Tree.setBalance,
          Tree.modify, Tree.delete, hnp, hnr0, hal, har, hpr, hpp, hxl, hpq,
          Heap.lookup_put, Heap.length_put, hlta, hltp, hltr, hap, hpa', har0, hr0a, hpr0, hr0p,
          Heap.put_put, c1, c2, c5, hnx, hlx, hxa, hxp, hxr, hax, hpx, hrx, c3, c6, c8, hnq, hlq, hqa, hqp, hqr, haq, hpq2, hrq, hra, hrootp, hql, hql2, c4, c7, c9, hxq, hqx2, c10]
        rfl
      · refine ⟨?_, ?_, ?_, ?_, ?_, ?_, ?_, ?_⟩
        · simp [Tree.fuel, Heap.length_put, Heap.lookup_put, Heap.lookup_set_none, hlta, hltp, hltr,
          hap, hpa', har0, hr0a, hpr0, hr0p, hxl, hpq, hnp, hnr0, hna, hnx, hlx, hxa, hxp, hxr, hax, hpx, hrx, c3, c6, c8, hnq, hlq, hqa, hqp, hqr, haq, hpq2, hrq, hra, hrootp, hql, hql2, c4, c7, c9, hxq, hqx2, c10]
        · simp [Tree.fuel, Heap.length_put, Heap.lookup_put, Heap.lookup_set_none, hlta, hltp, hltr,
          hap, hpa', har0, hr0a, hpr0, hr0p, hxl, hpq, hnp, hnr0, hna, hnx, hlx, hxa, hxp, hxr, hax, hpx, hrx, c3, c6, c8, hnq, hlq, hqa, hqp, hqr, haq, hpq2, hrq, hra, hrootp, hql, hql2, c4, c7, c9, hxq, hqx2, c10]
        · simp [Tree.fuel, Heap.length_put, Heap.lookup_put, Heap.lookup_set_none, hlta, hltp, hltr,
          hap, hpa', har0, hr0a, hpr0, hr0p, hxl, hpq, hnp, hnr0, hna, hnx, hlx, hxa, hxp, hxr, hax, hpx, hrx, c3, c6, c8, hnq, hlq, hqa, hqp, hqr, haq, hpq2, hrq, hra, hrootp, hql, hql2, c4, c7, c9, hxq, hqx2, c10]
        · simp [Tree.fuel, Heap.length_put, Heap.lookup_put, Heap.lookup_set_none, hlta, hltp, hltr,
          hap, hpa', har0, hr0a, hpr0, hr0p, hxl, hpq, hnp, hnr0, hna, hnx, hlx, hxa, hxp, hxr, hax, hpx, hrx, c3, c6, c8, hnq, hlq, hqa, hqp, hqr, haq, hpq2, hrq, hra, hrootp, hql, hql2, c4, c7, c9, hxq, hqx2, c10]
        · simp [Tree.fuel, Heap.length_put, Heap.lookup_put, Heap.lookup_set_none, hlta, hltp, hltr,
          hap, hpa', har0, hr0a, hpr0, hr0p, hxl, hpq, hnp, hnr0, hna, hnx, hlx, hxa, hxp, hxr, hax, hpx, hrx, c3, c6, c8, hnq, hlq, hqa, hqp, hqr, haq, hpq2, hrq, hra, hrootp, hql, hql2, c4, c7, c9, hxq, hqx2, c10]
        · intro x1 nx1 h1 h2
          have e1 : x1 = x := Option.some.inj (h1.symm.trans rfl)
          subst e1
          have e2 : nx1 = nx := Option.some.inj (h2.symm.trans hnx)
          subst e2
          simp [Tree.fuel, Heap.length_put, Heap.lookup_put, Heap.lookup_set_none, hlta, hltp, hltr,
          hap, hpa', har0, hr0a, hpr0, hr0p, hxl, hpq, hnp, hnr0, hna, hnx, hlx, hxa, hxp, hxr, hax, hpx, hrx, c3, c6, c8, hnq, hlq, hqa, hqp, hqr, haq, hpq2, hrq, hra, hrootp, hql, hql2, c4, c7, c9, hxq, hqx2, c10]
        · intro q1 nq1 h1 h2
          have e1 : q1 = q := Option.some.inj (h1.symm.trans rfl)
          subst e1
          have e2 : nq1 = nq := Option.some.inj (h2.symm.trans hnq)
          subst e2
          simp [Tree.fuel, Heap.length_put, Heap.lookup_put, Heap.lookup_set_none, hlta, hltp, hltr,
          hap, hpa', har0, hr0a, hpr0, hr0p, hxl, hpq, hnp, hnr0, hna, hnx, hlx, hxa, hxp, hxr, hax, hpx, hrx, c3, c6, c8, hnq, hlq, hqa, hqp, hqr, haq, hpq2, hrq, hra, hrootp, hql, hql2, c4, c7, c9, hxq, hqx2, c10]
        · intro y h1 h2 h3 h4 h5
          have h6 : y ≠ x := fun e => h4 (by rw [e])
          have h7 : y ≠ q := fun e => h5 (by rw [e])
          simp [Tree.fuel, Heap.length_put, Heap.lookup_put, Heap.lookup_set_none, hlta, hltp, hltr,
          hap, hpa', har0, hr0a, hpr0, hr0p, hxl, hpq, hnp, hnr0, hna, hnx, hlx, hxa, hxp, hxr, hax, hpx, hrx, c3, c6, c8, hnq, hlq, hqa, hqp, hqr, haq, hpq2, hrq, hra, hrootp, hql, hql2, c4, c7, c9, hxq, hqx2, c10, h1, h2, h3, h6, h7]

set_option maxHeartbeats 1600000 in
/-- The code of `AVLTree::remove` for a node `a` with two children whose predecessor `p` lies
deeper in the left subtree (below `g`, under the left child `l`), up to the call of `removeFix`:
effect on the heap. -/
theorem AVLTree.remove_two_deep_run {t : Tree} {a p r0 l g : Nat} {na np nr0 nl ng : Node}
    (key : Int)
    (hdesc : removeDescend t.fuel t key t.root = .ok (some a))
    (hpred : BinarySearchTree.predecessor t (some a) = .ok (some p))
    (hna : t.heap.lookup a = some na) (hnp : t.heap.lookup p = some np)
    (hnr0 : t.heap.lookup r0 = some nr0) (hnl : t.heap.lookup l = some nl)
    (hng : t.heap.lookup g = some ng)
    (hal : na.left = some l) (har : na.right = some r0) (hpr : np.right = none)
    (hpp : np.parent = some g) (hgp : ng.left ≠ some p) (hga : ng.left ≠ some a)
    (d_a_p : a ≠ p) (d_a_r0 : a ≠ r0) (d_p_r0 : p ≠ r0)
    (d_a_l : a ≠ l) (d_p_l : p ≠ l) (d_r0_l : r0 ≠ l)
    (d_a_g : a ≠ g) (d_p_g : p ≠ g) (d_r0_g : r0 ≠ g)
    (hx : ∀ x, np.left = some x → a ≠ x ∧ p ≠ x ∧ r0 ≠ x ∧ l ≠ x ∧ g ≠ x ∧
      ∃ nx, t.heap.lookup x = some nx)
    (hpa : ∀ q, na.parent = some q → a ≠ q ∧ p ≠ q ∧ r0 ≠ q ∧ l ≠ q ∧ g ≠ q ∧ np.left ≠ some q ∧
      ∃ nq, t.heap.lookup q = some nq)
    (hroot : t.root = some a ↔ na.parent = none) (hrootp : t.root ≠ some p) :
    ∃ t1 diff, AVLTree.remove t key = AVLTree.removeFix t1.fuel t1 (some g) diff ∧
      t1.heap.length = t.heap.length ∧
      t1.root = (if na.parent = none then some p else t.root) ∧
      t1.heap.lookup a = none ∧
      t1.heap.lookup p = some { np with parent := na.parent, left := some l, right := some r0,
                                        balance := wrap8 na.balance } ∧
      t1.heap.lookup r0 = some { nr0 with parent := some p } ∧
      t1.heap.lookup l = some (if l = g then { nl with parent := some p, right := np.left }
        else { nl with parent := some p }) ∧
      (l ≠ g → t1.heap.lookup g = some { ng with right := np.left }) ∧
      (∀ x nx, np.left = some x → t.heap.lookup x = some nx →
        t1.heap.lookup x = some { nx with parent := some g }) ∧
      (∀ q nq, na.parent = some q → t.heap.lookup q = some nq →
        t1.heap.lookup q = some (if nq.left = some a then { nq with left := some p }
          else { nq with right := some p })) ∧
      (∀ y, y ≠ a → y ≠ p → y ≠ r0 → y ≠ l → y ≠ g → np.left ≠ some y → na.parent ≠ some y →
        t1.heap.lookup y = t.heap.lookup y) := by
  have hnl0 : ¬ (na.left = none ∧ na.right = none) := by simp [hal]
  have hno : ¬ (na.left = none ∨ na.right = none) := by simp [hal, har]
  have hgp2 : ¬ some p = ng.left := fun e => hgp e.symm
  have hga2 : ¬ some a = ng.left := fun e => hga e.symm
  by_cases d_l_g : l = g
  · subst d_l_g
    have e0 : nl = ng := Option.some.inj (hnl.symm.trans hng)
    subst e0
    rcases hxl : np.left with _ | x <;> rcases hpq : na.parent with _ | q <;>
      simp only [hxl, hpq] at hx hpa hroot
    · have hr : t.root = some a := hroot.mpr trivial
      rw [hr] at hdesc
      have e_p_a : p ≠ a := fun e => d_a_p e.symm
      have c_a_p := fun (h : Heap) m m' => Heap.put_comm h e_p_a m m'
      have e_r0_a : r0 ≠ a := fun e => d_a_r0 e.symm
      have c_a_r0 := fun (h : Heap) m m' => Heap.put_comm h e_r0_a m m'
      have e_l_a : l ≠ a := fun e => d_a_l e.symm
      have c_a_l := fun (h : Heap) m m' => Heap.put_comm h e_l_a m m'
      have e_r0_p : r0 ≠ p := fun e => d_p_r0 e.symm
      have c_p_r0 := fun (h : Heap) m m' => Heap.put_comm h e_r0_p m m'
      have e_l_p : l ≠ p := fun e => d_p_l e.symm
      have c_p_l := fun (h : Heap) m m' => Heap.put_comm h e_l_p m m'
      have e_l_r0 : l ≠ r0 := fun e => d_r0_l e.symm
      have c_r0_l := fun (h : Heap) m m' => Heap.put_comm h e_l_r0 m m'
      have lt_a := Heap.lookup_lt hna
      have lt_p := Heap.lookup_lt hnp
      have lt_r0 := Heap.lookup_lt hnr0
      have lt_l := Heap.lookup_lt hnl
      apply Exists.intro
      apply Exists.intro
      refine ⟨?_, ?_⟩
      · simp [AVLTree.remove, hdesc, hpred, Tree.getNode, hna, hnl0, hno, AVLTree.nodeSwap,
BinarySearchTree.nodeSwap, Tree.setParent, Tree.setLeft, Tree.setRight, Tree.setBalance,
Tree.modify, Tree.delete, hnp, hnr0, hnl, hng, hal, har, hpr, hpp, hxl, hpq, hgp, hga, hgp2, hga2,
Heap.lookup_put, Heap.length_put, Heap.put_put, d_a_p, e_p_a, d_a_r0, e_r0_a, d_a_l, e_l_a, d_p_r0, e_r0_p, d_p_l, e_l_p, d_r0_l, e_l_r0, lt_a, lt_p, lt_r0, lt_l, hr, c_a_p, c_a_r0, c_a_l, c_p_r0, c_p_l, c_r0_l]
        rfl
      · refine ⟨?_, ?_, ?_, ?_, ?_, ?_, ?_, ?_, ?_, ?_⟩
        · simp [Tree.fuel, Heap.length_put, Heap.lookup_put, Heap.lookup_set_none,
hxl, hpq, hna, hnp, hnr0, hnl, hng, d_a_p, e_p_a, d_a_r0, e_r0_a, d_a_l, e_l_a, d_p_r0, e_r0_p, d_p_l, e_l_p, d_r0_l, e_l_r0, lt_a, lt_p, lt_r0, lt_l, hr]
        · simp [Tree.fuel, Heap.length_put, Heap.lookup_put, Heap.lookup_set_none,
hxl, hpq, hna, hnp, hnr0, hnl, hng, d_a_p, e_p_a, d_a_r0, e_r0_a, d_a_l, e_l_a, d_p_r0, e_r0_p, d_p_l, e_l_p, d_r0_l, e_l_r0, lt_a, lt_p, lt_r0, lt_l, hr]
        · simp [Tree.fuel, Heap.length_put, Heap.lookup_put, Heap.lookup_set_none,
hxl, hpq, hna, hnp, hnr0, hnl, hng, d_a_p, e_p_a, d_a_r0, e_r0_a, d_a_l, e_l_a, d_p_r0, e_r0_p, d_p_l, e_l_p, d_r0_l, e_l_r0, lt_a, lt_p, lt_r0, lt_l, hr]
        · simp [Tree.fuel, Heap.length_put, Heap.lookup_put, Heap.lookup_set_none,
hxl, hpq, hna, hnp, hnr0, hnl, hng, d_a_p, e_p_a, d_a_r0, e_r0_a, d_a_l, e_l_a, d_p_r0, e_r0_p, d_p_l, e_l_p, d_r0_l, e_l_r0, lt_a, lt_p, lt_r0, lt_l, hr]
        · simp [Tree.fuel, Heap.length_put, Heap.lookup_put, Heap.lookup_set_none,
hxl, hpq, hna, hnp, hnr0, hnl, hng, d_a_p, e_p_a, d_a_r0, e_r0_a, d_a_l, e_l_a, d_p_r0, e_r0_p, d_p_l, e_l_p, d_r0_l, e_l_r0, lt_a, lt_p, lt_r0, lt_l, hr]
        · simp [Tree.fuel, Heap.length_put, Heap.lookup_put, Heap.lookup_set_none,
hxl, hpq, hna, hnp, hnr0, hnl, hng, d_a_p, e_p_a, d_a_r0, e_r0_a, d_a_l, e_l_a, d_p_r0, e_r0_p, d_p_l, e_l_p, d_r0_l, e_l_r0, lt_a, lt_p, lt_r0, lt_l, hr]
        · intro h; exact absurd rfl h
        · intro x1 nx1 h1
          cases h1
        · intro q1 nq1 h1
          cases h1
        · intro y h1 h2 h3 h4 h5 h6 h7
          simp [Tree.fuel, Heap.length_put, Heap.lookup_put, Heap.lookup_set_none,
hxl, hpq, hna, hnp, hnr0, hnl, hng, d_a_p, e_p_a, d_a_r0, e_r0_a, d_a_l, e_l_a, d_p_r0, e_r0_p, d_p_l, e_l_p, d_r0_l, e_l_r0, lt_a, lt_p, lt_r0, lt_l, hr, h1, h2, h3, h4, h5]
    · obtain ⟨d_a_q, d_p_q, d_r0_q, d_l_q, d_g_q, hqx, nq, hnq⟩ := hpa q rfl
      have hra : ¬ t.root = some a := by rw [hroot]; simp
      by_cases hql : nq.left = some a
      · have e_p_a : p ≠ a := fun e => d_a_p e.symm
        have c_a_p := fun (h : Heap) m m' => Heap.put_comm h e_p_a m m'
        have e_r0_a : r0 ≠ a := fun e => d_a_r0 e.symm
        have c_a_r0 := fun (h : Heap) m m' => Heap.put_comm h e_r0_a m m'
        have e_l_a : l ≠ a := fun e => d_a_l e.symm
        have c_a_l := fun (h : Heap) m m' => Heap.put_comm h e_l_a m m'
        have e_q_a : q ≠ a := fun e => d_a_q e.symm
        have c_a_q := fun (h : Heap) m m' => Heap.put_comm h e_q_a m m'
        have e_r0_p : r0 ≠ p := fun e => d_p_r0 e.symm
        have c_p_r0 := fun (h : Heap) m m' => Heap.put_comm h e_r0_p m m'
        have e_l_p : l ≠ p := fun e => d_p_l e.symm
        have c_p_l := fun (h : Heap) m m' => Heap.put_comm h e_l_p m m'
        have e_q_p : q ≠ p := fun e => d_p_q e.symm
        have c_p_q := fun (h : Heap) m m' => Heap.put_comm h e_q_p m m'
        have e_l_r0 : l ≠ r0 := fun e => d_r0_l e.symm
        have c_r0_l := fun (h : Heap) m m' => Heap.put_comm h e_l_r0 m m'
        have e_q_r0 : q ≠ r0 := fun e => d_r0_q e.symm
        have c_r0_q := fun (h : Heap) m m' => Heap.put_comm h e_q_r0 m m'
        have e_q_l : q ≠ l := fun e => d_l_q e.symm
        have c_l_q := fun (h : Heap) m m' => Heap.put_comm h e_q_l m m'
        have lt_a := Heap.lookup_lt hna
        have lt_p := Heap.lookup_lt hnp
        have lt_r0 := Heap.lookup_lt hnr0
        have lt_l := Heap.lookup_lt hnl
        have lt_q := Heap.lookup_lt hnq
        apply Exists.intro
        apply Exists.intro
        refine ⟨?_, ?_⟩
        · simp [AVLTree.remove, hdesc, hpred, Tree.getNode, hna, hnl0, hno, AVLTree.nodeSwap,
BinarySearchTree.nodeSwap, Tree.setParent, Tree.setLeft, Tree.setRight, Tree.setBalance,
Tree.modify, Tree.delete, hnp, hnr0, hnl, hng, hal, har, hpr, hpp, hxl, hpq, hgp, hga, hgp2, hga2,
Heap.lookup_put, Heap.length_put, Heap.put_put, d_a_p, e_p_a, d_a_r0, e_r0_a, d_a_l, e_l_a, d_a_q, e_q_a, d_p_r0, e_r0_p, d_p_l, e_l_p, d_p_q, e_q_p, d_r0_l, e_l_r0, d_r0_q, e_q_r0, d_l_q, e_q_l, lt_a, lt_p, lt_r0, lt_l, lt_q, hnq, hra, hrootp, hql, c_a_p, c_a_r0, c_a_l, c_a_q, c_p_r0, c_p_l, c_p_q, c_r0_l, c_r0_q, c_l_q]
          rfl
        · refine ⟨?_, ?_, ?_, ?_, ?_, ?_, ?_, ?_, ?_, ?_⟩
          · simp [Tree.fuel, Heap.length_put, Heap.lookup_put, Heap.lookup_set_none,
hxl, hpq, hna, hnp, hnr0, hnl, hng, d_a_p, e_p_a, d_a_r0, e_r0_a, d_a_l, e_l_a, d_a_q, e_q_a, d_p_r0, e_r0_p, d_p_l, e_l_p, d_p_q, e_q_p, d_r0_l, e_l_r0, d_r0_q, e_q_r0, d_l_q, e_q_l, lt_a, lt_p, lt_r0, lt_l, lt_q, hnq, hra, hrootp, hql]
          · simp [Tree.fuel, Heap.length_put, Heap.lookup_put, Heap.lookup_set_none,
hxl, hpq, hna, hnp, hnr0, hnl, hng, d_a_p, e_p_a, d_a_r0, e_r0_a, d_a_l, e_l_a, d_a_q, e_q_a, d_p_r0, e_r0_p, d_p_l, e_l_p, d_p_q, e_q_p, d_r0_l, e_l_r0, d_r0_q, e_q_r0, d_l_q, e_q_l, lt_a, lt_p, lt_r0, lt_l, lt_q, hnq, hra, hrootp, hql]
          · simp [Tree.fuel, Heap.length_put, Heap.lookup_put, Heap.lookup_set_none,
hxl, hpq, hna, hnp, hnr0, hnl, hng, d_a_p, e_p_a, d_a_r0, e_r0_a, d_a_l, e_l_a, d_a_q, e_q_a, d_p_r0, e_r0_p, d_p_l, e_l_p, d_p_q, e_q_p, d_r0_l, e_l_r0, d_r0_q, e_q_r0, d_l_q, e_q_l, lt_a, lt_p, lt_r0, lt_l, lt_q, hnq, hra, hrootp, hql]
          · simp [Tree.fuel, Heap.length_put, Heap.lookup_put, Heap.lookup_set_none,
hxl, hpq, hna, hnp, hnr0, hnl, hng, d_a_p, e_p_a, d_a_r0, e_r0_a, d_a_l, e_l_a, d_a_q, e_q_a, d_p_r0, e_r0_p, d_p_l, e_l_p, d_p_q, e_q_p, d_r0_l, e_l_r0, d_r0_q, e_q_r0, d_l_q, e_q_l, lt_a, lt_p, lt_r0, lt_l, lt_q, hnq, hra, hrootp, hql]
          · simp [Tree.fuel, Heap.length_put, Heap.lookup_put, Heap.lookup_set_none,
hxl, hpq, hna, hnp, hnr0, hnl, hng, d_a_p, e_p_a, d_a_r0, e_r0_a, d_a_l, e_l_a, d_a_q, e_q_a, d_p_r0, e_r0_p, d_p_l, e_l_p, d_p_q, e_q_p, d_r0_l, e_l_r0, d_r0_q, e_q_r0, d_l_q, e_q_l, lt_a, lt_p, lt_r0, lt_l, lt_q, hnq, hra, hrootp, hql]
          · simp [Tree.fuel, Heap.length_put, Heap.lookup_put, Heap.lookup_set_none,
hxl, hpq, hna, hnp, hnr0, hnl, hng, d_a_p, e_p_a, d_a_r0, e_r0_a, d_a_l, e_l_a, d_a_q, e_q_a, d_p_r0, e_r0_p, d_p_l, e_l_p, d_p_q, e_q_p, d_r0_l, e_l_r0, d_r0_q, e_q_r0, d_l_q, e_q_l, lt_a, lt_p, lt_r0, lt_l, lt_q, hnq, hra, hrootp, hql]
          · intro h; exact absurd rfl h
          · intro x1 nx1 h1
            cases h1
          · intro q1 nq1 h1 h2
            have e1 : q1 = q := Option.some.inj (h1.symm.trans rfl)
            subst e1
            have e2 : nq1 = nq := Option.some.inj (h2.symm.trans hnq)
            subst e2
            simp [Tree.fuel, Heap.length_put, Heap.lookup_put, Heap.lookup_set_none,
hxl, hpq, hna, hnp, hnr0, hnl, hng, d_a_p, e_p_a, d_a_r0, e_r0_a, d_a_l, e_l_a, d_a_q, e_q_a, d_p_r0, e_r0_p, d_p_l, e_l_p, d_p_q, e_q_p, d_r0_l, e_l_r0, d_r0_q, e_q_r0, d_l_q, e_q_l, lt_a, lt_p, lt_r0, lt_l, lt_q, hnq, hra, hrootp, hql]
          · intro y h1 h2 h3 h4 h5 h6 h7
            have h9 : y ≠ q := fun e => h7 (by rw [e])
            simp [Tree.fuel, Heap.length_put, Heap.lookup_put, Heap.lookup_set_none,
hxl, hpq, hna, hnp, hnr0, hnl, hng, d_a_p, e_p_a, d_a_r0, e_r0_a, d_a_l, e_l_a, d_a_q, e_q_a, d_p_r0, e_r0_p, d_p_l, e_l_p, d_p_q, e_q_p, d_r0_l, e_l_r0, d_r0_q, e_q_r0, d_l_q, e_q_l, lt_a, lt_p, lt_r0, lt_l, lt_q, hnq, hra, hrootp, hql, h1, h2, h3, h4, h5, h9]
      · have hql2 : ¬ some a = nq.left := fun e => hql e.symm
        have e_p_a : p ≠ a := fun e => d_a_p e.symm
        have c_a_p := fun (h : Heap) m m' => Heap.put_comm h e_p_a m m'
        have e_r0_a : r0 ≠ a := fun e => d_a_r0 e.symm
        have c_a_r0 := fun (h : Heap) m m' => Heap.put_comm h e_r0_a m m'
        have e_l_a : l ≠ a := fun e => d_a_l e.symm
        have c_a_l := fun (h : Heap) m m' => Heap.put_comm h e_l_a m m'
        have e_q_a : q ≠ a := fun e => d_a_q e.symm
        have c_a_q := fun (h : Heap) m m' => Heap.put_comm h e_q_a m m'
        have e_r0_p : r0 ≠ p := fun e => d_p_r0 e.symm
        have c_p_r0 := fun (h : Heap) m m' => Heap.put_comm h e_r0_p m m'
        have e_l_p : l ≠ p := fun e => d_p_l e.symm
        have c_p_l := fun (h : Heap) m m' => Heap.put_comm h e_l_p m m'
        have e_q_p : q ≠ p := fun e => d_p_q e.symm
        have c_p_q := fun (h : Heap) m m' => Heap.put_comm h e_q_p m m'
        have e_l_r0 : l ≠ r0 := fun e => d_r0_l e.symm
        have c_r0_l := fun (h : Heap) m m' => Heap.put_comm h e_l_r0 m m'
        have e_q_r0 : q ≠ r0 := fun e => d_r0_q e.symm
        have c_r0_q := fun (h : Heap) m m' => Heap.put_comm h e_q_r0 m m'
        have e_q_l : q ≠ l := fun e => d_l_q e.symm
        have c_l_q := fun (h : Heap) m m' => Heap.put_comm h e_q_l m m'
        have lt_a := Heap.lookup_lt hna
        have lt_p := Heap.lookup_lt hnp
        have lt_r0 := Heap.lookup_lt hnr0
        have lt_l := Heap.lookup_lt hnl
        have lt_q := Heap.lookup_lt hnq
        apply Exists.intro
        apply Exists.intro
        refine ⟨?_, ?_⟩
        · simp [AVLTree.remove, hdesc, hpred, Tree.getNode, hna, hnl0, hno, AVLTree.nodeSwap,
BinarySearchTree.nodeSwap, Tree.setParent, Tree.setLeft, Tree.setRight, Tree.setBalance,
Tree.modify, Tree.delete, hnp, hnr0, hnl, hng, hal, har, hpr, hpp, hxl, hpq, hgp, hga, hgp2, hga2,
Heap.lookup_put, Heap.length_put, Heap.put_put, d_a_p, e_p_a, d_a_r0, e_r0_a, d_a_l, e_l_a, d_a_q, e_q_a, d_p_r0, e_r0_p, d_p_l, e_l_p, d_p_q, e_q_p, d_r0_l, e_l_r0, d_r0_q, e_q_r0, d_l_q, e_q_l, lt_a, lt_p, lt_r0, lt_l, lt_q, hnq, hra, hrootp, hql, hql2, c_a_p, c_a_r0, c_a_l, c_a_q, c_p_r0, c_p_l, c_p_q, c_r0_l, c_r0_q, c_l_q]
          rfl
        · refine ⟨?_, ?_, ?_, ?_, ?_, ?_, ?_, ?_, ?_, ?_⟩
          · simp [Tree.fuel, Heap.length_put, Heap.lookup_put, Heap.lookup_set_none,
hxl, hpq, hna, hnp, hnr0, hnl, hng, d_a_p, e_p_a, d_a_r0, e_r0_a, d_a_l, e_l_a, d_a_q, e_q_a, d_p_r0, e_r0_p, d_p_l, e_l_p, d_p_q, e_q_p, d_r0_l, e_l_r0, d_r0_q, e_q_r0, d_l_q, e_q_l, lt_a, lt_p, lt_r0, lt_l, lt_q, hnq, hra, hrootp, hql, hql2]
          · simp [Tree.fuel, Heap.length_put, Heap.lookup_put, Heap.lookup_set_none,
hxl, hpq, hna, hnp, hnr0, hnl, hng, d_a_p, e_p_a, d_a_r0, e_r0_a, d_a_l, e_l_a, d_a_q, e_q_a, d_p_r0, e_r0_p, d_p_l, e_l_p, d_p_q, e_q_p, d_r0_l, e_l_r0, d_r0_q, e_q_r0, d_l_q, e_q_l, lt_a, lt_p, lt_r0, lt_l, lt_q, hnq, hra, hrootp, hql, hql2]
          · simp [Tree.fuel, Heap.length_put, Heap.lookup_put, Heap.lookup_set_none,
hxl, hpq, hna, hnp, hnr0, hnl, hng, d_a_p, e_p_a, d_a_r0, e_r0_a, d_a_l, e_l_a, d_a_q, e_q_a, d_p_r0, e_r0_p, d_p_l, e_l_p, d_p_q, e_q_p, d_r0_l, e_l_r0, d_r0_q, e_q_r0, d_l_q, e_q_l, lt_a, lt_p, lt_r0, lt_l, lt_q, hnq, hra, hrootp, hql, hql2]
          · simp [Tree.fuel, Heap.length_put, Heap.lookup_put, Heap.lookup_set_none,
hxl, hpq, hna, hnp, hnr0, hnl, hng, d_a_p, e_p_a, d_a_r0, e_r0_a, d_a_l, e_l_a, d_a_q, e_q_a, d_p_r0, e_r0_p, d_p_l, e_l_p, d_p_q, e_q_p, d_r0_l, e_l_r0, d_r0_q, e_q_r0, d_l_q, e_q_l, lt_a, lt_p, lt_r0, lt_l, lt_q, hnq, hra, hrootp, hql, hql2]
          · simp [Tree.fuel, Heap.length_put, Heap.lookup_put, Heap.lookup_set_none,
hxl, hpq, hna, hnp, hnr0, hnl, hng, d_a_p, e_p_a, d_a_r0, e_r0_a, d_a_l, e_l_a, d_a_q, e_q_a, d_p_r0, e_r0_p, d_p_l, e_l_p, d_p_q, e_q_p, d_r0_l, e_l_r0, d_r0_q, e_q_r0, d_l_q, e_q_l, lt_a, lt_p, lt_r0, lt_l, lt_q, hnq, hra, hrootp, hql, hql2]
          · simp [Tree.fuel, Heap.length_put, Heap.lookup_put, Heap.lookup_set_none,
hxl, hpq, hna, hnp, hnr0, hnl, hng, d_a_p, e_p_a, d_a_r0, e_r0_a, d_a_l, e_l_a, d_a_q, e_q_a, d_p_r0, e_r0_p, d_p_l, e_l_p, d_p_q, e_q_p, d_r0_l, e_l_r0, d_r0_q, e_q_r0, d_l_q, e_q_l, lt_a, lt_p, lt_r0, lt_l, lt_q, hnq, hra, hrootp, hql, hql2]
          · intro h; exact absurd rfl h
          · intro x1 nx1 h1
            cases h1
          · intro q1 nq1 h1 h2
            have e1 : q1 = q := Option.some.inj (h1.symm.trans rfl)
            subst e1
            have e2 : nq1 = nq := Option.some.inj (h2.symm.trans hnq)
            subst e2
            simp [Tree.fuel, Heap.length_put, Heap.lookup_put, Heap.lookup_set_none,
hxl, hpq, hna, hnp, hnr0, hnl, hng, d_a_p, e_p_a, d_a_r0, e_r0_a, d_a_l, e_l_a, d_a_q, e_q_a, d_p_r0, e_r0_p, d_p_l, e_l_p, d_p_q, e_q_p, d_r0_l, e_l_r0, d_r0_q, e_q_r0, d_l_q, e_q_l, lt_a, lt_p, lt_r0, lt_l, lt_q, hnq, hra, hrootp, hql, hql2]
          · intro y h1 h2 h3 h4 h5 h6 h7
            have h9 : y ≠ q := fun e => h7 (by rw [e])
            simp [Tree.fuel, Heap.length_put, Heap.lookup_put, Heap.lookup_set_none,
hxl, hpq, hna, hnp, hnr0, hnl, hng, d_a_p, e_p_a, d_a_r0, e_r0_a, d_a_l, e_l_a, d_a_q, e_q_a, d_p_r0, e_r0_p, d_p_l, e_l_p, d_p_q, e_q_p, d_r0_l, e_l_r0, d_r0_q, e_q_r0, d_l_q, e_q_l, lt_a, lt_p, lt_r0, lt_l, lt_q, hnq, hra, hrootp, hql, hql2, h1, h2, h3, h4, h5, h9]
    · have hr : t.root = some a := hroot.mpr trivial
      rw [hr] at hdesc
      obtain ⟨d_a_x, d_p_x, d_r0_x, d_l_x, d_g_x, nx, hnx⟩ := hx x rfl
      have e_p_a : p ≠ a := fun e => d_a_p e.symm
      have c_a_p := fun (h : Heap) m m' => Heap.put_comm h e_p_a m m'
      have e_r0_a : r0 ≠ a := fun e => d_a_r0 e.symm
      have c_a_r0 := fun (h : Heap) m m' => Heap.put_comm h e_r0_a m m'
      have e_l_a : l ≠ a := fun e => d_a_l e.symm
      have c_a_l := fun (h : Heap) m m' => Heap.put_comm h e_l_a m m'
      have e_x_a : x ≠ a := fun e => d_a_x e.symm
      have c_a_x := fun (h : Heap) m m' => Heap.put_comm h e_x_a m m'
      have e_r0_p : r0 ≠ p := fun e => d_p_r0 e.symm
      have c_p_r0 := fun (h : Heap) m m' => Heap.put_comm h e_r0_p m m'
      have e_l_p : l ≠ p := fun e => d_p_l e.symm
      have c_p_l := fun (h : Heap) m m' => Heap.put_comm h e_l_p m m'
      have e_x_p : x ≠ p := fun e => d_p_x e.symm
      have c_p_x := fun (h : Heap) m m' => Heap.put_comm h e_x_p m m'
      have e_l_r0 : l ≠ r0 := fun e => d_r0_l e.symm
      have c_r0_l := fun (h : Heap) m m' => Heap.put_comm h e_l_r0 m m'
      have e_x_r0 : x ≠ r0 := fun e => d_r0_x e.symm
      have c_r0_x := fun (h : Heap) m m' => Heap.put_comm h e_x_r0 m m'
      have e_x_l : x ≠ l := fun e => d_l_x e.symm
      have c_l_x := fun (h : Heap) m m' => Heap.put_comm h e_x_l m m'
      have lt_a := Heap.lookup_lt hna
      have lt_p := Heap.lookup_lt hnp
      have lt_r0 := Heap.lookup_lt hnr0
      have lt_l := Heap.lookup_lt hnl
      have lt_x := Heap.lookup_lt hnx
      apply Exists.intro
      apply Exists.intro
      refine ⟨?_, ?_⟩
      · simp [AVLTree.remove, hdesc, hpred, Tree.getNode, hna, hnl0, hno, AVLTree.nodeSwap,
BinarySearchTree.nodeSwap, Tree.setParent, Tree.setLeft, Tree.setRight, Tree.setBalance,
Tree.modify, Tree.delete, hnp, hnr0, hnl, hng, hal, har, hpr, hpp, hxl, hpq, hgp, hga, hgp2, hga2,
Heap.lookup_put, Heap.length_put, Heap.put_put, d_a_p, e_p_a, d_a_r0, e_r0_a, d_a_l, e_l_a, d_a_x, e_x_a, d_p_r0, e_r0_p, d_p_l, e_l_p, d_p_x, e_x_p, d_r0_l, e_l_r0, d_r0_x, e_x_r0, d_l_x, e_x_l, lt_a, lt_p, lt_r0, lt_l, lt_x, hnx, hr, c_a_p, c_a_r0, c_a_l, c_a_x, c_p_r0, c_p_l, c_p_x, c_r0_l, c_r0_x, c_l_x]
        rfl
      · refine ⟨?_, ?_, ?_, ?_, ?_, ?_, ?_, ?_, ?_, ?_⟩
        · simp [Tree.fuel, Heap.length_put, Heap.lookup_put, Heap.lookup_set_none,
hxl, hpq, hna, hnp, hnr0, hnl, hng, d_a_p, e_p_a, d_a_r0, e_r0_a, d_a_l, e_l_a, d_a_x, e_x_a, d_p_r0, e_r0_p, d_p_l, e_l_p, d_p_x, e_x_p, d_r0_l, e_l_r0, d_r0_x, e_x_r0, d_l_x, e_x_l, lt_a, lt_p, lt_r0, lt_l, lt_x, hnx, hr]
        · simp [Tree.fuel, Heap.length_put, Heap.lookup_put, Heap.lookup_set_none,
hxl, hpq, hna, hnp, hnr0, hnl, hng, d_a_p, e_p_a, d_a_r0, e_r0_a, d_a_l, e_l_a, d_a_x, e_x_a, d_p_r0, e_r0_p, d_p_l, e_l_p, d_p_x, e_x_p, d_r0_l, e_l_r0, d_r0_x, e_x_r0, d_l_x, e_x_l, lt_a, lt_p, lt_r0, lt_l, lt_x, hnx, hr]
        · simp [Tree.fuel, Heap.length_put, Heap.lookup_put, Heap.lookup_set_none,
hxl, hpq, hna, hnp, hnr0, hnl, hng, d_a_p, e_p_a, d_a_r0, e_r0_a, d_a_l, e_l_a, d_a_x, e_x_a, d_p_r0, e_r0_p, d_p_l, e_l_p, d_p_x, e_x_p, d_r0_l, e_l_r0, d_r0_x, e_x_r0, d_l_x, e_x_l, lt_a, lt_p, lt_r0, lt_l, lt_x, hnx, hr]
        · simp [Tree.fuel, Heap.length_put, Heap.lookup_put, Heap.lookup_set_none,
hxl, hpq, hna, hnp, hnr0, hnl, hng, d_a_p, e_p_a, d_a_r0, e_r0_a, d_a_l, e_l_a, d_a_x, e_x_a, d_p_r0, e_r0_p, d_p_l, e_l_p, d_p_x, e_x_p, d_r0_l, e_l_r0, d_r0_x, e_x_r0, d_l_x, e_x_l, lt_a, lt_p, lt_r0, lt_l, lt_x, hnx, hr]
        · simp [Tree.fuel, Heap.length_put, Heap.lookup_put, Heap.lookup_set_none,
hxl, hpq, hna, hnp, hnr0, hnl, hng, d_a_p, e_p_a, d_a_r0, e_r0_a, d_a_l, e_l_a, d_a_x, e_x_a, d_p_r0, e_r0_p, d_p_l, e_l_p, d_p_x, e_x_p, d_r0_l, e_l_r0, d_r0_x, e_x_r0, d_l_x, e_x_l, lt_a, lt_p, lt_r0, lt_l, lt_x, hnx, hr]
        · simp [Tree.fuel, Heap.length_put, Heap.lookup_put, Heap.lookup_set_none,
hxl, hpq, hna, hnp, hnr0, hnl, hng, d_a_p, e_p_a, d_a_r0, e_r0_a, d_a_l, e_l_a, d_a_x, e_x_a, d_p_r0, e_r0_p, d_p_l, e_l_p, d_p_x, e_x_p, d_r0_l, e_l_r0, d_r0_x, e_x_r0, d_l_x, e_x_l, lt_a, lt_p, lt_r0, lt_l, lt_x, hnx, hr]
        · intro h; exact absurd rfl h
        · intro x1 nx1 h1 h2
          have e1 : x1 = x := Option.some.inj (h1.symm.trans rfl)
          subst e1
          have e2 : nx1 = nx := Option.some.inj (h2.symm.trans hnx)
          subst e2
          simp [Tree.fuel, Heap.length_put, Heap.lookup_put, Heap.lookup_set_none,
hxl, hpq, hna, hnp, hnr0, hnl, hng, d_a_p, e_p_a, d_a_r0, e_r0_a, d_a_l, e_l_a, d_a_x, e_x_a, d_p_r0, e_r0_p, d_p_l, e_l_p, d_p_x, e_x_p, d_r0_l, e_l_r0, d_r0_x, e_x_r0, d_l_x, e_x_l, lt_a, lt_p, lt_r0, lt_l, lt_x, hnx, hr]
        · intro q1 nq1 h1
          cases h1
        · intro y h1 h2 h3 h4 h5 h6 h7
          have h8 : y ≠ x := fun e => h6 (by rw [e])
          simp [Tree.fuel, Heap.length_put, Heap.lookup_put, Heap.lookup_set_none,
hxl, hpq, hna, hnp, hnr0, hnl, hng, d_a_p, e_p_a, d_a_r0, e_r0_a, d_a_l, e_l_a, d_a_x, e_x_a, d_p_r0, e_r0_p, d_p_l, e_l_p, d_p_x, e_x_p, d_r0_l, e_l_r0, d_r0_x, e_x_r0, d_l_x, e_x_l, lt_a, lt_p, lt_r0, lt_l, lt_x, hnx, hr, h1, h2, h3, h4, h5, h8]
    · obtain ⟨d_a_x, d_p_x, d_r0_x, d_l_x, d_g_x, nx, hnx⟩ := hx x rfl
      obtain ⟨d_a_q, d_p_q, d_r0_q, d_l_q, d_g_q, hqx, nq, hnq⟩ := hpa q rfl
      have hra : ¬ t.root = some a := by rw [hroot]; simp
      have d_x_q : x ≠ q := fun e => hqx (by rw [e])
      by_cases hql : nq.left = some a
      · have e_p_a : p ≠ a := fun e => d_a_p e.symm
        have c_a_p := fun (h : Heap) m m' => Heap.put_comm h e_p_a m m'
        have e_r0_a : r0 ≠ a := fun e => d_a_r0 e.symm
        have c_a_r0 := fun (h : Heap) m m' => Heap.put_comm h e_r0_a m m'
        have e_l_a : l ≠ a := fun e => d_a_l e.symm
        have c_a_l := fun (h : Heap) m m' => Heap.put_comm h e_l_a m m'
        have e_x_a : x ≠ a := fun e => d_a_x e.symm
        have c_a_x := fun (h : Heap) m m' => Heap.put_comm h e_x_a m m'
        have e_q_a : q ≠ a := fun e => d_a_q e.symm
        have c_a_q := fun (h : Heap) m m' => Heap.put_comm h e_q_a m m'
        have e_r0_p : r0 ≠ p := fun e => d_p_r0 e.symm
        have c_p_r0 := fun (h : Heap) m m' => Heap.put_comm h e_r0_p m m'
        have e_l_p : l ≠ p := fun e => d_p_l e.symm
        have c_p_l := fun (h : Heap) m m' => Heap.put_comm h e_l_p m m'
        have e_x_p : x ≠ p := fun e => d_p_x e.symm
        have c_p_x := fun (h : Heap) m m' => Heap.put_comm h e_x_p m m'
        have e_q_p : q ≠ p := fun e => d_p_q e.symm
        have c_p_q := fun (h : Heap) m m' => Heap.put_comm h e_q_p m m'
        have e_l_r0 : l ≠ r0 := fun e => d_r0_l e.symm
        have c_r0_l := fun (h : Heap) m m' => Heap.put_comm h e_l_r0 m m'
        have e_x_r0 : x ≠ r0 := fun e => d_r0_x e.symm
        have c_r0_x := fun (h : Heap) m m' => Heap.put_comm h e_x_r0 m m'
        have e_q_r0 : q ≠ r0 := fun e => d_r0_q e.symm
        have c_r0_q := fun (h : Heap) m m' => Heap.put_comm h e_q_r0 m m'
        have e_x_l : x ≠ l := fun e => d_l_x e.symm
        have c_l_x := fun (h : Heap) m m' => Heap.put_comm h e_x_l m m'
        have e_q_l : q ≠ l := fun e => d_l_q e.symm
        have c_l_q := fun (h : Heap) m m' => Heap.put_comm h e_q_l m m'
        have e_q_x : q ≠ x := fun e => d_x_q e.symm
        have c_x_q := fun (h : Heap) m m' => Heap.put_comm h e_q_x m m'
        have lt_a := Heap.lookup_lt hna
        have lt_p := Heap.lookup_lt hnp
        have lt_r0 := Heap.lookup_lt hnr0
        have lt_l := Heap.lookup_lt hnl
        have lt_x := Heap.lookup_lt hnx
        have lt_q := Heap.lookup_lt hnq
        apply Exists.intro
        apply Exists.intro
        refine ⟨?_, ?_⟩
        · simp [AVLTree.remove, hdesc, hpred, Tree.getNode, hna, hnl0, hno, AVLTree.nodeSwap,
BinarySearchTree.nodeSwap, Tree.setParent, Tree.setLeft, Tree.setRight, Tree.setBalance,
Tree.modify, Tree.delete, hnp, hnr0, hnl, hng, hal, har, hpr, hpp, hxl, hpq, hgp, hga, hgp2, hga2,
Heap.lookup_put, Heap.length_put, Heap.put_put, d_a_p, e_p_a, d_a_r0, e_r0_a, d_a_l, e_l_a, d_a_x, e_x_a, d_a_q, e_q_a, d_p_r0, e_r0_p, d_p_l, e_l_p, d_p_x, e_x_p, d_p_q, e_q_p, d_r0_l, e_l_r0, d_r0_x, e_x_r0, d_r0_q, e_q_r0, d_l_x, e_x_l, d_l_q, e_q_l, d_x_q, e_q_x, lt_a, lt_p, lt_r0, lt_l, lt_x, lt_q, hnx, hnq, hra, hrootp, hql, c_a_p, c_a_r0, c_a_l, c_a_x, c_a_q, c_p_r0, c_p_l, c_p_x, c_p_q, c_r0_l, c_r0_x, c_r0_q, c_l_x, c_l_q, c_x_q]
          rfl
        · refine ⟨?_, ?_, ?_, ?_, ?_, ?_, ?_, ?_, ?_, ?_⟩
          · simp [Tree.fuel, Heap.length_put, Heap.lookup_put, Heap.lookup_set_none,
hxl, hpq, hna, hnp, hnr0, hnl, hng, d_a_p, e_p_a, d_a_r0, e_r0_a, d_a_l, e_l_a, d_a_x, e_x_a, d_a_q, e_q_a, d_p_r0, e_r0_p, d_p_l, e_l_p, d_p_x, e_x_p, d_p_q, e_q_p, d_r0_l, e_l_r0, d_r0_x, e_x_r0, d_r0_q, e_q_r0, d_l_x, e_x_l, d_l_q, e_q_l, d_x_q, e_q_x, lt_a, lt_p, lt_r0, lt_l, lt_x, lt_q, hnx, hnq, hra, hrootp, hql]
          · simp [Tree.fuel, Heap.length_put, Heap.lookup_put, Heap.lookup_set_none,
hxl, hpq, hna, hnp, hnr0, hnl, hng, d_a_p, e_p_a, d_a_r0, e_r0_a, d_a_l, e_l_a, d_a_x, e_x_a, d_a_q, e_q_a, d_p_r0, e_r0_p, d_p_l, e_l_p, d_p_x, e_x_p, d_p_q, e_q_p, d_r0_l, e_l_r0, d_r0_x, e_x_r0, d_r0_q, e_q_r0, d_l_x, e_x_l, d_l_q, e_q_l, d_x_q, e_q_x, lt_a, lt_p, lt_r0, lt_l, lt_x, lt_q, hnx, hnq, hra, hrootp, hql]
          · simp [Tree.fuel, Heap.length_put, Heap.lookup_put, Heap.lookup_set_none,
hxl, hpq, hna, hnp, hnr0, hnl, hng, d_a_p, e_p_a, d_a_r0, e_r0_a, d_a_l, e_l_a, d_a_x, e_x_a, d_a_q, e_q_a, d_p_r0, e_r0_p, d_p_l, e_l_p, d_p_x, e_x_p, d_p_q, e_q_p, d_r0_l, e_l_r0, d_r0_x, e_x_r0, d_r0_q, e_q_r0, d_l_x, e_x_l, d_l_q, e_q_l, d_x_q, e_q_x, lt_a, lt_p, lt_r0, lt_l, lt_x, lt_q, hnx, hnq, hra, hrootp, hql]
          · simp [Tree.fuel, Heap.length_put, Heap.lookup_put, Heap.lookup_set_none,
hxl, hpq, hna, hnp, hnr0, hnl, hng, d_a_p, e_p_a, d_a_r0, e_r0_a, d_a_l, e_l_a, d_a_x, e_x_a, d_a_q, e_q_a, d_p_r0, e_r0_p, d_p_l, e_l_p, d_p_x, e_x_p, d_p_q, e_q_p, d_r0_l, e_l_r0, d_r0_x, e_x_r0, d_r0_q, e_q_r0, d_l_x, e_x_l, d_l_q, e_q_l, d_x_q, e_q_x, lt_a, lt_p, lt_r0, lt_l, lt_x, lt_q, hnx, hnq, hra, hrootp, hql]
          · simp [Tree.fuel, Heap.length_put, Heap.lookup_put, Heap.lookup_set_none,
hxl, hpq, hna, hnp, hnr0, hnl, hng, d_a_p, e_p_a, d_a_r0, e_r0_a, d_a_l, e_l_a, d_a_x, e_x_a, d_a_q, e_q_a, d_p_r0, e_r0_p, d_p_l, e_l_p, d_p_x, e_x_p, d_p_q, e_q_p, d_r0_l, e_l_r0, d_r0_x, e_x_r0, d_r0_q, e_q_r0, d_l_x, e_x_l, d_l_q, e_q_l, d_x_q, e_q_x, lt_a, lt_p, lt_r0, lt_l, lt_x, lt_q, hnx, hnq, hra, hrootp, hql]
          · simp [Tree.fuel, Heap.length_put, Heap.lookup_put, Heap.lookup_set_none,
hxl, hpq, hna, hnp, hnr0, hnl, hng, d_a_p, e_p_a, d_a_r0, e_r0_a, d_a_l, e_l_a, d_a_x, e_x_a, d_a_q, e_q_a, d_p_r0, e_r0_p, d_p_l, e_l_p, d_p_x, e_x_p, d_p_q, e_q_p, d_r0_l, e_l_r0, d_r0_x, e_x_r0, d_r0_q, e_q_r0, d_l_x, e_x_l, d_l_q, e_q_l, d_x_q, e_q_x, lt_a, lt_p, lt_r0, lt_l, lt_x, lt_q, hnx, hnq, hra, hrootp, hql]
          · intro h; exact absurd rfl h
          · intro x1 nx1 h1 h2
            have e1 : x1 = x := Option.some.inj (h1.symm.trans rfl)
            subst e1
            have e2 : nx1 = nx := Option.some.inj (h2.symm.trans hnx)
            subst e2
            simp [Tree.fuel, Heap.length_put, Heap.lookup_put, Heap.lookup_set_none,
hxl, hpq, hna, hnp, hnr0, hnl, hng, d_a_p, e_p_a, d_a_r0, e_r0_a, d_a_l, e_l_a, d_a_x, e_x_a, d_a_q, e_q_a, d_p_r0, e_r0_p, d_p_l, e_l_p, d_p_x, e_x_p, d_p_q, e_q_p, d_r0_l, e_l_r0, d_r0_x, e_x_r0, d_r0_q, e_q_r0, d_l_x, e_x_l, d_l_q, e_q_l, d_x_q, e_q_x, lt_a, lt_p, lt_r0, lt_l, lt_x, lt_q, hnx, hnq, hra, hrootp, hql]
          · intro q1 nq1 h1 h2
            have e1 : q1 = q := Option.some.inj (h1.symm.trans rfl)
            subst e1
            have e2 : nq1 = nq := Option.some.inj (h2.symm.trans hnq)
            subst e2
            simp [Tree.fuel, Heap.length_put, Heap.lookup_put, Heap.lookup_set_none,
hxl, hpq, hna, hnp, hnr0, hnl, hng, d_a_p, e_p_a, d_a_r0, e_r0_a, d_a_l, e_l_a, d_a_x, e_x_a, d_a_q, e_q_a, d_p_r0, e_r0_p, d_p_l, e_l_p, d_p_x, e_x_p, d_p_q, e_q_p, d_r0_l, e_l_r0, d_r0_x, e_x_r0, d_r0_q, e_q_r0, d_l_x, e_x_l, d_l_q, e_q_l, d_x_q, e_q_x, lt_a, lt_p, lt_r0, lt_l, lt_x, lt_q, hnx, hnq, hra, hrootp, hql]
          · intro y h1 h2 h3 h4 h5 h6 h7
            have h8 : y ≠ x := fun e => h6 (by rw [e])
            have h9 : y ≠ q := fun e => h7 (by rw [e])
            simp [Tree.fuel, Heap.length_put, Heap.lookup_put, Heap.lookup_set_none,
hxl, hpq, hna, hnp, hnr0, hnl, hng, d_a_p, e_p_a, d_a_r0, e_r0_a, d_a_l, e_l_a, d_a_x, e_x_a, d_a_q, e_q_a, d_p_r0, e_r0_p, d_p_l, e_l_p, d_p_x, e_x_p, d_p_q, e_q_p, d_r0_l, e_l_r0, d_r0_x, e_x_r0, d_r0_q, e_q_r0, d_l_x, e_x_l, d_l_q, e_q_l, d_x_q, e_q_x, lt_a, lt_p, lt_r0, lt_l, lt_x, lt_q, hnx, hnq, hra, hrootp, hql, h1, h2, h3, h4, h5, h8, h9]
      · have hql2 : ¬ some a = nq.left := fun e => hql e.symm
        have e_p_a : p ≠ a := fun e => d_a_p e.symm
        have c_a_p := fun (h : Heap) m m' => Heap.put_comm h e_p_a m m'
        have e_r0_a : r0 ≠ a := fun e => d_a_r0 e.symm
        have c_a_r0 := fun (h : Heap) m m' => Heap.put_comm h e_r0_a m m'
        have e_l_a : l ≠ a := fun e => d_a_l e.symm
        have c_a_l := fun (h : Heap) m m' => Heap.put_comm h e_l_a m m'
        have e_x_a : x ≠ a := fun e => d_a_x e.symm
        have c_a_x := fun (h : Heap) m m' => Heap.put_comm h e_x_a m m'
        have e_q_a : q ≠ a := fun e => d_a_q e.symm
        have c_a_q := fun (h : Heap) m m' => Heap.put_comm h e_q_a m m'
        have e_r0_p : r0 ≠ p := fun e => d_p_r0 e.symm
        have c_p_r0 := fun (h : Heap) m m' => Heap.put_comm h e_r0_p m m'
        have e_l_p : l ≠ p := fun e => d_p_l e.symm
        have c_p_l := fun (h : Heap) m m' => Heap.put_comm h e_l_p m m'
        have e_x_p : x ≠ p := fun e => d_p_x e.symm
        have c_p_x := fun (h : Heap) m m' => Heap.put_comm h e_x_p m m'
        have e_q_p : q ≠ p := fun e => d_p_q e.symm
        have c_p_q := fun (h : Heap) m m' => Heap.put_comm h e_q_p m m'
        have e_l_r0 : l ≠ r0 := fun e => d_r0_l e.symm
        have c_r0_l := fun (h : Heap) m m' => Heap.put_comm h e_l_r0 m m'
        have e_x_r0 : x ≠ r0 := fun e => d_r0_x e.symm
        have c_r0_x := fun (h : Heap) m m' => Heap.put_comm h e_x_r0 m m'
        have e_q_r0 : q ≠ r0 := fun e => d_r0_q e.symm
        have c_r0_q := fun (h : Heap) m m' => Heap.put_comm h e_q_r0 m m'
        have e_x_l : x ≠ l := fun e => d_l_x e.symm
        have c_l_x := fun (h : Heap) m m' => Heap.put_comm h e_x_l m m'
        have e_q_l : q ≠ l := fun e => d_l_q e.symm
        have c_l_q := fun (h : Heap) m m' => Heap.put_comm h e_q_l m m'
        have e_q_x : q ≠ x := fun e => d_x_q e.symm
        have c_x_q := fun (h : Heap) m m' => Heap.put_comm h e_q_x m m'
        have lt_a := Heap.lookup_lt hna
        have lt_p := Heap.lookup_lt hnp
        have lt_r0 := Heap.lookup_lt hnr0
        have lt_l := Heap.lookup_lt hnl
        have lt_x := Heap.lookup_lt hnx
        have lt_q := Heap.lookup_lt hnq
        apply Exists.intro
        apply Exists.intro
        refine ⟨?_, ?_⟩
        · simp [AVLTree.remove, hdesc, hpred, Tree.getNode, hna, hnl0, hno, AVLTree.nodeSwap,
BinarySearchTree.nodeSwap, Tree.setParent, Tree.setLeft, Tree.setRight, Tree.setBalance,
Tree.modify, Tree.delete, hnp, hnr0, hnl, hng, hal, har, hpr, hpp, hxl, hpq, hgp, hga, hgp2, hga2,
Heap.lookup_put, Heap.length_put, Heap.put_put, d_a_p, e_p_a, d_a_r0, e_r0_a, d_a_l, e_l_a, d_a_x, e_x_a, d_a_q, e_q_a, d_p_r0, e_r0_p, d_p_l, e_l_p, d_p_x, e_x_p, d_p_q, e_q_p, d_r0_l, e_l_r0, d_r0_x, e_x_r0, d_r0_q, e_q_r0, d_l_x, e_x_l, d_l_q, e_q_l, d_x_q, e_q_x, lt_a, lt_p, lt_r0, lt_l, lt_x, lt_q, hnx, hnq, hra, hrootp, hql, hql2, c_a_p, c_a_r0, c_a_l, c_a_x, c_a_q, c_p_r0, c_p_l, c_p_x, c_p_q, c_r0_l, c_r0_x, c_r0_q, c_l_x, c_l_q, c_x_q]
          rfl
        · refine ⟨?_, ?_, ?_, ?_, ?_, ?_, ?_, ?_, ?_, ?_⟩
          · simp [Tree.fuel, Heap.length_put, Heap.lookup_put, Heap.lookup_set_none,
hxl, hpq, hna, hnp, hnr0, hnl, hng, d_a_p, e_p_a, d_a_r0, e_r0_a, d_a_l, e_l_a, d_a_x, e_x_a, d_a_q, e_q_a, d_p_r0, e_r0_p, d_p_l, e_l_p, d_p_x, e_x_p, d_p_q, e_q_p, d_r0_l, e_l_r0, d_r0_x, e_x_r0, d_r0_q, e_q_r0, d_l_x, e_x_l, d_l_q, e_q_l, d_x_q, e_q_x, lt_a, lt_p, lt_r0, lt_l, lt_x, lt_q, hnx, hnq, hra, hrootp, hql, hql2]
          · simp [Tree.fuel, Heap.length_put, Heap.lookup_put, Heap.lookup_set_none,
hxl, hpq, hna, hnp, hnr0, hnl, hng, d_a_p, e_p_a, d_a_r0, e_r0_a, d_a_l, e_l_a, d_a_x, e_x_a, d_a_q, e_q_a, d_p_r0, e_r0_p, d_p_l, e_l_p, d_p_x, e_x_p, d_p_q, e_q_p, d_r0_l, e_l_r0, d_r0_x, e_x_r0, d_r0_q, e_q_r0, d_l_x, e_x_l, d_l_q, e_q_l, d_x_q, e_q_x, lt_a, lt_p, lt_r0, lt_l, lt_x, lt_q, hnx, hnq, hra, hrootp, hql, hql2]
          · simp [Tree.fuel, Heap.length_put, Heap.lookup_put, Heap.lookup_set_none,
hxl, hpq, hna, hnp, hnr0, hnl, hng, d_a_p, e_p_a, d_a_r0, e_r0_a, d_a_l, e_l_a, d_a_x, e_x_a, d_a_q, e_q_a, d_p_r0, e_r0_p, d_p_l, e_l_p, d_p_x, e_x_p, d_p_q, e_q_p, d_r0_l, e_l_r0, d_r0_x, e_x_r0, d_r0_q, e_q_r0, d_l_x, e_x_l, d_l_q, e_q_l, d_x_q, e_q_x, lt_a, lt_p, lt_r0, lt_l, lt_x, lt_q, hnx, hnq, hra, hrootp, hql, hql2]
          · simp [Tree.fuel, Heap.length_put, Heap.lookup_put, Heap.lookup_set_none,
hxl, hpq, hna, hnp, hnr0, hnl, hng, d_a_p, e_p_a, d_a_r0, e_r0_a, d_a_l, e_l_a, d_a_x, e_x_a, d_a_q, e_q_a, d_p_r0, e_r0_p, d_p_l, e_l_p, d_p_x, e_x_p, d_p_q, e_q_p, d_r0_l, e_l_r0, d_r0_x, e_x_r0, d_r0_q, e_q_r0, d_l_x, e_x_l, d_l_q, e_q_l, d_x_q, e_q_x, lt_a, lt_p, lt_r0, lt_l, lt_x, lt_q, hnx, hnq, hra, hrootp, hql, hql2]
          · simp [Tree.fuel, Heap.length_put, Heap.lookup_put, Heap.lookup_set_none,
hxl, hpq, hna, hnp, hnr0, hnl, hng, d_a_p, e_p_a, d_a_r0, e_r0_a, d_a_l, e_l_a, d_a_x, e_x_a, d_a_q, e_q_a, d_p_r0, e_r0_p, d_p_l, e_l_p, d_p_x, e_x_p, d_p_q, e_q_p, d_r0_l, e_l_r0, d_r0_x, e_x_r0, d_r0_q, e_q_r0, d_l_x, e_x_l, d_l_q, e_q_l, d_x_q, e_q_x, lt_a, lt_p, lt_r0, lt_l, lt_x, lt_q, hnx, hnq, hra, hrootp, hql, hql2]
          · simp [Tree.fuel, Heap.length_put, Heap.lookup_put, Heap.lookup_set_none,
hxl, hpq, hna, hnp, hnr0, hnl, hng, d_a_p, e_p_a, d_a_r0, e_r0_a, d_a_l, e_l_a, d_a_x, e_x_a, d_a_q, e_q_a, d_p_r0, e_r0_p, d_p_l, e_l_p, d_p_x, e_x_p, d_p_q, e_q_p, d_r0_l, e_l_r0, d_r0_x, e_x_r0, d_r0_q, e_q_r0, d_l_x, e_x_l, d_l_q, e_q_l, d_x_q, e_q_x, lt_a, lt_p, lt_r0, lt_l, lt_x, lt_q, hnx, hnq, hra, hrootp, hql, hql2]
          · intro h; exact absurd rfl h
          · intro x1 nx1 h1 h2
            have e1 : x1 = x := Option.some.inj (h1.symm.trans rfl)
            subst e1
            have e2 : nx1 = nx := Option.some.inj (h2.symm.trans hnx)
            subst e2
            simp [Tree.fuel, Heap.length_put, Heap.lookup_put, Heap.lookup_set_none,
hxl, hpq, hna, hnp, hnr0, hnl, hng, d_a_p, e_p_a, d_a_r0, e_r0_a, d_a_l, e_l_a, d_a_x, e_x_a, d_a_q, e_q_a, d_p_r0, e_r0_p, d_p_l, e_l_p, d_p_x, e_x_p, d_p_q, e_q_p, d_r0_l, e_l_r0, d_r0_x, e_x_r0, d_r0_q, e_q_r0, d_l_x, e_x_l, d_l_q, e_q_l, d_x_q, e_q_x, lt_a, lt_p, lt_r0, lt_l, lt_x, lt_q, hnx, hnq, hra, hrootp, hql, hql2]
          · intro q1 nq1 h1 h2
            have e1 : q1 = q := Option.some.inj (h1.symm.trans rfl)
            subst e1
            have e2 : nq1 = nq := Option.some.inj (h2.symm.trans hnq)
            subst e2
            simp [Tree.fuel, Heap.length_put, Heap.lookup_put, Heap.lookup_set_none,
hxl, hpq, hna, hnp, hnr0, hnl, hng, d_a_p, e_p_a, d_a_r0, e_r0_a, d_a_l, e_l_a, d_a_x, e_x_a, d_a_q, e_q_a, d_p_r0, e_r0_p, d_p_l, e_l_p, d_p_x, e_x_p, d_p_q, e_q_p, d_r0_l, e_l_r0, d_r0_x, e_x_r0, d_r0_q, e_q_r0, d_l_x, e_x_l, d_l_q, e_q_l, d_x_q, e_q_x, lt_a, lt_p, lt_r0, lt_l, lt_x, lt_q, hnx, hnq, hra, hrootp, hql, hql2]
          · intro y h1 h2 h3 h4 h5 h6 h7
            have h8 : y ≠ x := fun e => h6 (by rw [e])
            have h9 : y ≠ q := fun e => h7 (by rw [e])
            simp [Tree.fuel, Heap.length_put, Heap.lookup_put, Heap.lookup_set_none,
hxl, hpq, hna, hnp, hnr0, hnl, hng, d_a_p, e_p_a, d_a_r0, e_r0_a, d_a_l, e_l_a, d_a_x, e_x_a, d_a_q, e_q_a, d_p_r0, e_r0_p, d_p_l, e_l_p, d_p_x, e_x_p, d_p_q, e_q_p, d_r0_l, e_l_r0, d_r0_x, e_x_r0, d_r0_q, e_q_r0, d_l_x, e_x_l, d_l_q, e_q_l, d_x_q, e_q_x, lt_a, lt_p, lt_r0, lt_l, lt_x, lt_q, hnx, hnq, hra, hrootp, hql, hql2, h1, h2, h3, h4, h5, h8, h9]
  · rcases hxl : np.left with _ | x <;> rcases hpq : na.parent with _ | q <;>
      simp only [hxl, hpq] at hx hpa hroot
    · have hr : t.root = some a := hroot.mpr trivial
      rw [hr] at hdesc
      have e_p_a : p ≠ a := fun e => d_a_p e.symm
      have c_a_p := fun (h : Heap) m m' => Heap.put_comm h e_p_a m m'
      have e_r0_a : r0 ≠ a := fun e => d_a_r0 e.symm
      have c_a_r0 := fun (h : Heap) m m' => Heap.put_comm h e_r0_a m m'
      have e_l_a : l ≠ a := fun e => d_a_l e.symm
      have c_a_l := fun (h : Heap) m m' => Heap.put_comm h e_l_a m m'
      have e_g_a : g ≠ a := fun e => d_a_g e.symm
      have c_a_g := fun (h : Heap) m m' => Heap.put_comm h e_g_a m m'
      have e_r0_p : r0 ≠ p := fun e => d_p_r0 e.symm
      have c_p_r0 := fun (h : Heap) m m' => Heap.put_comm h e_r0_p m m'
      have e_l_p : l ≠ p := fun e => d_p_l e.symm
      have c_p_l := fun (h : Heap) m m' => Heap.put_comm h e_l_p m m'
      have e_g_p : g ≠ p := fun e => d_p_g e.symm
      have c_p_g := fun (h : Heap) m m' => Heap.put_comm h e_g_p m m'
      have e_l_r0 : l ≠ r0 := fun e => d_r0_l e.symm
      have c_r0_l := fun (h : Heap) m m' => Heap.put_comm h e_l_r0 m m'
      have e_g_r0 : g ≠ r0 := fun e => d_r0_g e.symm
      have c_r0_g := fun (h : Heap) m m' => Heap.put_comm h e_g_r0 m m'
      have e_g_l : g ≠ l := fun e => d_l_g e.symm
      have c_l_g := fun (h : Heap) m m' => Heap.put_comm h e_g_l m m'
      have lt_a := Heap.lookup_lt hna
      have lt_p := Heap.lookup_lt hnp
      have lt_r0 := Heap.lookup_lt hnr0
      have lt_l := Heap.lookup_lt hnl
      have lt_g := Heap.lookup_lt hng
      apply Exists.intro
      apply Exists.intro
      refine ⟨?_, ?_⟩
      · simp [AVLTree.remove, hdesc, hpred, Tree.getNode, hna, hnl0, hno, AVLTree.nodeSwap,
BinarySearchTree.nodeSwap, Tree.setParent, Tree.setLeft, Tree.setRight, Tree.setBalance,
Tree.modify, Tree.delete, hnp, hnr0, hnl, hng, hal, har, hpr, hpp, hxl, hpq, hgp, hga, hgp2, hga2,
Heap.lookup_put, Heap.length_put, Heap.put_put, d_a_p, e_p_a, d_a_r0, e_r0_a, d_a_l, e_l_a, d_a_g, e_g_a, d_p_r0, e_r0_p, d_p_l, e_l_p, d_p_g, e_g_p, d_r0_l, e_l_r0, d_r0_g, e_g_r0, d_l_g, e_g_l, lt_a, lt_p, lt_r0, lt_l, lt_g, hr, c_a_p, c_a_r0, c_a_l, c_a_g, c_p_r0, c_p_l, c_p_g, c_r0_l, c_r0_g, c_l_g]
        rfl
      · refine ⟨?_, ?_, ?_, ?_, ?_, ?_, ?_, ?_, ?_, ?_⟩
        · simp [Tree.fuel, Heap.length_put, Heap.lookup_put, Heap.lookup_set_none,
hxl, hpq, hna, hnp, hnr0, hnl, hng, d_a_p, e_p_a, d_a_r0, e_r0_a, d_a_l, e_l_a, d_a_g, e_g_a, d_p_r0, e_r0_p, d_p_l, e_l_p, d_p_g, e_g_p, d_r0_l, e_l_r0, d_r0_g, e_g_r0, d_l_g, e_g_l, lt_a, lt_p, lt_r0, lt_l, lt_g, hr]
        · simp [Tree.fuel, Heap.length_put, Heap.lookup_put, Heap.lookup_set_none,
hxl, hpq, hna, hnp, hnr0, hnl, hng, d_a_p, e_p_a, d_a_r0, e_r0_a, d_a_l, e_l_a, d_a_g, e_g_a, d_p_r0, e_r0_p, d_p_l, e_l_p, d_p_g, e_g_p, d_r0_l, e_l_r0, d_r0_g, e_g_r0, d_l_g, e_g_l, lt_a, lt_p, lt_r0, lt_l, lt_g, hr]
        · simp [Tree.fuel, Heap.length_put, Heap.lookup_put, Heap.lookup_set_none,
hxl, hpq, hna, hnp, hnr0, hnl, hng, d_a_p, e_p_a, d_a_r0, e_r0_a, d_a_l, e_l_a, d_a_g, e_g_a, d_p_r0, e_r0_p, d_p_l, e_l_p, d_p_g, e_g_p, d_r0_l, e_l_r0, d_r0_g, e_g_r0, d_l_g, e_g_l, lt_a, lt_p, lt_r0, lt_l, lt_g, hr]
        · simp [Tree.fuel, Heap.length_put, Heap.lookup_put, Heap.lookup_set_none,
hxl, hpq, hna, hnp, hnr0, hnl, hng, d_a_p, e_p_a, d_a_r0, e_r0_a, d_a_l, e_l_a, d_a_g, e_g_a, d_p_r0, e_r0_p, d_p_l, e_l_p, d_p_g, e_g_p, d_r0_l, e_l_r0, d_r0_g, e_g_r0, d_l_g, e_g_l, lt_a, lt_p, lt_r0, lt_l, lt_g, hr]
        · simp [Tree.fuel, Heap.length_put, Heap.lookup_put, Heap.lookup_set_none,
hxl, hpq, hna, hnp, hnr0, hnl, hng, d_a_p, e_p_a, d_a_r0, e_r0_a, d_a_l, e_l_a, d_a_g, e_g_a, d_p_r0, e_r0_p, d_p_l, e_l_p, d_p_g, e_g_p, d_r0_l, e_l_r0, d_r0_g, e_g_r0, d_l_g, e_g_l, lt_a, lt_p, lt_r0, lt_l, lt_g, hr]
        · simp [Tree.fuel, Heap.length_put, Heap.lookup_put, Heap.lookup_set_none,
hxl, hpq, hna, hnp, hnr0, hnl, hng, d_a_p, e_p_a, d_a_r0, e_r0_a, d_a_l, e_l_a, d_a_g, e_g_a, d_p_r0, e_r0_p, d_p_l, e_l_p, d_p_g, e_g_p, d_r0_l, e_l_r0, d_r0_g, e_g_r0, d_l_g, e_g_l, lt_a, lt_p, lt_r0, lt_l, lt_g, hr]
        · intro _; simp [Tree.fuel, Heap.length_put, Heap.lookup_put, Heap.lookup_set_none,
hxl, hpq, hna, hnp, hnr0, hnl, hng, d_a_p, e_p_a, d_a_r0, e_r0_a, d_a_l, e_l_a, d_a_g, e_g_a, d_p_r0, e_r0_p, d_p_l, e_l_p, d_p_g, e_g_p, d_r0_l, e_l_r0, d_r0_g, e_g_r0, d_l_g, e_g_l, lt_a, lt_p, lt_r0, lt_l, lt_g, hr]
        · intro x1 nx1 h1
          cases h1
        · intro q1 nq1 h1
          cases h1
        · intro y h1 h2 h3 h4 h5 h6 h7
          simp [Tree.fuel, Heap.length_put, Heap.lookup_put, Heap.lookup_set_none,
hxl, hpq, hna, hnp, hnr0, hnl, hng, d_a_p, e_p_a, d_a_r0, e_r0_a, d_a_l, e_l_a, d_a_g, e_g_a, d_p_r0, e_r0_p, d_p_l, e_l_p, d_p_g, e_g_p, d_r0_l, e_l_r0, d_r0_g, e_g_r0, d_l_g, e_g_l, lt_a, lt_p, lt_r0, lt_l, lt_g, hr, h1, h2, h3, h4, h5]
    · obtain ⟨d_a_q, d_p_q, d_r0_q, d_l_q, d_g_q, hqx, nq, hnq⟩ := hpa q rfl
      have hra : ¬ t.root = some a := by rw [hroot]; simp
      by_cases hql : nq.left = some a
      · have e_p_a : p ≠ a := fun e => d_a_p e.symm
        have c_a_p := fun (h : Heap) m m' => Heap.put_comm h e_p_a m m'
        have e_r0_a : r0 ≠ a := fun e => d_a_r0 e.symm
        have c_a_r0 := fun (h : Heap) m m' => Heap.put_comm h e_r0_a m m'
        have e_l_a : l ≠ a := fun e => d_a_l e.symm
        have c_a_l := fun (h : Heap) m m' => Heap.put_comm h e_l_a m m'
        have e_g_a : g ≠ a := fun e => d_a_g e.symm
        have c_a_g := fun (h : Heap) m m' => Heap.put_comm h e_g_a m m'
        have e_q_a : q ≠ a := fun e => d_a_q e.symm
        have c_a_q := fun (h : Heap) m m' => Heap.put_comm h e_q_a m m'
        have e_r0_p : r0 ≠ p := fun e => d_p_r0 e.symm
        have c_p_r0 := fun (h : Heap) m m' => Heap.put_comm h e_r0_p m m'
        have e_l_p : l ≠ p := fun e => d_p_l e.symm
        have c_p_l := fun (h : Heap) m m' => Heap.put_comm h e_l_p m m'
        have e_g_p : g ≠ p := fun e => d_p_g e.symm
        have c_p_g := fun (h : Heap) m m' => Heap.put_comm h e_g_p m m'
        have e_q_p : q ≠ p := fun e => d_p_q e.symm
        have c_p_q := fun (h : Heap) m m' => Heap.put_comm h e_q_p m m'
        have e_l_r0 : l ≠ r0 := fun e => d_r0_l e.symm
        have c_r0_l := fun (h : Heap) m m' => Heap.put_comm h e_l_r0 m m'
        have e_g_r0 : g ≠ r0 := fun e => d_r0_g e.symm
        have c_r0_g := fun (h : Heap) m m' => Heap.put_comm h e_g_r0 m m'
        have e_q_r0 : q ≠ r0 := fun e => d_r0_q e.symm
        have c_r0_q := fun (h : Heap) m m' => Heap.put_comm h e_q_r0 m m'
        have e_g_l : g ≠ l := fun e => d_l_g e.symm
        have c_l_g := fun (h : Heap) m m' => Heap.put_comm h e_g_l m m'
        have e_q_l : q ≠ l := fun e => d_l_q e.symm
        have c_l_q := fun (h : Heap) m m' => Heap.put_comm h e_q_l m m'
        have e_q_g : q ≠ g := fun e => d_g_q e.symm
        have c_g_q := fun (h : Heap) m m' => Heap.put_comm h e_q_g m m'
        have lt_a := Heap.lookup_lt hna
        have lt_p := Heap.lookup_lt hnp
        have lt_r0 := Heap.lookup_lt hnr0
        have lt_l := Heap.lookup_lt hnl
        have lt_g := Heap.lookup_lt hng
        have lt_q := Heap.lookup_lt hnq
        apply Exists.intro
        apply Exists.intro
        refine ⟨?_, ?_⟩
        · simp [AVLTree.remove, hdesc, hpred, Tree.getNode, hna, hnl0, hno, AVLTree.nodeSwap,
BinarySearchTree.nodeSwap, Tree.setParent, Tree.setLeft, Tree.setRight, Tree.setBalance,
Tree.modify, Tree.delete, hnp, hnr0, hnl, hng, hal, har, hpr, hpp, hxl, hpq, hgp, hga, hgp2, hga2,
Heap.lookup_put, Heap.length_put, Heap.put_put, d_a_p, e_p_a, d_a_r0, e_r0_a, d_a_l, e_l_a, d_a_g, e_g_a, d_a_q, e_q_a, d_p_r0, e_r0_p, d_p_l, e_l_p, d_p_g, e_g_p, d_p_q, e_q_p, d_r0_l, e_l_r0, d_r0_g, e_g_r0, d_r0_q, e_q_r0, d_l_g, e_g_l, d_l_q, e_q_l, d_g_q, e_q_g, lt_a, lt_p, lt_r0, lt_l, lt_g, lt_q, hnq, hra, hrootp, hql, c_a_p, c_a_r0, c_a_l, c_a_g, c_a_q, c_p_r0, c_p_l, c_p_g, c_p_q, c_r0_l, c_r0_g, c_r0_q, c_l_g, c_l_q, c_g_q]
          rfl
        · refine ⟨?_, ?_, ?_, ?_, ?_, ?_, ?_, ?_, ?_, ?_⟩
          · simp [Tree.fuel, Heap.length_put, Heap.lookup_put, Heap.lookup_set_none,
hxl, hpq, hna, hnp, hnr0, hnl, hng, d_a_p, e_p_a, d_a_r0, e_r0_a, d_a_l, e_l_a, d_a_g, e_g_a, d_a_q, e_q_a, d_p_r0, e_r0_p, d_p_l, e_l_p, d_p_g, e_g_p, d_p_q, e_q_p, d_r0_l, e_l_r0, d_r0_g, e_g_r0, d_r0_q, e_q_r0, d_l_g, e_g_l, d_l_q, e_q_l, d_g_q, e_q_g, lt_a, lt_p, lt_r0, lt_l, lt_g, lt_q, hnq, hra, hrootp, hql]
          · simp [Tree.fuel, Heap.length_put, Heap.lookup_put, Heap.lookup_set_none,
hxl, hpq, hna, hnp, hnr0, hnl, hng, d_a_p, e_p_a, d_a_r0, e_r0_a, d_a_l, e_l_a, d_a_g, e_g_a, d_a_q, e_q_a, d_p_r0, e_r0_p, d_p_l, e_l_p, d_p_g, e_g_p, d_p_q, e_q_p, d_r0_l, e_l_r0, d_r0_g, e_g_r0, d_r0_q, e_q_r0, d_l_g, e_g_l, d_l_q, e_q_l, d_g_q, e_q_g, lt_a, lt_p, lt_r0, lt_l, lt_g, lt_q, hnq, hra, hrootp, hql]
          · simp [Tree.fuel, Heap.length_put, Heap.lookup_put, Heap.lookup_set_none,
hxl, hpq, hna, hnp, hnr0, hnl, hng, d_a_p, e_p_a, d_a_r0, e_r0_a, d_a_l, e_l_a, d_a_g, e_g_a, d_a_q, e_q_a, d_p_r0, e_r0_p, d_p_l, e_l_p, d_p_g, e_g_p, d_p_q, e_q_p, d_r0_l, e_l_r0, d_r0_g, e_g_r0, d_r0_q, e_q_r0, d_l_g, e_g_l, d_l_q, e_q_l, d_g_q, e_q_g, lt_a, lt_p, lt_r0, lt_l, lt_g, lt_q, hnq, hra, hrootp, hql]
          · simp [Tree.fuel, Heap.length_put, Heap.lookup_put, Heap.lookup_set_none,
hxl, hpq, hna, hnp, hnr0, hnl, hng, d_a_p, e_p_a, d_a_r0, e_r0_a, d_a_l, e_l_a, d_a_g, e_g_a, d_a_q, e_q_a, d_p_r0, e_r0_p, d_p_l, e_l_p, d_p_g, e_g_p, d_p_q, e_q_p, d_r0_l, e_l_r0, d_r0_g, e_g_r0, d_r0_q, e_q_r0, d_l_g, e_g_l, d_l_q, e_q_l, d_g_q, e_q_g, lt_a, lt_p, lt_r0, lt_l, lt_g, lt_q, hnq, hra, hrootp, hql]
          · simp [Tree.fuel, Heap.length_put, Heap.lookup_put, Heap.lookup_set_none,
hxl, hpq, hna, hnp, hnr0, hnl, hng, d_a_p, e_p_a, d_a_r0, e_r0_a, d_a_l, e_l_a, d_a_g, e_g_a, d_a_q, e_q_a, d_p_r0, e_r0_p, d_p_l, e_l_p, d_p_g, e_g_p, d_p_q, e_q_p, d_r0_l, e_l_r0, d_r0_g, e_g_r0, d_r0_q, e_q_r0, d_l_g, e_g_l, d_l_q, e_q_l, d_g_q, e_q_g, lt_a, lt_p, lt_r0, lt_l, lt_g, lt_q, hnq, hra, hrootp, hql]
          · simp [Tree.fuel, Heap.length_put, Heap.lookup_put, Heap.lookup_set_none,
hxl, hpq, hna, hnp, hnr0, hnl, hng, d_a_p, e_p_a, d_a_r0, e_r0_a, d_a_l, e_l_a, d_a_g, e_g_a, d_a_q, e_q_a, d_p_r0, e_r0_p, d_p_l, e_l_p, d_p_g, e_g_p, d_p_q, e_q_p, d_r0_l, e_l_r0, d_r0_g, e_g_r0, d_r0_q, e_q_r0, d_l_g, e_g_l, d_l_q, e_q_l, d_g_q, e_q_g, lt_a, lt_p, lt_r0, lt_l, lt_g, lt_q, hnq, hra, hrootp, hql]
          · intro _; simp [Tree.fuel, Heap.length_put, Heap.lookup_put, Heap.lookup_set_none,
hxl, hpq, hna, hnp, hnr0, hnl, hng, d_a_p, e_p_a, d_a_r0, e_r0_a, d_a_l, e_l_a, d_a_g, e_g_a, d_a_q, e_q_a, d_p_r0, e_r0_p, d_p_l, e_l_p, d_p_g, e_g_p, d_p_q, e_q_p, d_r0_l, e_l_r0, d_r0_g, e_g_r0, d_r0_q, e_q_r0, d_l_g, e_g_l, d_l_q, e_q_l, d_g_q, e_q_g, lt_a, lt_p, lt_r0, lt_l, lt_g, lt_q, hnq, hra, hrootp, hql]
          · intro x1 nx1 h1
            cases h1
          · intro q1 nq1 h1 h2
            have e1 : q1 = q := Option.some.inj (h1.symm.trans rfl)
            subst e1
            have e2 : nq1 = nq := Option.some.inj (h2.symm.trans hnq)
            subst e2
            simp [Tree.fuel, Heap.length_put, Heap.lookup_put, Heap.lookup_set_none,
hxl, hpq, hna, hnp, hnr0, hnl, hng, d_a_p, e_p_a, d_a_r0, e_r0_a, d_a_l, e_l_a, d_a_g, e_g_a, d_a_q, e_q_a, d_p_r0, e_r0_p, d_p_l, e_l_p, d_p_g, e_g_p, d_p_q, e_q_p, d_r0_l, e_l_r0, d_r0_g, e_g_r0, d_r0_q, e_q_r0, d_l_g, e_g_l, d_l_q, e_q_l, d_g_q, e_q_g, lt_a, lt_p, lt_r0, lt_l, lt_g, lt_q, hnq, hra, hrootp, hql]
          · intro y h1 h2 h3 h4 h5 h6 h7
            have h9 : y ≠ q := fun e => h7 (by rw [e])
            simp [Tree.fuel, Heap.length_put, Heap.lookup_put, Heap.lookup_set_none,
hxl, hpq, hna, hnp, hnr0, hnl, hng, d_a_p, e_p_a, d_a_r0, e_r0_a, d_a_l, e_l_a, d_a_g, e_g_a, d_a_q, e_q_a, d_p_r0, e_r0_p, d_p_l, e_l_p, d_p_g, e_g_p, d_p_q, e_q_p, d_r0_l, e_l_r0, d_r0_g, e_g_r0, d_r0_q, e_q_r0, d_l_g, e_g_l, d_l_q, e_q_l, d_g_q, e_q_g, lt_a, lt_p, lt_r0, lt_l, lt_g, lt_q, hnq, hra, hrootp, hql, h1, h2, h3, h4, h5, h9]
      · have hql2 : ¬ some a = nq.left := fun e => hql e.symm
        have e_p_a : p ≠ a := fun e => d_a_p e.symm
        have c_a_p := fun (h : Heap) m m' => Heap.put_comm h e_p_a m m'
        have e_r0_a : r0 ≠ a := fun e => d_a_r0 e.symm
        have c_a_r0 := fun (h : Heap) m m' => Heap.put_comm h e_r0_a m m'
        have e_l_a : l ≠ a := fun e => d_a_l e.symm
        have c_a_l := fun (h : Heap) m m' => Heap.put_comm h e_l_a m m'
        have e_g_a : g ≠ a := fun e => d_a_g e.symm
        have c_a_g := fun (h : Heap) m m' => Heap.put_comm h e_g_a m m'
        have e_q_a : q ≠ a := fun e => d_a_q e.symm
        have c_a_q := fun (h : Heap) m m' => Heap.put_comm h e_q_a m m'
        have e_r0_p : r0 ≠ p := fun e => d_p_r0 e.symm
        have c_p_r0 := fun (h : Heap) m m' => Heap.put_comm h e_r0_p m m'
        have e_l_p : l ≠ p := fun e => d_p_l e.symm
        have c_p_l := fun (h : Heap) m m' => Heap.put_comm h e_l_p m m'
        have e_g_p : g ≠ p := fun e => d_p_g e.symm
        have c_p_g := fun (h : Heap) m m' => Heap.put_comm h e_g_p m m'
        have e_q_p : q ≠ p := fun e => d_p_q e.symm
        have c_p_q := fun (h : Heap) m m' => Heap.put_comm h e_q_p m m'
        have e_l_r0 : l ≠ r0 := fun e => d_r0_l e.symm
        have c_r0_l := fun (h : Heap) m m' => Heap.put_comm h e_l_r0 m m'
        have e_g_r0 : g ≠ r0 := fun e => d_r0_g e.symm
        have c_r0_g := fun (h : Heap) m m' => Heap.put_comm h e_g_r0 m m'
        have e_q_r0 : q ≠ r0 := fun e => d_r0_q e.symm
        have c_r0_q := fun (h : Heap) m m' => Heap.put_comm h e_q_r0 m m'
        have e_g_l : g ≠ l := fun e => d_l_g e.symm
        have c_l_g := fun (h : Heap) m m' => Heap.put_comm h e_g_l m m'
        have e_q_l : q ≠ l := fun e => d_l_q e.symm
        have c_l_q := fun (h : Heap) m m' => Heap.put_comm h e_q_l m m'
        have e_q_g : q ≠ g := fun e => d_g_q e.symm
        have c_g_q := fun (h : Heap) m m' => Heap.put_comm h e_q_g m m'
        have lt_a := Heap.lookup_lt hna
        have lt_p := Heap.lookup_lt hnp
        have lt_r0 := Heap.lookup_lt hnr0
        have lt_l := Heap.lookup_lt hnl
        have lt_g := Heap.lookup_lt hng
        have lt_q := Heap.lookup_lt hnq
        apply Exists.intro
        apply Exists.intro
        refine ⟨?_, ?_⟩
        · simp [AVLTree.remove, hdesc, hpred, Tree.getNode, hna, hnl0, hno, AVLTree.nodeSwap,
BinarySearchTree.nodeSwap, Tree.setParent, Tree.setLeft, Tree.setRight, Tree.setBalance,
Tree.modify, Tree.delete, hnp, hnr0, hnl, hng, hal, har, hpr, hpp, hxl, hpq, hgp, hga, hgp2, hga2,
Heap.lookup_put, Heap.length_put, Heap.put_put, d_a_p, e_p_a, d_a_r0, e_r0_a, d_a_l, e_l_a, d_a_g, e_g_a, d_a_q, e_q_a, d_p_r0, e_r0_p, d_p_l, e_l_p, d_p_g, e_g_p, d_p_q, e_q_p, d_r0_l, e_l_r0, d_r0_g, e_g_r0, d_r0_q, e_q_r0, d_l_g, e_g_l, d_l_q, e_q_l, d_g_q, e_q_g, lt_a, lt_p, lt_r0, lt_l, lt_g, lt_q, hnq, hra, hrootp, hql, hql2, c_a_p, c_a_r0, c_a_l, c_a_g, c_a_q, c_p_r0, c_p_l, c_p_g, c_p_q, c_r0_l, c_r0_g, c_r0_q, c_l_g, c_l_q, c_g_q]
          rfl
        · refine ⟨?_, ?_, ?_, ?_, ?_, ?_, ?_, ?_, ?_, ?_⟩
          · simp [Tree.fuel, Heap.length_put, Heap.lookup_put, Heap.lookup_set_none,
hxl, hpq, hna, hnp, hnr0, hnl, hng, d_a_p, e_p_a, d_a_r0, e_r0_a, d_a_l, e_l_a, d_a_g, e_g_a, d_a_q, e_q_a, d_p_r0, e_r0_p, d_p_l, e_l_p, d_p_g, e_g_p, d_p_q, e_q_p, d_r0_l, e_l_r0, d_r0_g, e_g_r0, d_r0_q, e_q_r0, d_l_g, e_g_l, d_l_q, e_q_l, d_g_q, e_q_g, lt_a, lt_p, lt_r0, lt_l, lt_g, lt_q, hnq, hra, hrootp, hql, hql2]
          · simp [Tree.fuel, Heap.length_put, Heap.lookup_put, Heap.lookup_set_none,
hxl, hpq, hna, hnp, hnr0, hnl, hng, d_a_p, e_p_a, d_a_r0, e_r0_a, d_a_l, e_l_a, d_a_g, e_g_a, d_a_q, e_q_a, d_p_r0, e_r0_p, d_p_l, e_l_p, d_p_g, e_g_p, d_p_q, e_q_p, d_r0_l, e_l_r0, d_r0_g, e_g_r0, d_r0_q, e_q_r0, d_l_g, e_g_l, d_l_q, e_q_l, d_g_q, e_q_g, lt_a, lt_p, lt_r0, lt_l, lt_g, lt_q, hnq, hra, hrootp, hql, hql2]
          · simp [Tree.fuel, Heap.length_put, Heap.lookup_put, Heap.lookup_set_none,
hxl, hpq, hna, hnp, hnr0, hnl, hng, d_a_p, e_p_a, d_a_r0, e_r0_a, d_a_l, e_l_a, d_a_g, e_g_a, d_a_q, e_q_a, d_p_r0, e_r0_p, d_p_l, e_l_p, d_p_g, e_g_p, d_p_q, e_q_p, d_r0_l, e_l_r0, d_r0_g, e_g_r0, d_r0_q, e_q_r0, d_l_g, e_g_l, d_l_q, e_q_l, d_g_q, e_q_g, lt_a, lt_p, lt_r0, lt_l, lt_g, lt_q, hnq, hra, hrootp, hql, hql2]
          · simp [Tree.fuel, Heap.length_put, Heap.lookup_put, Heap.lookup_set_none,
hxl, hpq, hna, hnp, hnr0, hnl, hng, d_a_p, e_p_a, d_a_r0, e_r0_a, d_a_l, e_l_a, d_a_g, e_g_a, d_a_q, e_q_a, d_p_r0, e_r0_p, d_p_l, e_l_p, d_p_g, e_g_p, d_p_q, e_q_p, d_r0_l, e_l_r0, d_r0_g, e_g_r0, d_r0_q, e_q_r0, d_l_g, e_g_l, d_l_q, e_q_l, d_g_q, e_q_g, lt_a, lt_p, lt_r0, lt_l, lt_g, lt_q, hnq, hra, hrootp, hql, hql2]
          · simp [Tree.fuel, Heap.length_put, Heap.lookup_put, Heap.lookup_set_none,
hxl, hpq, hna, hnp, hnr0, hnl, hng, d_a_p, e_p_a, d_a_r0, e_r0_a, d_a_l, e_l_a, d_a_g, e_g_a, d_a_q, e_q_a, d_p_r0, e_r0_p, d_p_l, e_l_p, d_p_g, e_g_p, d_p_q, e_q_p, d_r0_l, e_l_r0, d_r0_g, e_g_r0, d_r0_q, e_q_r0, d_l_g, e_g_l, d_l_q, e_q_l, d_g_q, e_q_g, lt_a, lt_p, lt_r0, lt_l, lt_g, lt_q, hnq, hra, hrootp, hql, hql2]
          · simp [Tree.fuel, Heap.length_put, Heap.lookup_put, Heap.lookup_set_none,
hxl, hpq, hna, hnp, hnr0, hnl, hng, d_a_p, e_p_a, d_a_r0, e_r0_a, d_a_l, e_l_a, d_a_g, e_g_a, d_a_q, e_q_a, d_p_r0, e_r0_p, d_p_l, e_l_p, d_p_g, e_g_p, d_p_q, e_q_p, d_r0_l, e_l_r0, d_r0_g, e_g_r0, d_r0_q, e_q_r0, d_l_g, e_g_l, d_l_q, e_q_l, d_g_q, e_q_g, lt_a, lt_p, lt_r0, lt_l, lt_g, lt_q, hnq, hra, hrootp, hql, hql2]
          · intro _; simp [Tree.fuel, Heap.length_put, Heap.lookup_put, Heap.lookup_set_none,
hxl, hpq, hna, hnp, hnr0, hnl, hng, d_a_p, e_p_a, d_a_r0, e_r0_a, d_a_l, e_l_a, d_a_g, e_g_a, d_a_q, e_q_a, d_p_r0, e_r0_p, d_p_l, e_l_p, d_p_g, e_g_p, d_p_q, e_q_p, d_r0_l, e_l_r0, d_r0_g, e_g_r0, d_r0_q, e_q_r0, d_l_g, e_g_l, d_l_q, e_q_l, d_g_q, e_q_g, lt_a, lt_p, lt_r0, lt_l, lt_g, lt_q, hnq, hra, hrootp, hql, hql2]
          · intro x1 nx1 h1
            cases h1
          · intro q1 nq1 h1 h2
            have e1 : q1 = q := Option.some.inj (h1.symm.trans rfl)
            subst e1
            have e2 : nq1 = nq := Option.some.inj (h2.symm.trans hnq)
            subst e2
            simp [Tree.fuel, Heap.length_put, Heap.lookup_put, Heap.lookup_set_none,
hxl, hpq, hna, hnp, hnr0, hnl, hng, d_a_p, e_p_a, d_a_r0, e_r0_a, d_a_l, e_l_a, d_a_g, e_g_a, d_a_q, e_q_a, d_p_r0, e_r0_p, d_p_l, e_l_p, d_p_g, e_g_p, d_p_q, e_q_p, d_r0_l, e_l_r0, d_r0_g, e_g_r0, d_r0_q, e_q_r0, d_l_g, e_g_l, d_l_q, e_q_l, d_g_q, e_q_g, lt_a, lt_p, lt_r0, lt_l, lt_g, lt_q, hnq, hra, hrootp, hql, hql2]
          · intro y h1 h2 h3 h4 h5 h6 h7
            have h9 : y ≠ q := fun e => h7 (by rw [e])
            simp [Tree.fuel, Heap.length_put, Heap.lookup_put, Heap.lookup_set_none,
hxl, hpq, hna, hnp, hnr0, hnl, hng, d_a_p, e_p_a, d_a_r0, e_r0_a, d_a_l, e_l_a, d_a_g, e_g_a, d_a_q, e_q_a, d_p_r0, e_r0_p, d_p_l, e_l_p, d_p_g, e_g_p, d_p_q, e_q_p, d_r0_l, e_l_r0, d_r0_g, e_g_r0, d_r0_q, e_q_r0, d_l_g, e_g_l, d_l_q, e_q_l, d_g_q, e_q_g, lt_a, lt_p, lt_r0, lt_l, lt_g, lt_q, hnq, hra, hrootp, hql, hql2, h1, h2, h3, h4, h5, h9]
    · have hr : t.root = some a := hroot.mpr trivial
      rw [hr] at hdesc
      obtain ⟨d_a_x, d_p_x, d_r0_x, d_l_x, d_g_x, nx, hnx⟩ := hx x rfl
      have e_p_a : p ≠ a := fun e => d_a_p e.symm
      have c_a_p := fun (h : Heap) m m' => Heap.put_comm h e_p_a m m'
      have e_r0_a : r0 ≠ a := fun e => d_a_r0 e.symm
      have c_a_r0 := fun (h : Heap) m m' => Heap.put_comm h e_r0_a m m'
      have e_l_a : l ≠ a := fun e => d_a_l e.symm
      have c_a_l := fun (h : Heap) m m' => Heap.put_comm h e_l_a m m'
      have e_g_a : g ≠ a := fun e => d_a_g e.symm
      have c_a_g := fun (h : Heap) m m' => Heap.put_comm h e_g_a m m'
      have e_x_a : x ≠ a := fun e => d_a_x e.symm
      have c_a_x := fun (h : Heap) m m' => Heap.put_comm h e_x_a m m'
      have e_r0_p : r0 ≠ p := fun e => d_p_r0 e.symm
      have c_p_r0 := fun (h : Heap) m m' => Heap.put_comm h e_r0_p m m'
      have e_l_p : l ≠ p := fun e => d_p_l e.symm
      have c_p_l := fun (h : Heap) m m' => Heap.put_comm h e_l_p m m'
      have e_g_p : g ≠ p := fun e => d_p_g e.symm
      have c_p_g := fun (h : Heap) m m' => Heap.put_comm h e_g_p m m'
      have e_x_p : x ≠ p := fun e => d_p_x e.symm
      have c_p_x := fun (h : Heap) m m' => Heap.put_comm h e_x_p m m'
      have e_l_r0 : l ≠ r0 := fun e => d_r0_l e.symm
      have c_r0_l := fun (h : Heap) m m' => Heap.put_comm h e_l_r0 m m'
      have e_g_r0 : g ≠ r0 := fun e => d_r0_g e.symm
      have c_r0_g := fun (h : Heap) m m' => Heap.put_comm h e_g_r0 m m'
      have e_x_r0 : x ≠ r0 := fun e => d_r0_x e.symm
      have c_r0_x := fun (h : Heap) m m' => Heap.put_comm h e_x_r0 m m'
      have e_g_l : g ≠ l := fun e => d_l_g e.symm
      have c_l_g := fun (h : Heap) m m' => Heap.put_comm h e_g_l m m'
      have e_x_l : x ≠ l := fun e => d_l_x e.symm
      have c_l_x := fun (h : Heap) m m' => Heap.put_comm h e_x_l m m'
      have e_x_g : x ≠ g := fun e => d_g_x e.symm
      have c_g_x := fun (h : Heap) m m' => Heap.put_comm h e_x_g m m'
      have lt_a := Heap.lookup_lt hna
      have lt_p := Heap.lookup_lt hnp
      have lt_r0 := Heap.lookup_lt hnr0
      have lt_l := Heap.lookup_lt hnl
      have lt_g := Heap.lookup_lt hng
      have lt_x := Heap.lookup_lt hnx
      apply Exists.intro
      apply Exists.intro
      refine ⟨?_, ?_⟩
      · simp [AVLTree.remove, hdesc, hpred, Tree.getNode, hna, hnl0, hno, AVLTree.nodeSwap,
BinarySearchTree.nodeSwap, Tree.setParent, Tree.setLeft, Tree.setRight, Tree.setBalance,
Tree.modify, Tree.delete, hnp, hnr0, hnl, hng, hal, har, hpr, hpp, hxl, hpq, hgp, hga, hgp2, hga2,
Heap.lookup_put, Heap.length_put, Heap.put_put, d_a_p, e_p_a, d_a_r0, e_r0_a, d_a_l, e_l_a, d_a_g, e_g_a, d_a_x, e_x_a, d_p_r0, e_r0_p, d_p_l, e_l_p, d_p_g, e_g_p, d_p_x, e_x_p, d_r0_l, e_l_r0, d_r0_g, e_g_r0, d_r0_x, e_x_r0, d_l_g, e_g_l, d_l_x, e_x_l, d_g_x, e_x_g, lt_a, lt_p, lt_r0, lt_l, lt_g, lt_x, hnx, hr, c_a_p, c_a_r0, c_a_l, c_a_g, c_a_x, c_p_r0, c_p_l, c_p_g, c_p_x, c_r0_l, c_r0_g, c_r0_x, c_l_g, c_l_x, c_g_x]
        rfl
      · refine ⟨?_, ?_, ?_, ?_, ?_, ?_, ?_, ?_, ?_, ?_⟩
        · simp [Tree.fuel, Heap.length_put, Heap.lookup_put, Heap.lookup_set_none,
hxl, hpq, hna, hnp, hnr0, hnl, hng, d_a_p, e_p_a, d_a_r0, e_r0_a, d_a_l, e_l_a, d_a_g, e_g_a, d_a_x, e_x_a, d_p_r0, e_r0_p, d_p_l, e_l_p, d_p_g, e_g_p, d_p_x, e_x_p, d_r0_l, e_l_r0, d_r0_g, e_g_r0, d_r0_x, e_x_r0, d_l_g, e_g_l, d_l_x, e_x_l, d_g_x, e_x_g, lt_a, lt_p, lt_r0, lt_l, lt_g, lt_x, hnx, hr]
        · simp [Tree.fuel, Heap.length_put, Heap.lookup_put, Heap.lookup_set_none,
hxl, hpq, hna, hnp, hnr0, hnl, hng, d_a_p, e_p_a, d_a_r0, e_r0_a, d_a_l, e_l_a, d_a_g, e_g_a, d_a_x, e_x_a, d_p_r0, e_r0_p, d_p_l, e_l_p, d_p_g, e_g_p, d_p_x, e_x_p, d_r0_l, e_l_r0, d_r0_g, e_g_r0, d_r0_x, e_x_r0, d_l_g, e_g_l, d_l_x, e_x_l, d_g_x, e_x_g, lt_a, lt_p, lt_r0, lt_l, lt_g, lt_x, hnx, hr]
        · simp [Tree.fuel, Heap.length_put, Heap.lookup_put, Heap.lookup_set_none,
hxl, hpq, hna, hnp, hnr0, hnl, hng, d_a_p, e_p_a, d_a_r0, e_r0_a, d_a_l, e_l_a, d_a_g, e_g_a, d_a_x, e_x_a, d_p_r0, e_r0_p, d_p_l, e_l_p, d_p_g, e_g_p, d_p_x, e_x_p, d_r0_l, e_l_r0, d_r0_g, e_g_r0, d_r0_x, e_x_r0, d_l_g, e_g_l, d_l_x, e_x_l, d_g_x, e_x_g, lt_a, lt_p, lt_r0, lt_l, lt_g, lt_x, hnx, hr]
        · simp [Tree.fuel, Heap.length_put, Heap.lookup_put, Heap.lookup_set_none,
hxl, hpq, hna, hnp, hnr0, hnl, hng, d_a_p, e_p_a, d_a_r0, e_r0_a, d_a_l, e_l_a, d_a_g, e_g_a, d_a_x, e_x_a, d_p_r0, e_r0_p, d_p_l, e_l_p, d_p_g, e_g_p, d_p_x, e_x_p, d_r0_l, e_l_r0, d_r0_g, e_g_r0, d_r0_x, e_x_r0, d_l_g, e_g_l, d_l_x, e_x_l, d_g_x, e_x_g, lt_a, lt_p, lt_r0, lt_l, lt_g, lt_x, hnx, hr]
        · simp [Tree.fuel, Heap.length_put, Heap.lookup_put, Heap.lookup_set_none,
hxl, hpq, hna, hnp, hnr0, hnl, hng, d_a_p, e_p_a, d_a_r0, e_r0_a, d_a_l, e_l_a, d_a_g, e_g_a, d_a_x, e_x_a, d_p_r0, e_r0_p, d_p_l, e_l_p, d_p_g, e_g_p, d_p_x, e_x_p, d_r0_l, e_l_r0, d_r0_g, e_g_r0, d_r0_x, e_x_r0, d_l_g, e_g_l, d_l_x, e_x_l, d_g_x, e_x_g, lt_a, lt_p, lt_r0, lt_l, lt_g, lt_x, hnx, hr]
        · simp [Tree.fuel, Heap.length_put, Heap.lookup_put, Heap.lookup_set_none,
hxl, hpq, hna, hnp, hnr0, hnl, hng, d_a_p, e_p_a, d_a_r0, e_r0_a, d_a_l, e_l_a, d_a_g, e_g_a, d_a_x, e_x_a, d_p_r0, e_r0_p, d_p_l, e_l_p, d_p_g, e_g_p, d_p_x, e_x_p, d_r0_l, e_l_r0, d_r0_g, e_g_r0, d_r0_x, e_x_r0, d_l_g, e_g_l, d_l_x, e_x_l, d_g_x, e_x_g, lt_a, lt_p, lt_r0, lt_l, lt_g, lt_x, hnx, hr]
        · intro _; simp [Tree.fuel, Heap.length_put, Heap.lookup_put, Heap.lookup_set_none,
hxl, hpq, hna, hnp, hnr0, hnl, hng, d_a_p, e_p_a, d_a_r0, e_r0_a, d_a_l, e_l_a, d_a_g, e_g_a, d_a_x, e_x_a, d_p_r0, e_r0_p, d_p_l, e_l_p, d_p_g, e_g_p, d_p_x, e_x_p, d_r0_l, e_l_r0, d_r0_g, e_g_r0, d_r0_x, e_x_r0, d_l_g, e_g_l, d_l_x, e_x_l, d_g_x, e_x_g, lt_a, lt_p, lt_r0, lt_l, lt_g, lt_x, hnx, hr]
        · intro x1 nx1 h1 h2
          have e1 : x1 = x := Option.some.inj (h1.symm.trans rfl)
          subst e1
          have e2 : nx1 = nx := Option.some.inj (h2.symm.trans hnx)
          subst e2
          simp [Tree.fuel, Heap.length_put, Heap.lookup_put, Heap.lookup_set_none,
hxl, hpq, hna, hnp, hnr0, hnl, hng, d_a_p, e_p_a, d_a_r0, e_r0_a, d_a_l, e_l_a, d_a_g, e_g_a, d_a_x, e_x_a, d_p_r0, e_r0_p, d_p_l, e_l_p, d_p_g, e_g_p, d_p_x, e_x_p, d_r0_l, e_l_r0, d_r0_g, e_g_r0, d_r0_x, e_x_r0, d_l_g, e_g_l, d_l_x, e_x_l, d_g_x, e_x_g, lt_a, lt_p, lt_r0, lt_l, lt_g, lt_x, hnx, hr]
        · intro q1 nq1 h1
          cases h1
        · intro y h1 h2 h3 h4 h5 h6 h7
          have h8 : y ≠ x := fun e => h6 (by rw [e])
          simp [Tree.fuel, Heap.length_put, Heap.lookup_put, Heap.lookup_set_none,
hxl, hpq, hna, hnp, hnr0, hnl, hng, d_a_p, e_p_a, d_a_r0, e_r0_a, d_a_l, e_l_a, d_a_g, e_g_a, d_a_x, e_x_a, d_p_r0, e_r0_p, d_p_l, e_l_p, d_p_g, e_g_p, d_p_x, e_x_p, d_r0_l, e_l_r0, d_r0_g, e_g_r0, d_r0_x, e_x_r0, d_l_g, e_g_l, d_l_x, e_x_l, d_g_x, e_x_g, lt_a, lt_p, lt_r0, lt_l, lt_g, lt_x, hnx, hr, h1, h2, h3, h4, h5, h8]
    · obtain ⟨d_a_x, d_p_x, d_r0_x, d_l_x, d_g_x, nx, hnx⟩ := hx x rfl
      obtain ⟨d_a_q, d_p_q, d_r0_q, d_l_q, d_g_q, hqx, nq, hnq⟩ := hpa q rfl
      have hra : ¬ t.root = some a := by rw [hroot]; simp
      have d_x_q : x ≠ q := fun e => hqx (by rw [e])
      by_cases hql : nq.left = some a
      · have e_p_a : p ≠ a := fun e => d_a_p e.symm
        have c_a_p := fun (h : Heap) m m' => Heap.put_comm h e_p_a m m'
        have e_r0_a : r0 ≠ a := fun e => d_a_r0 e.symm
        have c_a_r0 := fun (h : Heap) m m' => Heap.put_comm h e_r0_a m m'
        have e_l_a : l ≠ a := fun e => d_a_l e.symm
        have c_a_l := fun (h : Heap) m m' => Heap.put_comm h e_l_a m m'
        have e_g_a : g ≠ a := fun e => d_a_g e.symm
        have c_a_g := fun (h : Heap) m m' => Heap.put_comm h e_g_a m m'
        have e_x_a : x ≠ a := fun e => d_a_x e.symm
        have c_a_x := fun (h : Heap) m m' => Heap.put_comm h e_x_a m m'
        have e_q_a : q ≠ a := fun e => d_a_q e.symm
        have c_a_q := fun (h : Heap) m m' => Heap.put_comm h e_q_a m m'
        have e_r0_p : r0 ≠ p := fun e => d_p_r0 e.symm
        have c_p_r0 := fun (h : Heap) m m' => Heap.put_comm h e_r0_p m m'
        have e_l_p : l ≠ p := fun e => d_p_l e.symm
        have c_p_l := fun (h : Heap) m m' => Heap.put_comm h e_l_p m m'
        have e_g_p : g ≠ p := fun e => d_p_g e.symm
        have c_p_g := fun (h : Heap) m m' => Heap.put_comm h e_g_p m m'
        have e_x_p : x ≠ p := fun e => d_p_x e.symm
        have c_p_x := fun (h : Heap) m m' => Heap.put_comm h e_x_p m m'
        have e_q_p : q ≠ p := fun e => d_p_q e.symm
        have c_p_q := fun (h : Heap) m m' => Heap.put_comm h e_q_p m m'
        have e_l_r0 : l ≠ r0 := fun e => d_r0_l e.symm
        have c_r0_l := fun (h : Heap) m m' => Heap.put_comm h e_l_r0 m m'
        have e_g_r0 : g ≠ r0 := fun e => d_r0_g e.symm
        have c_r0_g := fun (h : Heap) m m' => Heap.put_comm h e_g_r0 m m'
        have e_x_r0 : x ≠ r0 := fun e => d_r0_x e.symm
        have c_r0_x := fun (h : Heap) m m' => Heap.put_comm h e_x_r0 m m'
        have e_q_r0 : q ≠ r0 := fun e => d_r0_q e.symm
        have c_r0_q := fun (h : Heap) m m' => Heap.put_comm h e_q_r0 m m'
        have e_g_l : g ≠ l := fun e => d_l_g e.symm
        have c_l_g := fun (h : Heap) m m' => Heap.put_comm h e_g_l m m'
        have e_x_l : x ≠ l := fun e => d_l_x e.symm
        have c_l_x := fun (h : Heap) m m' => Heap.put_comm h e_x_l m m'
        have e_q_l : q ≠ l := fun e => d_l_q e.symm
        have c_l_q := fun (h : Heap) m m' => Heap.put_comm h e_q_l m m'
        have e_x_g : x ≠ g := fun e => d_g_x e.symm
        have c_g_x := fun (h : Heap) m m' => Heap.put_comm h e_x_g m m'
        have e_q_g : q ≠ g := fun e => d_g_q e.symm
        have c_g_q := fun (h : Heap) m m' => Heap.put_comm h e_q_g m m'
        have e_q_x : q ≠ x := fun e => d_x_q e.symm
        have c_x_q := fun (h : Heap) m m' => Heap.put_comm h e_q_x m m'
        have lt_a := Heap.lookup_lt hna
        have lt_p := Heap.lookup_lt hnp
        have lt_r0 := Heap.lookup_lt hnr0
        have lt_l := Heap.lookup_lt hnl
        have lt_g := Heap.lookup_lt hng
        have lt_x := Heap.lookup_lt hnx
        have lt_q := Heap.lookup_lt hnq
        apply Exists.intro
        apply Exists.intro
        refine ⟨?_, ?_⟩
        · simp [AVLTree.remove, hdesc, hpred, Tree.getNode, hna, hnl0, hno, AVLTree.nodeSwap,
BinarySearchTree.nodeSwap, Tree.setParent, Tree.setLeft, Tree.setRight, Tree.setBalance,
Tree.modify, Tree.delete, hnp, hnr0, hnl, hng, hal, har, hpr, hpp, hxl, hpq, hgp, hga, hgp2, hga2,
Heap.lookup_put, Heap.length_put, Heap.put_put, d_a_p, e_p_a, d_a_r0, e_r0_a, d_a_l, e_l_a, d_a_g, e_g_a, d_a_x, e_x_a, d_a_q, e_q_a, d_p_r0, e_r0_p, d_p_l, e_l_p, d_p_g, e_g_p, d_p_x, e_x_p, d_p_q, e_q_p, d_r0_l, e_l_r0, d_r0_g, e_g_r0, d_r0_x, e_x_r0, d_r0_q, e_q_r0, d_l_g, e_g_l, d_l_x, e_x_l, d_l_q, e_q_l, d_g_x, e_x_g, d_g_q, e_q_g, d_x_q, e_q_x, lt_a, lt_p, lt_r0, lt_l, lt_g, lt_x, lt_q, hnx, hnq, hra, hrootp, hql, c_a_p, c_a_r0, c_a_l, c_a_g, c_a_x, c_a_q, c_p_r0, c_p_l, c_p_g, c_p_x, c_p_q, c_r0_l, c_r0_g, c_r0_x, c_r0_q, c_l_g, c_l_x, c_l_q, c_g_x, c_g_q, c_x_q]
          rfl
        · refine ⟨?_, ?_, ?_, ?_, ?_, ?_, ?_, ?_, ?_, ?_⟩
          · simp [Tree.fuel, Heap.length_put, Heap.lookup_put, Heap.lookup_set_none,
hxl, hpq, hna, hnp, hnr0, hnl, hng, d_a_p, e_p_a, d_a_r0, e_r0_a, d_a_l, e_l_a, d_a_g, e_g_a, d_a_x, e_x_a, d_a_q, e_q_a, d_p_r0, e_r0_p, d_p_l, e_l_p, d_p_g, e_g_p, d_p_x, e_x_p, d_p_q, e_q_p, d_r0_l, e_l_r0, d_r0_g, e_g_r0, d_r0_x, e_x_r0, d_r0_q, e_q_r0, d_l_g, e_g_l, d_l_x, e_x_l, d_l_q, e_q_l, d_g_x, e_x_g, d_g_q, e_q_g, d_x_q, e_q_x, lt_a, lt_p, lt_r0, lt_l, lt_g, lt_x, lt_q, hnx, hnq, hra, hrootp, hql]
          · simp [Tree.fuel, Heap.length_put, Heap.lookup_put, Heap.lookup_set_none,
hxl, hpq, hna, hnp, hnr0, hnl, hng, d_a_p, e_p_a, d_a_r0, e_r0_a, d_a_l, e_l_a, d_a_g, e_g_a, d_a_x, e_x_a, d_a_q, e_q_a, d_p_r0, e_r0_p, d_p_l, e_l_p, d_p_g, e_g_p, d_p_x, e_x_p, d_p_q, e_q_p, d_r0_l, e_l_r0, d_r0_g, e_g_r0, d_r0_x, e_x_r0, d_r0_q, e_q_r0, d_l_g, e_g_l, d_l_x, e_x_l, d_l_q, e_q_l, d_g_x, e_x_g, d_g_q, e_q_g, d_x_q, e_q_x, lt_a, lt_p, lt_r0, lt_l, lt_g, lt_x, lt_q, hnx, hnq, hra, hrootp, hql]
          · simp [Tree.fuel, Heap.length_put, Heap.lookup_put, Heap.lookup_set_none,
hxl, hpq, hna, hnp, hnr0, hnl, hng, d_a_p, e_p_a, d_a_r0, e_r0_a, d_a_l, e_l_a, d_a_g, e_g_a, d_a_x, e_x_a, d_a_q, e_q_a, d_p_r0, e_r0_p, d_p_l, e_l_p, d_p_g, e_g_p, d_p_x, e_x_p, d_p_q, e_q_p, d_r0_l, e_l_r0, d_r0_g, e_g_r0, d_r0_x, e_x_r0, d_r0_q, e_q_r0, d_l_g, e_g_l, d_l_x, e_x_l, d_l_q, e_q_l, d_g_x, e_x_g, d_g_q, e_q_g, d_x_q, e_q_x, lt_a, lt_p, lt_r0, lt_l, lt_g, lt_x, lt_q, hnx, hnq, hra, hrootp, hql]
          · simp [Tree.fuel, Heap.length_put, Heap.lookup_put, Heap.lookup_set_none,
hxl, hpq, hna, hnp, hnr0, hnl, hng, d_a_p, e_p_a, d_a_r0, e_r0_a, d_a_l, e_l_a, d_a_g, e_g_a, d_a_x, e_x_a, d_a_q, e_q_a, d_p_r0, e_r0_p, d_p_l, e_l_p, d_p_g, e_g_p, d_p_x, e_x_p, d_p_q, e_q_p, d_r0_l, e_l_r0, d_r0_g, e_g_r0, d_r0_x, e_x_r0, d_r0_q, e_q_r0, d_l_g, e_g_l, d_l_x, e_x_l, d_l_q, e_q_l, d_g_x, e_x_g, d_g_q, e_q_g, d_x_q, e_q_x, lt_a, lt_p, lt_r0, lt_l, lt_g, lt_x, lt_q, hnx, hnq, hra, hrootp, hql]
          · simp [Tree.fuel, Heap.length_put, Heap.lookup_put, Heap.lookup_set_none,
hxl, hpq, hna, hnp, hnr0, hnl, hng, d_a_p, e_p_a, d_a_r0, e_r0_a, d_a_l, e_l_a, d_a_g, e_g_a, d_a_x, e_x_a, d_a_q, e_q_a, d_p_r0, e_r0_p, d_p_l, e_l_p, d_p_g, e_g_p, d_p_x, e_x_p, d_p_q, e_q_p, d_r0_l, e_l_r0, d_r0_g, e_g_r0, d_r0_x, e_x_r0, d_r0_q, e_q_r0, d_l_g, e_g_l, d_l_x, e_x_l, d_l_q, e_q_l, d_g_x, e_x_g, d_g_q, e_q_g, d_x_q, e_q_x, lt_a, lt_p, lt_r0, lt_l, lt_g, lt_x, lt_q, hnx, hnq, hra, hrootp, hql]
          · simp [Tree.fuel, Heap.length_put, Heap.lookup_put, Heap.lookup_set_none,
hxl, hpq, hna, hnp, hnr0, hnl, hng, d_a_p, e_p_a, d_a_r0, e_r0_a, d_a_l, e_l_a, d_a_g, e_g_a, d_a_x, e_x_a, d_a_q, e_q_a, d_p_r0, e_r0_p, d_p_l, e_l_p, d_p_g, e_g_p, d_p_x, e_x_p, d_p_q, e_q_p, d_r0_l, e_l_r0, d_r0_g, e_g_r0, d_r0_x, e_x_r0, d_r0_q, e_q_r0, d_l_g, e_g_l, d_l_x, e_x_l, d_l_q, e_q_l, d_g_x, e_x_g, d_g_q, e_q_g, d_x_q, e_q_x, lt_a, lt_p, lt_r0, lt_l, lt_g, lt_x, lt_q, hnx, hnq, hra, hrootp, hql]
          · intro _; simp [Tree.fuel, Heap.length_put, Heap.lookup_put, Heap.lookup_set_none,
hxl, hpq, hna, hnp, hnr0, hnl, hng, d_a_p, e_p_a, d_a_r0, e_r0_a, d_a_l, e_l_a, d_a_g, e_g_a, d_a_x, e_x_a, d_a_q, e_q_a, d_p_r0, e_r0_p, d_p_l, e_l_p, d_p_g, e_g_p, d_p_x, e_x_p, d_p_q, e_q_p, d_r0_l, e_l_r0, d_r0_g, e_g_r0, d_r0_x, e_x_r0, d_r0_q, e_q_r0, d_l_g, e_g_l, d_l_x, e_x_l, d_l_q, e_q_l, d_g_x, e_x_g, d_g_q, e_q_g, d_x_q, e_q_x, lt_a, lt_p, lt_r0, lt_l, lt_g, lt_x, lt_q, hnx, hnq, hra, hrootp, hql]
          · intro x1 nx1 h1 h2
            have e1 : x1 = x := Option.some.inj (h1.symm.trans rfl)
            subst e1
            have e2 : nx1 = nx := Option.some.inj (h2.symm.trans hnx)
            subst e2
            simp [Tree.fuel, Heap.length_put, Heap.lookup_put, Heap.lookup_set_none,
hxl, hpq, hna, hnp, hnr0, hnl, hng, d_a_p, e_p_a, d_a_r0, e_r0_a, d_a_l, e_l_a, d_a_g, e_g_a, d_a_x, e_x_a, d_a_q, e_q_a, d_p_r0, e_r0_p, d_p_l, e_l_p, d_p_g, e_g_p, d_p_x, e_x_p, d_p_q, e_q_p, d_r0_l, e_l_r0, d_r0_g, e_g_r0, d_r0_x, e_x_r0, d_r0_q, e_q_r0, d_l_g, e_g_l, d_l_x, e_x_l, d_l_q, e_q_l, d_g_x, e_x_g, d_g_q, e_q_g, d_x_q, e_q_x, lt_a, lt_p, lt_r0, lt_l, lt_g, lt_x, lt_q, hnx, hnq, hra, hrootp, hql]
          · intro q1 nq1 h1 h2
            have e1 : q1 = q := Option.some.inj (h1.symm.trans rfl)
            subst e1
            have e2 : nq1 = nq := Option.some.inj (h2.symm.trans hnq)
            subst e2
            simp [Tree.fuel, Heap.length_put, Heap.lookup_put, Heap.lookup_set_none,
hxl, hpq, hna, hnp, hnr0, hnl, hng, d_a_p, e_p_a, d_a_r0, e_r0_a, d_a_l, e_l_a, d_a_g, e_g_a, d_a_x, e_x_a, d_a_q, e_q_a, d_p_r0, e_r0_p, d_p_l, e_l_p, d_p_g, e_g_p, d_p_x, e_x_p, d_p_q, e_q_p, d_r0_l, e_l_r0, d_r0_g, e_g_r0, d_r0_x, e_x_r0, d_r0_q, e_q_r0, d_l_g, e_g_l, d_l_x, e_x_l, d_l_q, e_q_l, d_g_x, e_x_g, d_g_q, e_q_g, d_x_q, e_q_x, lt_a, lt_p, lt_r0, lt_l, lt_g, lt_x, lt_q, hnx, hnq, hra, hrootp, hql]
          · intro y h1 h2 h3 h4 h5 h6 h7
            have h8 : y ≠ x := fun e => h6 (by rw [e])
            have h9 : y ≠ q := fun e => h7 (by rw [e])
            simp [Tree.fuel, Heap.length_put, Heap.lookup_put, Heap.lookup_set_none,
hxl, hpq, hna, hnp, hnr0, hnl, hng, d_a_p, e_p_a, d_a_r0, e_r0_a, d_a_l, e_l_a, d_a_g, e_g_a, d_a_x, e_x_a, d_a_q, e_q_a, d_p_r0, e_r0_p, d_p_l, e_l_p, d_p_g, e_g_p, d_p_x, e_x_p, d_p_q, e_q_p, d_r0_l, e_l_r0, d_r0_g, e_g_r0, d_r0_x, e_x_r0, d_r0_q, e_q_r0, d_l_g, e_g_l, d_l_x, e_x_l, d_l_q, e_q_l, d_g_x, e_x_g, d_g_q, e_q_g, d_x_q, e_q_x, lt_a, lt_p, lt_r0, lt_l, lt_g, lt_x, lt_q, hnx, hnq, hra, hrootp, hql, h1, h2, h3, h4, h5, h8, h9]
      · have hql2 : ¬ some a = nq.left := fun e => hql e.symm
        have e_p_a : p ≠ a := fun e => d_a_p e.symm
        have c_a_p := fun (h : Heap) m m' => Heap.put_comm h e_p_a m m'
        have e_r0_a : r0 ≠ a := fun e => d_a_r0 e.symm
        have c_a_r0 := fun (h : Heap) m m' => Heap.put_comm h e_r0_a m m'
        have e_l_a : l ≠ a := fun e => d_a_l e.symm
        have c_a_l := fun (h : Heap) m m' => Heap.put_comm h e_l_a m m'
        have e_g_a : g ≠ a := fun e => d_a_g e.symm
        have c_a_g := fun (h : Heap) m m' => Heap.put_comm h e_g_a m m'
        have e_x_a : x ≠ a := fun e => d_a_x e.symm
        have c_a_x := fun (h : Heap) m m' => Heap.put_comm h e_x_a m m'
        have e_q_a : q ≠ a := fun e => d_a_q e.symm
        have c_a_q := fun (h : Heap) m m' => Heap.put_comm h e_q_a m m'
        have e_r0_p : r0 ≠ p := fun e => d_p_r0 e.symm
        have c_p_r0 := fun (h : Heap) m m' => Heap.put_comm h e_r0_p m m'
        have e_l_p : l ≠ p := fun e => d_p_l e.symm
        have c_p_l := fun (h : Heap) m m' => Heap.put_comm h e_l_p m m'
        have e_g_p : g ≠ p := fun e => d_p_g e.symm
        have c_p_g := fun (h : Heap) m m' => Heap.put_comm h e_g_p m m'
        have e_x_p : x ≠ p := fun e => d_p_x e.symm
        have c_p_x := fun (h : Heap) m m' => Heap.put_comm h e_x_p m m'
        have e_q_p : q ≠ p := fun e => d_p_q e.symm
        have c_p_q := fun (h : Heap) m m' => Heap.put_comm h e_q_p m m'
        have e_l_r0 : l ≠ r0 := fun e => d_r0_l e.symm
        have c_r0_l := fun (h : Heap) m m' => Heap.put_comm h e_l_r0 m m'
        have e_g_r0 : g ≠ r0 := fun e => d_r0_g e.symm
        have c_r0_g := fun (h : Heap) m m' => Heap.put_comm h e_g_r0 m m'
        have e_x_r0 : x ≠ r0 := fun e => d_r0_x e.symm
        have c_r0_x := fun (h : Heap) m m' => Heap.put_comm h e_x_r0 m m'
        have e_q_r0 : q ≠ r0 := fun e => d_r0_q e.symm
        have c_r0_q := fun (h : Heap) m m' => Heap.put_comm h e_q_r0 m m'
        have e_g_l : g ≠ l := fun e => d_l_g e.symm
        have c_l_g := fun (h : Heap) m m' => Heap.put_comm h e_g_l m m'
        have e_x_l : x ≠ l := fun e => d_l_x e.symm
        have c_l_x := fun (h : Heap) m m' => Heap.put_comm h e_x_l m m'
        have e_q_l : q ≠ l := fun e => d_l_q e.symm
        have c_l_q := fun (h : Heap) m m' => Heap.put_comm h e_q_l m m'
        have e_x_g : x ≠ g := fun e => d_g_x e.symm
        have c_g_x := fun (h : Heap) m m' => Heap.put_comm h e_x_g m m'
        have e_q_g : q ≠ g := fun e => d_g_q e.symm
        have c_g_q := fun (h : Heap) m m' => Heap.put_comm h e_q_g m m'
        have e_q_x : q ≠ x := fun e => d_x_q e.symm
        have c_x_q := fun (h : Heap) m m' => Heap.put_comm h e_q_x m m'
        have lt_a := Heap.lookup_lt hna
        have lt_p := Heap.lookup_lt hnp
        have lt_r0 := Heap.lookup_lt hnr0
        have lt_l := Heap.lookup_lt hnl
        have lt_g := Heap.lookup_lt hng
        have lt_x := Heap.lookup_lt hnx
        have lt_q := Heap.lookup_lt hnq
        apply Exists.intro
        apply Exists.intro
        refine ⟨?_, ?_⟩
        · simp [AVLTree.remove, hdesc, hpred, Tree.getNode, hna, hnl0, hno, AVLTree.nodeSwap,
BinarySearchTree.nodeSwap, Tree.setParent, Tree.setLeft, Tree.setRight, Tree.setBalance,
Tree.modify, Tree.delete, hnp, hnr0, hnl, hng, hal, har, hpr, hpp, hxl, hpq, hgp, hga, hgp2, hga2,
Heap.lookup_put, Heap.length_put, Heap.put_put, d_a_p, e_p_a, d_a_r0, e_r0_a, d_a_l, e_l_a, d_a_g, e_g_a, d_a_x, e_x_a, d_a_q, e_q_a, d_p_r0, e_r0_p, d_p_l, e_l_p, d_p_g, e_g_p, d_p_x, e_x_p, d_p_q, e_q_p, d_r0_l, e_l_r0, d_r0_g, e_g_r0, d_r0_x, e_x_r0, d_r0_q, e_q_r0, d_l_g, e_g_l, d_l_x, e_x_l, d_l_q, e_q_l, d_g_x, e_x_g, d_g_q, e_q_g, d_x_q, e_q_x, lt_a, lt_p, lt_r0, lt_l, lt_g, lt_x, lt_q, hnx, hnq, hra, hrootp, hql, hql2, c_a_p, c_a_r0, c_a_l, c_a_g, c_a_x, c_a_q, c_p_r0, c_p_l, c_p_g, c_p_x, c_p_q, c_r0_l, c_r0_g, c_r0_x, c_r0_q, c_l_g, c_l_x, c_l_q, c_g_x, c_g_q, c_x_q]
          rfl
        · refine ⟨?_, ?_, ?_, ?_, ?_, ?_, ?_, ?_, ?_, ?_⟩
          · simp [Tree.fuel, Heap.length_put, Heap.lookup_put, Heap.lookup_set_none,
hxl, hpq, hna, hnp, hnr0, hnl, hng, d_a_p, e_p_a, d_a_r0, e_r0_a, d_a_l, e_l_a, d_a_g, e_g_a, d_a_x, e_x_a, d_a_q, e_q_a, d_p_r0, e_r0_p, d_p_l, e_l_p, d_p_g, e_g_p, d_p_x, e_x_p, d_p_q, e_q_p, d_r0_l, e_l_r0, d_r0_g, e_g_r0, d_r0_x, e_x_r0, d_r0_q, e_q_r0, d_l_g, e_g_l, d_l_x, e_x_l, d_l_q, e_q_l, d_g_x, e_x_g, d_g_q, e_q_g, d_x_q, e_q_x, lt_a, lt_p, lt_r0, lt_l, lt_g, lt_x, lt_q, hnx, hnq, hra, hrootp, hql, hql2]
          · simp [Tree.fuel, Heap.length_put, Heap.lookup_put, Heap.lookup_set_none,
hxl, hpq, hna, hnp, hnr0, hnl, hng, d_a_p, e_p_a, d_a_r0, e_r0_a, d_a_l, e_l_a, d_a_g, e_g_a, d_a_x, e_x_a, d_a_q, e_q_a, d_p_r0, e_r0_p, d_p_l, e_l_p, d_p_g, e_g_p, d_p_x, e_x_p, d_p_q, e_q_p, d_r0_l, e_l_r0, d_r0_g, e_g_r0, d_r0_x, e_x_r0, d_r0_q, e_q_r0, d_l_g, e_g_l, d_l_x, e_x_l, d_l_q, e_q_l, d_g_x, e_x_g, d_g_q, e_q_g, d_x_q, e_q_x, lt_a, lt_p, lt_r0, lt_l, lt_g, lt_x, lt_q, hnx, hnq, hra, hrootp, hql, hql2]
          · simp [Tree.fuel, Heap.length_put, Heap.lookup_put, Heap.lookup_set_none,
hxl, hpq, hna, hnp, hnr0, hnl, hng, d_a_p, e_p_a, d_a_r0, e_r0_a, d_a_l, e_l_a, d_a_g, e_g_a, d_a_x, e_x_a, d_a_q, e_q_a, d_p_r0, e_r0_p, d_p_l, e_l_p, d_p_g, e_g_p, d_p_x, e_x_p, d_p_q, e_q_p, d_r0_l, e_l_r0, d_r0_g, e_g_r0, d_r0_x, e_x_r0, d_r0_q, e_q_r0, d_l_g, e_g_l, d_l_x, e_x_l, d_l_q, e_q_l, d_g_x, e_x_g, d_g_q, e_q_g, d_x_q, e_q_x, lt_a, lt_p, lt_r0, lt_l, lt_g, lt_x, lt_q, hnx, hnq, hra, hrootp, hql, hql2]
          · simp [Tree.fuel, Heap.length_put, Heap.lookup_put, Heap.lookup_set_none,
hxl, hpq, hna, hnp, hnr0, hnl, hng, d_a_p, e_p_a, d_a_r0, e_r0_a, d_a_l, e_l_a, d_a_g, e_g_a, d_a_x, e_x_a, d_a_q, e_q_a, d_p_r0, e_r0_p, d_p_l, e_l_p, d_p_g, e_g_p, d_p_x, e_x_p, d_p_q, e_q_p, d_r0_l, e_l_r0, d_r0_g, e_g_r0, d_r0_x, e_x_r0, d_r0_q, e_q_r0, d_l_g, e_g_l, d_l_x, e_x_l, d_l_q, e_q_l, d_g_x, e_x_g, d_g_q, e_q_g, d_x_q, e_q_x, lt_a, lt_p, lt_r0, lt_l, lt_g, lt_x, lt_q, hnx, hnq, hra, hrootp, hql, hql2]
          · simp [Tree.fuel, Heap.length_put, Heap.lookup_put, Heap.lookup_set_none,
hxl, hpq, hna, hnp, hnr0, hnl, hng, d_a_p, e_p_a, d_a_r0, e_r0_a, d_a_l, e_l_a, d_a_g, e_g_a, d_a_x, e_x_a, d_a_q, e_q_a, d_p_r0, e_r0_p, d_p_l, e_l_p, d_p_g, e_g_p, d_p_x, e_x_p, d_p_q, e_q_p, d_r0_l, e_l_r0, d_r0_g, e_g_r0, d_r0_x, e_x_r0, d_r0_q, e_q_r0, d_l_g, e_g_l, d_l_x, e_x_l, d_l_q, e_q_l, d_g_x, e_x_g, d_g_q, e_q_g, d_x_q, e_q_x, lt_a, lt_p, lt_r0, lt_l, lt_g, lt_x, lt_q, hnx, hnq, hra, hrootp, hql, hql2]
          · simp [Tree.fuel, Heap.length_put, Heap.lookup_put, Heap.lookup_set_none,
hxl, hpq, hna, hnp, hnr0, hnl, hng, d_a_p, e_p_a, d_a_r0, e_r0_a, d_a_l, e_l_a, d_a_g, e_g_a, d_a_x, e_x_a, d_a_q, e_q_a, d_p_r0, e_r0_p, d_p_l, e_l_p, d_p_g, e_g_p, d_p_x, e_x_p, d_p_q, e_q_p, d_r0_l, e_l_r0, d_r0_g, e_g_r0, d_r0_x, e_x_r0, d_r0_q, e_q_r0, d_l_g, e_g_l, d_l_x, e_x_l, d_l_q, e_q_l, d_g_x, e_x_g, d_g_q, e_q_g, d_x_q, e_q_x, lt_a, lt_p, lt_r0, lt_l, lt_g, lt_x, lt_q, hnx, hnq, hra, hrootp, hql, hql2]
          · intro _; simp [Tree.fuel, Heap.length_put, Heap.lookup_put, Heap.lookup_set_none,
hxl, hpq, hna, hnp, hnr0, hnl, hng, d_a_p, e_p_a, d_a_r0, e_r0_a, d_a_l, e_l_a, d_a_g, e_g_a, d_a_x, e_x_a, d_a_q, e_q_a, d_p_r0, e_r0_p, d_p_l, e_l_p, d_p_g, e_g_p, d_p_x, e_x_p, d_p_q, e_q_p, d_r0_l, e_l_r0, d_r0_g, e_g_r0, d_r0_x, e_x_r0, d_r0_q, e_q_r0, d_l_g, e_g_l, d_l_x, e_x_l, d_l_q, e_q_l, d_g_x, e_x_g, d_g_q, e_q_g, d_x_q, e_q_x, lt_a, lt_p, lt_r0, lt_l, lt_g, lt_x, lt_q, hnx, hnq, hra, hrootp, hql, hql2]
          · intro x1 nx1 h1 h2
            have e1 : x1 = x := Option.some.inj (h1.symm.trans rfl)
            subst e1
            have e2 : nx1 = nx := Option.some.inj (h2.symm.trans hnx)
            subst e2
            simp [Tree.fuel, Heap.length_put, Heap.lookup_put, Heap.lookup_set_none,
hxl, hpq, hna, hnp, hnr0, hnl, hng, d_a_p, e_p_a, d_a_r0, e_r0_a, d_a_l, e_l_a, d_a_g, e_g_a, d_a_x, e_x_a, d_a_q, e_q_a, d_p_r0, e_r0_p, d_p_l, e_l_p, d_p_g, e_g_p, d_p_x, e_x_p, d_p_q, e_q_p, d_r0_l, e_l_r0, d_r0_g, e_g_r0, d_r0_x, e_x_r0, d_r0_q, e_q_r0, d_l_g, e_g_l, d_l_x, e_x_l, d_l_q, e_q_l, d_g_x, e_x_g, d_g_q, e_q_g, d_x_q, e_q_x, lt_a, lt_p, lt_r0, lt_l, lt_g, lt_x, lt_q, hnx, hnq, hra, hrootp, hql, hql2]
          · intro q1 nq1 h1 h2
            have e1 : q1 = q := Option.some.inj (h1.symm.trans rfl)
            subst e1
            have e2 : nq1 = nq := Option.some.inj (h2.symm.trans hnq)
            subst e2
            simp [Tree.fuel, Heap.length_put, Heap.lookup_put, Heap.lookup_set_none,
hxl, hpq, hna, hnp, hnr0, hnl, hng, d_a_p, e_p_a, d_a_r0, e_r0_a, d_a_l, e_l_a, d_a_g, e_g_a, d_a_x, e_x_a, d_a_q, e_q_a, d_p_r0, e_r0_p, d_p_l, e_l_p, d_p_g, e_g_p, d_p_x, e_x_p, d_p_q, e_q_p, d_r0_l, e_l_r0, d_r0_g, e_g_r0, d_r0_x, e_x_r0, d_r0_q, e_q_r0, d_l_g, e_g_l, d_l_x, e_x_l, d_l_q, e_q_l, d_g_x, e_x_g, d_g_q, e_q_g, d_x_q, e_q_x, lt_a, lt_p, lt_r0, lt_l, lt_g, lt_x, lt_q, hnx, hnq, hra, hrootp, hql, hql2]
          · intro y h1 h2 h3 h4 h5 h6 h7
            have h8 : y ≠ x := fun e => h6 (by rw [e])
            have h9 : y ≠ q := fun e => h7 (by rw [e])
            simp [Tree.fuel, Heap.length_put, Heap.lookup_put, Heap.lookup_set_none,
hxl, hpq, hna, hnp, hnr0, hnl, hng, d_a_p, e_p_a, d_a_r0, e_r0_a, d_a_l, e_l_a, d_a_g, e_g_a, d_a_x, e_x_a, d_a_q, e_q_a, d_p_r0, e_r0_p, d_p_l, e_l_p, d_p_g, e_g_p, d_p_x, e_x_p, d_p_q, e_q_p, d_r0_l, e_l_r0, d_r0_g, e_g_r0, d_r0_x, e_x_r0, d_r0_q, e_q_r0, d_l_g, e_g_l, d_l_x, e_x_l, d_l_q, e_q_l, d_g_x, e_x_g, d_g_q, e_q_g, d_x_q, e_q_x, lt_a, lt_p, lt_r0, lt_l, lt_g, lt_x, lt_q, hnx, hnq, hra, hrootp, hql, hql2, h1, h2, h3, h4, h5, h8, h9]

/-- Unlinking a node without right child below a parent: some tree has the node's left subtree
at its place, with all other nodes as they were. -/
theorem splice_virtual {t : Tree} {f : Frame} {C : List Frame} {K : Shape} {p : Nat}
    (hz : t.Zipped (f :: C) (.node K p .nil)) :
    ∃ tv : Tree, tv.Zipped (f :: C) K ∧
      (∀ nf, t.heap.lookup f.addr = some nf →
        (f.dir = .left → tv.heap.lookup f.addr = some { nf with left := K.ptr }) ∧
        (f.dir = .right → tv.heap.lookup f.addr = some { nf with right := K.ptr })) ∧
      (∀ x nx, K.ptr = some x → t.heap.lookup x = some nx →
        tv.heap.lookup x = some { nx with parent := some f.addr }) ∧
      (∀ y, y ≠ f.addr → K.ptr ≠ some y → tv.heap.lookup y = t.heap.lookup y) := by
  have hmp : p ∈ (Shape.node K p .nil).addrs := by simp [Shape.addrs]
  obtain ⟨nf, hnf, -, hd, -, -⟩ := hz.ctx
  have hltf := Heap.lookup_lt hnf
  have hfp : f.addr ≠ p := ((hz.not_mem_ctx hmp).1).symm
  obtain ⟨nf', hL, hR⟩ : ∃ nf' : Node, (f.dir = .left → nf' = { nf with left := K.ptr }) ∧
      (f.dir = .right → nf' = { nf with right := K.ptr }) := by
    cases f.dir
    · exact ⟨{ nf with left := K.ptr }, fun _ => rfl, fun h => by cases h⟩
    · exact ⟨{ nf with right := K.ptr }, fun h => (by cases h), fun _ => rfl⟩
  have hpar : nf'.parent = nf.parent := by
    cases hdir : f.dir
    · rw [hL hdir]
    · rw [hR hdir]
  have hhead : ∀ (h' : Heap), h'.lookup f.addr = some nf' →
      ∀ g c', f :: C = g :: c' → ∀ m, t.heap.lookup g.addr = some m →
        ∃ m', h'.lookup g.addr = some m' ∧ m'.parent = m.parent ∧
          (g.dir = .left → m'.left = K.ptr ∧ m'.right = m.right) ∧
          (g.dir = .right → m'.left = m.left ∧ m'.right = K.ptr) := by
    rintro h' hh' g c' hgc m hm
    cases hgc
    rw [hnf] at hm
    cases hm
    refine ⟨nf', hh', hpar, ?_, ?_⟩
    · intro h; rw [hL h]; exact ⟨rfl, rfl⟩
    · intro h; rw [hR h]; exact ⟨rfl, rfl⟩
  have hfst : ∀ (h' : Heap), h'.lookup f.addr = some nf' →
      ∀ m, t.heap.lookup f.addr = some m →
        (f.dir = .left → h'.lookup f.addr = some { m with left := K.ptr }) ∧
        (f.dir = .right → h'.lookup f.addr = some { m with right := K.ptr }) := by
    intro h' hh' m hm
    rw [hnf] at hm
    cases hm
    constructor
    · intro h; rw [hh', hL h]
    · intro h; rw [hh', hR h]
  cases K with
  | nil =>
    have hl1 : (t.heap.put f.addr nf').lookup f.addr = some nf' := by
      simp [Heap.lookup_put, hltf]
    refine ⟨Tree.mk (t.heap.put f.addr nf') t.root, ?_, hfst _ hl1, ?_, ?_⟩
    · refine splice_zipped hz (Or.inr ⟨rfl, rfl⟩) ?_ (hhead _ hl1) ?_ ?_
      · exact hz.root
      · intro x nx hx; simp [Shape.ptr] at hx
      · intro y _ hyp _
        have h2 : y ≠ f.addr := fun e => hyp (by simp [ctxParent, e])
        exact .of_eq (by simp [Heap.lookup_put, hltf, h2])
    · intro x nx hx; simp [Shape.ptr] at hx
    · intro y hy _
      simp [Heap.lookup_put, hltf, hy]
  | node Kl x Kr =>
    have hmx : x ∈ (Shape.node (.node Kl x Kr) p .nil).addrs := by simp [Shape.addrs]
    obtain ⟨nx, hnx⟩ := hz.sub.live hmx
    have hltx := Heap.lookup_lt hnx
    have hfx : f.addr ≠ x := ((hz.not_mem_ctx hmx).1).symm
    have hxf : x ≠ f.addr := fun e => hfx e.symm
    have hl1 : ((t.heap.put f.addr nf').put x { nx with parent := some f.addr }).lookup f.addr
        = some nf' := by
      simp [Heap.lookup_put, hltf, hltx, hfx]
    refine ⟨Tree.mk ((t.heap.put f.addr nf').put x { nx with parent := some f.addr }) t.root,
      ?_, hfst _ hl1, ?_, ?_⟩
    · refine splice_zipped hz (Or.inr ⟨rfl, rfl⟩) ?_ (hhead _ hl1) ?_ ?_
      · exact hz.root
      · intro y ny hy hny
        simp only [Shape.ptr, Option.some.injEq] at hy
        subst hy
        rw [hnx] at hny
        cases hny
        exact ⟨{ nx with parent := some f.addr }, by simp [Heap.lookup_put, hltx, hltf], rfl,
          rfl, rfl⟩
      · intro y _ hyp hyx
        have h1 : y ≠ x := fun e => hyx (by simp [Shape.ptr, e])
        have h2 : y ≠ f.addr := fun e => hyp (by simp [ctxParent, e])
        exact .of_eq (by simp [Heap.lookup_put, hltx, hltf, h1, h2])
    · intro y ny hy hny
      simp only [Shape.ptr, Option.some.injEq] at hy
      subst hy
      rw [hnx] at hny
      cases hny
      simp [Heap.lookup_put, hltx, hltf]
    · intro y hy hyx
      have h1 : y ≠ x := fun e => hyx (by simp [Shape.ptr, e])
      simp [Heap.lookup_put, hltf, hltx, hy, h1]

/-- The walk to the rightmost node of a nonempty subtree returns, and the node it returns has no
right child and hangs below a chain of right links. -/
theorem rightmost_spec (t : Tree) :
    ∀ (s : Shape) (par : Ptr) (fuel : Nat), s ≠ .nil → t.heap.Holds par s → s.height < fuel + 1 →
      ∃ p cL PL, rightmost fuel t s.ptr = .ok (some p) ∧ s = plug cL (.node PL p .nil) ∧
        ∀ f ∈ cL, f.dir = .right := by
  intro s
  induction s with
  | nil => intro _ _ h; exact absurd rfl h
  | node l a r _ ihr =>
    intro par fuel _ hs hfuel
    obtain ⟨n, hn, -, -, hr, -, hsr⟩ := hs
    cases fuel with
    | zero => simp [Shape.height] at hfuel
    | succ fuel =>
      simp only [Shape.height] at hfuel
      cases r with
      | nil =>
        refine ⟨a, [], l, ?_, rfl, by simp⟩
        simp [rightmost, Shape.ptr, Tree.getNode, hn, hr]
      | node rl b rr =>
        have hh : (Shape.node rl b rr).height < fuel + 1 := by
          have := Nat.le_max_right l.height (Shape.node rl b rr).height
          omega
        cases fuel with
        | zero => simp [Shape.height] at hh
        | succ fuel =>
          obtain ⟨p, cL, PL, hrun, hsplit, hdir⟩ :=
            ihr (some a) (fuel + 1) (by simp) hsr (by omega)
          refine ⟨p, cL ++ [⟨a, .right, l⟩], PL, ?_, ?_, ?_⟩
          · rw [← hrun]
            simp [rightmost, Shape.ptr, Tree.getNode, hn, hr]
          · rw [plug_append, ← hsplit]
            rfl
          · intro f hf
            rcases List.mem_append.mp hf with hf | hf
            · exact hdir f hf
            · simp only [List.mem_singleton] at hf
              rw [hf]

/-- The code of `AVLTree::remove` for a node with two children whose predecessor is its left
child, up to the call of `removeFix`: the predecessor takes the node's place. -/
theorem AVLTree.remove_two_adjacent {t : Tree} {c : List Frame} {PL R : Shape} {a p : Nat}
    (key : Int) (hz : t.Zipped c (.node (.node PL p .nil) a R)) (hR : R ≠ .nil)
    (hdesc : removeDescend t.fuel t key t.root = .ok (some a))
    (hpred : BinarySearchTree.predecessor t (some a) = .ok (some p)) :
    ∃ t1 diff, AVLTree.remove t key = AVLTree.removeFix t1.fuel t1 (some p) diff ∧
      t1.Zipped (⟨p, .left, R⟩ :: c) PL ∧ t1.heap.length = t.heap.length ∧
      ∀ y, y ≠ a → t1.item y = t.item y := by
  -- the nodes involved
  obtain ⟨na, hna, hpa, hla, hra, hLh, hRh⟩ := hz.sub
  obtain ⟨np, hnp, hpp, hpl, hpr, hPLh, -⟩ := hLh
  obtain ⟨r0, hr0⟩ : ∃ r0, R.ptr = some r0 := by
    cases R with
    | nil => exact absurd rfl hR
    | node Rl r0 Rr => exact ⟨r0, rfl⟩
  have hmr : r0 ∈ R.addrs := Shape.ptr_mem hr0
  -- separation of the parts of the subtree
  have hnd := hz.nodupSub
  simp only [Shape.addrs, List.nodup_append, List.nodup_cons, List.Disjoint, List.mem_cons,
    List.mem_append, List.not_mem_nil, or_false, List.append_nil] at hnd
  obtain ⟨⟨hPLn, -, hpPL⟩, ⟨haR, hRn⟩, hdLR⟩ := hnd
  have hS : ∀ y, (y ∈ PL.addrs ∨ y = p ∨ y = a ∨ y ∈ R.addrs) →
      y ∈ (Shape.node (.node PL p .nil) a R).addrs := by
    intro y hy
    simp only [Shape.addrs, List.mem_append, List.mem_cons, List.not_mem_nil, or_false]
    tauto
  have hap : a ≠ p := fun e => hdLR (Or.inr rfl) (Or.inl e.symm)
  have har0 : a ≠ r0 := fun e => haR (e ▸ hmr)
  have hpr0 : p ≠ r0 := fun e => hdLR (Or.inr rfl) (Or.inr (e ▸ hmr))
  obtain ⟨nr0, hnr0⟩ := hRh.live hmr
  have hproot : t.root ≠ some p := by
    intro e
    cases c with
    | nil =>
      have := hz.root
      simp only [ctxRoot, Shape.ptr] at this
      rw [this] at e
      exact hap (Option.some.inj e)
    | cons f c =>
      obtain ⟨x, hx, hxm⟩ := ctxRoot_cons_mem f c (Shape.node (.node PL p .nil) a R).ptr
      rw [← hz.root, e] at hx
      cases hx
      exact hz.ctx_not_mem hxm (hS _ (Or.inr (Or.inl rfl)))
  have hrootiff : t.root = some a ↔ na.parent = none := by
    rw [hz.root_eq_iff, hpa]
    cases c <;> simp [ctxParent]
  obtain ⟨t1, diff, hrun, hlen, hroot1, hl1a, hl1p, hl1r, hl1x, hl1q, hl1o⟩ :=
    AVLTree.remove_two_adjacent_run key hdesc hpred hna hnp hnr0 hla (hra.trans hr0) hpr hpp
      hap har0 hpr0
      (by
        intro x hx
        have hxm : x ∈ PL.addrs := Shape.ptr_mem (hpl.symm.trans hx)
        refine ⟨?_, ?_, ?_, hPLh.live hxm⟩
        · rintro rfl; exact hdLR (Or.inl hxm) (Or.inl rfl)
        · rintro rfl; exact hpPL hxm rfl
        · rintro rfl; exact hdLR (Or.inl hxm) (Or.inr hmr))
      (by
        intro q hq
        have hcq : ctxParent c = some q := hpa.symm.trans hq
        have hne : ∀ y, y ∈ (Shape.node (.node PL p .nil) a R).addrs → q ≠ y := by
          intro y hy e
          exact hz.parent_ne hy (e ▸ hcq)
        refine ⟨hne _ (hS _ (Or.inr (Or.inr (Or.inl rfl)))), hne _ (hS _ (Or.inr (Or.inl rfl))),
          hne _ (hS _ (Or.inr (Or.inr (Or.inr hmr)))), ?_, ?_⟩
        · intro e
          exact hne q (hS _ (Or.inl (Shape.ptr_mem (hpl.symm.trans e)))) rfl
        · cases c with
          | nil => simp [ctxParent] at hcq
          | cons f c =>
            simp only [ctxParent, Option.some.injEq] at hcq
            subst hcq
            obtain ⟨nq, hnq, -⟩ := hz.ctx
            exact ⟨nq, hnq⟩)
      hrootiff hproot
  refine ⟨t1, diff, hrun, ?_, hlen, ?_⟩
  · -- the shape: unlink the predecessor, then put it at the place of the node
    have hzbig : t.Zipped (⟨a, .left, R⟩ :: c) (.node PL p .nil) := Tree.Zipped.up.mpr hz
    obtain ⟨tv, hzv, hvhead, hvx, hvo⟩ := splice_virtual hzbig
    have hzv' : tv.Zipped c (.node PL a R) := Tree.Zipped.up.mp hzv
    have hva := (hvhead na hna).1 rfl
    simp only at hva hvx hvo
    refine Tree.Zipped.up.mpr ?_
    show t1.Zipped c (.node PL p R)
    refine replace_zipped hzv' ?_ ?_ ?_ ?_ ?_ ?_ ?_
    · -- the predecessor is not in the tree once unlinked
      rw [plug_addrs]
      simp only [Shape.addrs, List.mem_append, List.mem_cons, not_or]
      have hd := hz.disjoint p (hS _ (Or.inr (Or.inl rfl)))
      refine ⟨⟨hd.1, fun h => hpPL h rfl, fun e => hap e.symm, ?_⟩, hd.2⟩
      intro h
      exact hdLR (Or.inr rfl) (Or.inr h)
    · rw [hroot1]
      cases c with
      | nil => simp [ctxParent] at hpa; simp [hpa, ctxRoot]
      | cons f c =>
        simp only [ctxParent] at hpa
        simp only [hpa, ctxRoot]
        exact hz.root
    · exact ⟨_, hl1p, hpa, hpl, hr0.symm⟩
    · rintro f c' rfl nq hnq
      have hq : na.parent = some f.addr := hpa
      have hfa : f.addr ≠ a := fun e => hz.parent_ne (hS _ (Or.inr (Or.inr (Or.inl rfl))))
        (by simp [ctxParent, e])
      have hfx : PL.ptr ≠ some f.addr := fun e =>
        hz.parent_ne (hS _ (Or.inl (Shape.ptr_mem e))) rfl
      rw [hvo f.addr hfa hfx] at hnq
      obtain ⟨nq', hnq', -, hd, -, -⟩ := hz.ctx
      rw [hnq] at hnq'
      cases hnq'
      have := hl1q f.addr nq hq hnq
      refine ⟨_, this, ?_, ?_, ?_⟩
      · split <;> rfl
      · intro hdir
        simp only [hdir, Shape.ptr] at hd
        simp [hd.1]
      · intro hdir
        simp only [hdir, Shape.ptr] at hd
        have hne : nq.left ≠ some a := by
          rw [hd.1]
          intro e
          exact (hz.not_mem_ctx (hS _ (Or.inr (Or.inr (Or.inl rfl))))).2.1 (Shape.ptr_mem e)
        simp [hne]
    · intro x nx hx hnx
      have hxm : x ∈ PL.addrs := Shape.ptr_mem hx
      obtain ⟨nx0, hnx0⟩ := hPLh.live hxm
      rw [hvx x nx0 hx hnx0] at hnx
      cases hnx
      exact ⟨_, hl1x x nx0 (hpl.trans hx) hnx0, rfl, rfl, rfl⟩
    · intro x nx hx hnx
      rw [hr0] at hx
      cases hx
      have h1 : r0 ≠ a := fun e => har0 e.symm
      have h2 : PL.ptr ≠ some r0 := fun e => hdLR (Or.inl (Shape.ptr_mem e)) (Or.inr hmr)
      rw [hvo r0 h1 h2, hnr0] at hnx
      cases hnx
      exact ⟨_, hl1r, rfl, rfl, rfl⟩
    · intro y hya hyp hyc hyl hyr
      have h3 : y ≠ r0 := fun e => hyr (e ▸ hr0)
      have h4 : np.left ≠ some y := fun e => hyl (hpl.symm.trans e)
      have h5 : na.parent ≠ some y := fun e => hyc (hpa.symm.trans e)
      exact .of_eq ((hl1o y hya hyp h3 h4 h5).trans (hvo y hya hyl).symm)
  · intro y hy
    by_cases hyp : y = p
    · subst hyp
      rw [Tree.item_of_lookup hl1p, Tree.item_of_lookup hnp]
    by_cases hyr : y = r0
    · subst hyr
      rw [Tree.item_of_lookup hl1r, Tree.item_of_lookup hnr0]
    by_cases hyx : np.left = some y
    · obtain ⟨nx, hnx⟩ := hPLh.live (Shape.ptr_mem (hpl.symm.trans hyx))
      rw [Tree.item_of_lookup (hl1x y nx hyx hnx), Tree.item_of_lookup hnx]
    by_cases hyq : na.parent = some y
    · obtain ⟨nq, hnq⟩ : ∃ nq, t.heap.lookup y = some nq := by
        cases c with
        | nil => simp [ctxParent, hpa] at hyq
        | cons f c =>
          simp only [hpa, ctxParent, Option.some.injEq] at hyq
          subst hyq
          obtain ⟨nq, hnq, -⟩ := hz.ctx
          exact ⟨nq, hnq⟩
      rw [Tree.item_of_lookup (hl1q y nq hyq hnq), Tree.item_of_lookup hnq]
      split <;> rfl
    exact Tree.item_congr (hl1o y hy hyp hyr hyx hyq)

/-- The code of `AVLTree::remove` for a node with two children whose predecessor lies deeper in
the left subtree, up to the call of `removeFix`: the predecessor is unlinked from its parent and
takes the node's place. -/
theorem AVLTree.remove_two_deep {t : Tree} {c cL : List Frame} {f1 : Frame} {PL R : Shape}
    {a p : Nat} (key : Int)
    (hz : t.Zipped c (.node (plug (f1 :: cL) (.node PL p .nil)) a R)) (hf1 : f1.dir = .right)
    (hR : R ≠ .nil)
    (hdesc : removeDescend t.fuel t key t.root = .ok (some a))
    (hpred : BinarySearchTree.predecessor t (some a) = .ok (some p)) :
    ∃ t1 diff, AVLTree.remove t key = AVLTree.removeFix t1.fuel t1 (some f1.addr) diff ∧
      t1.Zipped (f1 :: (cL ++ ⟨p, .left, R⟩ :: c)) PL ∧ t1.heap.length = t.heap.length ∧
      ∀ y, y ≠ a → t1.item y = t.item y := by
  have hzbig : t.Zipped (f1 :: (cL ++ ⟨a, .left, R⟩ :: c)) (.node PL p .nil) :=
    (@Tree.Zipped.append t (f1 :: cL) (⟨a, .left, R⟩ :: c) (.node PL p .nil)).mpr
      (Tree.Zipped.up.mpr hz)
  obtain ⟨L, hLdef⟩ : ∃ L, L = plug (f1 :: cL) (.node PL p .nil) := ⟨_, rfl⟩
  rw [← hLdef] at hz
  -- the nodes involved
  obtain ⟨na, hna, hpa, hla, hra, hLh, hRh⟩ := hz.sub
  obtain ⟨np, hnp, hpp, hpl, hpr, hPLh, -⟩ := hzbig.sub
  obtain ⟨ng, hng, -, hd, -, -⟩ := hzbig.ctx
  simp only [hf1] at hd
  obtain ⟨hgl, hgr⟩ := hd
  simp only [ctxParent] at hpp
  obtain ⟨r0, hr0⟩ : ∃ r0, R.ptr = some r0 := by
    cases R with
    | nil => exact absurd rfl hR
    | node Rl r0 Rr => exact ⟨r0, rfl⟩
  have hmr : r0 ∈ R.addrs := Shape.ptr_mem hr0
  obtain ⟨l, hlr, hlm⟩ := ctxRoot_cons_mem f1 cL (Shape.node PL p .nil).ptr
  have hLptr : L.ptr = some l := by rw [hLdef, plug_ptr]; exact hlr
  have hLaddrs : L.addrs = ctxBefore (f1 :: cL) ++ (Shape.node PL p .nil).addrs ++
      ctxAfter (f1 :: cL) := by rw [hLdef, plug_addrs]
  -- separation of the parts of the subtree
  have hnd := hz.nodupSub
  simp only [Shape.addrs, List.nodup_append, List.nodup_cons, List.Disjoint, List.mem_cons] at hnd
  obtain ⟨hLn, ⟨haR, hRn⟩, hdLR⟩ := hnd
  have hLn' := hLn
  rw [hLaddrs, nodup_around] at hLn'
  obtain ⟨hPn, -, hLsep⟩ := hLn'
  simp only [Shape.addrs, List.nodup_append, List.nodup_cons, List.Disjoint, List.mem_cons,
    List.mem_append, List.not_mem_nil, or_false, List.append_nil] at hPn hLsep
  obtain ⟨hPLn, -, hpPL⟩ := hPn
  have hctxL : ∀ y, (y ∈ ctxBefore (f1 :: cL) ∨ y ∈ ctxAfter (f1 :: cL)) → y ∈ L.addrs := by
    intro y hy
    rw [hLaddrs]
    simp only [List.mem_append]
    tauto
  have hsubL : ∀ y, (y ∈ PL.addrs ∨ y = p) → y ∈ L.addrs := by
    intro y hy
    rw [hLaddrs]
    simp only [Shape.addrs, List.mem_append, List.mem_cons, List.not_mem_nil, or_false]
    tauto
  have hS : ∀ y, (y ∈ L.addrs ∨ y = a ∨ y ∈ R.addrs) → y ∈ (Shape.node L a R).addrs := by
    intro y hy
    simp only [Shape.addrs, List.mem_append, List.mem_cons]
    tauto
  have hgm : f1.addr ∈ ctxBefore (f1 :: cL) ∨ f1.addr ∈ ctxAfter (f1 :: cL) :=
    (mem_ctxAddrs_cons f1 cL f1.addr).mpr (Or.inl (Or.inl rfl))
  have hsibm : ∀ y ∈ f1.sib.addrs, y ∈ ctxBefore (f1 :: cL) ∨ y ∈ ctxAfter (f1 :: cL) :=
    fun y hy => (mem_ctxAddrs_cons f1 cL y).mpr (Or.inl (Or.inr hy))
  have hsep : ∀ y z, (y ∈ PL.addrs ∨ y = p) →
      (z ∈ ctxBefore (f1 :: cL) ∨ z ∈ ctxAfter (f1 :: cL)) → y ≠ z := by
    rintro y z hy hz' rfl
    rcases hz' with h | h
    · exact (hLsep y hy).1 h
    · exact (hLsep y hy).2 h
  have hpL : p ∈ L.addrs := hsubL p (Or.inr rfl)
  have hlL : l ∈ L.addrs := hctxL l hlm
  have hgL : f1.addr ∈ L.addrs := hctxL _ hgm
  have hLa : ∀ y ∈ L.addrs, a ≠ y := fun y hy e => hdLR hy (Or.inl e.symm)
  have hLr : ∀ y ∈ L.addrs, r0 ≠ y := fun y hy e => hdLR hy (Or.inr (e ▸ hmr))
  have har0 : a ≠ r0 := fun e => haR (e ▸ hmr)
  obtain ⟨nr0, hnr0⟩ := hRh.live hmr
  obtain ⟨nl, hnl⟩ := hLh.live hlL
  have hproot : t.root ≠ some p := by
    intro e
    cases c with
    | nil =>
      have := hz.root
      simp only [ctxRoot, Shape.ptr] at this
      rw [this] at e
      exact hLa p hpL (Option.some.inj e)
    | cons f c =>
      obtain ⟨x, hx, hxm⟩ := ctxRoot_cons_mem f c (Shape.node L a R).ptr
      rw [← hz.root, e] at hx
      cases hx
      exact hz.ctx_not_mem hxm (hS _ (Or.inl hpL))
  have hrootiff : t.root = some a ↔ na.parent = none := by
    rw [hz.root_eq_iff, hpa]
    cases c <;> simp [ctxParent]
  have hqne : ∀ q, na.parent = some q → ∀ y, y ∈ (Shape.node L a R).addrs → y ≠ q := by
    intro q hq y hy e
    exact hz.parent_ne hy (e ▸ hpa.symm.trans hq)
  have hqlive : ∀ q, na.parent = some q → ∃ nq, t.heap.lookup q = some nq := by
    intro q hq
    have hcq : ctxParent c = some q := hpa.symm.trans hq
    cases c with
    | nil => simp [ctxParent] at hcq
    | cons f c =>
      simp only [ctxParent, Option.some.injEq] at hcq
      subst hcq
      obtain ⟨nq, hnq, -⟩ := hz.ctx
      exact ⟨nq, hnq⟩
  obtain ⟨t1, diff, hrun, hlen, hroot1, hl1a, hl1p, hl1r, hl1l, hl1g, hl1x, hl1q, hl1o⟩ :=
    AVLTree.remove_two_deep_run key hdesc hpred hna hnp hnr0 hnl hng (hla.trans hLptr)
      (hra.trans hr0) hpr hpp
      (by
        rw [hgl]
        intro e
        exact hsep p p (Or.inr rfl) (hsibm p (Shape.ptr_mem e)) rfl)
      (by
        rw [hgl]
        intro e
        exact hLa a (hctxL a (hsibm a (Shape.ptr_mem e))) rfl)
      (hLa p hpL) har0 (hLr p hpL).symm (hLa l hlL) (hsep p l (Or.inr rfl) hlm)
      (hLr l hlL) (hLa _ hgL) (hsep p _ (Or.inr rfl) hgm) (hLr _ hgL)
      (by
        intro x hx
        have hxm : x ∈ PL.addrs := Shape.ptr_mem (hpl.symm.trans hx)
        have hxL := hsubL x (Or.inl hxm)
        refine ⟨hLa x hxL, ?_, hLr x hxL, (hsep x l (Or.inl hxm) hlm).symm,
          (hsep x _ (Or.inl hxm) hgm).symm, hPLh.live hxm⟩
        rintro rfl
        exact hpPL hxm rfl)
      (by
        intro q hq
        have h := hqne q hq
        refine ⟨h a (hS _ (Or.inr (Or.inl rfl))), h p (hS _ (Or.inl hpL)),
          h r0 (hS _ (Or.inr (Or.inr hmr))), h l (hS _ (Or.inl hlL)),
          h _ (hS _ (Or.inl hgL)), ?_, hqlive q hq⟩
        intro e
        exact h q (hS _ (Or.inl (hsubL q (Or.inl (Shape.ptr_mem (hpl.symm.trans e)))))) rfl)
      hrootiff hproot
  refine ⟨t1, diff, hrun, ?_, hlen, ?_⟩
  · -- the shape: unlink the predecessor, then put it at the place of the node
    obtain ⟨tv, hzv, hvhead, hvx, hvo⟩ := splice_virtual hzbig
    have hzv' : tv.Zipped c (.node (plug (f1 :: cL) PL) a R) :=
      Tree.Zipped.up.mp ((@Tree.Zipped.append tv (f1 :: cL) (⟨a, .left, R⟩ :: c) PL).mp hzv)
    have hvg := (hvhead ng hng).2 hf1
    refine (@Tree.Zipped.append t1 (f1 :: cL) (⟨p, .left, R⟩ :: c) PL).mpr
      (Tree.Zipped.up.mpr ?_)
    show t1.Zipped c (.node (plug (f1 :: cL) PL) p R)
    have hL'ptr : (plug (f1 :: cL) PL).ptr = some l := by rw [plug_ptr]; exact hlr
    have hPLl : PL.ptr ≠ some l := fun e => hsep l l (Or.inl (Shape.ptr_mem e)) hlm rfl
    have hPLg : PL.ptr ≠ some f1.addr := fun e =>
      hsep _ _ (Or.inl (Shape.ptr_mem e)) hgm rfl
    refine replace_zipped hzv' ?_ ?_ ?_ ?_ ?_ ?_ ?_
    · -- the predecessor is not in the tree once unlinked
      rw [plug_addrs]
      simp only [Shape.addrs, List.mem_append, List.mem_cons, not_or, plug_addrs]
      have hd := hz.disjoint p (hS _ (Or.inl hpL))
      have hs := hLsep p (Or.inr rfl)
      exact ⟨⟨hd.1, ⟨⟨hs.1, fun h => hpPL h rfl⟩, hs.2⟩, (hLa p hpL).symm,
        fun h => hdLR hpL (Or.inr h)⟩, hd.2⟩
    · rw [hroot1]
      cases c with
      | nil => simp [ctxParent] at hpa; simp [hpa, ctxRoot]
      | cons f c =>
        simp only [ctxParent] at hpa
        simp only [hpa, ctxRoot]
        exact hz.root
    · exact ⟨_, hl1p, hpa, hL'ptr.symm, hr0.symm⟩
    · rintro f c' rfl nq hnq
      have hq : na.parent = some f.addr := hpa
      have h := hqne _ hq
      rw [hvo f.addr (h _ (hS _ (Or.inl hgL))).symm
        (fun e => h _ (hS _ (Or.inl (hsubL _ (Or.inl (Shape.ptr_mem e))))) rfl)] at hnq
      obtain ⟨nq', hnq', -, hd, -, -⟩ := hz.ctx
      rw [hnq] at hnq'
      cases hnq'
      have := hl1q f.addr nq hq hnq
      refine ⟨_, this, ?_, ?_, ?_⟩
      · split <;> rfl
      · intro hdir
        simp only [hdir, Shape.ptr] at hd
        simp [hd.1]
      · intro hdir
        simp only [hdir, Shape.ptr] at hd
        have hne : nq.left ≠ some a := by
          rw [hd.1]
          intro e
          exact (hz.not_mem_ctx (hS _ (Or.inr (Or.inl rfl)))).2.1 (Shape.ptr_mem e)
        simp [hne]
    · intro y ny hy hny
      rw [hL'ptr] at hy
      cases hy
      by_cases hlg : l = f1.addr
      · subst hlg
        rw [hng] at hnl
        cases hnl
        rw [hvg] at hny
        cases hny
        refine ⟨_, hl1l, ?_, ?_, ?_⟩ <;> simp [hpl]
      · rw [hvo l hlg hPLl, hnl] at hny
        cases hny
        refine ⟨_, hl1l, ?_, ?_, ?_⟩ <;> simp [hlg]
    · intro x nx hx hnx
      rw [hr0] at hx
      cases hx
      rw [hvo r0 (hLr _ hgL) (fun e => hLr _ (hsubL _ (Or.inl (Shape.ptr_mem e))) rfl),
        hnr0] at hnx
      cases hnx
      exact ⟨_, hl1r, rfl, rfl, rfl⟩
    · intro y hya hyp hyc hyl hyr
      have h3 : y ≠ r0 := fun e => hyr (e ▸ hr0)
      have h4 : y ≠ l := fun e => hyl (e ▸ hL'ptr)
      have h5 : na.parent ≠ some y := fun e => hyc (hpa.symm.trans e)
      by_cases hyg : y = f1.addr
      · subst hyg
        refine .of_eq ?_
        rw [hvg, hl1g (fun e => h4 e.symm), hpl]
      by_cases hyx : PL.ptr = some y
      · obtain ⟨nx, hnx⟩ := hPLh.live (Shape.ptr_mem hyx)
        refine .of_eq ?_
        rw [hvx y nx hyx hnx, hl1x y nx (hpl.trans hyx) hnx]
      · refine .of_eq ?_
        rw [hvo y hyg hyx]
        exact hl1o y hya hyp h3 h4 hyg (fun e => hyx (hpl.symm.trans e)) h5
  · intro y hy
    by_cases hyp : y = p
    · subst hyp
      rw [Tree.item_of_lookup hl1p, Tree.item_of_lookup hnp]
    by_cases hyr : y = r0
    · subst hyr
      rw [Tree.item_of_lookup hl1r, Tree.item_of_lookup hnr0]
    by_cases hyl : y = l
    · subst hyl
      rw [Tree.item_of_lookup hl1l, Tree.item_of_lookup hnl]
      split <;> rfl
    by_cases hyg : y = f1.addr
    · subst hyg
      rw [Tree.item_of_lookup (hl1g (fun e => hyl e.symm)), Tree.item_of_lookup hng]
    by_cases hyx : np.left = some y
    · obtain ⟨nx, hnx⟩ := hPLh.live (Shape.ptr_mem (hpl.symm.trans hyx))
      rw [Tree.item_of_lookup (hl1x y nx hyx hnx), Tree.item_of_lookup hnx]
    by_cases hyq : na.parent = some y
    · obtain ⟨nq, hnq⟩ := hqlive y hyq
      rw [Tree.item_of_lookup (hl1q y nq hyq hnq), Tree.item_of_lookup hnq]
      split <;> rfl
    exact Tree.item_congr (hl1o y hy hyp hyr hyl hyg hyx hyq)

theorem ctxAfter_right : ∀ (c : List Frame), (∀ f ∈ c, f.dir = .right) → ctxAfter c = []
  | [], _ => rfl
  | f :: c, h => by
    have hf : f.dir = .right := h f (List.mem_cons_self _ _)
    simp only [ctxAfter, hf]
    exact ctxAfter_right c (fun g hg => h g (List.mem_cons_of_mem _ hg))

/-- The structural part of `AVLTree::remove` on a node that is in the tree: in all three cases
(no child, one child, two children) the code reaches the call of `removeFix` with a well-formed
tree from which exactly that node is missing. -/
theorem AVLTree.remove_unlink {t : Tree} {c : List Frame} {L R : Shape} {a : Nat} (key : Int)
    (hz : t.Zipped c (.node L a R))
    (hdesc : removeDescend t.fuel t key t.root = .ok (some a)) :
    ∃ t1 diff c1 s1, AVLTree.remove t key = AVLTree.removeFix t1.fuel t1 (ctxParent c1) diff ∧
      t1.Zipped c1 s1 ∧
      (plug c1 s1).addrs = ctxBefore c ++ (L.addrs ++ R.addrs) ++ ctxAfter c ∧
      t1.heap.length = t.heap.length ∧ ∀ y, y ≠ a → t1.item y = t.item y := by
  cases hL : L with
  | nil =>
    cases hR : R with
    | nil =>
      subst hL hR
      obtain ⟨t1, diff, hrun, hz1, hlen, hit⟩ := AVLTree.remove_leaf key hz hdesc
      exact ⟨t1, diff, c, .nil, hrun, hz1, by rw [plug_addrs]; rfl, hlen, hit⟩
    | node Rl x Rr =>
      subst hL hR
      obtain ⟨t1, diff, hrun, hz1, hlen, hit⟩ :=
        AVLTree.remove_one_child key hz (Or.inl ⟨rfl, rfl⟩) hdesc
      exact ⟨t1, diff, c, _, hrun, hz1, by rw [plug_addrs]; rfl, hlen, hit⟩
  | node Ll x Lr =>
    cases hR : R with
    | nil =>
      subst hL hR
      obtain ⟨t1, diff, hrun, hz1, hlen, hit⟩ :=
        AVLTree.remove_one_child key hz (Or.inr ⟨rfl, rfl⟩) hdesc
      exact ⟨t1, diff, c, _, hrun, hz1, by rw [plug_addrs]; simp [Shape.addrs], hlen, hit⟩
    | node Rl r0 Rr =>
      rw [← hL, ← hR]
      have hLne : L ≠ .nil := by rw [hL]; simp
      have hRne : R ≠ .nil := by rw [hR]; simp
      obtain ⟨na, hna, -, hla, -, hLh, -⟩ := hz.sub
      have hnd := hz.nodupSub
      simp only [Shape.addrs, List.nodup_append] at hnd
      have hLfuel : L.height < t.fuel + 1 := by
        have h1 := L.height_le_length
        have h2 := hLh.length_le hnd.1
        simp only [Tree.fuel]
        omega
      obtain ⟨p, cL, PL, hright, hsplit, hdir⟩ := rightmost_spec t L (some a) t.fuel hLne hLh hLfuel
      have hpred : BinarySearchTree.predecessor t (some a) = .ok (some p) := by
        have hne : na.left ≠ none := by
          rw [hla]
          intro e
          exact hLne (Shape.ptr_eq_none e)
        have hne' : ¬ L.ptr = none := fun e => hLne (Shape.ptr_eq_none e)
        simp [BinarySearchTree.predecessor, Tree.getNode, hna, hne', hla, hright]
      have haddr : L.addrs = (plug cL PL).addrs ++ [p] := by
        rw [hsplit, plug_addrs, plug_addrs, ctxAfter_right cL hdir]
        simp [Shape.addrs]
      subst hsplit
      cases cL with
      | nil =>
        obtain ⟨t1, diff, hrun, hz1, hlen, hit⟩ :=
          AVLTree.remove_two_adjacent key hz hRne hdesc hpred
        refine ⟨t1, diff, ⟨p, .left, R⟩ :: c, PL, hrun, hz1, ?_, hlen, hit⟩
        show (plug c (.node PL p R)).addrs = _
        rw [plug_addrs]
        simp [Shape.addrs, plug]
      | cons f1 cL =>
        obtain ⟨t1, diff, hrun, hz1, hlen, hit⟩ :=
          AVLTree.remove_two_deep key hz (hdir f1 (List.mem_cons_self _ _)) hRne hdesc hpred
        refine ⟨t1, diff, f1 :: (cL ++ ⟨p, .left, R⟩ :: c), PL, hrun, hz1, ?_, hlen, hit⟩
        have e : f1 :: (cL ++ ⟨p, .left, R⟩ :: c) = (f1 :: cL) ++ (⟨p, .left, R⟩ :: c) := rfl
        rw [e, plug_append]
        show (plug c (.node (plug (f1 :: cL) PL) p R)).addrs = _
        rw [plug_addrs, haddr]
        simp [Shape.addrs]

/-- Removing a key that is in the tree: `AVLTree::remove` returns a tree that satisfies the BST
ordering invariant again, whose in-order address sequence is the old one without the node that
held the key, and in which all other nodes hold the items they held. -/
theorem AVLTree.remove_present {t : Tree} {s : Shape} {a : Nat} (key : Int)
    (hs : t.SearchTree s) (ha : a ∈ s.addrs) (hk : t.keyAt a = key) :
    ∃ t' s', AVLTree.remove t key = .ok t' ∧ t'.SearchTree s' ∧
      t'.heap.length = t.heap.length ∧ (∀ y, y ≠ a → t'.item y = t.item y) ∧
      ∃ b e, s.addrs = b ++ a :: e ∧ s'.addrs = b ++ e := by
  have hloc : s.locate t key = some a := (Shape.locate_eq_some t key s hs.2 a).mpr ⟨ha, hk⟩
  have hdesc : removeDescend t.fuel t key t.root = .ok (some a) := by
    rw [hs.1.1, ← hloc]
    exact removeDescend_eq t key s none _ hs.1.2.1 (by have := hs.1.height_lt_fuel; omega)
  obtain ⟨c, L, R, rfl⟩ := Shape.focus ha
  have hz : t.Zipped c (.node L a R) := (Tree.valid_plug_iff t c _).mp hs.1
  obtain ⟨t1, diff, c1, s1, hrun, hz1, haddrs, hlen, hit⟩ := AVLTree.remove_unlink key hz hdesc
  have hv1 : t1.Valid (plug c1 s1) := (Tree.valid_plug_iff t1 c1 s1).mpr hz1
  have hfuel : c1.length < t1.fuel := by
    have h1 := ctx_length_le c1
    have h2 := hv1.2.1.length_le hv1.2.2
    rw [plug_addrs] at h2
    simp only [List.length_append] at h1 h2
    simp only [Tree.fuel]
    omega
  obtain ⟨t', hfix, ⟨s', hz', hs'⟩, hsame⟩ :=
    removeFix_arranged c1 s1.addrs t1 diff t1.fuel ⟨s1, hz1, rfl⟩ hfuel
  rw [← plug_addrs, haddrs] at hs'
  have hitems : ∀ y, y ≠ a → t'.item y = t.item y := fun y hy => (hsame.1 y).trans (hit y hy)
  have hold : (plug c (.node L a R)).addrs =
      (ctxBefore c ++ L.addrs) ++ a :: (R.addrs ++ ctxAfter c) := by
    rw [plug_addrs]; simp [Shape.addrs]
  have hnew : s'.addrs = (ctxBefore c ++ L.addrs) ++ (R.addrs ++ ctxAfter c) := by
    rw [hs']; simp
  have hnd := hs.1.2.2
  rw [hold] at hnd
  have hnd' : ((ctxBefore c ++ L.addrs) ++ (R.addrs ++ ctxAfter c)).Nodup := by
    rw [List.nodup_append] at hnd ⊢
    refine ⟨hnd.1, (List.nodup_cons.mp hnd.2.1).2, ?_⟩
    intro y h1 h2
    exact hnd.2.2 h1 (List.mem_cons_of_mem _ h2)
  have hanew : a ∉ (ctxBefore c ++ L.addrs) ++ (R.addrs ++ ctxAfter c) := by
    rw [List.nodup_append] at hnd
    intro h
    rcases List.mem_append.mp h with h | h
    · exact hnd.2.2 h (List.mem_cons_self _ _)
    · exact (List.nodup_cons.mp hnd.2.1).1 h
  refine ⟨t', s', hrun.trans hfix, ⟨hz'.valid, ?_⟩, hsame.2.trans hlen, hitems,
    _, _, hold, hnew⟩
  have hsorted := hs.2
  rw [hold] at hsorted
  rw [hnew]
  have hsub : ((ctxBefore c ++ L.addrs) ++ (R.addrs ++ ctxAfter c)).Sublist
      ((ctxBefore c ++ L.addrs) ++ a :: (R.addrs ++ ctxAfter c)) :=
    List.Sublist.append (List.Sublist.refl _) (List.sublist_cons_self _ _)
  have hmap : ((ctxBefore c ++ L.addrs) ++ (R.addrs ++ ctxAfter c)).map t'.keyAt =
      ((ctxBefore c ++ L.addrs) ++ (R.addrs ++ ctxAfter c)).map t.keyAt := by
    apply List.map_congr_left
    intro y hy
    exact Tree.keyAt_eq_of_item (hitems y (fun e => hanew (e ▸ hy)))
  rw [hmap]
  exact (hsorted.sublist (hsub.map _))

/-! ## The ordering invariant along a run -/

theorem inorderAux_eq (t : Tree) :
    ∀ (s : Shape) (par : Ptr) (fuel : Nat), t.heap.Holds par s → s.height < fuel →
      inorderAux fuel t s.ptr = .ok s.addrs := by
  intro s
  induction s with
  | nil =>
    intro par fuel _ hf
    cases fuel with
    | zero => omega
    | succ fuel => simp [inorderAux, Shape.ptr, Shape.addrs]
  | node l a r ihl ihr =>
    intro par fuel hs hf
    obtain ⟨n, hn, -, hl, hr, hsl, hsr⟩ := hs
    cases fuel with
    | zero => omega
    | succ fuel =>
      simp only [Shape.height] at hf
      have h1 : l.height < fuel := by have := Nat.le_max_left l.height r.height; omega
      have h2 : r.height < fuel := by have := Nat.le_max_right l.height r.height; omega
      have hp : (Shape.node l a r).ptr = some a := rfl
      simp [inorderAux, hp, Tree.getNode, hn, hl, hr, ihl _ _ hsl h1, ihr _ _ hsr h2,
        Shape.addrs]

theorem Tree.Valid.inorderAddrs_eq {t : Tree} {s : Shape} (hv : t.Valid s) :
    t.inorderAddrs = .ok s.addrs := by
  unfold Tree.inorderAddrs
  rw [hv.1]
  exact inorderAux_eq t s none _ hv.2.1 (by have := hv.height_lt_fuel; omega)

theorem Tree.Valid.inorder_eq {t : Tree} {s : Shape} (hv : t.Valid s) :
    t.inorder = .ok (s.addrs.map t.item) := by
  simp [Tree.inorder, hv.inorderAddrs_eq]

theorem Tree.empty_searchTree : Tree.empty.SearchTree .nil :=
  ⟨⟨rfl, trivial, List.nodup_nil⟩, List.Pairwise.nil⟩

/-- Inserting a key that is in the tree keeps the shape and the ordering, and changes only the
value stored with that key. -/
theorem AVLTree.insert_present {t : Tree} {s : Shape} {a : Nat} (key value : Int)
    (hs : t.SearchTree s) (ha : a ∈ s.addrs) (hk : t.keyAt a = key) :
    ∃ t', AVLTree.insert t key value = .ok t' ∧ t'.SearchTree s ∧
      t'.heap.length = t.heap.length ∧ t'.item a = (key, value) ∧
      ∀ y, y ≠ a → t'.item y = t.item y := by
  obtain ⟨n, hn⟩ := hs.1.2.1.live ha
  have hlt := Heap.lookup_lt hn
  have hnk : n.key = key := by rw [← Tree.keyAt_of_lookup hn, hk]
  have hloc : s.locate t key = some a := (Shape.locate_eq_some t key s hs.2 a).mpr ⟨ha, hk⟩
  have hroot : t.root ≠ none := by
    have := hs.1.1
    cases s with
    | nil => simp [Shape.addrs] at ha
    | node l b r => simp [this, Shape.ptr]
  have hd := insertDescend_found t key value s none none t.fuel a n hs.1.2.1
    (by have := hs.1.height_lt_fuel; omega) hloc hn
  rw [← hs.1.1] at hd
  have hitem : ∀ y, y ≠ a →
      (Tree.mk (t.heap.put a { n with value := value }) t.root).item y = t.item y := by
    intro y hy
    simp [Tree.item, Heap.lookup_put, hlt, hy]
  have hkeys : ∀ y, (Tree.mk (t.heap.put a { n with value := value }) t.root).keyAt y
      = t.keyAt y := by
    intro y
    by_cases hy : y = a
    · subst hy
      simp [Tree.keyAt, Tree.item, Heap.lookup_put, hlt, hn]
    · exact Tree.keyAt_eq_of_item (hitem y hy)
  refine ⟨Tree.mk (t.heap.put a { n with value := value }) t.root, ?_, ⟨?_, ?_⟩, ?_, ?_, hitem⟩
  · simp [AVLTree.insert, hroot, hd]
  · refine hs.1.same_links rfl ?_
    intro y m hm
    by_cases hy : y = a
    · subst hy
      rw [hn] at hm
      cases hm
      exact ⟨{ n with value := value }, by simp [Heap.lookup_put, hlt], rfl, rfl, rfl⟩
    · exact ⟨m, by simp [Heap.lookup_put, hlt, hy, hm], rfl, rfl, rfl⟩
  · rw [List.map_congr_left (fun y _ => hkeys y)]
    exact hs.2
  · simp
  · simp [Tree.item, Heap.lookup_put, hlt, hnk]

theorem AVLTree.remove_absent {t : Tree} {s : Shape} (key : Int) (hs : t.SearchTree s)
    (habs : s.locate t key = none) : AVLTree.remove t key = .ok t := by
  have hd : removeDescend t.fuel t key t.root = .ok none := by
    rw [hs.1.1, ← habs]
    exact removeDescend_eq t key s none _ hs.1.2.1 (by have := hs.1.height_lt_fuel; omega)
  simp [AVLTree.remove, hd]

/-- Every AVL operation that returns keeps the BST ordering invariant. -/
theorem AVLTree.run_searchTree :
    ∀ (ops : List Op) (t0 : Tree) (s0 : Shape), t0.SearchTree s0 →
      ∀ t, AVLTree.run ops t0 = .ok t → ∃ s, t.SearchTree s := by
  intro ops
  induction ops with
  | nil =>
    intro t0 s0 h0 t ht
    simp only [AVLTree.run, Res.pure_eq, Res.ok.injEq] at ht
    subst ht
    exact ⟨s0, h0⟩
  | cons op ops ih =>
    intro t0 s0 h0 t ht
    cases op with
    | insert k v =>
      simp only [AVLTree.run] at ht
      cases hloc : s0.locate t0 k with
      | some a =>
        obtain ⟨ha, hk⟩ := (Shape.locate_eq_some t0 k s0 h0.2 a).mp hloc
        obtain ⟨t1, h1, hs1, -⟩ := AVLTree.insert_present k v h0 ha hk
        rw [h1] at ht
        exact ih t1 s0 hs1 t ht
      | none =>
        rcases AVLTree.insert_new k v h0 hloc with hf | ⟨t1, s1, h1, hs1, -⟩
        · rw [hf] at ht
          cases ht
        · rw [h1] at ht
          exact ih t1 s1 hs1 t ht
    | remove k =>
      simp only [AVLTree.run] at ht
      cases hloc : s0.locate t0 k with
      | some a =>
        obtain ⟨ha, hk⟩ := (Shape.locate_eq_some t0 k s0 h0.2 a).mp hloc
        obtain ⟨t1, s1, h1, hs1, -⟩ := AVLTree.remove_present k h0 ha hk
        rw [h1] at ht
        exact ih t1 s1 hs1 t ht
      | none =>
        rw [AVLTree.remove_absent k h0 hloc] at ht
        exact ih t0 s0 h0 t ht

/-! ## In-order iteration -/

theorem Shape.addrs_ne_nil {s : Shape} (h : s ≠ .nil) : s.addrs ≠ [] := by
  cases s with
  | nil => exact absurd rfl h
  | node l a r => simp [Shape.addrs]

/-- The walk to the leftmost node of a nonempty subtree returns the first node of the subtree in
in-order. -/
theorem leftmost_spec (t : Tree) :
    ∀ (s : Shape) (par : Ptr) (fuel : Nat), s ≠ .nil → t.heap.Holds par s → s.height < fuel + 1 →
      leftmost fuel t s.ptr = .ok s.addrs.head? := by
  intro s
  induction s with
  | nil => intro _ _ h; exact absurd rfl h
  | node l a r ihl _ =>
    intro par fuel _ hs hfuel
    obtain ⟨n, hn, -, hl, -, hsl, -⟩ := hs
    have hp : (Shape.node l a r).ptr = some a := rfl
    cases fuel with
    | zero => simp [Shape.height] at hfuel
    | succ fuel =>
      simp only [Shape.height] at hfuel
      cases l with
      | nil =>
        simp [leftmost, hp, Tree.getNode, hn, hl, Shape.ptr, Shape.addrs]
      | node ll b lr =>
        have hh : (Shape.node ll b lr).height < fuel + 1 := by
          have := Nat.le_max_left (Shape.node ll b lr).height r.height
          omega
        have hne : (Shape.node ll b lr).ptr ≠ none := by simp [Shape.ptr]
        have := ihl (some a) fuel (by simp) hsl hh
        simp only [leftmost, hp, Tree.getNode, hn, hl, Res.ok_bind, bind, Res.bind, hne,
          ne_eq, not_false_eq_true, ↓reduceIte]
        rw [this]
        simp [Shape.addrs]

/-- The climb of `operator++` from a subtree in a context stops at the first node that comes
after the subtree in in-order, or at null if there is none. -/
theorem climbWhileRight_spec (t : Tree) :
    ∀ (c : List Frame) (s : Shape) (fuel : Nat), s ≠ .nil → t.Zipped c s → c.length < fuel →
      climbWhileRight fuel t s.ptr (ctxParent c) = .ok (ctxAfter c).head? := by
  intro c
  induction c with
  | nil =>
    intro s fuel _ _ hf
    cases fuel with
    | zero => simp at hf
    | succ fuel => simp [climbWhileRight, ctxParent, ctxAfter]
  | cons f c ih =>
    intro s fuel hs hz hf
    cases fuel with
    | zero => simp at hf
    | succ fuel =>
      obtain ⟨n, hn, hpar, hd, -, -⟩ := hz.ctx
      obtain ⟨x, hx⟩ : ∃ x, s.ptr = some x := by
        cases s with
        | nil => exact absurd rfl hs
        | node l x r => exact ⟨x, rfl⟩
      cases hdir : f.dir with
      | left =>
        simp only [hdir] at hd
        have hne : ¬ s.ptr = n.right := by
          rw [hd.2, hx]
          intro e
          exact (hz.not_mem_ctx (Shape.ptr_mem hx)).2.1 (Shape.ptr_mem e.symm)
        have hcp : ctxParent (f :: c) = some f.addr := rfl
        rw [hcp]
        simp [climbWhileRight, Tree.getNode, hn, hne, ctxAfter, hdir]
      | right =>
        simp only [hdir] at hd
        have hz' : t.Zipped c (f.fill s) := Tree.Zipped.up.mp hz
        have hfill : (f.fill s).ptr = some f.addr := Frame.fill_ptr f s
        have := ih (f.fill s) fuel (by unfold Frame.fill; cases f.dir <;> simp) hz'
          (by simp at hf; omega)
        rw [hfill] at this
        have hcp : ctxParent (f :: c) = some f.addr := rfl
        rw [hcp]
        simp [climbWhileRight, Tree.getNode, hn, hd.2, hpar, this, ctxAfter, hdir]

theorem nodup_split_unique {l b e b' e' : List Nat} {x : Nat} (hnd : l.Nodup)
    (h : l = b ++ x :: e) (h' : l = b' ++ x :: e') : b = b' ∧ e = e' := by
  subst h
  rw [List.nodup_append, List.nodup_cons] at hnd
  have hxb : x ∉ b := fun hx => hnd.2.2 hx (List.mem_cons_self _ _)
  have hxe : x ∉ e := hnd.2.1.1
  have := (List.append_cons_inj_of_not_mem hxb hxe).mp h'
  exact ⟨this.1, this.2.2⟩

/-- On a well-formed tree `operator++` moves from each node to the next node in in-order, and
from the last node to the end sentinel. -/
theorem increment_spec {t : Tree} {s : Shape} (hv : t.Valid s) {b e : List Nat} {x : Nat}
    (hsplit : s.addrs = b ++ x :: e) :
    BinarySearchTree.iterator.increment t (some x) = .ok e.head? := by
  have hx : x ∈ s.addrs := by rw [hsplit]; simp
  obtain ⟨c, L, R, rfl⟩ := Shape.focus hx
  have hz : t.Zipped c (.node L x R) := (Tree.valid_plug_iff t c _).mp hv
  have hdec : (plug c (.node L x R)).addrs =
      (ctxBefore c ++ L.addrs) ++ x :: (R.addrs ++ ctxAfter c) := by
    rw [plug_addrs]; simp [Shape.addrs]
  obtain ⟨-, he⟩ := nodup_split_unique hv.2.2 hsplit hdec
  subst he
  obtain ⟨n, hn, hpar, -, hr, -, hRh⟩ := hz.sub
  have hlen := hv.2.1.length_le hv.2.2
  rw [hdec] at hlen
  simp only [List.length_append, List.length_cons] at hlen
  cases hR : R with
  | nil =>
    subst hR
    have hc : c.length < t.fuel := by
      have h1 := ctx_length_le c
      simp only [List.length_append] at h1
      simp only [Tree.fuel]
      omega
    have := climbWhileRight_spec t c (.node L x .nil) t.fuel (by simp) hz hc
    simp only [Shape.ptr] at this hr
    simp [BinarySearchTree.iterator.increment, Tree.getNode, hn, hr, hpar, this, Shape.addrs]
  | node Rl y Rr =>
    rw [← hR]
    have hRne : R ≠ .nil := by rw [hR]; simp
    have hh : R.height < t.fuel + 1 := by
      have := R.height_le_length
      simp only [Tree.fuel]
      omega
    have := leftmost_spec t R (some x) t.fuel hRne hRh hh
    have hne : ¬ R.ptr = none := fun e => hRne (Shape.ptr_eq_none e)
    have hhead : (R.addrs ++ ctxAfter c).head? = R.addrs.head? := by
      have := Shape.addrs_ne_nil hRne
      cases hRa : R.addrs with
      | nil => exact absurd hRa this
      | cons z zs => rfl
    simp [BinarySearchTree.iterator.increment, Tree.getNode, hn, hr, hne, this, hhead]

theorem begin_spec {t : Tree} {s : Shape} (hv : t.Valid s) :
    BinarySearchTree.begin t = .ok s.addrs.head? := by
  unfold BinarySearchTree.begin BinarySearchTree.getSmallestNode
  cases hs : s with
  | nil =>
    subst hs
    have := hv.1
    simp only [Shape.ptr] at this
    simp [this, Shape.addrs]
  | node l a r =>
    rw [← hs]
    have hne : s ≠ .nil := by rw [hs]; simp
    have hr : ¬ t.root = none := by
      rw [hv.1]
      exact fun e => hne (Shape.ptr_eq_none e)
    simp only [hr, ↓reduceIte]
    rw [hv.1]
    exact leftmost_spec t s none t.fuel hne hv.2.1 (by have := hv.height_lt_fuel; omega)

theorem iterateFrom_spec {t : Tree} {s : Shape} (hv : t.Valid s) :
    ∀ (e b : List Nat) (fuel : Nat), s.addrs = b ++ e → e.length < fuel →
      iterateFrom fuel t e.head? = .ok e := by
  intro e
  induction e with
  | nil =>
    intro b fuel _ hf
    cases fuel with
    | zero => simp at hf
    | succ fuel => simp [iterateFrom]
  | cons x e ih =>
    intro b fuel hsplit hf
    cases fuel with
    | zero => simp at hf
    | succ fuel =>
      have hnext := increment_spec hv hsplit
      have := ih (b ++ [x]) fuel (by rw [hsplit]; simp) (by simp at hf; omega)
      simp [iterateFrom, hnext, this]

theorem iterate_spec {t : Tree} {s : Shape} (hv : t.Valid s) :
    BinarySearchTree.iterate t = .ok s.addrs := by
  have hlen := hv.2.1.length_le hv.2.2
  have := iterateFrom_spec hv s.addrs [] (t.heap.length + 1) rfl (by omega)
  simp [BinarySearchTree.iterate, begin_spec hv, this]

/-! ## Height balance after an insert -/

theorem wrap8_small {x : Int} (h1 : -128 ≤ x) (h2 : x < 128) : wrap8 x = x := by
  unfold wrap8
  omega

theorem Tree.balanceAt_of_lookup {t : Tree} {a : Nat} {n : Node} (hn : t.heap.lookup a = some n) :
    t.balanceAt a = n.balance := by
  simp [Tree.balanceAt, hn]

theorem Tree.balanceAt_congr {t t' : Tree} {a : Nat} (h : t'.heap.lookup a = t.heap.lookup a) :
    t'.balanceAt a = t.balanceAt a := by
  simp [Tree.balanceAt, h]

theorem Frame.fill_height (f : Frame) (s : Shape) :
    (f.fill s).height = max s.height f.sib.height + 1 := by
  unfold Frame.fill
  cases f.dir
  · rfl
  · simp [Shape.height, Nat.max_comm]

/-- A height-balanced tree with true balances, seen around a subtree. -/
theorem plug_true_split (t : Tree) :
    ∀ (c : List Frame) (X : Shape), (plug c X).Balanced → t.BalancesTrue (plug c X) →
      X.Balanced ∧ t.BalancesTrue X ∧ t.CtxTrue c X.height := by
  intro c
  induction c with
  | nil => intro X hb ht; exact ⟨hb, ht, trivial⟩
  | cons f c ih =>
    intro X hb ht
    obtain ⟨hfb, hft, hctx⟩ := ih (f.fill X) hb ht
    rw [Frame.fill_height] at hctx
    obtain ⟨a, d, sib⟩ := f
    cases d
    · simp only [Frame.fill, Shape.Balanced, Tree.BalancesTrue] at hfb hft
      dsimp only at hctx
      exact ⟨hfb.2.1, hft.2.1, hfb.2.2, hfb.1.2, hfb.1.1, fun _ => hft.1,
        fun h => (by cases h), hctx⟩
    · simp only [Frame.fill, Shape.Balanced, Tree.BalancesTrue] at hfb hft
      dsimp only at hctx
      exact ⟨hfb.2.2, hft.2.2, hfb.2.1, hfb.1.1, hfb.1.2, fun h => (by cases h),
        fun _ => hft.1, hctx⟩

/-- Putting a height-balanced subtree of the expected height into the hole of the context of a
height-balanced tree gives a height-balanced tree. -/
theorem plug_balanced_of (t : Tree) :
    ∀ (c : List Frame) (X : Shape) (h : Nat), t.CtxTrue c h → X.Balanced → X.height = h →
      (plug c X).Balanced := by
  intro c
  induction c with
  | nil => intro X h _ hb _; exact hb
  | cons f c ih =>
    intro X h hctx hb hh
    obtain ⟨hsb, h1, h2, -, -, hrest⟩ := hctx
    refine ih (f.fill X) _ hrest ?_ (by rw [Frame.fill_height, hh])
    obtain ⟨a, d, sib⟩ := f
    cases d
    · simp only [Frame.fill, Shape.Balanced]
      dsimp only at h1 h2
      exact ⟨⟨by omega, by omega⟩, hb, hsb⟩
    · simp only [Frame.fill, Shape.Balanced]
      dsimp only at h1 h2
      exact ⟨⟨by omega, by omega⟩, hsb, hb⟩

theorem Tree.CtxTrue.transfer {t t' : Tree} :
    ∀ (c : List Frame) (h : Nat),
      (∀ y, (y ∈ ctxBefore c ∨ y ∈ ctxAfter c) → t'.balanceAt y = t.balanceAt y) →
      t.CtxTrue c h → t'.CtxTrue c h := by
  intro c
  induction c with
  | nil => intro h _ _; trivial
  | cons f c ih =>
    intro h hsame hctx
    obtain ⟨hsb, h1, h2, hl, hr, hrest⟩ := hctx
    have hf : t'.balanceAt f.addr = t.balanceAt f.addr :=
      hsame _ ((mem_ctxAddrs_cons f c f.addr).mpr (Or.inl (Or.inl rfl)))
    refine ⟨hsb, h1, h2, fun hd => hf.trans (hl hd), fun hd => hf.trans (hr hd), ?_⟩
    exact ih _ (fun y hy => hsame y ((mem_ctxAddrs_cons f c y).mpr (Or.inr hy))) hrest

/-- The heap determines the shape it holds below a pointer. -/
theorem Heap.Holds.unique {h : Heap} :
    ∀ (s s' : Shape) (par par' : Ptr), h.Holds par s → h.Holds par' s' → s.ptr = s'.ptr →
      s = s' := by
  intro s
  induction s with
  | nil =>
    intro s' _ _ _ _ hp
    exact (Shape.ptr_eq_none hp.symm).symm
  | node l a r ihl ihr =>
    intro s' par par' hs hs' hp
    cases s' with
    | nil => simp [Shape.ptr] at hp
    | node l' a' r' =>
      simp only [Shape.ptr, Option.some.injEq] at hp
      subst hp
      obtain ⟨n, hn, -, hl, hr, hsl, hsr⟩ := hs
      obtain ⟨n', hn', -, hl', hr', hsl', hsr'⟩ := hs'
      rw [hn] at hn'
      cases hn'
      rw [ihl l' _ _ hsl hsl' (hl.symm.trans hl'), ihr r' _ _ hsr hsr' (hr.symm.trans hr')]

theorem Tree.Valid.shape_unique {t : Tree} {s s' : Shape} (hv : t.Valid s) (hv' : t.Valid s') :
    s = s' :=
  Heap.Holds.unique s s' none none hv.2.1 hv'.2.1 (hv.1.symm.trans hv'.1)

theorem Tree.Zipped.live_sub {t : Tree} {c : List Frame} {s : Shape} (hz : t.Zipped c s) {a : Nat}
    (ha : a ∈ s.addrs) : ∃ n, t.heap.lookup a = some n :=
  hz.sub.live ha

theorem Tree.Zipped.setBalance_zipped {t : Tree} {c : List Frame} {s : Shape}
    (hz : t.Zipped c s) {a : Nat} (ha : a ∈ s.addrs) (v : Int) :
    ∃ t', t.setBalance (some a) v = .ok t' ∧ t'.Zipped c s ∧ t.SameItems t' := by
  obtain ⟨n, hn⟩ := hz.live_sub ha
  obtain ⟨t', hrun, hroot, -, -, hlinks, hsame⟩ := Tree.setBalance_spec hn v
  exact ⟨t', hrun, hz.same_links_zipped hroot hlinks, hsame⟩

theorem Tree.Zipped.setBalance_two_zipped {t : Tree} {c : List Frame} {s : Shape}
    (hz : t.Zipped c s) {a b : Nat} (ha : a ∈ s.addrs) (hb : b ∈ s.addrs) (v w : Int) :
    ∃ t', (t.setBalance (some a) v >>= fun t1 => t1.setBalance (some b) w) = .ok t' ∧
      t'.Zipped c s ∧ t.SameItems t' := by
  obtain ⟨t1, hr1, hz1, hs1⟩ := hz.setBalance_zipped ha v
  obtain ⟨t2, hr2, hz2, hs2⟩ := hz1.setBalance_zipped hb w
  exact ⟨t2, by simp only [hr1, Res.ok_bind, hr2], hz2, hs1.trans hs2⟩

theorem Tree.Zipped.setBalance_three_zipped {t : Tree} {c : List Frame} {s : Shape}
    (hz : t.Zipped c s) {a b x : Nat} (ha : a ∈ s.addrs) (hb : b ∈ s.addrs) (hx : x ∈ s.addrs)
    (v w u : Int) :
    ∃ t', (do
        let t1 ← t.setBalance (some a) v
        let t2 ← t1.setBalance (some b) w
        t2.setBalance (some x) u) = .ok t' ∧
      t'.Zipped c s ∧ t.SameItems t' := by
  obtain ⟨t1, hr1, hz1, hs1⟩ := hz.setBalance_zipped ha v
  obtain ⟨t2, hr2, hz2, hs2⟩ := hz1.setBalance_zipped hb w
  obtain ⟨t3, hr3, hz3, hs3⟩ := hz2.setBalance_zipped hx u
  exact ⟨t3, by simp only [hr1, Res.ok_bind, hr2, hr3], hz3, (hs1.trans hs2).trans hs3⟩

/-- The fix-up of `insertFix` at a node with balance -2: a right rotation if the left child has
balance -1, a left-right double rotation if it has balance +1. -/
theorem insertFix_left_heavy {t : Tree} {c : List Frame} {A B C : Shape} {a b : Nat}
    (fuel : Nat) (hz : t.Zipped c (.node (.node A b B) a C)) (hpb : t.balanceAt a = -2)
    (hcb : t.balanceAt b = -1 ∨ (t.balanceAt b = 1 ∧ B ≠ .nil)) :
    ∃ t' X', AVLTree.insertFix (fuel + 1) t (some b) (some a) = .ok t' ∧ t'.Zipped c X' ∧
      t.SameItems t' ∧
      ((t.balanceAt b = -1 ∧ X' = .node A b (.node B a C)) ∨
       (t.balanceAt b = 1 ∧ ∃ M1 m M2, B = .node M1 m M2 ∧
          X' = .node (.node A b M1) m (.node M2 a C))) := by
  obtain ⟨na, hna, -, -, -, hLh, -⟩ := hz.sub
  obtain ⟨nb, hnb, -, -, hrb, -, -⟩ := hLh
  rw [Tree.balanceAt_of_lookup hna] at hpb
  have hcbn : t.balanceAt b = nb.balance := Tree.balanceAt_of_lookup hnb
  rw [hcbn] at hcb
  simp only [AVLTree.insertFix, reduceCtorEq, ↓reduceIte, Tree.getNode_some hna, Res.ok_bind,
    Tree.getNode_some hnb, hpb]
  rcases hcb with hcb | ⟨hcb, hB⟩
  · simp only [hcb, ↓reduceIte]
    obtain ⟨t1, hr1, hz1, hi1, hl1⟩ := rotateRight_zipped hz
    obtain ⟨t2, hr2, hz2, hs2⟩ := hz1.setBalance_two_zipped
      (show a ∈ (Shape.node A b (.node B a C)).addrs by simp [Shape.addrs])
      (show b ∈ (Shape.node A b (.node B a C)).addrs by simp [Shape.addrs]) 0 0
    simp only [hr1, Res.ok_bind]
    exact ⟨t2, _, hr2, hz2, Tree.SameItems.trans ⟨hi1, hl1⟩ hs2, Or.inl ⟨hcbn.trans hcb, rfl⟩⟩
  · have hne : ¬ nb.balance = -1 := by omega
    simp only [hne, ↓reduceIte]
    simp only [hcb, ↓reduceIte]
    cases B with
    | nil => exact absurd rfl hB
    | node M1 m M2 =>
      simp only [Shape.ptr] at hrb
      have hzb : t.Zipped (⟨a, .left, C⟩ :: c) (.node A b (.node M1 m M2)) :=
        Tree.Zipped.up.mpr hz
      obtain ⟨t1, hr1, hz1, hi1, hl1⟩ := rotateLeft_zipped hzb
      have hz1' : t1.Zipped c (.node (.node (.node A b M1) m M2) a C) := Tree.Zipped.up.mp hz1
      obtain ⟨t2, hr2, hz2, hi2, hl2⟩ := rotateRight_zipped hz1'
      have hs12 : t.SameItems t2 := Tree.SameItems.trans ⟨hi1, hl1⟩ ⟨hi2, hl2⟩
      have hma : a ∈ (Shape.node (.node A b M1) m (.node M2 a C)).addrs := by simp [Shape.addrs]
      have hmb : b ∈ (Shape.node (.node A b M1) m (.node M2 a C)).addrs := by simp [Shape.addrs]
      have hmm : m ∈ (Shape.node (.node A b M1) m (.node M2 a C)).addrs := by simp [Shape.addrs]
      obtain ⟨nm, hnm⟩ := hz2.live_sub hmm
      simp only [hr1, hr2, Res.ok_bind, hrb, Tree.getNode_some hnm]
      split_ifs
      · obtain ⟨t3, hr3, hz3, hs3⟩ := hz2.setBalance_three_zipped hma hmb hmm 0 (-1) 0
        exact ⟨t3, _, hr3, hz3, hs12.trans hs3, Or.inr ⟨hcbn.trans hcb, M1, m, M2, rfl, rfl⟩⟩
      · obtain ⟨t3, hr3, hz3, hs3⟩ := hz2.setBalance_three_zipped hma hmb hmm 0 0 0
        exact ⟨t3, _, hr3, hz3, hs12.trans hs3, Or.inr ⟨hcbn.trans hcb, M1, m, M2, rfl, rfl⟩⟩
      · obtain ⟨t3, hr3, hz3, hs3⟩ := hz2.setBalance_three_zipped hma hmb hmm (-1) 0 0
        exact ⟨t3, _, hr3, hz3, hs12.trans hs3, Or.inr ⟨hcbn.trans hcb, M1, m, M2, rfl, rfl⟩⟩

/-- The fix-up of `insertFix` at a node with balance +2: a left rotation if the right child has
balance +1, a right-left double rotation if it has balance -1. -/
theorem insertFix_right_heavy {t : Tree} {c : List Frame} {A B C : Shape} {a b : Nat}
    (fuel : Nat) (hz : t.Zipped c (.node C a (.node A b B))) (hpb : t.balanceAt a = 2)
    (hcb : t.balanceAt b = 1 ∨ (t.balanceAt b = -1 ∧ A ≠ .nil)) :
    ∃ t' X', AVLTree.insertFix (fuel + 1) t (some b) (some a) = .ok t' ∧ t'.Zipped c X' ∧
      t.SameItems t' ∧
      ((t.balanceAt b = 1 ∧ X' = .node (.node C a A) b B) ∨
       (t.balanceAt b = -1 ∧ ∃ M1 m M2, A = .node M1 m M2 ∧
          X' = .node (.node C a M1) m (.node M2 b B))) := by
  obtain ⟨na, hna, -, -, -, -, hRh⟩ := hz.sub
  obtain ⟨nb, hnb, -, hlb, -, -, -⟩ := hRh
  rw [Tree.balanceAt_of_lookup hna] at hpb
  have hcbn : t.balanceAt b = nb.balance := Tree.balanceAt_of_lookup hnb
  rw [hcbn] at hcb
  have hpb2 : ¬ na.balance = -2 := by omega
  simp only [AVLTree.insertFix, reduceCtorEq, ↓reduceIte, Tree.getNode_some hna, Res.ok_bind,
    Tree.getNode_some hnb, hpb2]
  simp only [hpb, ↓reduceIte]
  rcases hcb with hcb | ⟨hcb, hA⟩
  · simp only [hcb, ↓reduceIte]
    obtain ⟨t1, hr1, hz1, hi1, hl1⟩ := rotateLeft_zipped hz
    obtain ⟨t2, hr2, hz2, hs2⟩ := hz1.setBalance_two_zipped
      (show a ∈ (Shape.node (.node C a A) b B).addrs by simp [Shape.addrs])
      (show b ∈ (Shape.node (.node C a A) b B).addrs by simp [Shape.addrs]) 0 0
    simp only [hr1, Res.ok_bind]
    exact ⟨t2, _, hr2, hz2, Tree.SameItems.trans ⟨hi1, hl1⟩ hs2, Or.inl ⟨hcbn.trans hcb, rfl⟩⟩
  · have hne : ¬ nb.balance = 1 := by omega
    simp only [hne, ↓reduceIte]
    simp only [hcb, ↓reduceIte]
    cases A with
    | nil => exact absurd rfl hA
    | node M1 m M2 =>
      simp only [Shape.ptr] at hlb
      have hzb : t.Zipped (⟨a, .right, C⟩ :: c) (.node (.node M1 m M2) b B) :=
        Tree.Zipped.up.mpr hz
      obtain ⟨t1, hr1, hz1, hi1, hl1⟩ := rotateRight_zipped hzb
      have hz1' : t1.Zipped c (.node C a (.node M1 m (.node M2 b B))) := Tree.Zipped.up.mp hz1
      obtain ⟨t2, hr2, hz2, hi2, hl2⟩ := rotateLeft_zipped hz1'
      have hs12 : t.SameItems t2 := Tree.SameItems.trans ⟨hi1, hl1⟩ ⟨hi2, hl2⟩
      have hma : a ∈ (Shape.node (.node C a M1) m (.node M2 b B)).addrs := by simp [Shape.addrs]
      have hmb : b ∈ (Shape.node (.node C a M1) m (.node M2 b B)).addrs := by simp [Shape.addrs]
      have hmm : m ∈ (Shape.node (.node C a M1) m (.node M2 b B)).addrs := by simp [Shape.addrs]
      obtain ⟨nm, hnm⟩ := hz2.live_sub hmm
      simp only [hr1, hr2, Res.ok_bind, hlb, Tree.getNode_some hnm]
      split_ifs
      · obtain ⟨t3, hr3, hz3, hs3⟩ := hz2.setBalance_three_zipped hma hmb hmm 0 (-1) 0
        exact ⟨t3, _, hr3, hz3, hs12.trans hs3, Or.inr ⟨hcbn.trans hcb, M1, m, M2, rfl, rfl⟩⟩
      · obtain ⟨t3, hr3, hz3, hs3⟩ := hz2.setBalance_three_zipped hma hmb hmm 0 0 0
        exact ⟨t3, _, hr3, hz3, hs12.trans hs3, Or.inr ⟨hcbn.trans hcb, M1, m, M2, rfl, rfl⟩⟩
      · obtain ⟨t3, hr3, hz3, hs3⟩ := hz2.setBalance_three_zipped hma hmb hmm (-1) 0 0
        exact ⟨t3, _, hr3, hz3, hs12.trans hs3, Or.inr ⟨hcbn.trans hcb, M1, m, M2, rfl, rfl⟩⟩

/-- One step of the upward walk of `AVLTree::insert`, coming from a left child. -/
theorem insertClimb_step_left {t : Tree} {f : Frame} {c : List Frame} {l r : Shape} {a : Nat}
    {h k : Nat} (hdir : f.dir = .left)
    (ih : ∀ (S : Shape) (t : Tree) (h fuel : Nat),
      t.Zipped c S → S.Balanced → S.height = h + 1 →
      (h = 0 ∨ ∃ l a r, S = .node l a r ∧
        t.balanceAt a = (r.height : Int) - (l.height : Int) ∧ l.height ≠ r.height) →
      t.CtxTrue c h → c.length < fuel →
      ∃ t' s', AVLTree.insertClimb fuel t S.ptr (ctxParent c) = .ok t' ∧ t'.Zipped [] s' ∧
        s'.Balanced ∧ t.SameItems t' ∧
        (s' = plug c S ∨ ∃ c2 X X', plug c S = plug c2 X ∧ s' = plug c2 X' ∧ X.FixUp X'))
    (hz : t.Zipped (f :: c) (.node l a r)) (hb : (Shape.node l a r).Balanced)
    (hh : (Shape.node l a r).height = h + 1)
    (hroot : h = 0 ∨ ∃ l' a' r', Shape.node l a r = .node l' a' r' ∧
        t.balanceAt a' = (r'.height : Int) - (l'.height : Int) ∧ l'.height ≠ r'.height)
    (hctx : t.CtxTrue (f :: c) h) (hf : (f :: c).length < k + 1) :
    ∃ t' s', AVLTree.insertClimb (k + 1) t (some a) (some f.addr) = .ok t' ∧ t'.Zipped [] s' ∧
      s'.Balanced ∧ t.SameItems t' ∧
      (s' = plug (f :: c) (.node l a r) ∨
        ∃ c2 X X', plug (f :: c) (.node l a r) = plug c2 X ∧ s' = plug c2 X' ∧ X.FixUp X') := by
  obtain ⟨n, hn, hpar, hd, -, -⟩ := hz.ctx
  obtain ⟨hsb, h1, h2, hbl, hbr, hrest⟩ := hctx
  have hbn := Tree.balanceAt_of_lookup hn
  have hma : a ∈ (Shape.node l a r).addrs := by simp [Shape.addrs]
  have haf : a ≠ f.addr := (hz.not_mem_ctx hma).1
  have hSb := hb
  simp only [Shape.Balanced] at hSb
  obtain ⟨hlr, hlb, hrb⟩ := hSb
  simp only [Shape.height] at hh
  have hk : c.length < k := by
    simp only [List.length_cons] at hf
    clear * - hf
    omega
  -- the balance of the child, if this is not the first step
  have hchild : h ≠ 0 → t.balanceAt a = (r.height : Int) - (l.height : Int) ∧
      l.height ≠ r.height := by
    intro h0
    rcases hroot with hroot | ⟨l', a', r', he, hbal, hne⟩
    · exact absurd hroot h0
    · cases he
      exact ⟨hbal, hne⟩
  clear hroot
  -- the rest of the context does not see the balance written at this step
  have hrest' : ∀ t1 : Tree, (∀ y, y ≠ f.addr → t1.heap.lookup y = t.heap.lookup y) →
      ∀ h', t.CtxTrue c h' → t1.CtxTrue c h' := by
    intro t1 hoth h' hc
    refine Tree.CtxTrue.transfer c h' ?_ hc
    intro y hy
    exact Tree.balanceAt_congr (hoth y ((ctx_head_nodup hz.nodupCtx).2.2.2 y hy).1)
  simp only [hdir] at hd
  have hcl : some a = n.left := hd.1.symm
  have hbt := hbl hdir
  rw [hbn] at hbt
  have hw1 : -128 ≤ n.balance - 1 := by clear * - hbt h1 h2; omega
  have hw2 : n.balance - 1 < 128 := by clear * - hbt h1 h2; omega
  have hw : wrap8 (n.balance - 1) = n.balance - 1 := wrap8_small hw1 hw2
  have hv : AVLTree.insertClimb (k + 1) t (some a) (some f.addr) =
      (t.setBalance (some f.addr) (n.balance - 1) >>= fun t1 =>
        t1.getNode (some f.addr) >>= fun n1 =>
          if n1.balance = 0 then pure t1
          else if n1.balance = 2 ∨ n1.balance = -2 then
            AVLTree.insertFix t1.fuel t1 (some a) (some f.addr)
          else t1.getNode (some f.addr) >>= fun n2 =>
            AVLTree.insertClimb k t1 (some f.addr) n2.parent) := by
    simp only [AVLTree.insertClimb, reduceCtorEq, ↓reduceIte, Tree.getNode_some hn,
      Res.ok_bind, hcl]
  rw [hv]
  obtain ⟨t1, hr1, hroot1, hl1, hoth1, hlinks, hs1⟩ := Tree.setBalance_spec hn (n.balance - 1)
  have hz1 : t1.Zipped (f :: c) (.node l a r) := hz.same_links_zipped hroot1 hlinks
  have hz1' : t1.Zipped c (Shape.node (.node l a r) f.addr f.sib) := by
    have := Tree.Zipped.up.mp hz1
    simpa only [Frame.fill, hdir] using this
  have hfill : f.fill (.node l a r) = Shape.node (.node l a r) f.addr f.sib := by
    simp only [Frame.fill, hdir]
  have hb1 : t1.balanceAt f.addr = n.balance - 1 := by
    rw [Tree.balanceAt_of_lookup hl1, hw]
  simp only [hr1, Res.ok_bind, Tree.getNode_some hl1, hw]
  have hcase : f.sib.height = h + 1 ∨ f.sib.height = h ∨ f.sib.height + 1 = h := by
    clear * - h1 h2
    omega
  rcases hcase with hc | hc | hc
  · -- the parent becomes balanced: the walk stops
    have e0 : n.balance - 1 = 0 := by clear * - hbt hc; omega
    simp only [e0, ↓reduceIte]
    refine ⟨t1, plug (f :: c) (.node l a r), rfl,
      (Tree.valid_plug_iff t1 [] _).mp ((Tree.valid_plug_iff t1 (f :: c) (.node l a r)).mpr hz1),
      ?_, hs1, Or.inl rfl⟩
    show (plug c (f.fill (.node l a r))).Balanced
    rw [hfill]
    refine plug_balanced_of t c _ _ hrest ?_ ?_
    · simp only [Shape.Balanced, Shape.height]
      refine ⟨⟨?_, ?_⟩, hb, hsb⟩
      · clear * - hh hc; omega
      · clear * - hh hc; omega
    · simp only [Shape.height]
      clear * - hh hc
      omega
  · -- the parent becomes heavy on the side of the child: the walk goes on
    have e0 : ¬ n.balance - 1 = 0 := by clear * - hbt hc; omega
    have e2 : ¬ (n.balance - 1 = 2 ∨ n.balance - 1 = -2) := by clear * - hbt hc; omega
    simp only [e0, e2, ↓reduceIte, hpar]
    have hfp : (Shape.node (.node l a r) f.addr f.sib : Shape).ptr = some f.addr := rfl
    have hbal2 : (Shape.node (.node l a r) f.addr f.sib : Shape).Balanced := by
      simp only [Shape.Balanced, Shape.height]
      refine ⟨⟨?_, ?_⟩, hb, hsb⟩
      · clear * - hh hc; omega
      · clear * - hh hc; omega
    have hht2 : (Shape.node (.node l a r) f.addr f.sib : Shape).height = (h + 1) + 1 := by
      simp only [Shape.height]
      clear * - hh hc
      omega
    have htrue2 : t1.balanceAt f.addr = ((f.sib.height : Nat) : Int) - (((Shape.node l a r).height : Nat) : Int) := by
      rw [hb1]
      simp only [Shape.height]
      clear * - hh hc hbt
      omega
    have hdiff2 : (Shape.node l a r).height ≠ f.sib.height := by
      simp only [Shape.height]
      clear * - hh hc
      omega
    have hctx2 : t1.CtxTrue c (h + 1) := by
      have e : max h f.sib.height + 1 = h + 1 := by clear * - hc; omega
      rw [← e]
      exact hrest' t1 hoth1 _ hrest
    obtain ⟨t', s', hrun, hz', hb', hs', hfix⟩ :=
      ih (Shape.node (.node l a r) f.addr f.sib) t1 (h + 1) k hz1' hbal2 hht2 (Or.inr ⟨_, _, _, rfl, htrue2, hdiff2⟩) hctx2 hk
    rw [hfp] at hrun
    refine ⟨t', s', hrun, hz', hb', hs1.trans hs', ?_⟩
    show s' = plug c (f.fill (.node l a r)) ∨
      ∃ c2 X X', plug c (f.fill (.node l a r)) = plug c2 X ∧ s' = plug c2 X' ∧ X.FixUp X'
    rw [hfill]
    exact hfix
  · -- the parent reaches balance -2: one fix-up
    have e0 : ¬ n.balance - 1 = 0 := by clear * - hbt hc; omega
    have e2 : n.balance - 1 = 2 ∨ n.balance - 1 = -2 := Or.inr (by clear * - hbt hc; omega)
    simp only [e0, e2, ↓reduceIte]
    have hh0 : h ≠ 0 := by clear * - hc; omega
    obtain ⟨hcb, hne⟩ := hchild hh0
    have hcb1 : t1.balanceAt a = (r.height : Int) - (l.height : Int) :=
      (Tree.balanceAt_congr (hoth1 a haf)).trans hcb
    have hpb : t1.balanceAt f.addr = -2 := by
      rw [hb1]
      clear * - hbt hc
      omega
    have hcbs : t1.balanceAt a = -1 ∨ (t1.balanceAt a = 1 ∧ r ≠ .nil) := by
      rw [hcb1]
      by_cases hlt : r.height < l.height
      · exact Or.inl (by clear * - hlt hlr; omega)
      · refine Or.inr ⟨by clear * - hlt hlr hne; omega, ?_⟩
        rintro rfl
        simp only [Shape.height] at hne hlt
        clear * - hne hlt
        omega
    obtain ⟨t', X', hrun, hz', hs', hX⟩ :=
      insertFix_left_heavy (t1.heap.length + 1) hz1' hpb hcbs
    refine ⟨t', plug c X', hrun,
      (Tree.valid_plug_iff t' [] _).mp ((Tree.valid_plug_iff t' c X').mpr hz'), ?_,
      hs1.trans hs', Or.inr ⟨c, f.fill (.node l a r), X', rfl, rfl, ?_⟩⟩
    · refine plug_balanced_of t c X' _ hrest ?_ ?_
      · rcases hX with ⟨hb', rfl⟩ | ⟨hb', M1, m, M2, rfl, rfl⟩
        · rw [hcb1] at hb'
          simp only [Shape.Balanced, Shape.height]
          refine ⟨⟨?_, ?_⟩, hlb, ⟨?_, ?_⟩, hrb, hsb⟩
          all_goals (clear * - hb' hh hc hlr; omega)
        · rw [hcb1] at hb'
          simp only [Shape.Balanced, Shape.height] at hrb hb' hh hlr ⊢
          obtain ⟨hm, hm1, hm2⟩ := hrb
          refine ⟨⟨?_, ?_⟩, ⟨⟨?_, ?_⟩, hlb, hm1⟩, ⟨?_, ?_⟩, hm2, hsb⟩
          all_goals (clear * - hm hb' hh hc hlr; omega)
      · rcases hX with ⟨hb', rfl⟩ | ⟨hb', M1, m, M2, rfl, rfl⟩
        · rw [hcb1] at hb'
          simp only [Shape.height]
          clear * - hb' hh hc hlr
          omega
        · rw [hcb1] at hb'
          simp only [Shape.Balanced, Shape.height] at hrb hb' hh hlr ⊢
          obtain ⟨hm, -, -⟩ := hrb
          clear * - hm hb' hh hc hlr
          omega
    · rw [hfill]
      rcases hX with ⟨-, rfl⟩ | ⟨-, M1, m, M2, rfl, rfl⟩
      · exact Or.inl ⟨_, _, _, _, _, rfl, rfl⟩
      · exact Or.inr (Or.inl ⟨_, _, _, _, _, _, _, rfl, rfl⟩)

/-- One step of the upward walk of `AVLTree::insert`, coming from a right child. -/
theorem insertClimb_step_right {t : Tree} {f : Frame} {c : List Frame} {l r : Shape} {a : Nat}
    {h k : Nat} (hdir : f.dir = .right)
    (ih : ∀ (S : Shape) (t : Tree) (h fuel : Nat),
      t.Zipped c S → S.Balanced → S.height = h + 1 →
      (h = 0 ∨ ∃ l a r, S = .node l a r ∧
        t.balanceAt a = (r.height : Int) - (l.height : Int) ∧ l.height ≠ r.height) →
      t.CtxTrue c h → c.length < fuel →
      ∃ t' s', AVLTree.insertClimb fuel t S.ptr (ctxParent c) = .ok t' ∧ t'.Zipped [] s' ∧
        s'.Balanced ∧ t.SameItems t' ∧
        (s' = plug c S ∨ ∃ c2 X X', plug c S = plug c2 X ∧ s' = plug c2 X' ∧ X.FixUp X'))
    (hz : t.Zipped (f :: c) (.node l a r)) (hb : (Shape.node l a r).Balanced)
    (hh : (Shape.node l a r).height = h + 1)
    (hroot : h = 0 ∨ ∃ l' a' r', Shape.node l a r = .node l' a' r' ∧
        t.balanceAt a' = (r'.height : Int) - (l'.height : Int) ∧ l'.height ≠ r'.height)
    (hctx : t.CtxTrue (f :: c) h) (hf : (f :: c).length < k + 1) :
    ∃ t' s', AVLTree.insertClimb (k + 1) t (some a) (some f.addr) = .ok t' ∧ t'.Zipped [] s' ∧
      s'.Balanced ∧ t.SameItems t' ∧
      (s' = plug (f :: c) (.node l a r) ∨
        ∃ c2 X X', plug (f :: c) (.node l a r) = plug c2 X ∧ s' = plug c2 X' ∧ X.FixUp X') := by
  obtain ⟨n, hn, hpar, hd, -, -⟩ := hz.ctx
  obtain ⟨hsb, h1, h2, hbl, hbr, hrest⟩ := hctx
  have hbn := Tree.balanceAt_of_lookup hn
  have hma : a ∈ (Shape.node l a r).addrs := by simp [Shape.addrs]
  have haf : a ≠ f.addr := (hz.not_mem_ctx hma).1
  have hSb := hb
  simp only [Shape.Balanced] at hSb
  obtain ⟨hlr, hlb, hrb⟩ := hSb
  simp only [Shape.height] at hh
  have hk : c.length < k := by
    simp only [List.length_cons] at hf
    clear * - hf
    omega
  -- the balance of the child, if this is not the first step
  have hchild : h ≠ 0 → t.balanceAt a = (r.height : Int) - (l.height : Int) ∧
      l.height ≠ r.height := by
    intro h0
    rcases hroot with hroot | ⟨l', a', r', he, hbal, hne⟩
    · exact absurd hroot h0
    · cases he
      exact ⟨hbal, hne⟩
  clear hroot
  -- the rest of the context does not see the balance written at this step
  have hrest' : ∀ t1 : Tree, (∀ y, y ≠ f.addr → t1.heap.lookup y = t.heap.lookup y) →
      ∀ h', t.CtxTrue c h' → t1.CtxTrue c h' := by
    intro t1 hoth h' hc
    refine Tree.CtxTrue.transfer c h' ?_ hc
    intro y hy
    exact Tree.balanceAt_congr (hoth y ((ctx_head_nodup hz.nodupCtx).2.2.2 y hy).1)
  simp only [hdir] at hd
  have hcl : ¬ some a = n.left := by
    rw [hd.1]
    intro e
    exact (hz.not_mem_ctx hma).2.1 (Shape.ptr_mem e.symm)
  have hbt := hbr hdir
  rw [hbn] at hbt
  have hw1 : -128 ≤ n.balance + 1 := by clear * - hbt h1 h2; omega
  have hw2 : n.balance + 1 < 128 := by clear * - hbt h1 h2; omega
  have hw : wrap8 (n.balance + 1) = n.balance + 1 := wrap8_small hw1 hw2
  have hv : AVLTree.insertClimb (k + 1) t (some a) (some f.addr) =
      (t.setBalance (some f.addr) (n.balance + 1) >>= fun t1 =>
        t1.getNode (some f.addr) >>= fun n1 =>
          if n1.balance = 0 then pure t1
          else if n1.balance = 2 ∨ n1.balance = -2 then
            AVLTree.insertFix t1.fuel t1 (some a) (some f.addr)
          else t1.getNode (some f.addr) >>= fun n2 =>
            AVLTree.insertClimb k t1 (some f.addr) n2.parent) := by
    simp only [AVLTree.insertClimb, reduceCtorEq, ↓reduceIte, Tree.getNode_some hn,
      Res.ok_bind, hcl]
  rw [hv]
  obtain ⟨t1, hr1, hroot1, hl1, hoth1, hlinks, hs1⟩ := Tree.setBalance_spec hn (n.balance + 1)
  have hz1 : t1.Zipped (f :: c) (.node l a r) := hz.same_links_zipped hroot1 hlinks
  have hz1' : t1.Zipped c (Shape.node f.sib f.addr (.node l a r)) := by
    have := Tree.Zipped.up.mp hz1
    simpa only [Frame.fill, hdir] using this
  have hfill : f.fill (.node l a r) = Shape.node f.sib f.addr (.node l a r) := by
    simp only [Frame.fill, hdir]
  have hb1 : t1.balanceAt f.addr = n.balance + 1 := by
    rw [Tree.balanceAt_of_lookup hl1, hw]
  simp only [hr1, Res.ok_bind, Tree.getNode_some hl1, hw]
  have hcase : f.sib.height = h + 1 ∨ f.sib.height = h ∨ f.sib.height + 1 = h := by
    clear * - h1 h2
    omega
  rcases hcase with hc | hc | hc
  · -- the parent becomes balanced: the walk stops
    have e0 : n.balance + 1 = 0 := by clear * - hbt hc; omega
    simp only [e0, ↓reduceIte]
    refine ⟨t1, plug (f :: c) (.node l a r), rfl,
      (Tree.valid_plug_iff t1 [] _).mp ((Tree.valid_plug_iff t1 (f :: c) (.node l a r)).mpr hz1),
      ?_, hs1, Or.inl rfl⟩
    show (plug c (f.fill (.node l a r))).Balanced
    rw [hfill]
    refine plug_balanced_of t c _ _ hrest ?_ ?_
    · simp only [Shape.Balanced, Shape.height]
      refine ⟨⟨?_, ?_⟩, hsb, hb⟩
      · clear * - hh hc; omega
      · clear * - hh hc; omega
    · simp only [Shape.height]
      clear * - hh hc
      omega
  · -- the parent becomes heavy on the side of the child: the walk goes on
    have e0 : ¬ n.balance + 1 = 0 := by clear * - hbt hc; omega
    have e2 : ¬ (n.balance + 1 = 2 ∨ n.balance + 1 = -2) := by clear * - hbt hc; omega
    simp only [e0, e2, ↓reduceIte, hpar]
    have hfp : (Shape.node f.sib f.addr (.node l a r) : Shape).ptr = some f.addr := rfl
    have hbal2 : (Shape.node f.sib f.addr (.node l a r) : Shape).Balanced := by
      simp only [Shape.Balanced, Shape.height]
      refine ⟨⟨?_, ?_⟩, hsb, hb⟩
      · clear * - hh hc; omega
      · clear * - hh hc; omega
    have hht2 : (Shape.node f.sib f.addr (.node l a r) : Shape).height = (h + 1) + 1 := by
      simp only [Shape.height]
      clear * - hh hc
      omega
    have htrue2 : t1.balanceAt f.addr = (((Shape.node l a r).height : Nat) : Int) - ((f.sib.height : Nat) : Int) := by
      rw [hb1]
      simp only [Shape.height]
      clear * - hh hc hbt
      omega
    have hdiff2 : f.sib.height ≠ (Shape.node l a r).height := by
      simp only [Shape.height]
      clear * - hh hc
      omega
    have hctx2 : t1.CtxTrue c (h + 1) := by
      have e : max h f.sib.height + 1 = h + 1 := by clear * - hc; omega
      rw [← e]
      exact hrest' t1 hoth1 _ hrest
    obtain ⟨t', s', hrun, hz', hb', hs', hfix⟩ :=
      ih (Shape.node f.sib f.addr (.node l a r)) t1 (h + 1) k hz1' hbal2 hht2 (Or.inr ⟨_, _, _, rfl, htrue2, hdiff2⟩) hctx2 hk
    rw [hfp] at hrun
    refine ⟨t', s', hrun, hz', hb', hs1.trans hs', ?_⟩
    show s' = plug c (f.fill (.node l a r)) ∨
      ∃ c2 X X', plug c (f.fill (.node l a r)) = plug c2 X ∧ s' = plug c2 X' ∧ X.FixUp X'
    rw [hfill]
    exact hfix
  · -- the parent reaches balance 2: one fix-up
    have e0 : ¬ n.balance + 1 = 0 := by clear * - hbt hc; omega
    have e2 : n.balance + 1 = 2 ∨ n.balance + 1 = -2 := Or.inl (by clear * - hbt hc; omega)
    simp only [e0, e2, ↓reduceIte]
    have hh0 : h ≠ 0 := by clear * - hc; omega
    obtain ⟨hcb, hne⟩ := hchild hh0
    have hcb1 : t1.balanceAt a = (r.height : Int) - (l.height : Int) :=
      (Tree.balanceAt_congr (hoth1 a haf)).trans hcb
    have hpb : t1.balanceAt f.addr = 2 := by
      rw [hb1]
      clear * - hbt hc
      omega
    have hcbs : t1.balanceAt a = 1 ∨ (t1.balanceAt a = -1 ∧ l ≠ .nil) := by
      rw [hcb1]
      by_cases hlt : l.height < r.height
      · exact Or.inl (by clear * - hlt hlr; omega)
      · refine Or.inr ⟨by clear * - hlt hlr hne; omega, ?_⟩
        rintro rfl
        simp only [Shape.height] at hne hlt
        clear * - hne hlt
        omega
    obtain ⟨t', X', hrun, hz', hs', hX⟩ :=
      insertFix_right_heavy (t1.heap.length + 1) hz1' hpb hcbs
    refine ⟨t', plug c X', hrun,
      (Tree.valid_plug_iff t' [] _).mp ((Tree.valid_plug_iff t' c X').mpr hz'), ?_,
      hs1.trans hs', Or.inr ⟨c, f.fill (.node l a r), X', rfl, rfl, ?_⟩⟩
    · refine plug_balanced_of t c X' _ hrest ?_ ?_
      · rcases hX with ⟨hb', rfl⟩ | ⟨hb', M1, m, M2, rfl, rfl⟩
        · rw [hcb1] at hb'
          simp only [Shape.Balanced, Shape.height]
          refine ⟨⟨?_, ?_⟩, ⟨⟨?_, ?_⟩, hsb, hlb⟩, hrb⟩
          all_goals (clear * - hb' hh hc hlr; omega)
        · rw [hcb1] at hb'
          simp only [Shape.Balanced, Shape.height] at hlb hb' hh hlr ⊢
          obtain ⟨hm, hm1, hm2⟩ := hlb
          refine ⟨⟨?_, ?_⟩, ⟨⟨?_, ?_⟩, hsb, hm1⟩, ⟨?_, ?_⟩, hm2, hrb⟩
          all_goals (clear * - hm hb' hh hc hlr; omega)
      · rcases hX with ⟨hb', rfl⟩ | ⟨hb', M1, m, M2, rfl, rfl⟩
        · rw [hcb1] at hb'
          simp only [Shape.height]
          clear * - hb' hh hc hlr
          omega
        · rw [hcb1] at hb'
          simp only [Shape.Balanced, Shape.height] at hlb hb' hh hlr ⊢
          obtain ⟨hm, -, -⟩ := hlb
          clear * - hm hb' hh hc hlr
          omega
    · rw [hfill]
      rcases hX with ⟨-, rfl⟩ | ⟨-, M1, m, M2, rfl, rfl⟩
      · exact Or.inr (Or.inr (Or.inl ⟨_, _, _, _, _, rfl, rfl⟩))
      · exact Or.inr (Or.inr (Or.inr ⟨_, _, _, _, _, _, _, rfl, rfl⟩))

/-- The upward walk of `AVLTree::insert` on a tree that was height-balanced with true balances
before the new node was attached: it returns a height-balanced tree, after at most one fix-up.
The subtree `S` in the hole is the part that has grown by one level. -/
theorem insertClimb_balanced :
    ∀ (c : List Frame) (S : Shape) (t : Tree) (h fuel : Nat),
      t.Zipped c S → S.Balanced → S.height = h + 1 →
      (h = 0 ∨ ∃ l a r, S = .node l a r ∧
        t.balanceAt a = (r.height : Int) - (l.height : Int) ∧ l.height ≠ r.height) →
      t.CtxTrue c h → c.length < fuel →
      ∃ t' s', AVLTree.insertClimb fuel t S.ptr (ctxParent c) = .ok t' ∧ t'.Zipped [] s' ∧
        s'.Balanced ∧ t.SameItems t' ∧
        (s' = plug c S ∨ ∃ c2 X X', plug c S = plug c2 X ∧ s' = plug c2 X' ∧ X.FixUp X') := by
  intro c
  induction c with
  | nil =>
    intro S t h fuel hz hb _ _ _ hf
    obtain ⟨k, rfl⟩ : ∃ k, fuel = k + 1 := ⟨fuel - 1, by simp at hf; omega⟩
    exact ⟨t, S, by simp [AVLTree.insertClimb, ctxParent], hz, hb, Tree.SameItems.refl t,
      Or.inl rfl⟩
  | cons f c ih =>
    intro S t h fuel hz hb hh hroot hctx hf
    obtain ⟨k, rfl⟩ : ∃ k, fuel = k + 1 := ⟨fuel - 1, by simp at hf; omega⟩
    obtain ⟨l, a, r, rfl⟩ : ∃ l a r, S = .node l a r := by
      cases S with
      | nil => simp [Shape.height] at hh
      | node l a r => exact ⟨l, a, r, rfl⟩
    show ∃ t' s', AVLTree.insertClimb (k + 1) t (some a) (some f.addr) = .ok t' ∧ _
    cases hdir : f.dir with
    | left => exact insertClimb_step_left hdir ih hz hb hh hroot hctx hf
    | right => exact insertClimb_step_right hdir ih hz hb hh hroot hctx hf

theorem Tree.Valid.isBalanced_eq {t : Tree} {s : Shape} (hv : t.Valid s) :
    BinarySearchTree.isBalanced t = .ok (decide s.Balanced) := by
  have hf := hv.height_lt_fuel
  unfold BinarySearchTree.isBalanced
  rw [hv.1]
  exact balanceHelperAux_eq t s none _ hv.2.1 (by omega) (by omega)

/-- The first part of `AVLTree::insert` for a key that is not in a nonempty tree: the walk down
reaches a hole, the new node is linked there, and the upward walk starts at its parent. No stored
balance has changed, and the new node has balance 0. -/
theorem AVLTree.insert_attach {t : Tree} {l0 r0 : Shape} {a0 : Nat} (key value : Int)
    (hs : t.SearchTree (.node l0 a0 r0)) (habs : (Shape.node l0 a0 r0).locate t key = none) :
    ∃ f c t2, plug (f :: c) .nil = .node l0 a0 r0 ∧
      AVLTree.insert t key value =
        AVLTree.insertClimb t2.fuel t2 (some t.heap.length) (some f.addr) ∧
      t2.Zipped (f :: c) (.node .nil t.heap.length .nil) ∧
      t2.heap.length = t.heap.length + 1 ∧
      (∀ y, y ≠ t.heap.length → t2.balanceAt y = t.balanceAt y) ∧
      t2.balanceAt t.heap.length = 0 := by
  obtain ⟨hv, hsorted⟩ := hs
  have hroot : t.root ≠ none := by rw [hv.1]; simp [Shape.ptr]
  obtain ⟨c, hrun, hz, hfit, hplug⟩ := insertDescend_bottom t key value _ [] t.fuel hv.zipped
    hsorted ⟨by simp [ctxBefore], by simp [ctxAfter]⟩ habs
    (by have := hv.height_lt_fuel; omega)
  rw [← hv.1] at hrun
  simp only [ctxParent] at hrun
  have hplug' : plug c .nil = .node l0 a0 r0 := hplug
  cases c with
  | nil => simp [plug] at hplug'
  | cons f c =>
    obtain ⟨np, hnp, -, -, -, -⟩ := hz.ctx
    have hltp := Heap.lookup_lt hnp
    have hne : f.addr ≠ t.heap.length := Nat.ne_of_lt hltp
    have hkp := Tree.keyAt_of_lookup hnp
    have hlt1 : f.addr < (t.heap ++ [some (Node.mk key value (some f.addr) none none 0)]).length := by
      simp only [List.length_append, List.length_singleton]
      omega
    have hlt2 : f.addr < t.heap.length + 1 := by omega
    have hbal : ∀ np' : Node, np'.balance = np.balance →
        (∀ y, y ≠ t.heap.length →
          (Tree.mk ((t.heap ++ [some (Node.mk key value (some f.addr) none none 0)]).put
            f.addr np') t.root).balanceAt y = t.balanceAt y) ∧
        (Tree.mk ((t.heap ++ [some (Node.mk key value (some f.addr) none none 0)]).put
            f.addr np') t.root).balanceAt t.heap.length = 0 := by
      intro np' hnp'
      constructor
      · intro y hy
        by_cases hyf : y = f.addr
        · subst hyf
          simp [Tree.balanceAt, Heap.lookup_put, hlt1, hlt2, hnp, hnp']
        · simp [Tree.balanceAt, Heap.lookup_put, hlt1, hlt2, hyf, Heap.lookup_append, hy]
      · simp [Tree.balanceAt, Heap.lookup_put, hlt1, hlt2, hne.symm, Heap.lookup_append]
    by_cases hlt : key < np.key
    · have hdir : f.dir = .left := by
        cases hd : f.dir
        · rfl
        · have hmem : f.addr ∈ ctxBefore (f :: c) := by simp [ctxBefore, hd]
          have := hfit.1 _ hmem
          rw [hkp] at this
          omega
      obtain ⟨h1, -, -⟩ := @attach_run t f c key value hz np hnp
        { np with left := some t.heap.length }
        (fun _ => rfl) (fun hd => by rw [hdir] at hd; cases hd)
      obtain ⟨hb1, hb2⟩ := hbal { np with left := some t.heap.length } rfl
      refine ⟨f, c, _, hplug', ?_, h1, by simp, hb1, hb2⟩
      simp [AVLTree.insert, hroot, hrun, Tree.newNode, Tree.getNode, Tree.setLeft,
        Tree.modify, Heap.lookup_append, hne, hnp, hlt]
    · have hdir : f.dir = .right := by
        cases hd : f.dir
        · have hmem : f.addr ∈ ctxAfter (f :: c) := by simp [ctxAfter, hd]
          have := hfit.2 _ hmem
          rw [hkp] at this
          omega
        · rfl
      obtain ⟨h1, -, -⟩ := @attach_run t f c key value hz np hnp
        { np with right := some t.heap.length }
        (fun hd => by rw [hdir] at hd; cases hd) (fun _ => rfl)
      obtain ⟨hb1, hb2⟩ := hbal { np with right := some t.heap.length } rfl
      refine ⟨f, c, _, hplug', ?_, h1, by simp, hb1, hb2⟩
      simp [AVLTree.insert, hroot, hrun, Tree.newNode, Tree.getNode, Tree.setRight,
        Tree.modify, Heap.lookup_append, hne, hnp, hlt]

/-! ## Rotations and the predecessor walk, for the claims about them -/

theorem perfectTree_searchTree : perfectTree.SearchTree perfectShape := by
  refine ⟨⟨rfl, ?_, by decide⟩, by decide⟩
  refine ⟨_, rfl, rfl, rfl, rfl, ?_, ?_⟩ <;> refine ⟨_, rfl, rfl, rfl, rfl, ?_, ?_⟩ <;>
    exact ⟨_, rfl, rfl, rfl, rfl, trivial, trivial⟩

/-- A left rotation writes the stored balance of the two rotated nodes only. -/
theorem rotateLeft_balances {t t' : Tree} {c : List Frame} {A B C : Shape} {a b : Nat}
    (hz : t.Zipped c (.node A a (.node B b C)))
    (hrun' : AVLTree.rotateLeft t (some a) = .ok t') :
    ∀ y, y ≠ a → y ≠ b → t'.balanceAt y = t.balanceAt y := by
  obtain ⟨na, hna, hpa, hla, hra, hA, ⟨nb, hnb, hpb, hlb, hrb, hB, hC⟩⟩ := hz.sub
  have hnd3 : (A.addrs ++ a :: (B.addrs ++ b :: C.addrs)).Nodup := by
    simpa [Shape.addrs] using hz.nodupSub
  obtain ⟨hab, haA, haB, haC, hbA, hbB, hbC, hAn, hBn, hCn, hAd, hBd⟩ := nodup_three hnd3
  have hba : b ≠ a := fun e => hab e.symm
  have hma : a ∈ (Shape.node A a (.node B b C)).addrs := by simp [Shape.addrs]
  have hmb : b ∈ (Shape.node A a (.node B b C)).addrs := by simp [Shape.addrs]
  have hmB : ∀ y ∈ B.addrs, y ∈ (Shape.node A a (.node B b C)).addrs := by
    intro y hy; simp [Shape.addrs, hy]
  simp only [Shape.ptr] at hra
  have hxs : ∀ x, nb.left = some x → x ≠ a ∧ x ≠ b ∧ ∃ nx, t.heap.lookup x = some nx := by
    intro x hx
    rw [hlb] at hx
    have hxB := Shape.ptr_mem hx
    exact ⟨fun e => haB (e ▸ hxB), fun e => hbB (e ▸ hxB), hB.live hxB⟩
  have hpar : ∀ p, na.parent = some p →
      p ≠ a ∧ p ≠ b ∧ nb.left ≠ some p ∧ ∃ np, t.heap.lookup p = some np := by
    intro p hp
    rw [hpa] at hp
    refine ⟨fun e => hz.parent_ne hma (e ▸ hp), fun e => hz.parent_ne hmb (e ▸ hp), ?_, ?_⟩
    · intro e
      rw [hlb] at e
      exact hz.parent_ne (hmB _ (Shape.ptr_mem e)) hp
    · cases c with
      | nil => simp [ctxParent] at hp
      | cons f c' =>
        simp only [ctxParent, Option.some.injEq] at hp
        subst hp
        obtain ⟨np, hnp, -⟩ := hz.ctx
        exact ⟨np, hnp⟩
  obtain ⟨t1, hrun, -, -, -, -, hx', hp', hoth⟩ :=
    rotateLeft_local hna hnb hra hba.symm hxs hpar
  rw [hrun] at hrun'
  cases hrun'
  intro y hya hyb
  by_cases hyx : nb.left = some y
  · obtain ⟨-, -, nx, hnx⟩ := hxs y hyx
    rw [Tree.balanceAt_of_lookup (hx' y nx hyx hnx), Tree.balanceAt_of_lookup hnx]
  by_cases hyp : na.parent = some y
  · obtain ⟨-, -, -, np, hnp⟩ := hpar y hyp
    rw [Tree.balanceAt_of_lookup (hp' y np hyp hnp), Tree.balanceAt_of_lookup hnp]
    split <;> rfl
  · exact Tree.balanceAt_congr (hoth y hya hyb hyx hyp)

/-- A right rotation writes the stored balance of the two rotated nodes only. -/
theorem rotateRight_balances {t t' : Tree} {c : List Frame} {A B C : Shape} {a b : Nat}
    (hz : t.Zipped c (.node (.node A b B) a C))
    (hrun' : AVLTree.rotateRight t (some a) = .ok t') :
    ∀ y, y ≠ a → y ≠ b → t'.balanceAt y = t.balanceAt y := by
  obtain ⟨na, hna, hpa, hla, hra, ⟨nb, hnb, hpb, hlb, hrb, hA, hB⟩, hC⟩ := hz.sub
  have hnd3 : (A.addrs ++ b :: (B.addrs ++ a :: C.addrs)).Nodup := by
    simpa [Shape.addrs] using hz.nodupSub
  obtain ⟨hba, hbA, hbB, hbC, haA, haB, haC, hAn, hBn, hCn, hAd, hBd⟩ := nodup_three hnd3
  have hma : a ∈ (Shape.node (.node A b B) a C).addrs := by simp [Shape.addrs]
  have hmb : b ∈ (Shape.node (.node A b B) a C).addrs := by simp [Shape.addrs]
  have hmB : ∀ y ∈ B.addrs, y ∈ (Shape.node (.node A b B) a C).addrs := by
    intro y hy; simp [Shape.addrs, hy]
  simp only [Shape.ptr] at hla
  have hxs : ∀ x, nb.right = some x → x ≠ a ∧ x ≠ b ∧ ∃ nx, t.heap.lookup x = some nx := by
    intro x hx
    rw [hrb] at hx
    have hxB := Shape.ptr_mem hx
    exact ⟨fun e => haB (e ▸ hxB), fun e => hbB (e ▸ hxB), hB.live hxB⟩
  have hpar : ∀ p, na.parent = some p →
      p ≠ a ∧ p ≠ b ∧ nb.right ≠ some p ∧ ∃ np, t.heap.lookup p = some np := by
    intro p hp
    rw [hpa] at hp
    refine ⟨fun e => hz.parent_ne hma (e ▸ hp), fun e => hz.parent_ne hmb (e ▸ hp), ?_, ?_⟩
    · intro e
      rw [hrb] at e
      exact hz.parent_ne (hmB _ (Shape.ptr_mem e)) hp
    · cases c with
      | nil => simp [ctxParent] at hp
      | cons f c' =>
        simp only [ctxParent, Option.some.injEq] at hp
        subst hp
        obtain ⟨np, hnp, -⟩ := hz.ctx
        exact ⟨np, hnp⟩
  obtain ⟨t1, hrun, -, -, -, -, hx', hp', hoth⟩ :=
    rotateRight_local hna hnb hla hba.symm hxs hpar
  rw [hrun] at hrun'
  cases hrun'
  intro y hya hyb
  by_cases hyx : nb.right = some y
  · obtain ⟨-, -, nx, hnx⟩ := hxs y hyx
    rw [Tree.balanceAt_of_lookup (hx' y nx hyx hnx), Tree.balanceAt_of_lookup hnx]
  by_cases hyp : na.parent = some y
  · obtain ⟨-, -, -, np, hnp⟩ := hpar y hyp
    rw [Tree.balanceAt_of_lookup (hp' y np hyp hnp), Tree.balanceAt_of_lookup hnp]
    split <;> rfl
  · exact Tree.balanceAt_congr (hoth y hya hyb hyx hyp)

theorem getLast_append_cons (l r : List Nat) (a : Nat) :
    (l ++ a :: r).getLast? = (a :: r).getLast? := by
  rw [List.getLast?_append]
  cases h : (a :: r).getLast? with
  | none => simp at h
  | some z => rfl

/-- The walk to the rightmost node of a nonempty subtree returns the last node of the subtree in
in-order. -/
theorem rightmost_last (t : Tree) :
    ∀ (s : Shape) (par : Ptr) (fuel : Nat), s ≠ .nil → t.heap.Holds par s → s.height < fuel + 1 →
      rightmost fuel t s.ptr = .ok s.addrs.getLast? := by
  intro s
  induction s with
  | nil => intro _ _ h; exact absurd rfl h
  | node l a r _ ihr =>
    intro par fuel _ hs hfuel
    obtain ⟨n, hn, -, -, hr, -, hsr⟩ := hs
    have hp : (Shape.node l a r).ptr = some a := rfl
    cases fuel with
    | zero => simp [Shape.height] at hfuel
    | succ fuel =>
      simp only [Shape.height] at hfuel
      cases r with
      | nil =>
        simp [rightmost, hp, Tree.getNode, hn, hr, Shape.ptr, Shape.addrs]
      | node rl b rr =>
        have hh : (Shape.node rl b rr).height < fuel + 1 := by
          have := Nat.le_max_right l.height (Shape.node rl b rr).height
          omega
        have hne : (Shape.node rl b rr).ptr ≠ none := by simp [Shape.ptr]
        have := ihr (some a) fuel (by simp) hsr hh
        simp only [rightmost, hp, Tree.getNode, hn, hr, Res.ok_bind, bind, Res.bind, hne,
          ne_eq, not_false_eq_true, ↓reduceIte]
        rw [this]
        have e1 : (Shape.node l a (.node rl b rr)).addrs
            = (l.addrs ++ a :: rl.addrs) ++ b :: rr.addrs := by simp [Shape.addrs]
        have e2 : (Shape.node rl b rr).addrs = rl.addrs ++ b :: rr.addrs := rfl
        rw [e1, e2, getLast_append_cons, getLast_append_cons]

/-- The climb of `predecessor` from a subtree in a context stops at the last node that comes
before the subtree in in-order, or at null if there is none. -/
theorem climbWhileLeft_spec (t : Tree) :
    ∀ (c : List Frame) (s : Shape) (fuel : Nat), s ≠ .nil → t.Zipped c s → c.length < fuel →
      climbWhileLeft fuel t s.ptr (ctxParent c) = .ok (ctxBefore c).getLast? := by
  intro c
  induction c with
  | nil =>
    intro s fuel _ _ hf
    cases fuel with
    | zero => simp at hf
    | succ fuel => simp [climbWhileLeft, ctxParent, ctxBefore]
  | cons f c ih =>
    intro s fuel hs hz hf
    cases fuel with
    | zero => simp at hf
    | succ fuel =>
      obtain ⟨n, hn, hpar, hd, -, -⟩ := hz.ctx
      obtain ⟨x, hx⟩ : ∃ x, s.ptr = some x := by
        cases s with
        | nil => exact absurd rfl hs
        | node l x r => exact ⟨x, rfl⟩
      cases hdir : f.dir with
      | right =>
        simp only [hdir] at hd
        have hne : ¬ s.ptr = n.left := by
          rw [hd.1, hx]
          intro e
          exact (hz.not_mem_ctx (Shape.ptr_mem hx)).2.1 (Shape.ptr_mem e.symm)
        have hcp : ctxParent (f :: c) = some f.addr := rfl
        rw [hcp]
        have hl : (ctxBefore c ++ (f.sib.addrs ++ [f.addr])).getLast? = some f.addr := by
          rw [← List.append_assoc, List.getLast?_append]
          rfl
        simp [climbWhileLeft, Tree.getNode, hn, hne, ctxBefore, hdir, hl]
      | left =>
        simp only [hdir] at hd
        have hz' : t.Zipped c (f.fill s) := Tree.Zipped.up.mp hz
        have hfill : (f.fill s).ptr = some f.addr := Frame.fill_ptr f s
        have := ih (f.fill s) fuel (by unfold Frame.fill; cases f.dir <;> simp) hz'
          (by simp at hf; omega)
        rw [hfill] at this
        have hcp : ctxParent (f :: c) = some f.addr := rfl
        rw [hcp]
        simp [climbWhileLeft, Tree.getNode, hn, hd.1, hpar, this, ctxBefore, hdir]

/-- On a well-formed tree `predecessor` returns, from each node, the node just before it in
in-order, and null from the first node. -/
theorem predecessor_spec {t : Tree} {s : Shape} (hv : t.Valid s) {b e : List Nat} {x : Nat}
    (hsplit : s.addrs = b ++ x :: e) :
    BinarySearchTree.predecessor t (some x) = .ok b.getLast? := by
  have hx : x ∈ s.addrs := by rw [hsplit]; simp
  obtain ⟨c, L, R, rfl⟩ := Shape.focus hx
  have hz : t.Zipped c (.node L x R) := (Tree.valid_plug_iff t c _).mp hv
  have hdec : (plug c (.node L x R)).addrs =
      (ctxBefore c ++ L.addrs) ++ x :: (R.addrs ++ ctxAfter c) := by
    rw [plug_addrs]; simp [Shape.addrs]
  obtain ⟨hb, -⟩ := nodup_split_unique hv.2.2 hsplit hdec
  subst hb
  obtain ⟨n, hn, hpar, hl, -, hLh, -⟩ := hz.sub
  have hlen := hv.2.1.length_le hv.2.2
  rw [hdec] at hlen
  simp only [List.length_append, List.length_cons] at hlen
  cases hL : L with
  | nil =>
    subst hL
    have hc : c.length < t.fuel := by
      have h1 := ctx_length_le c
      simp only [List.length_append] at h1
      simp only [Tree.fuel]
      omega
    have := climbWhileLeft_spec t c (.node .nil x R) t.fuel (by simp) hz hc
    simp only [Shape.ptr] at this hl
    simp [BinarySearchTree.predecessor, Tree.getNode, hn, hl, hpar, this, Shape.addrs]
  | node Ll y Lr =>
    rw [← hL]
    have hLne : L ≠ .nil := by rw [hL]; simp
    have hh : L.height < t.fuel + 1 := by
      have := L.height_le_length
      simp only [Tree.fuel]
      omega
    have := rightmost_last t L (some x) t.fuel hLne hLh hh
    have hne : ¬ L.ptr = none := fun e => hLne (Shape.ptr_eq_none e)
    have hlast : (ctxBefore c ++ L.addrs).getLast? = L.addrs.getLast? := by
      have := Shape.addrs_ne_nil hLne
      cases hLa : L.addrs with
      | nil => exact absurd hLa this
      | cons z zs => exact getLast_append_cons _ _ _
    simp [BinarySearchTree.predecessor, Tree.getNode, hn, hl, hne, this, hlast]

/-! ## The counting copy of `removeFix` -/

theorem Res.bind_assoc {α β γ : Type} (x : Res α) (f : α → Res β) (g : β → Res γ) :
    (x >>= f) >>= g = x >>= fun a => f a >>= g := by
  cases x <;> rfl

theorem Res.bind_ite {α β : Type} (c : Prop) [Decidable c] (x y : Res α) (g : α → Res β) :
    (if c then x else y) >>= g = if c then x >>= g else y >>= g := by
  split <;> rfl

theorem Res.bind_ok_id {α : Type} (x : Res α) : (x >>= fun a => Res.ok a) = x := by
  cases x <;> rfl

theorem Res.bind_eq_ok {α β : Type} {x : Res α} {f : α → Res β} {b : β} :
    (x >>= f) = .ok b ↔ ∃ a, x = .ok a ∧ f a = .ok b := by
  cases x with
  | ok a => exact ⟨fun h => ⟨a, rfl, h⟩, fun ⟨a', ha, h⟩ => by cases ha; exact h⟩
  | fault e => exact ⟨fun h => (by cases h), fun ⟨a', ha, _⟩ => (by cases ha)⟩

/-- Dropping the counter of `removeFixCount` gives `removeFix`. -/
theorem AVLTree.removeFixCount_fst : ∀ (fuel : Nat) (t : Tree) (cur : Ptr) (diff : Int),
    AVLTree.removeFix fuel t cur diff =
      (AVLTree.removeFixCount fuel t cur diff >>= fun r => pure r.1) := by
  intro fuel
  induction fuel with
  | zero => intro t cur diff; rfl
  | succ fuel ih =>
    intro t cur diff
    simp only [AVLTree.removeFixCount, AVLTree.removeFix, ih, Res.bind_assoc, Res.bind_ite,
      Res.pure_eq, Res.ok_bind, Res.bind_ok_id]

/-- A run of `removeFixCount` that counts no rotation returns the tree it was given. -/
theorem AVLTree.removeFixCount_zero : ∀ (fuel : Nat) (t : Tree) (cur : Ptr) (diff : Int) (t' : Tree),
    AVLTree.removeFixCount fuel t cur diff = .ok (t', 0) → t' = t := by
  intro fuel
  induction fuel with
  | zero => intro t cur diff t' h; cases h
  | succ fuel ih =>
    intro t cur diff t' h
    rw [AVLTree.removeFixCount] at h
    by_cases hc : cur = none
    · rw [if_pos hc] at h
      cases h
      rfl
    · rw [if_neg hc, Res.bind_eq_ok] at h
      obtain ⟨cn, -, h⟩ := h
      lift_lets at h
      extract_lets parent spread childL childR jp at h
      have key : ∀ nd, jp nd = .ok (t', 0) → t' = t := by
        intro nd hj
        simp only [jp, Res.pure_eq, Res.ok_bind] at hj
        repeat' (first
          | (split at hj)
          | (rw [Res.bind_eq_ok] at hj; obtain ⟨_, -, hj⟩ := hj))
        all_goals first
          | exact ih _ _ _ _ hj
          | (simp only [Res.ok.injEq, Prod.mk.injEq] at hj; exact hj.1.symm)
          | (simp only [Res.ok.injEq, Prod.mk.injEq] at hj; omega)
      simp only [Res.pure_eq, Res.ok_bind] at h
      repeat' (first
        | (split at h)
        | (rw [Res.bind_eq_ok] at h; obtain ⟨_, -, h⟩ := h))
      all_goals exact key _ h

/-! ## `BinarySearchTree::remove` of a node with two children -/

set_option maxHeartbeats 1600000 in
/-- The code of `BinarySearchTree::remove` for a node `a` with two children whose predecessor `p` is its
left child: effect on the heap. -/
theorem BinarySearchTree.remove_pred_child_run {t : Tree} {a p r0 : Nat} {na np nr0 : Node} (key : Int)
    (hdesc : removeDescend t.fuel t key t.root = .ok (some a))
    (hpred : BinarySearchTree.predecessor t (some a) = .ok (some p))
    (hna : t.heap.lookup a = some na) (hnp : t.heap.lookup p = some np)
    (hnr0 : t.heap.lookup r0 = some nr0)
    (hal : na.left = some p) (har : na.right = some r0) (hpr : np.right = none)
    (hpp : np.parent = some a)
    (hap : a ≠ p) (har0 : a ≠ r0) (hpr0 : p ≠ r0)
    (hx : ∀ x, np.left = some x → x ≠ a ∧ x ≠ p ∧ x ≠ r0 ∧ ∃ nx, t.heap.lookup x = some nx)
    (hpa : ∀ q, na.parent = some q → q ≠ a ∧ q ≠ p ∧ q ≠ r0 ∧ np.left ≠ some q ∧
      ∃ nq, t.heap.lookup q = some nq)
    (hroot : t.root = some a ↔ na.parent = none) (hrootp : t.root ≠ some p) :
    ∃ t1, BinarySearchTree.remove t key = .ok t1 ∧
      t1.heap.length = t.heap.length ∧
      t1.root = (if na.parent = none then some p else t.root) ∧
      t1.heap.lookup a = none ∧
      t1.heap.lookup p = some { np with parent := na.parent, right := some r0 } ∧
      t1.heap.lookup r0 = some { nr0 with parent := some p } ∧
      (∀ x nx, np.left = some x → t.heap.lookup x = some nx →
        t1.heap.lookup x = some { nx with parent := some p }) ∧
      (∀ q nq, na.parent = some q → t.heap.lookup q = some nq →
        t1.heap.lookup q = some (if nq.left = some a then { nq with left := some p }
          else { nq with right := some p })) ∧
      (∀ y, y ≠ a → y ≠ p → y ≠ r0 → np.left ≠ some y → na.parent ≠ some y →
        t1.heap.lookup y = t.heap.lookup y) := by
  have hlta := Heap.lookup_lt hna
  have hltp := Heap.lookup_lt hnp
  have hltr := Heap.lookup_lt hnr0
  have hpa' : p ≠ a := fun e => hap e.symm
  have hr0a : r0 ≠ a := fun e => har0 e.symm
  have hr0p : r0 ≠ p := fun e => hpr0 e.symm
  have hnl : ¬ (na.left = none ∧ na.right = none) := by simp [hal]
  have hno : ¬ (na.left = none ∨ na.right = none) := by simp [hal, har]
  have c1 := fun (h : Heap) m m' => Heap.put_comm h hpa' m m'
  have c2 := fun (h : Heap) m m' => Heap.put_comm h hr0a m m'
  have c5 := fun (h : Heap) m m' => Heap.put_comm h hr0p m m'
  rcases hxl : np.left with _ | x <;> rcases hpq : na.parent with _ | q <;>
    simp only [hxl, hpq] at hx hpa hroot
  · have hr : t.root = some a := hroot.mpr trivial
    rw [hr] at hdesc
    apply Exists.intro
    refine ⟨?_, ?_⟩
    · simp [BinarySearchTree.remove, hdesc, hpred, Tree.getNode, hna, hnl, hno,
        BinarySearchTree.nodeSwap, Tree.setParent, Tree.setLeft, Tree.setRight, Tree.setBalance,
        Tree.modify, Tree.delete, hnp, hnr0, hal, har, hpr, hpp, hxl, hpq,
        Heap.lookup_put, Heap.length_put, hlta, hltp, hltr, hap, hpa', har0, hr0a, hpr0, hr0p,
        Heap.put_put, c1, c2, c5, hr]
      rfl
    · refine ⟨?_, ?_, ?_, ?_, ?_, ?_, ?_, ?_⟩
      · simp [Tree.fuel, Heap.length_put, Heap.lookup_put, Heap.lookup_set_none, hlta, hltp, hltr,
        hap, hpa', har0, hr0a, hpr0, hr0p, hxl, hpq, hnp, hnr0, hna, hr]
      · simp [Tree.fuel, Heap.length_put, Heap.lookup_put, Heap.lookup_set_none, hlta, hltp, hltr,
        hap, hpa', har0, hr0a, hpr0, hr0p, hxl, hpq, hnp, hnr0, hna, hr]
      · simp [Tree.fuel, Heap.length_put, Heap.lookup_put, Heap.lookup_set_none, hlta, hltp, hltr,
        hap, hpa', har0, hr0a, hpr0, hr0p, hxl, hpq, hnp, hnr0, hna, hr]
      · simp [Tree.fuel, Heap.length_put, Heap.lookup_put, Heap.lookup_set_none, hlta, hltp, hltr,
        hap, hpa', har0, hr0a, hpr0, hr0p, hxl, hpq, hnp, hnr0, hna, hr]
      · simp [Tree.fuel, Heap.length_put, Heap.lookup_put, Heap.lookup_set_none, hlta, hltp, hltr,
        hap, hpa', har0, hr0a, hpr0, hr0p, hxl, hpq, hnp, hnr0, hna, hr]
      · intro x1 nx1 h1
        cases h1
      · intro q1 nq1 h1
        cases h1
      · intro y h1 h2 h3 h4 h5
        simp [Tree.fuel, Heap.length_put, Heap.lookup_put, Heap.lookup_set_none, hlta, hltp, hltr,
        hap, hpa', har0, hr0a, hpr0, hr0p, hxl, hpq, hnp, hnr0, hna, hr, h1, h2, h3]
  · obtain ⟨hqa, hqp, hqr, hqx, nq, hnq⟩ := hpa q rfl
    have hlq := Heap.lookup_lt hnq
    have haq : a ≠ q := fun e => hqa e.symm
    have hpq2 : p ≠ q := fun e => hqp e.symm
    have hrq : r0 ≠ q := fun e => hqr e.symm
    have hra : ¬ t.root = some a := by rw [hroot]; simp
    have c4 := fun (h : Heap) m m' => Heap.put_comm h hqa m m'
    have c7 := fun (h : Heap) m m' => Heap.put_comm h hqp m m'
    have c9 := fun (h : Heap) m m' => Heap.put_comm h hqr m m'
    by_cases hql : nq.left = some a
    · apply Exists.intro
      refine ⟨?_, ?_⟩
      · simp [BinarySearchTree.remove, hdesc, hpred, Tree.getNode, hna, hnl, hno,
          BinarySearchTree.nodeSwap, Tree.setParent, Tree.setLeft, Tree.setRight, Tree.setBalance,
          Tree.modify, Tree.delete, hnp, hnr0, hal, har, hpr, hpp, hxl, hpq,
          Heap.lookup_put, Heap.length_put, hlta, hltp, hltr, hap, hpa', har0, hr0a, hpr0, hr0p,
          Heap.put_put, c1, c2, c5, hnq, hlq, hqa, hqp, hqr, haq, hpq2, hrq, hra, hrootp, hql, c4, c7, c9]
        rfl
      · refine ⟨?_, ?_, ?_, ?_, ?_, ?_, ?_, ?_⟩
        · simp [Tree.fuel, Heap.length_put, Heap.lookup_put, Heap.lookup_set_none, hlta, hltp, hltr,
          hap, hpa', har0, hr0a, hpr0, hr0p, hxl, hpq, hnp, hnr0, hna, hnq, hlq, hqa, hqp, hqr, haq, hpq2, hrq, hra, hrootp, hql, c4, c7, c9]
        · simp [Tree.fuel, Heap.length_put, Heap.lookup_put, Heap.lookup_set_none, hlta, hltp, hltr,
          hap, hpa', har0, hr0a, hpr0, hr0p, hxl, hpq, hnp, hnr0, hna, hnq, hlq, hqa, hqp, hqr, haq, hpq2, hrq, hra, hrootp, hql, c4, c7, c9]
        · simp [Tree.fuel, Heap.length_put, Heap.lookup_put, Heap.lookup_set_none, hlta, hltp, hltr,
          hap, hpa', har0, hr0a, hpr0, hr0p, hxl, hpq, hnp, hnr0, hna, hnq, hlq, hqa, hqp, hqr, haq, hpq2, hrq, hra, hrootp, hql, c4, c7, c9]
        · simp [Tree.fuel, Heap.length_put, Heap.lookup_put, Heap.lookup_set_none, hlta, hltp, hltr,
          hap, hpa', har0, hr0a, hpr0, hr0p, hxl, hpq, hnp, hnr0, hna, hnq, hlq, hqa, hqp, hqr, haq, hpq2, hrq, hra, hrootp, hql, c4, c7, c9]
        · simp [Tree.fuel, Heap.length_put, Heap.lookup_put, Heap.lookup_set_none, hlta, hltp, hltr,
          hap, hpa', har0, hr0a, hpr0, hr0p, hxl, hpq, hnp, hnr0, hna, hnq, hlq, hqa, hqp, hqr, haq, hpq2, hrq, hra, hrootp, hql, c4, c7, c9]
        · intro x1 nx1 h1
          cases h1
        · intro q1 nq1 h1 h2
          have e1 : q1 = q := Option.some.inj (h1.symm.trans rfl)
          subst e1
          have e2 : nq1 = nq := Option.some.inj (h2.symm.trans hnq)
          subst e2
          simp [Tree.fuel, Heap.length_put, Heap.lookup_put, Heap.lookup_set_none, hlta, hltp, hltr,
          hap, hpa', har0, hr0a, hpr0, hr0p, hxl, hpq, hnp, hnr0, hna, hnq, hlq, hqa, hqp, hqr, haq, hpq2, hrq, hra, hrootp, hql, c4, c7, c9]
        · intro y h1 h2 h3 h4 h5
          have h7 : y ≠ q := fun e => h5 (by rw [e])
          simp [Tree.fuel, Heap.length_put, Heap.lookup_put, Heap.lookup_set_none, hlta, hltp, hltr,
          hap, hpa', har0, hr0a, hpr0, hr0p, hxl, hpq, hnp, hnr0, hna, hnq, hlq, hqa, hqp, hqr, haq, hpq2, hrq, hra, hrootp, hql, c4, c7, c9, h1, h2, h3, h7]
    · have hql2 : ¬ some a = nq.left := fun e => hql e.symm
      apply Exists.intro
      refine ⟨?_, ?_⟩
      · simp [BinarySearchTree.remove, hdesc, hpred, Tree.getNode, hna, hnl, hno,
          BinarySearchTree.nodeSwap, Tree.setParent, Tree.setLeft, Tree.setRight, Tree.setBalance,
          Tree.modify, Tree.delete, hnp, hnr0, hal, har, hpr, hpp, hxl, hpq,
          Heap.lookup_put, Heap.length_put, hlta, hltp, hltr, hap, hpa', har0, hr0a, hpr0, hr0p,
          Heap.put_put, c1, c2, c5, hnq, hlq, hqa, hqp, hqr, haq, hpq2, hrq, hra, hrootp, hql, hql2, c4, c7, c9]
        rfl
      · refine ⟨?_, ?_, ?_, ?_, ?_, ?_, ?_, ?_⟩
        · simp [Tree.fuel, Heap.length_put, Heap.lookup_put, Heap.lookup_set_none, hlta, hltp, hltr,
          hap, hpa', har0, hr0a, hpr0, hr0p, hxl, hpq, hnp, hnr0, hna, hnq, hlq, hqa, hqp, hqr, haq, hpq2, hrq, hra, hrootp, hql, hql2, c4, c7, c9]
        · simp [Tree.fuel, Heap.length_put, Heap.lookup_put, Heap.lookup_set_none, hlta, hltp, hltr,
          hap, hpa', har0, hr0a, hpr0, hr0p, hxl, hpq, hnp, hnr0, hna, hnq, hlq, hqa, hqp, hqr, haq, hpq2, hrq, hra, hrootp, hql, hql2, c4, c7, c9]
        · simp [Tree.fuel, Heap.length_put, Heap.lookup_put, Heap.lookup_set_none, hlta, hltp, hltr,
          hap, hpa', har0, hr0a, hpr0, hr0p, hxl, hpq, hnp, hnr0, hna, hnq, hlq, hqa, hqp, hqr, haq, hpq2, hrq, hra, hrootp, hql, hql2, c4, c7, c9]
        · simp [Tree.fuel, Heap.length_put, Heap.lookup_put, Heap.lookup_set_none, hlta, hltp, hltr,
          hap, hpa', har0, hr0a, hpr0, hr0p, hxl, hpq, hnp, hnr0, hna, hnq, hlq, hqa, hqp, hqr, haq, hpq2, hrq, hra, hrootp, hql, hql2, c4, c7, c9]
        · simp [Tree.fuel, Heap.length_put, Heap.lookup_put, Heap.lookup_set_none, hlta, hltp, hltr,
          hap, hpa', har0, hr0a, hpr0, hr0p, hxl, hpq, hnp, hnr0, hna, hnq, hlq, hqa, hqp, hqr, haq, hpq2, hrq, hra, hrootp, hql, hql2, c4, c7, c9]
        · intro x1 nx1 h1
          cases h1
        · intro q1 nq1 h1 h2
          have e1 : q1 = q := Option.some.inj (h1.symm.trans rfl)
          subst e1
          have e2 : nq1 = nq := Option.some.inj (h2.symm.trans hnq)
          subst e2
          simp [Tree.fuel, Heap.length_put, Heap.lookup_put, Heap.lookup_set_none, hlta, hltp, hltr,
          hap, hpa', har0, hr0a, hpr0, hr0p, hxl, hpq, hnp, hnr0, hna, hnq, hlq, hqa, hqp, hqr, haq, hpq2, hrq, hra, hrootp, hql, hql2, c4, c7, c9]
        · intro y h1 h2 h3 h4 h5
          have h7 : y ≠ q := fun e => h5 (by rw [e])
          simp [Tree.fuel, Heap.length_put, Heap.lookup_put, Heap.lookup_set_none, hlta, hltp, hltr,
          hap, hpa', har0, hr0a, hpr0, hr0p, hxl, hpq, hnp, hnr0, hna, hnq, hlq, hqa, hqp, hqr, haq, hpq2, hrq, hra, hrootp, hql, hql2, c4, c7, c9, h1, h2, h3, h7]
  · have hr : t.root = some a := hroot.mpr trivial
    rw [hr] at hdesc
    obtain ⟨hxa, hxp, hxr, nx, hnx⟩ := hx x rfl
    have hlx := Heap.lookup_lt hnx
    have hax : a ≠ x := fun e => hxa e.symm
    have hpx : p ≠ x := fun e => hxp e.symm
    have hrx : r0 ≠ x := fun e => hxr e.symm
    have c3 := fun (h : Heap) m m' => Heap.put_comm h hxa m m'
    have c6 := fun (h : Heap) m m' => Heap.put_comm h hxp m m'
    have c8 := fun (h : Heap) m m' => Heap.put_comm h hxr m m'
    apply Exists.intro
    refine ⟨?_, ?_⟩
    · simp [BinarySearchTree.remove, hdesc, hpred, Tree.getNode, hna, hnl, hno,
        BinarySearchTree.nodeSwap, Tree.setParent, Tree.setLeft, Tree.setRight, Tree.setBalance,
        Tree.modify, Tree.delete, hnp, hnr0, hal, har, hpr, hpp, hxl, hpq,
        Heap.lookup_put, Heap.length_put, hlta, hltp, hltr, hap, hpa', har0, hr0a, hpr0, hr0p,
        Heap.put_put, c1, c2, c5, hr, hnx, hlx, hxa, hxp, hxr, hax, hpx, hrx, c3, c6, c8]
      rfl
    · refine ⟨?_, ?_, ?_, ?_, ?_, ?_, ?_, ?_⟩
      · simp [Tree.fuel, Heap.length_put, Heap.lookup_put, Heap.lookup_set_none, hlta, hltp, hltr,
        hap, hpa', har0, hr0a, hpr0, hr0p, hxl, hpq, hnp, hnr0, hna, hr, hnx, hlx, hxa, hxp, hxr, hax, hpx, hrx, c3, c6, c8]
      · simp [Tree.fuel, Heap.length_put, Heap.lookup_put, Heap.lookup_set_none, hlta, hltp, hltr,
        hap, hpa', har0, hr0a, hpr0, hr0p, hxl, hpq, hnp, hnr0, hna, hr, hnx, hlx, hxa, hxp, hxr, hax, hpx, hrx, c3, c6, c8]
      · simp [Tree.fuel, Heap.length_put, Heap.lookup_put, Heap.lookup_set_none, hlta, hltp, hltr,
        hap, hpa', har0, hr0a, hpr0, hr0p, hxl, hpq, hnp, hnr0, hna, hr, hnx, hlx, hxa, hxp, hxr, hax, hpx, hrx, c3, c6, c8]
      · simp [Tree.fuel, Heap.length_put, Heap.lookup_put, Heap.lookup_set_none, hlta, hltp, hltr,
        hap, hpa', har0, hr0a, hpr0, hr0p, hxl, hpq, hnp, hnr0, hna, hr, hnx, hlx, hxa, hxp, hxr, hax, hpx, hrx, c3, c6, c8]
      · simp [Tree.fuel, Heap.length_put, Heap.lookup_put, Heap.lookup_set_none, hlta, hltp, hltr,
        hap, hpa', har0, hr0a, hpr0, hr0p, hxl, hpq, hnp, hnr0, hna, hr, hnx, hlx, hxa, hxp, hxr, hax, hpx, hrx, c3, c6, c8]
      · intro x1 nx1 h1 h2
        have e1 : x1 = x := Option.some.inj (h1.symm.trans rfl)
        subst e1
        have e2 : nx1 = nx := Option.some.inj (h2.symm.trans hnx)
        subst e2
        simp [Tree.fuel, Heap.length_put, Heap.lookup_put, Heap.lookup_set_none, hlta, hltp, hltr,
        hap, hpa', har0, hr0a, hpr0, hr0p, hxl, hpq, hnp, hnr0, hna, hr, hnx, hlx, hxa, hxp, hxr, hax, hpx, hrx, c3, c6, c8]
      · intro q1 nq1 h1
        cases h1
      · intro y h1 h2 h3 h4 h5
        have h6 : y ≠ x := fun e => h4 (by rw [e])
        simp [Tree.fuel, Heap.length_put, Heap.lookup_put, Heap.lookup_set_none, hlta, hltp, hltr,
        hap, hpa', har0, hr0a, hpr0, hr0p, hxl, hpq, hnp, hnr0, hna, hr, hnx, hlx, hxa, hxp, hxr, hax, hpx, hrx, c3, c6, c8, h1, h2, h3, h6]
  · obtain ⟨hxa, hxp, hxr, nx, hnx⟩ := hx x rfl
    have hlx := Heap.lookup_lt hnx
    have hax : a ≠ x := fun e => hxa e.symm
    have hpx : p ≠ x := fun e => hxp e.symm
    have hrx : r0 ≠ x := fun e => hxr e.symm
    have c3 := fun (h : Heap) m m' => Heap.put_comm h hxa m m'
    have c6 := fun (h : Heap) m m' => Heap.put_comm h hxp m m'
    have c8 := fun (h : Heap) m m' => Heap.put_comm h hxr m m'
    obtain ⟨hqa, hqp, hqr, hqx, nq, hnq⟩ := hpa q rfl
    have hlq := Heap.lookup_lt hnq
    have haq : a ≠ q := fun e => hqa e.symm
    have hpq2 : p ≠ q := fun e => hqp e.symm
    have hrq : r0 ≠ q := fun e => hqr e.symm
    have hra : ¬ t.root = some a := by rw [hroot]; simp
    have c4 := fun (h : Heap) m m' => Heap.put_comm h hqa m m'
    have c7 := fun (h : Heap) m m' => Heap.put_comm h hqp m m'
    have c9 := fun (h : Heap) m m' => Heap.put_comm h hqr m m'
    have hxq : x ≠ q := fun e => hqx (by rw [e])
    have hqx2 : q ≠ x := fun e => hxq e.symm
    have c10 := fun (h : Heap) m m' => Heap.put_comm h hqx2 m m'
    by_cases hql : nq.left = some a
    · apply Exists.intro
      refine ⟨?_, ?_⟩
      · simp [BinarySearchTree.remove, hdesc, hpred, Tree.getNode, hna, hnl, hno,
          BinarySearchTree.nodeSwap, Tree.setParent, Tree.setLeft, Tree.setRight, Tree.setBalance,
          Tree.modify, Tree.delete, hnp, hnr0, hal, har, hpr, hpp, hxl, hpq,
          Heap.lookup_put, Heap.length_put, hlta, hltp, hltr, hap, hpa', har0, hr0a, hpr0, hr0p,
          Heap.put_put, c1, c2, c5, hnx, hlx, hxa, hxp, hxr, hax, hpx, hrx, c3, c6, c8, hnq, hlq, hqa, hqp, hqr, haq, hpq2, hrq, hra, hrootp, hql, c4, c7, c9, hxq, hqx2, c10]
        rfl
      · refine ⟨?_, ?_, ?_, ?_, ?_, ?_, ?_, ?_⟩
        · simp [Tree.fuel, Heap.length_put, Heap.lookup_put, Heap.lookup_set_none, hlta, hltp, hltr,
          hap, hpa', har0, hr0a, hpr0, hr0p, hxl, hpq, hnp, hnr0, hna, hnx, hlx, hxa, hxp, hxr, hax, hpx, hrx, c3, c6, c8, hnq, hlq, hqa, hqp, hqr, haq, hpq2, hrq, hra, hrootp, hql, c4, c7, c9, hxq, hqx2, c10]
        · simp [Tree.fuel, Heap.length_put, Heap.lookup_put, Heap.lookup_set_none, hlta, hltp, hltr,
          hap, hpa', har0, hr0a, hpr0, hr0p, hxl, hpq, hnp, hnr0, hna, hnx, hlx, hxa, hxp, hxr, hax, hpx, hrx, c3, c6, c8, hnq, hlq, hqa, hqp, hqr, haq, hpq2, hrq, hra, hrootp, hql, c4, c7, c9, hxq, hqx2, c10]
        · simp [Tree.fuel, Heap.length_put, Heap.lookup_put, Heap.lookup_set_none, hlta, hltp, hltr,
          hap, hpa', har0, hr0a, hpr0, hr0p, hxl, hpq, hnp, hnr0, hna, hnx, hlx, hxa, hxp, hxr, hax, hpx, hrx, c3, c6, c8, hnq, hlq, hqa, hqp, hqr, haq, hpq2, hrq, hra, hrootp, hql, c4, c7, c9, hxq, hqx2, c10]
        · simp [Tree.fuel, Heap.length_put, Heap.lookup_put, Heap.lookup_set_none, hlta, hltp, hltr,
          hap, hpa', har0, hr0a, hpr0, hr0p, hxl, hpq, hnp, hnr0, hna, hnx, hlx, hxa, hxp, hxr, hax, hpx, hrx, c3, c6, c8, hnq, hlq, hqa, hqp, hqr, haq, hpq2, hrq, hra, hrootp, hql, c4, c7, c9, hxq, hqx2, c10]
        · simp [Tree.fuel, Heap.length_put, Heap.lookup_put, Heap.lookup_set_none, hlta, hltp, hltr,
          hap, hpa', har0, hr0a, hpr0, hr0p, hxl, hpq, hnp, hnr0, hna, hnx, hlx, hxa, hxp, hxr, hax, hpx, hrx, c3, c6, c8, hnq, hlq, hqa, hqp, hqr, haq, hpq2, hrq, hra, hrootp, hql, c4, c7, c9, hxq, hqx2, c10]
        · intro x1 nx1 h1 h2
          have e1 : x1 = x := Option.some.inj (h1.symm.trans rfl)
          subst e1
          have e2 : nx1 = nx := Option.some.inj (h2.symm.trans hnx)
          subst e2
          simp [Tree.fuel, Heap.length_put, Heap.lookup_put, Heap.lookup_set_none, hlta, hltp, hltr,
          hap, hpa', har0, hr0a, hpr0, hr0p, hxl, hpq, hnp, hnr0, hna, hnx, hlx, hxa, hxp, hxr, hax, hpx, hrx, c3, c6, c8, hnq, hlq, hqa, hqp, hqr, haq, hpq2, hrq, hra, hrootp, hql, c4, c7, c9, hxq, hqx2, c10]
        · intro q1 nq1 h1 h2
          have e1 : q1 = q := Option.some.inj (h1.symm.trans rfl)
          subst e1
          have e2 : nq1 = nq := Option.some.inj (h2.symm.trans hnq)
          subst e2
          simp [Tree.fuel, Heap.length_put, Heap.lookup_put, Heap.lookup_set_none, hlta, hltp, hltr,
          hap, hpa', har0, hr0a, hpr0, hr0p, hxl, hpq, hnp, hnr0, hna, hnx, hlx, hxa, hxp, hxr, hax, hpx, hrx, c3, c6, c8, hnq, hlq, hqa, hqp, hqr, haq, hpq2, hrq, hra, hrootp, hql, c4, c7, c9, hxq, hqx2, c10]
        · intro y h1 h2 h3 h4 h5
          have h6 : y ≠ x := fun e => h4 (by rw [e])
          have h7 : y ≠ q := fun e => h5 (by rw [e])
          simp [Tree.fuel, Heap.length_put, Heap.lookup_put, Heap.lookup_set_none, hlta, hltp, hltr,
          hap, hpa', har0, hr0a, hpr0, hr0p, hxl, hpq, hnp, hnr0, hna, hnx, hlx, hxa, hxp, hxr, hax, hpx, hrx, c3, c6, c8, hnq, hlq, hqa, hqp, hqr, haq, hpq2, hrq, hra, hrootp, hql, c4, c7, c9, hxq, hqx2, c10, h1, h2, h3, h6, h7]
    · have hql2 : ¬ some a = nq.left := fun e => hql e.symm
      apply Exists.intro
      refine ⟨?_, ?_⟩
      · simp [BinarySearchTree.remove, hdesc, hpred, Tree.getNode, hna, hnl, hno,
          BinarySearchTree.nodeSwap, Tree.setParent, Tree.setLeft, Tree.setRight, Tree.setBalance,
          Tree.modify, Tree.delete, hnp, hnr0, hal, har, hpr, hpp, hxl, hpq,
          Heap.lookup_put, Heap.length_put, hlta, hltp, hltr, hap, hpa', har0, hr0a, hpr0, hr0p,
          Heap.put_put, c1, c2, c5, hnx, hlx, hxa, hxp, hxr, hax, hpx, hrx, c3, c6, c8, hnq, hlq, hqa, hqp, hqr, haq, hpq2, hrq, hra, hrootp, hql, hql2, c4, c7, c9, hxq, hqx2, c10]
        rfl
      · refine ⟨?_, ?_, ?_, ?_, ?_, ?_, ?_, ?_⟩
        · simp [Tree.fuel, Heap.length_put, Heap.lookup_put, Heap.lookup_set_none, hlta, hltp, hltr,
          hap, hpa', har0, hr0a, hpr0, hr0p, hxl, hpq, hnp, hnr0, hna, hnx, hlx, hxa, hxp, hxr, hax, hpx, hrx, c3, c6, c8, hnq, hlq, hqa, hqp, hqr, haq, hpq2, hrq, hra, hrootp, hql, hql2, c4, c7, c9, hxq, hqx2, c10]
        · simp [Tree.fuel, Heap.length_put, Heap.lookup_put, Heap.lookup_set_none, hlta, hltp, hltr,
          hap, hpa', har0, hr0a, hpr0, hr0p, hxl, hpq, hnp, hnr0, hna, hnx, hlx, hxa, hxp, hxr, hax, hpx, hrx, c3, c6, c8, hnq, hlq, hqa, hqp, hqr, haq, hpq2, hrq, hra, hrootp, hql, hql2, c4, c7, c9, hxq, hqx2, c10]
        · simp [Tree.fuel, Heap.length_put, Heap.lookup_put, Heap.lookup_set_none, hlta, hltp, hltr,
          hap, hpa', har0, hr0a, hpr0, hr0p, hxl, hpq, hnp, hnr0, hna, hnx, hlx, hxa, hxp, hxr, hax, hpx, hrx, c3, c6, c8, hnq, hlq, hqa, hqp, hqr, haq, hpq2, hrq, hra, hrootp, hql, hql2, c4, c7, c9, hxq, hqx2, c10]
        · simp [Tree.fuel, Heap.length_put, Heap.lookup_put, Heap.lookup_set_none, hlta, hltp, hltr,
          hap, hpa', har0, hr0a, hpr0, hr0p, hxl, hpq, hnp, hnr0, hna, hnx, hlx, hxa, hxp, hxr, hax, hpx, hrx, c3, c6, c8, hnq, hlq, hqa, hqp, hqr, haq, hpq2, hrq, hra, hrootp, hql, hql2, c4, c7, c9, hxq, hqx2, c10]
        · simp [Tree.fuel, Heap.length_put, Heap.lookup_put, Heap.lookup_set_none, hlta, hltp, hltr,
          hap, hpa', har0, hr0a, hpr0, hr0p, hxl, hpq, hnp, hnr0, hna, hnx, hlx, hxa, hxp, hxr, hax, hpx, hrx, c3, c6, c8, hnq, hlq, hqa, hqp, hqr, haq, hpq2, hrq, hra, hrootp, hql, hql2, c4, c7, c9, hxq, hqx2, c10]
        · intro x1 nx1 h1 h2
          have e1 : x1 = x := Option.some.inj (h1.symm.trans rfl)
          subst e1
          have e2 : nx1 = nx := Option.some.inj (h2.symm.trans hnx)
          subst e2
          simp [Tree.fuel, Heap.length_put, Heap.lookup_put, Heap.lookup_set_none, hlta, hltp, hltr,
          hap, hpa', har0, hr0a, hpr0, hr0p, hxl, hpq, hnp, hnr0, hna, hnx, hlx, hxa, hxp, hxr, hax, hpx, hrx, c3, c6, c8, hnq, hlq, hqa, hqp, hqr, haq, hpq2, hrq, hra, hrootp, hql, hql2, c4, c7, c9, hxq, hqx2, c10]
        · intro q1 nq1 h1 h2
          have e1 : q1 = q := Option.some.inj (h1.symm.trans rfl)
          subst e1
          have e2 : nq1 = nq := Option.some.inj (h2.symm.trans hnq)
          subst e2
          simp [Tree.fuel, Heap.length_put, Heap.lookup_put, Heap.lookup_set_none, hlta, hltp, hltr,
          hap, hpa', har0, hr0a, hpr0, hr0p, hxl, hpq, hnp, hnr0, hna, hnx, hlx, hxa, hxp, hxr, hax, hpx, hrx, c3, c6, c8, hnq, hlq, hqa, hqp, hqr, haq, hpq2, hrq, hra, hrootp, hql, hql2, c4, c7, c9, hxq, hqx2, c10]
        · intro y h1 h2 h3 h4 h5
          have h6 : y ≠ x := fun e => h4 (by rw [e])
          have h7 : y ≠ q := fun e => h5 (by rw [e])
          simp [Tree.fuel, Heap.length_put, Heap.lookup_put, Heap.lookup_set_none, hlta, hltp, hltr,
          hap, hpa', har0, hr0a, hpr0, hr0p, hxl, hpq, hnp, hnr0, hna, hnx, hlx, hxa, hxp, hxr, hax, hpx, hrx, c3, c6, c8, hnq, hlq, hqa, hqp, hqr, haq, hpq2, hrq, hra, hrootp, hql, hql2, c4, c7, c9, hxq, hqx2, c10, h1, h2, h3, h6, h7]

set_option maxHeartbeats 1600000 in
/-- The code of `BinarySearchTree::remove` for a node `a` with two children whose predecessor `p` lies
deeper in the left subtree (below `g`, under the left child `l`):
effect on the heap. -/
theorem BinarySearchTree.remove_pred_deep_run {t : Tree} {a p r0 l g : Nat} {na np nr0 nl ng : Node}
    (key : Int)
    (hdesc : removeDescend t.fuel t key t.root = .ok (some a))
    (hpred : BinarySearchTree.predecessor t (some a) = .ok (some p))
    (hna : t.heap.lookup a = some na) (hnp : t.heap.lookup p = some np)
    (hnr0 : t.heap.lookup r0 = some nr0) (hnl : t.heap.lookup l = some nl)
    (hng : t.heap.lookup g = some ng)
    (hal : na.left = some l) (har : na.right = some r0) (hpr : np.right = none)
    (hpp : np.parent = some g) (hgp : ng.left ≠ some p) (hga : ng.left ≠ some a)
    (d_a_p : a ≠ p) (d_a_r0 : a ≠ r0) (d_p_r0 : p ≠ r0)
    (d_a_l : a ≠ l) (d_p_l : p ≠ l) (d_r0_l : r0 ≠ l)
    (d_a_g : a ≠ g) (d_p_g : p ≠ g) (d_r0_g : r0 ≠ g)
    (hx : ∀ x, np.left = some x → a ≠ x ∧ p ≠ x ∧ r0 ≠ x ∧ l ≠ x ∧ g ≠ x ∧
      ∃ nx, t.heap.lookup x = some nx)
    (hpa : ∀ q, na.parent = some q → a ≠ q ∧ p ≠ q ∧ r0 ≠ q ∧ l ≠ q ∧ g ≠ q ∧ np.left ≠ some q ∧
      ∃ nq, t.heap.lookup q = some nq)
    (hroot : t.root = some a ↔ na.parent = none) (hrootp : t.root ≠ some p) :
    ∃ t1, BinarySearchTree.remove t key = .ok t1 ∧
      t1.heap.length = t.heap.length ∧
      t1.root = (if na.parent = none then some p else t.root) ∧
      t1.heap.lookup a = none ∧
      t1.heap.lookup p = some { np with parent := na.parent, left := some l, right := some r0 } ∧
      t1.heap.lookup r0 = some { nr0 with parent := some p } ∧
      t1.heap.lookup l = some (if l = g then { nl with parent := some p, right := np.left }
        else { nl with parent := some p }) ∧
      (l ≠ g → t1.heap.lookup g = some { ng with right := np.left }) ∧
      (∀ x nx, np.left = some x → t.heap.lookup x = some nx →
        t1.heap.lookup x = some { nx with parent := some g }) ∧
      (∀ q nq, na.parent = some q → t.heap.lookup q = some nq →
        t1.heap.lookup q = some (if nq.left = some a then { nq with left := some p }
          else { nq with right := some p })) ∧
      (∀ y, y ≠ a → y ≠ p → y ≠ r0 → y ≠ l → y ≠ g → np.left ≠ some y → na.parent ≠ some y →
        t1.heap.lookup y = t.heap.lookup y) := by
  have hnl0 : ¬ (na.left = none ∧ na.right = none) := by simp [hal]
  have hno : ¬ (na.left = none ∨ na.right = none) := by simp [hal, har]
  have hgp2 : ¬ some p = ng.left := fun e => hgp e.symm
  have hga2 : ¬ some a = ng.left := fun e => hga e.symm
  by_cases d_l_g : l = g
  · subst d_l_g
    have e0 : nl = ng := Option.some.inj (hnl.symm.trans hng)
    subst e0
    rcases hxl : np.left with _ | x <;> rcases hpq : na.parent with _ | q <;>
      simp only [hxl, hpq] at hx hpa hroot
    · have hr : t.root = some a := hroot.mpr trivial
      rw [hr] at hdesc
      have e_p_a : p ≠ a := fun e => d_a_p e.symm
      have c_a_p := fun (h : Heap) m m' => Heap.put_comm h e_p_a m m'
      have e_r0_a : r0 ≠ a := fun e => d_a_r0 e.symm
      have c_a_r0 := fun (h : Heap) m m' => Heap.put_comm h e_r0_a m m'
      have e_l_a : l ≠ a := fun e => d_a_l e.symm
      have c_a_l := fun (h : Heap) m m' => Heap.put_comm h e_l_a m m'
      have e_r0_p : r0 ≠ p := fun e => d_p_r0 e.symm
      have c_p_r0 := fun (h : Heap) m m' => Heap.put_comm h e_r0_p m m'
      have e_l_p : l ≠ p := fun e => d_p_l e.symm
      have c_p_l := fun (h : Heap) m m' => Heap.put_comm h e_l_p m m'
      have e_l_r0 : l ≠ r0 := fun e => d_r0_l e.symm
      have c_r0_l := fun (h : Heap) m m' => Heap.put_comm h e_l_r0 m m'
      have lt_a := Heap.lookup_lt hna
      have lt_p := Heap.lookup_lt hnp
      have lt_r0 := Heap.lookup_lt hnr0
      have lt_l := Heap.lookup_lt hnl
      apply Exists.intro
      refine ⟨?_, ?_⟩
      · simp [BinarySearchTree.remove, hdesc, hpred, Tree.getNode, hna, hnl0, hno,
BinarySearchTree.nodeSwap, Tree.setParent, Tree.setLeft, Tree.setRight, Tree.setBalance,
Tree.modify, Tree.delete, hnp, hnr0, hnl, hng, hal, har, hpr, hpp, hxl, hpq, hgp, hga, hgp2, hga2,
Heap.lookup_put, Heap.length_put, Heap.put_put, d_a_p, e_p_a, d_a_r0, e_r0_a, d_a_l, e_l_a, d_p_r0, e_r0_p, d_p_l, e_l_p, d_r0_l, e_l_r0, lt_a, lt_p, lt_r0, lt_l, hr, c_a_p, c_a_r0, c_a_l, c_p_r0, c_p_l, c_r0_l]
        rfl
      · refine ⟨?_, ?_, ?_, ?_, ?_, ?_, ?_, ?_, ?_, ?_⟩
        · simp [Tree.fuel, Heap.length_put, Heap.lookup_put, Heap.lookup_set_none,
hxl, hpq, hna, hnp, hnr0, hnl, hng, d_a_p, e_p_a, d_a_r0, e_r0_a, d_a_l, e_l_a, d_p_r0, e_r0_p, d_p_l, e_l_p, d_r0_l, e_l_r0, lt_a, lt_p, lt_r0, lt_l, hr]
        · simp [Tree.fuel, Heap.length_put, Heap.lookup_put, Heap.lookup_set_none,
hxl, hpq, hna, hnp, hnr0, hnl, hng, d_a_p, e_p_a, d_a_r0, e_r0_a, d_a_l, e_l_a, d_p_r0, e_r0_p, d_p_l, e_l_p, d_r0_l, e_l_r0, lt_a, lt_p, lt_r0, lt_l, hr]
        · simp [Tree.fuel, Heap.length_put, Heap.lookup_put, Heap.lookup_set_none,
hxl, hpq, hna, hnp, hnr0, hnl, hng, d_a_p, e_p_a, d_a_r0, e_r0_a, d_a_l, e_l_a, d_p_r0, e_r0_p, d_p_l, e_l_p, d_r0_l, e_l_r0, lt_a, lt_p, lt_r0, lt_l, hr]
        · simp [Tree.fuel, Heap.length_put, Heap.lookup_put, Heap.lookup_set_none,
hxl, hpq, hna, hnp, hnr0, hnl, hng, d_a_p, e_p_a, d_a_r0, e_r0_a, d_a_l, e_l_a, d_p_r0, e_r0_p, d_p_l, e_l_p, d_r0_l, e_l_r0, lt_a, lt_p, lt_r0, lt_l, hr]
        · simp [Tree.fuel, Heap.length_put, Heap.lookup_put, Heap.lookup_set_none,
hxl, hpq, hna, hnp, hnr0, hnl, hng, d_a_p, e_p_a, d_a_r0, e_r0_a, d_a_l, e_l_a, d_p_r0, e_r0_p, d_p_l, e_l_p, d_r0_l, e_l_r0, lt_a, lt_p, lt_r0, lt_l, hr]
        · simp [Tree.fuel, Heap.length_put, Heap.lookup_put, Heap.lookup_set_none,
hxl, hpq, hna, hnp, hnr0, hnl, hng, d_a_p, e_p_a, d_a_r0, e_r0_a, d_a_l, e_l_a, d_p_r0, e_r0_p, d_p_l, e_l_p, d_r0_l, e_l_r0, lt_a, lt_p, lt_r0, lt_l, hr]
        · intro h; exact absurd rfl h
        · intro x1 nx1 h1
          cases h1
        · intro q1 nq1 h1
          cases h1
        · intro y h1 h2 h3 h4 h5 h6 h7
          simp [Tree.fuel, Heap.length_put, Heap.lookup_put, Heap.lookup_set_none,
hxl, hpq, hna, hnp, hnr0, hnl, hng, d_a_p, e_p_a, d_a_r0, e_r0_a, d_a_l, e_l_a, d_p_r0, e_r0_p, d_p_l, e_l_p, d_r0_l, e_l_r0, lt_a, lt_p, lt_r0, lt_l, hr, h1, h2, h3, h4, h5]
    · obtain ⟨d_a_q, d_p_q, d_r0_q, d_l_q, d_g_q, hqx, nq, hnq⟩ := hpa q rfl
      have hra : ¬ t.root = some a := by rw [hroot]; simp
      by_cases hql : nq.left = some a
      · have e_p_a : p ≠ a := fun e => d_a_p e.symm
        have c_a_p := fun (h : Heap) m m' => Heap.put_comm h e_p_a m m'
        have e_r0_a : r0 ≠ a := fun e => d_a_r0 e.symm
        have c_a_r0 := fun (h : Heap) m m' => Heap.put_comm h e_r0_a m m'
        have e_l_a : l ≠ a := fun e => d_a_l e.symm
        have c_a_l := fun (h : Heap) m m' => Heap.put_comm h e_l_a m m'
        have e_q_a : q ≠ a := fun e => d_a_q e.symm
        have c_a_q := fun (h : Heap) m m' => Heap.put_comm h e_q_a m m'
        have e_r0_p : r0 ≠ p := fun e => d_p_r0 e.symm
        have c_p_r0 := fun (h : Heap) m m' => Heap.put_comm h e_r0_p m m'
        have e_l_p : l ≠ p := fun e => d_p_l e.symm
        have c_p_l := fun (h : Heap) m m' => Heap.put_comm h e_l_p m m'
        have e_q_p : q ≠ p := fun e => d_p_q e.symm
        have c_p_q := fun (h : Heap) m m' => Heap.put_comm h e_q_p m m'
        have e_l_r0 : l ≠ r0 := fun e => d_r0_l e.symm
        have c_r0_l := fun (h : Heap) m m' => Heap.put_comm h e_l_r0 m m'
        have e_q_r0 : q ≠ r0 := fun e => d_r0_q e.symm
        have c_r0_q := fun (h : Heap) m m' => Heap.put_comm h e_q_r0 m m'
        have e_q_l : q ≠ l := fun e => d_l_q e.symm
        have c_l_q := fun (h : Heap) m m' => Heap.put_comm h e_q_l m m'
        have lt_a := Heap.lookup_lt hna
        have lt_p := Heap.lookup_lt hnp
        have lt_r0 := Heap.lookup_lt hnr0
        have lt_l := Heap.lookup_lt hnl
        have lt_q := Heap.lookup_lt hnq
        apply Exists.intro
        refine ⟨?_, ?_⟩
        · simp [BinarySearchTree.remove, hdesc, hpred, Tree.getNode, hna, hnl0, hno,
BinarySearchTree.nodeSwap, Tree.setParent, Tree.setLeft, Tree.setRight, Tree.setBalance,
Tree.modify, Tree.delete, hnp, hnr0, hnl, hng, hal, har, hpr, hpp, hxl, hpq, hgp, hga, hgp2, hga2,
Heap.lookup_put, Heap.length_put, Heap.put_put, d_a_p, e_p_a, d_a_r0, e_r0_a, d_a_l, e_l_a, d_a_q, e_q_a, d_p_r0, e_r0_p, d_p_l, e_l_p, d_p_q, e_q_p, d_r0_l, e_l_r0, d_r0_q, e_q_r0, d_l_q, e_q_l, lt_a, lt_p, lt_r0, lt_l, lt_q, hnq, hra, hrootp, hql, c_a_p, c_a_r0, c_a_l, c_a_q, c_p_r0, c_p_l, c_p_q, c_r0_l, c_r0_q, c_l_q]
          rfl
        · refine ⟨?_, ?_, ?_, ?_, ?_, ?_, ?_, ?_, ?_, ?_⟩
          · simp [Tree.fuel, Heap.length_put, Heap.lookup_put, Heap.lookup_set_none,
hxl, hpq, hna, hnp, hnr0, hnl, hng, d_a_p, e_p_a, d_a_r0, e_r0_a, d_a_l, e_l_a, d_a_q, e_q_a, d_p_r0, e_r0_p, d_p_l, e_l_p, d_p_q, e_q_p, d_r0_l, e_l_r0, d_r0_q, e_q_r0, d_l_q, e_q_l, lt_a, lt_p, lt_r0, lt_l, lt_q, hnq, hra, hrootp, hql]
          · simp [Tree.fuel, Heap.length_put, Heap.lookup_put, Heap.lookup_set_none,
hxl, hpq, hna, hnp, hnr0, hnl, hng, d_a_p, e_p_a, d_a_r0, e_r0_a, d_a_l, e_l_a, d_a_q, e_q_a, d_p_r0, e_r0_p, d_p_l, e_l_p, d_p_q, e_q_p, d_r0_l, e_l_r0, d_r0_q, e_q_r0, d_l_q, e_q_l, lt_a, lt_p, lt_r0, lt_l, lt_q, hnq, hra, hrootp, hql]
          · simp [Tree.fuel, Heap.length_put, Heap.lookup_put, Heap.lookup_set_none,
hxl, hpq, hna, hnp, hnr0, hnl, hng, d_a_p, e_p_a, d_a_r0, e_r0_a, d_a_l, e_l_a, d_a_q, e_q_a, d_p_r0, e_r0_p, d_p_l, e_l_p, d_p_q, e_q_p, d_r0_l, e_l_r0, d_r0_q, e_q_r0, d_l_q, e_q_l, lt_a, lt_p, lt_r0, lt_l, lt_q, hnq, hra, hrootp, hql]
          · simp [Tree.fuel, Heap.length_put, Heap.lookup_put, Heap.lookup_set_none,
hxl, hpq, hna, hnp, hnr0, hnl, hng, d_a_p, e_p_a, d_a_r0, e_r0_a, d_a_l, e_l_a, d_a_q, e_q_a, d_p_r0, e_r0_p, d_p_l, e_l_p, d_p_q, e_q_p, d_r0_l, e_l_r0, d_r0_q, e_q_r0, d_l_q, e_q_l, lt_a, lt_p, lt_r0, lt_l, lt_q, hnq, hra, hrootp, hql]
          · simp [Tree.fuel, Heap.length_put, Heap.lookup_put, Heap.lookup_set_none,
hxl, hpq, hna, hnp, hnr0, hnl, hng, d_a_p, e_p_a, d_a_r0, e_r0_a, d_a_l, e_l_a, d_a_q, e_q_a, d_p_r0, e_r0_p, d_p_l, e_l_p, d_p_q, e_q_p, d_r0_l, e_l_r0, d_r0_q, e_q_r0, d_l_q, e_q_l, lt_a, lt_p, lt_r0, lt_l, lt_q, hnq, hra, hrootp, hql]
          · simp [Tree.fuel, Heap.length_put, Heap.lookup_put, Heap.lookup_set_none,
hxl, hpq, hna, hnp, hnr0, hnl, hng, d_a_p, e_p_a, d_a_r0, e_r0_a, d_a_l, e_l_a, d_a_q, e_q_a, d_p_r0, e_r0_p, d_p_l, e_l_p, d_p_q, e_q_p, d_r0_l, e_l_r0, d_r0_q, e_q_r0, d_l_q, e_q_l, lt_a, lt_p, lt_r0, lt_l, lt_q, hnq, hra, hrootp, hql]
          · intro h; exact absurd rfl h
          · intro x1 nx1 h1
            cases h1
          · intro q1 nq1 h1 h2
            have e1 : q1 = q := Option.some.inj (h1.symm.trans rfl)
            subst e1
            have e2 : nq1 = nq := Option.some.inj (h2.symm.trans hnq)
            subst e2
            simp [Tree.fuel, Heap.length_put, Heap.lookup_put, Heap.lookup_set_none,
hxl, hpq, hna, hnp, hnr0, hnl, hng, d_a_p, e_p_a, d_a_r0, e_r0_a, d_a_l, e_l_a, d_a_q, e_q_a, d_p_r0, e_r0_p, d_p_l, e_l_p, d_p_q, e_q_p, d_r0_l, e_l_r0, d_r0_q, e_q_r0, d_l_q, e_q_l, lt_a, lt_p, lt_r0, lt_l, lt_q, hnq, hra, hrootp, hql]
          · intro y h1 h2 h3 h4 h5 h6 h7
            have h9 : y ≠ q := fun e => h7 (by rw [e])
            simp [Tree.fuel, Heap.length_put, Heap.lookup_put, Heap.lookup_set_none,
hxl, hpq, hna, hnp, hnr0, hnl, hng, d_a_p, e_p_a, d_a_r0, e_r0_a, d_a_l, e_l_a, d_a_q, e_q_a, d_p_r0, e_r0_p, d_p_l, e_l_p, d_p_q, e_q_p, d_r0_l, e_l_r0, d_r0_q, e_q_r0, d_l_q, e_q_l, lt_a, lt_p, lt_r0, lt_l, lt_q, hnq, hra, hrootp, hql, h1, h2, h3, h4, h5, h9]
      · have hql2 : ¬ some a = nq.left := fun e => hql e.symm
        have e_p_a : p ≠ a := fun e => d_a_p e.symm
        have c_a_p := fun (h : Heap) m m' => Heap.put_comm h e_p_a m m'
        have e_r0_a : r0 ≠ a := fun e => d_a_r0 e.symm
        have c_a_r0 := fun (h : Heap) m m' => Heap.put_comm h e_r0_a m m'
        have e_l_a : l ≠ a := fun e => d_a_l e.symm
        have c_a_l := fun (h : Heap) m m' => Heap.put_comm h e_l_a m m'
        have e_q_a : q ≠ a := fun e => d_a_q e.symm
        have c_a_q := fun (h : Heap) m m' => Heap.put_comm h e_q_a m m'
        have e_r0_p : r0 ≠ p := fun e => d_p_r0 e.symm
        have c_p_r0 := fun (h : Heap) m m' => Heap.put_comm h e_r0_p m m'
        have e_l_p : l ≠ p := fun e => d_p_l e.symm
        have c_p_l := fun (h : Heap) m m' => Heap.put_comm h e_l_p m m'
        have e_q_p : q ≠ p := fun e => d_p_q e.symm
        have c_p_q := fun (h : Heap) m m' => Heap.put_comm h e_q_p m m'
        have e_l_r0 : l ≠ r0 := fun e => d_r0_l e.symm
        have c_r0_l := fun (h : Heap) m m' => Heap.put_comm h e_l_r0 m m'
        have e_q_r0 : q ≠ r0 := fun e => d_r0_q e.symm
        have c_r0_q := fun (h : Heap) m m' => Heap.put_comm h e_q_r0 m m'
        have e_q_l : q ≠ l := fun e => d_l_q e.symm
        have c_l_q := fun (h : Heap) m m' => Heap.put_comm h e_q_l m m'
        have lt_a := Heap.lookup_lt hna
        have lt_p := Heap.lookup_lt hnp
        have lt_r0 := Heap.lookup_lt hnr0
        have lt_l := Heap.lookup_lt hnl
        have lt_q := Heap.lookup_lt hnq
        apply Exists.intro
        refine ⟨?_, ?_⟩
        · simp [BinarySearchTree.remove, hdesc, hpred, Tree.getNode, hna, hnl0, hno,
BinarySearchTree.nodeSwap, Tree.setParent, Tree.setLeft, Tree.setRight, Tree.setBalance,
Tree.modify, Tree.delete, hnp, hnr0, hnl, hng, hal, har, hpr, hpp, hxl, hpq, hgp, hga, hgp2, hga2,
Heap.lookup_put, Heap.length_put, Heap.put_put, d_a_p, e_p_a, d_a_r0, e_r0_a, d_a_l, e_l_a, d_a_q, e_q_a, d_p_r0, e_r0_p, d_p_l, e_l_p, d_p_q, e_q_p, d_r0_l, e_l_r0, d_r0_q, e_q_r0, d_l_q, e_q_l, lt_a, lt_p, lt_r0, lt_l, lt_q, hnq, hra, hrootp, hql, hql2, c_a_p, c_a_r0, c_a_l, c_a_q, c_p_r0, c_p_l, c_p_q, c_r0_l, c_r0_q, c_l_q]
          rfl
        · refine ⟨?_, ?_, ?_, ?_, ?_, ?_, ?_, ?_, ?_, ?_⟩
          · simp [Tree.fuel, Heap.length_put, Heap.lookup_put, Heap.lookup_set_none,
hxl, hpq, hna, hnp, hnr0, hnl, hng, d_a_p, e_p_a, d_a_r0, e_r0_a, d_a_l, e_l_a, d_a_q, e_q_a, d_p_r0, e_r0_p, d_p_l, e_l_p, d_p_q, e_q_p, d_r0_l, e_l_r0, d_r0_q, e_q_r0, d_l_q, e_q_l, lt_a, lt_p, lt_r0, lt_l, lt_q, hnq, hra, hrootp, hql, hql2]
          · simp [Tree.fuel, Heap.length_put, Heap.lookup_put, Heap.lookup_set_none,
hxl, hpq, hna, hnp, hnr0, hnl, hng, d_a_p, e_p_a, d_a_r0, e_r0_a, d_a_l, e_l_a, d_a_q, e_q_a, d_p_r0, e_r0_p, d_p_l, e_l_p, d_p_q, e_q_p, d_r0_l, e_l_r0, d_r0_q, e_q_r0, d_l_q, e_q_l, lt_a, lt_p, lt_r0, lt_l, lt_q, hnq, hra, hrootp, hql, hql2]
          · simp [Tree.fuel, Heap.length_put, Heap.lookup_put, Heap.lookup_set_none,
hxl, hpq, hna, hnp, hnr0, hnl, hng, d_a_p, e_p_a, d_a_r0, e_r0_a, d_a_l, e_l_a, d_a_q, e_q_a, d_p_r0, e_r0_p, d_p_l, e_l_p, d_p_q, e_q_p, d_r0_l, e_l_r0, d_r0_q, e_q_r0, d_l_q, e_q_l, lt_a, lt_p, lt_r0, lt_l, lt_q, hnq, hra, hrootp, hql, hql2]
          · simp [Tree.fuel, Heap.length_put, Heap.lookup_put, Heap.lookup_set_none,
hxl, hpq, hna, hnp, hnr0, hnl, hng, d_a_p, e_p_a, d_a_r0, e_r0_a, d_a_l, e_l_a, d_a_q, e_q_a, d_p_r0, e_r0_p, d_p_l, e_l_p, d_p_q, e_q_p, d_r0_l, e_l_r0, d_r0_q, e_q_r0, d_l_q, e_q_l, lt_a, lt_p, lt_r0, lt_l, lt_q, hnq, hra, hrootp, hql, hql2]
          · simp [Tree.fuel, Heap.length_put, Heap.lookup_put, Heap.lookup_set_none,
hxl, hpq, hna, hnp, hnr0, hnl, hng, d_a_p, e_p_a, d_a_r0, e_r0_a, d_a_l, e_l_a, d_a_q, e_q_a, d_p_r0, e_r0_p, d_p_l, e_l_p, d_p_q, e_q_p, d_r0_l, e_l_r0, d_r0_q, e_q_r0, d_l_q, e_q_l, lt_a, lt_p, lt_r0, lt_l, lt_q, hnq, hra, hrootp, hql, hql2]
          · simp [Tree.fuel, Heap.length_put, Heap.lookup_put, Heap.lookup_set_none,
hxl, hpq, hna, hnp, hnr0, hnl, hng, d_a_p, e_p_a, d_a_r0, e_r0_a, d_a_l, e_l_a, d_a_q, e_q_a, d_p_r0, e_r0_p, d_p_l, e_l_p, d_p_q, e_q_p, d_r0_l, e_l_r0, d_r0_q, e_q_r0, d_l_q, e_q_l, lt_a, lt_p, lt_r0, lt_l, lt_q, hnq, hra, hrootp, hql, hql2]
          · intro h; exact absurd rfl h
          · intro x1 nx1 h1
            cases h1
          · intro q1 nq1 h1 h2
            have e1 : q1 = q := Option.some.inj (h1.symm.trans rfl)
            subst e1
            have e2 : nq1 = nq := Option.some.inj (h2.symm.trans hnq)
            subst e2
            simp [Tree.fuel, Heap.length_put, Heap.lookup_put, Heap.lookup_set_none,
hxl, hpq, hna, hnp, hnr0, hnl, hng, d_a_p, e_p_a, d_a_r0, e_r0_a, d_a_l, e_l_a, d_a_q, e_q_a, d_p_r0, e_r0_p, d_p_l, e_l_p, d_p_q, e_q_p, d_r0_l, e_l_r0, d_r0_q, e_q_r0, d_l_q, e_q_l, lt_a, lt_p, lt_r0, lt_l, lt_q, hnq, hra, hrootp, hql, hql2]
          · intro y h1 h2 h3 h4 h5 h6 h7
            have h9 : y ≠ q := fun e => h7 (by rw [e])
            simp [Tree.fuel, Heap.length_put, Heap.lookup_put, Heap.lookup_set_none,
hxl, hpq, hna, hnp, hnr0, hnl, hng, d_a_p, e_p_a, d_a_r0, e_r0_a, d_a_l, e_l_a, d_a_q, e_q_a, d_p_r0, e_r0_p, d_p_l, e_l_p, d_p_q, e_q_p, d_r0_l, e_l_r0, d_r0_q, e_q_r0, d_l_q, e_q_l, lt_a, lt_p, lt_r0, lt_l, lt_q, hnq, hra, hrootp, hql, hql2, h1, h2, h3, h4, h5, h9]
    · have hr : t.root = some a := hroot.mpr trivial
      rw [hr] at hdesc
      obtain ⟨d_a_x, d_p_x, d_r0_x, d_l_x, d_g_x, nx, hnx⟩ := hx x rfl
      have e_p_a : p ≠ a := fun e => d_a_p e.symm
      have c_a_p := fun (h : Heap) m m' => Heap.put_comm h e_p_a m m'
      have e_r0_a : r0 ≠ a := fun e => d_a_r0 e.symm
      have c_a_r0 := fun (h : Heap) m m' => Heap.put_comm h e_r0_a m m'
      have e_l_a : l ≠ a := fun e => d_a_l e.symm
      have c_a_l := fun (h : Heap) m m' => Heap.put_comm h e_l_a m m'
      have e_x_a : x ≠ a := fun e => d_a_x e.symm
      have c_a_x := fun (h : Heap) m m' => Heap.put_comm h e_x_a m m'
      have e_r0_p : r0 ≠ p := fun e => d_p_r0 e.symm
      have c_p_r0 := fun (h : Heap) m m' => Heap.put_comm h e_r0_p m m'
      have e_l_p : l ≠ p := fun e => d_p_l e.symm
      have c_p_l := fun (h : Heap) m m' => Heap.put_comm h e_l_p m m'
      have e_x_p : x ≠ p := fun e => d_p_x e.symm
      have c_p_x := fun (h : Heap) m m' => Heap.put_comm h e_x_p m m'
      have e_l_r0 : l ≠ r0 := fun e => d_r0_l e.symm
      have c_r0_l := fun (h : Heap) m m' => Heap.put_comm h e_l_r0 m m'
      have e_x_r0 : x ≠ r0 := fun e => d_r0_x e.symm
      have c_r0_x := fun (h : Heap) m m' => Heap.put_comm h e_x_r0 m m'
      have e_x_l : x ≠ l := fun e => d_l_x e.symm
      have c_l_x := fun (h : Heap) m m' => Heap.put_comm h e_x_l m m'
      have lt_a := Heap.lookup_lt hna
      have lt_p := Heap.lookup_lt hnp
      have lt_r0 := Heap.lookup_lt hnr0
      have lt_l := Heap.lookup_lt hnl
      have lt_x := Heap.lookup_lt hnx
      apply Exists.intro
      refine ⟨?_, ?_⟩
      · simp [BinarySearchTree.remove, hdesc, hpred, Tree.getNode, hna, hnl0, hno,
BinarySearchTree.nodeSwap, Tree.setParent, Tree.setLeft, Tree.setRight, Tree.setBalance,
Tree.modify, Tree.delete, hnp, hnr0, hnl, hng, hal, har, hpr, hpp, hxl, hpq, hgp, hga, hgp2, hga2,
Heap.lookup_put, Heap.length_put, Heap.put_put, d_a_p, e_p_a, d_a_r0, e_r0_a, d_a_l, e_l_a, d_a_x, e_x_a, d_p_r0, e_r0_p, d_p_l, e_l_p, d_p_x, e_x_p, d_r0_l, e_l_r0, d_r0_x, e_x_r0, d_l_x, e_x_l, lt_a, lt_p, lt_r0, lt_l, lt_x, hnx, hr, c_a_p, c_a_r0, c_a_l, c_a_x, c_p_r0, c_p_l, c_p_x, c_r0_l, c_r0_x, c_l_x]
        rfl
      · refine ⟨?_, ?_, ?_, ?_, ?_, ?_, ?_, ?_, ?_, ?_⟩
        · simp [Tree.fuel, Heap.length_put, Heap.lookup_put, Heap.lookup_set_none,
hxl, hpq, hna, hnp, hnr0, hnl, hng, d_a_p, e_p_a, d_a_r0, e_r0_a, d_a_l, e_l_a, d_a_x, e_x_a, d_p_r0, e_r0_p, d_p_l, e_l_p, d_p_x, e_x_p, d_r0_l, e_l_r0, d_r0_x, e_x_r0, d_l_x, e_x_l, lt_a, lt_p, lt_r0, lt_l, lt_x, hnx, hr]
        · simp [Tree.fuel, Heap.length_put, Heap.lookup_put, Heap.lookup_set_none,
hxl, hpq, hna, hnp, hnr0, hnl, hng, d_a_p, e_p_a, d_a_r0, e_r0_a, d_a_l, e_l_a, d_a_x, e_x_a, d_p_r0, e_r0_p, d_p_l, e_l_p, d_p_x, e_x_p, d_r0_l, e_l_r0, d_r0_x, e_x_r0, d_l_x, e_x_l, lt_a, lt_p, lt_r0, lt_l, lt_x, hnx, hr]
        · simp [Tree.fuel, Heap.length_put, Heap.lookup_put, Heap.lookup_set_none,
hxl, hpq, hna, hnp, hnr0, hnl, hng, d_a_p, e_p_a, d_a_r0, e_r0_a, d_a_l, e_l_a, d_a_x, e_x_a, d_p_r0, e_r0_p, d_p_l, e_l_p, d_p_x, e_x_p, d_r0_l, e_l_r0, d_r0_x, e_x_r0, d_l_x, e_x_l, lt_a, lt_p, lt_r0, lt_l, lt_x, hnx, hr]
        · simp [Tree.fuel, Heap.length_put, Heap.lookup_put, Heap.lookup_set_none,
hxl, hpq, hna, hnp, hnr0, hnl, hng, d_a_p, e_p_a, d_a_r0, e_r0_a, d_a_l, e_l_a, d_a_x, e_x_a, d_p_r0, e_r0_p, d_p_l, e_l_p, d_p_x, e_x_p, d_r0_l, e_l_r0, d_r0_x, e_x_r0, d_l_x, e_x_l, lt_a, lt_p, lt_r0, lt_l, lt_x, hnx, hr]
        · simp [Tree.fuel, Heap.length_put, Heap.lookup_put, Heap.lookup_set_none,
hxl, hpq, hna, hnp, hnr0, hnl, hng, d_a_p, e_p_a, d_a_r0, e_r0_a, d_a_l, e_l_a, d_a_x, e_x_a, d_p_r0, e_r0_p, d_p_l, e_l_p, d_p_x, e_x_p, d_r0_l, e_l_r0, d_r0_x, e_x_r0, d_l_x, e_x_l, lt_a, lt_p, lt_r0, lt_l, lt_x, hnx, hr]
        · simp [Tree.fuel, Heap.length_put, Heap.lookup_put, Heap.lookup_set_none,
hxl, hpq, hna, hnp, hnr0, hnl, hng, d_a_p, e_p_a, d_a_r0, e_r0_a, d_a_l, e_l_a, d_a_x, e_x_a, d_p_r0, e_r0_p, d_p_l, e_l_p, d_p_x, e_x_p, d_r0_l, e_l_r0, d_r0_x, e_x_r0, d_l_x, e_x_l, lt_a, lt_p, lt_r0, lt_l, lt_x, hnx, hr]
        · intro h; exact absurd rfl h
        · intro x1 nx1 h1 h2
          have e1 : x1 = x := Option.some.inj (h1.symm.trans rfl)
          subst e1
          have e2 : nx1 = nx := Option.some.inj (h2.symm.trans hnx)
          subst e2
          simp [Tree.fuel, Heap.length_put, Heap.lookup_put, Heap.lookup_set_none,
hxl, hpq, hna, hnp, hnr0, hnl, hng, d_a_p, e_p_a, d_a_r0, e_r0_a, d_a_l, e_l_a, d_a_x, e_x_a, d_p_r0, e_r0_p, d_p_l, e_l_p, d_p_x, e_x_p, d_r0_l, e_l_r0, d_r0_x, e_x_r0, d_l_x, e_x_l, lt_a, lt_p, lt_r0, lt_l, lt_x, hnx, hr]
        · intro q1 nq1 h1
          cases h1
        · intro y h1 h2 h3 h4 h5 h6 h7
          have h8 : y ≠ x := fun e => h6 (by rw [e])
          simp [Tree.fuel, Heap.length_put, Heap.lookup_put, Heap.lookup_set_none,
hxl, hpq, hna, hnp, hnr0, hnl, hng, d_a_p, e_p_a, d_a_r0, e_r0_a, d_a_l, e_l_a, d_a_x, e_x_a, d_p_r0, e_r0_p, d_p_l, e_l_p, d_p_x, e_x_p, d_r0_l, e_l_r0, d_r0_x, e_x_r0, d_l_x, e_x_l, lt_a, lt_p, lt_r0, lt_l, lt_x, hnx, hr, h1, h2, h3, h4, h5, h8]
    · obtain ⟨d_a_x, d_p_x, d_r0_x, d_l_x, d_g_x, nx, hnx⟩ := hx x rfl
      obtain ⟨d_a_q, d_p_q, d_r0_q, d_l_q, d_g_q, hqx, nq, hnq⟩ := hpa q rfl
      have hra : ¬ t.root = some a := by rw [hroot]; simp
      have d_x_q : x ≠ q := fun e => hqx (by rw [e])
      by_cases hql : nq.left = some a
      · have e_p_a : p ≠ a := fun e => d_a_p e.symm
        have c_a_p := fun (h : Heap) m m' => Heap.put_comm h e_p_a m m'
        have e_r0_a : r0 ≠ a := fun e => d_a_r0 e.symm
        have c_a_r0 := fun (h : Heap) m m' => Heap.put_comm h e_r0_a m m'
        have e_l_a : l ≠ a := fun e => d_a_l e.symm
        have c_a_l := fun (h : Heap) m m' => Heap.put_comm h e_l_a m m'
        have e_x_a : x ≠ a := fun e => d_a_x e.symm
        have c_a_x := fun (h : Heap) m m' => Heap.put_comm h e_x_a m m'
        have e_q_a : q ≠ a := fun e => d_a_q e.symm
        have c_a_q := fun (h : Heap) m m' => Heap.put_comm h e_q_a m m'
        have e_r0_p : r0 ≠ p := fun e => d_p_r0 e.symm
        have c_p_r0 := fun (h : Heap) m m' => Heap.put_comm h e_r0_p m m'
        have e_l_p : l ≠ p := fun e => d_p_l e.symm
        have c_p_l := fun (h : Heap) m m' => Heap.put_comm h e_l_p m m'
        have e_x_p : x ≠ p := fun e => d_p_x e.symm
        have c_p_x := fun (h : Heap) m m' => Heap.put_comm h e_x_p m m'
        have e_q_p : q ≠ p := fun e => d_p_q e.symm
        have c_p_q := fun (h : Heap) m m' => Heap.put_comm h e_q_p m m'
        have e_l_r0 : l ≠ r0 := fun e => d_r0_l e.symm
        have c_r0_l := fun (h : Heap) m m' => Heap.put_comm h e_l_r0 m m'
        have e_x_r0 : x ≠ r0 := fun e => d_r0_x e.symm
        have c_r0_x := fun (h : Heap) m m' => Heap.put_comm h e_x_r0 m m'
        have e_q_r0 : q ≠ r0 := fun e => d_r0_q e.symm
        have c_r0_q := fun (h : Heap) m m' => Heap.put_comm h e_q_r0 m m'
        have e_x_l : x ≠ l := fun e => d_l_x e.symm
        have c_l_x := fun (h : Heap) m m' => Heap.put_comm h e_x_l m m'
        have e_q_l : q ≠ l := fun e => d_l_q e.symm
        have c_l_q := fun (h : Heap) m m' => Heap.put_comm h e_q_l m m'
        have e_q_x : q ≠ x := fun e => d_x_q e.symm
        have c_x_q := fun (h : Heap) m m' => Heap.put_comm h e_q_x m m'
        have lt_a := Heap.lookup_lt hna
        have lt_p := Heap.lookup_lt hnp
        have lt_r0 := Heap.lookup_lt hnr0
        have lt_l := Heap.lookup_lt hnl
        have lt_x := Heap.lookup_lt hnx
        have lt_q := Heap.lookup_lt hnq
        apply Exists.intro
        refine ⟨?_, ?_⟩
        · simp [BinarySearchTree.remove, hdesc, hpred, Tree.getNode, hna, hnl0, hno,
BinarySearchTree.nodeSwap, Tree.setParent, Tree.setLeft, Tree.setRight, Tree.setBalance,
Tree.modify, Tree.delete, hnp, hnr0, hnl, hng, hal, har, hpr, hpp, hxl, hpq, hgp, hga, hgp2, hga2,
Heap.lookup_put, Heap.length_put, Heap.put_put, d_a_p, e_p_a, d_a_r0, e_r0_a, d_a_l, e_l_a, d_a_x, e_x_a, d_a_q, e_q_a, d_p_r0, e_r0_p, d_p_l, e_l_p, d_p_x, e_x_p, d_p_q, e_q_p, d_r0_l, e_l_r0, d_r0_x, e_x_r0, d_r0_q, e_q_r0, d_l_x, e_x_l, d_l_q, e_q_l, d_x_q, e_q_x, lt_a, lt_p, lt_r0, lt_l, lt_x, lt_q, hnx, hnq, hra, hrootp, hql, c_a_p, c_a_r0, c_a_l, c_a_x, c_a_q, c_p_r0, c_p_l, c_p_x, c_p_q, c_r0_l, c_r0_x, c_r0_q, c_l_x, c_l_q, c_x_q]
          rfl
        · refine ⟨?_, ?_, ?_, ?_, ?_, ?_, ?_, ?_, ?_, ?_⟩
          · simp [Tree.fuel, Heap.length_put, Heap.lookup_put, Heap.lookup_set_none,
hxl, hpq, hna, hnp, hnr0, hnl, hng, d_a_p, e_p_a, d_a_r0, e_r0_a, d_a_l, e_l_a, d_a_x, e_x_a, d_a_q, e_q_a, d_p_r0, e_r0_p, d_p_l, e_l_p, d_p_x, e_x_p, d_p_q, e_q_p, d_r0_l, e_l_r0, d_r0_x, e_x_r0, d_r0_q, e_q_r0, d_l_x, e_x_l, d_l_q, e_q_l, d_x_q, e_q_x, lt_a, lt_p, lt_r0, lt_l, lt_x, lt_q, hnx, hnq, hra, hrootp, hql]
          · simp [Tree.fuel, Heap.length_put, Heap.lookup_put, Heap.lookup_set_none,
hxl, hpq, hna, hnp, hnr0, hnl, hng, d_a_p, e_p_a, d_a_r0, e_r0_a, d_a_l, e_l_a, d_a_x, e_x_a, d_a_q, e_q_a, d_p_r0, e_r0_p, d_p_l, e_l_p, d_p_x, e_x_p, d_p_q, e_q_p, d_r0_l, e_l_r0, d_r0_x, e_x_r0, d_r0_q, e_q_r0, d_l_x, e_x_l, d_l_q, e_q_l, d_x_q, e_q_x, lt_a, lt_p, lt_r0, lt_l, lt_x, lt_q, hnx, hnq, hra, hrootp, hql]
          · simp [Tree.fuel, Heap.length_put, Heap.lookup_put, Heap.lookup_set_none,
hxl, hpq, hna, hnp, hnr0, hnl, hng, d_a_p, e_p_a, d_a_r0, e_r0_a, d_a_l, e_l_a, d_a_x, e_x_a, d_a_q, e_q_a, d_p_r0, e_r0_p, d_p_l, e_l_p, d_p_x, e_x_p, d_p_q, e_q_p, d_r0_l, e_l_r0, d_r0_x, e_x_r0, d_r0_q, e_q_r0, d_l_x, e_x_l, d_l_q, e_q_l, d_x_q, e_q_x, lt_a, lt_p, lt_r0, lt_l, lt_x, lt_q, hnx, hnq, hra, hrootp, hql]
          · simp [Tree.fuel, Heap.length_put, Heap.lookup_put, Heap.lookup_set_none,
hxl, hpq, hna, hnp, hnr0, hnl, hng, d_a_p, e_p_a, d_a_r0, e_r0_a, d_a_l, e_l_a, d_a_x, e_x_a, d_a_q, e_q_a, d_p_r0, e_r0_p, d_p_l, e_l_p, d_p_x, e_x_p, d_p_q, e_q_p, d_r0_l, e_l_r0, d_r0_x, e_x_r0, d_r0_q, e_q_r0, d_l_x, e_x_l, d_l_q, e_q_l, d_x_q, e_q_x, lt_a, lt_p, lt_r0, lt_l, lt_x, lt_q, hnx, hnq, hra, hrootp, hql]
          · simp [Tree.fuel, Heap.length_put, Heap.lookup_put, Heap.lookup_set_none,
hxl, hpq, hna, hnp, hnr0, hnl, hng, d_a_p, e_p_a, d_a_r0, e_r0_a, d_a_l, e_l_a, d_a_x, e_x_a, d_a_q, e_q_a, d_p_r0, e_r0_p, d_p_l, e_l_p, d_p_x, e_x_p, d_p_q, e_q_p, d_r0_l, e_l_r0, d_r0_x, e_x_r0, d_r0_q, e_q_r0, d_l_x, e_x_l, d_l_q, e_q_l, d_x_q, e_q_x, lt_a, lt_p, lt_r0, lt_l, lt_x, lt_q, hnx, hnq, hra, hrootp, hql]
          · simp [Tree.fuel, Heap.length_put, Heap.lookup_put, Heap.lookup_set_none,
hxl, hpq, hna, hnp, hnr0, hnl, hng, d_a_p, e_p_a, d_a_r0, e_r0_a, d_a_l, e_l_a, d_a_x, e_x_a, d_a_q, e_q_a, d_p_r0, e_r0_p, d_p_l, e_l_p, d_p_x, e_x_p, d_p_q, e_q_p, d_r0_l, e_l_r0, d_r0_x, e_x_r0, d_r0_q, e_q_r0, d_l_x, e_x_l, d_l_q, e_q_l, d_x_q, e_q_x, lt_a, lt_p, lt_r0, lt_l, lt_x, lt_q, hnx, hnq, hra, hrootp, hql]
          · intro h; exact absurd rfl h
          · intro x1 nx1 h1 h2
            have e1 : x1 = x := Option.some.inj (h1.symm.trans rfl)
            subst e1
            have e2 : nx1 = nx := Option.some.inj (h2.symm.trans hnx)
            subst e2
            simp [Tree.fuel, Heap.length_put, Heap.lookup_put, Heap.lookup_set_none,
hxl, hpq, hna, hnp, hnr0, hnl, hng, d_a_p, e_p_a, d_a_r0, e_r0_a, d_a_l, e_l_a, d_a_x, e_x_a, d_a_q, e_q_a, d_p_r0, e_r0_p, d_p_l, e_l_p, d_p_x, e_x_p, d_p_q, e_q_p, d_r0_l, e_l_r0, d_r0_x, e_x_r0, d_r0_q, e_q_r0, d_l_x, e_x_l, d_l_q, e_q_l, d_x_q, e_q_x, lt_a, lt_p, lt_r0, lt_l, lt_x, lt_q, hnx, hnq, hra, hrootp, hql]
          · intro q1 nq1 h1 h2
            have e1 : q1 = q := Option.some.inj (h1.symm.trans rfl)
            subst e1
            have e2 : nq1 = nq := Option.some.inj (h2.symm.trans hnq)
            subst e2
            simp [Tree.fuel, Heap.length_put, Heap.lookup_put, Heap.lookup_set_none,
hxl, hpq, hna, hnp, hnr0, hnl, hng, d_a_p, e_p_a, d_a_r0, e_r0_a, d_a_l, e_l_a, d_a_x, e_x_a, d_a_q, e_q_a, d_p_r0, e_r0_p, d_p_l, e_l_p, d_p_x, e_x_p, d_p_q, e_q_p, d_r0_l, e_l_r0, d_r0_x, e_x_r0, d_r0_q, e_q_r0, d_l_x, e_x_l, d_l_q, e_q_l, d_x_q, e_q_x, lt_a, lt_p, lt_r0, lt_l, lt_x, lt_q, hnx, hnq, hra, hrootp, hql]
          · intro y h1 h2 h3 h4 h5 h6 h7
            have h8 : y ≠ x := fun e => h6 (by rw [e])
            have h9 : y ≠ q := fun e => h7 (by rw [e])
            simp [Tree.fuel, Heap.length_put, Heap.lookup_put, Heap.lookup_set_none,
hxl, hpq, hna, hnp, hnr0, hnl, hng, d_a_p, e_p_a, d_a_r0, e_r0_a, d_a_l, e_l_a, d_a_x, e_x_a, d_a_q, e_q_a, d_p_r0, e_r0_p, d_p_l, e_l_p, d_p_x, e_x_p, d_p_q, e_q_p, d_r0_l, e_l_r0, d_r0_x, e_x_r0, d_r0_q, e_q_r0, d_l_x, e_x_l, d_l_q, e_q_l, d_x_q, e_q_x, lt_a, lt_p, lt_r0, lt_l, lt_x, lt_q, hnx, hnq, hra, hrootp, hql, h1, h2, h3, h4, h5, h8, h9]
      · have hql2 : ¬ some a = nq.left := fun e => hql e.symm
        have e_p_a : p ≠ a := fun e => d_a_p e.symm
        have c_a_p := fun (h : Heap) m m' => Heap.put_comm h e_p_a m m'
        have e_r0_a : r0 ≠ a := fun e => d_a_r0 e.symm
        have c_a_r0 := fun (h : Heap) m m' => Heap.put_comm h e_r0_a m m'
        have e_l_a : l ≠ a := fun e => d_a_l e.symm
        have c_a_l := fun (h : Heap) m m' => Heap.put_comm h e_l_a m m'
        have e_x_a : x ≠ a := fun e => d_a_x e.symm
        have c_a_x := fun (h : Heap) m m' => Heap.put_comm h e_x_a m m'
        have e_q_a : q ≠ a := fun e => d_a_q e.symm
        have c_a_q := fun (h : Heap) m m' => Heap.put_comm h e_q_a m m'
        have e_r0_p : r0 ≠ p := fun e => d_p_r0 e.symm
        have c_p_r0 := fun (h : Heap) m m' => Heap.put_comm h e_r0_p m m'
        have e_l_p : l ≠ p := fun e => d_p_l e.symm
        have c_p_l := fun (h : Heap) m m' => Heap.put_comm h e_l_p m m'
        have e_x_p : x ≠ p := fun e => d_p_x e.symm
        have c_p_x := fun (h : Heap) m m' => Heap.put_comm h e_x_p m m'
        have e_q_p : q ≠ p := fun e => d_p_q e.symm
        have c_p_q := fun (h : Heap) m m' => Heap.put_comm h e_q_p m m'
        have e_l_r0 : l ≠ r0 := fun e => d_r0_l e.symm
        have c_r0_l := fun (h : Heap) m m' => Heap.put_comm h e_l_r0 m m'
        have e_x_r0 : x ≠ r0 := fun e => d_r0_x e.symm
        have c_r0_x := fun (h : Heap) m m' => Heap.put_comm h e_x_r0 m m'
        have e_q_r0 : q ≠ r0 := fun e => d_r0_q e.symm
        have c_r0_q := fun (h : Heap) m m' => Heap.put_comm h e_q_r0 m m'
        have e_x_l : x ≠ l := fun e => d_l_x e.symm
        have c_l_x := fun (h : Heap) m m' => Heap.put_comm h e_x_l m m'
        have e_q_l : q ≠ l := fun e => d_l_q e.symm
        have c_l_q := fun (h : Heap) m m' => Heap.put_comm h e_q_l m m'
        have e_q_x : q ≠ x := fun e => d_x_q e.symm
        have c_x_q := fun (h : Heap) m m' => Heap.put_comm h e_q_x m m'
        have lt_a := Heap.lookup_lt hna
        have lt_p := Heap.lookup_lt hnp
        have lt_r0 := Heap.lookup_lt hnr0
        have lt_l := Heap.lookup_lt hnl
        have lt_x := Heap.lookup_lt hnx
        have lt_q := Heap.lookup_lt hnq
        apply Exists.intro
        refine ⟨?_, ?_⟩
        · simp [BinarySearchTree.remove, hdesc, hpred, Tree.getNode, hna, hnl0, hno,
BinarySearchTree.nodeSwap, Tree.setParent, Tree.setLeft, Tree.setRight, Tree.setBalance,
Tree.modify, Tree.delete, hnp, hnr0, hnl, hng, hal, har, hpr, hpp, hxl, hpq, hgp, hga, hgp2, hga2,
Heap.lookup_put, Heap.length_put, Heap.put_put, d_a_p, e_p_a, d_a_r0, e_r0_a, d_a_l, e_l_a, d_a_x, e_x_a, d_a_q, e_q_a, d_p_r0, e_r0_p, d_p_l, e_l_p, d_p_x, e_x_p, d_p_q, e_q_p, d_r0_l, e_l_r0, d_r0_x, e_x_r0, d_r0_q, e_q_r0, d_l_x, e_x_l, d_l_q, e_q_l, d_x_q, e_q_x, lt_a, lt_p, lt_r0, lt_l, lt_x, lt_q, hnx, hnq, hra, hrootp, hql, hql2, c_a_p, c_a_r0, c_a_l, c_a_x, c_a_q, c_p_r0, c_p_l, c_p_x, c_p_q, c_r0_l, c_r0_x, c_r0_q, c_l_x, c_l_q, c_x_q]
          rfl
        · refine ⟨?_, ?_, ?_, ?_, ?_, ?_, ?_, ?_, ?_, ?_⟩
          · simp [Tree.fuel, Heap.length_put, Heap.lookup_put, Heap.lookup_set_none,
hxl, hpq, hna, hnp, hnr0, hnl, hng, d_a_p, e_p_a, d_a_r0, e_r0_a, d_a_l, e_l_a, d_a_x, e_x_a, d_a_q, e_q_a, d_p_r0, e_r0_p, d_p_l, e_l_p, d_p_x, e_x_p, d_p_q, e_q_p, d_r0_l, e_l_r0, d_r0_x, e_x_r0, d_r0_q, e_q_r0, d_l_x, e_x_l, d_l_q, e_q_l, d_x_q, e_q_x, lt_a, lt_p, lt_r0, lt_l, lt_x, lt_q, hnx, hnq, hra, hrootp, hql, hql2]
          · simp [Tree.fuel, Heap.length_put, Heap.lookup_put, Heap.lookup_set_none,
hxl, hpq, hna, hnp, hnr0, hnl, hng, d_a_p, e_p_a, d_a_r0, e_r0_a, d_a_l, e_l_a, d_a_x, e_x_a, d_a_q, e_q_a, d_p_r0, e_r0_p, d_p_l, e_l_p, d_p_x, e_x_p, d_p_q, e_q_p, d_r0_l, e_l_r0, d_r0_x, e_x_r0, d_r0_q, e_q_r0, d_l_x, e_x_l, d_l_q, e_q_l, d_x_q, e_q_x, lt_a, lt_p, lt_r0, lt_l, lt_x, lt_q, hnx, hnq, hra, hrootp, hql, hql2]
          · simp [Tree.fuel, Heap.length_put, Heap.lookup_put, Heap.lookup_set_none,
hxl, hpq, hna, hnp, hnr0, hnl, hng, d_a_p, e_p_a, d_a_r0, e_r0_a, d_a_l, e_l_a, d_a_x, e_x_a, d_a_q, e_q_a, d_p_r0, e_r0_p, d_p_l, e_l_p, d_p_x, e_x_p, d_p_q, e_q_p, d_r0_l, e_l_r0, d_r0_x, e_x_r0, d_r0_q, e_q_r0, d_l_x, e_x_l, d_l_q, e_q_l, d_x_q, e_q_x, lt_a, lt_p, lt_r0, lt_l, lt_x, lt_q, hnx, hnq, hra, hrootp, hql, hql2]
          · simp [Tree.fuel, Heap.length_put, Heap.lookup_put, Heap.lookup_set_none,
hxl, hpq, hna, hnp, hnr0, hnl, hng, d_a_p, e_p_a, d_a_r0, e_r0_a, d_a_l, e_l_a, d_a_x, e_x_a, d_a_q, e_q_a, d_p_r0, e_r0_p, d_p_l, e_l_p, d_p_x, e_x_p, d_p_q, e_q_p, d_r0_l, e_l_r0, d_r0_x, e_x_r0, d_r0_q, e_q_r0, d_l_x, e_x_l, d_l_q, e_q_l, d_x_q, e_q_x, lt_a, lt_p, lt_r0, lt_l, lt_x, lt_q, hnx, hnq, hra, hrootp, hql, hql2]
          · simp [Tree.fuel, Heap.length_put, Heap.lookup_put, Heap.lookup_set_none,
hxl, hpq, hna, hnp, hnr0, hnl, hng, d_a_p, e_p_a, d_a_r0, e_r0_a, d_a_l, e_l_a, d_a_x, e_x_a, d_a_q, e_q_a, d_p_r0, e_r0_p, d_p_l, e_l_p, d_p_x, e_x_p, d_p_q, e_q_p, d_r0_l, e_l_r0, d_r0_x, e_x_r0, d_r0_q, e_q_r0, d_l_x, e_x_l, d_l_q, e_q_l, d_x_q, e_q_x, lt_a, lt_p, lt_r0, lt_l, lt_x, lt_q, hnx, hnq, hra, hrootp, hql, hql2]
          · simp [Tree.fuel, Heap.length_put, Heap.lookup_put, Heap.lookup_set_none,
hxl, hpq, hna, hnp, hnr0, hnl, hng, d_a_p, e_p_a, d_a_r0, e_r0_a, d_a_l, e_l_a, d_a_x, e_x_a, d_a_q, e_q_a, d_p_r0, e_r0_p, d_p_l, e_l_p, d_p_x, e_x_p, d_p_q, e_q_p, d_r0_l, e_l_r0, d_r0_x, e_x_r0, d_r0_q, e_q_r0, d_l_x, e_x_l, d_l_q, e_q_l, d_x_q, e_q_x, lt_a, lt_p, lt_r0, lt_l, lt_x, lt_q, hnx, hnq, hra, hrootp, hql, hql2]
          · intro h; exact absurd rfl h
          · intro x1 nx1 h1 h2
            have e1 : x1 = x := Option.some.inj (h1.symm.trans rfl)
            subst e1
            have e2 : nx1 = nx := Option.some.inj (h2.symm.trans hnx)
            subst e2
            simp [Tree.fuel, Heap.length_put, Heap.lookup_put, Heap.lookup_set_none,
hxl, hpq, hna, hnp, hnr0, hnl, hng, d_a_p, e_p_a, d_a_r0, e_r0_a, d_a_l, e_l_a, d_a_x, e_x_a, d_a_q, e_q_a, d_p_r0, e_r0_p, d_p_l, e_l_p, d_p_x, e_x_p, d_p_q, e_q_p, d_r0_l, e_l_r0, d_r0_x, e_x_r0, d_r0_q, e_q_r0, d_l_x, e_x_l, d_l_q, e_q_l, d_x_q, e_q_x, lt_a, lt_p, lt_r0, lt_l, lt_x, lt_q, hnx, hnq, hra, hrootp, hql, hql2]
          · intro q1 nq1 h1 h2
            have e1 : q1 = q := Option.some.inj (h1.symm.trans rfl)
            subst e1
            have e2 : nq1 = nq := Option.some.inj (h2.symm.trans hnq)
            subst e2
            simp [Tree.fuel, Heap.length_put, Heap.lookup_put, Heap.lookup_set_none,
hxl, hpq, hna, hnp, hnr0, hnl, hng, d_a_p, e_p_a, d_a_r0, e_r0_a, d_a_l, e_l_a, d_a_x, e_x_a, d_a_q, e_q_a, d_p_r0, e_r0_p, d_p_l, e_l_p, d_p_x, e_x_p, d_p_q, e_q_p, d_r0_l, e_l_r0, d_r0_x, e_x_r0, d_r0_q, e_q_r0, d_l_x, e_x_l, d_l_q, e_q_l, d_x_q, e_q_x, lt_a, lt_p, lt_r0, lt_l, lt_x, lt_q, hnx, hnq, hra, hrootp, hql, hql2]
          · intro y h1 h2 h3 h4 h5 h6 h7
            have h8 : y ≠ x := fun e => h6 (by rw [e])
            have h9 : y ≠ q := fun e => h7 (by rw [e])
            simp [Tree.fuel, Heap.length_put, Heap.lookup_put, Heap.lookup_set_none,
hxl, hpq, hna, hnp, hnr0, hnl, hng, d_a_p, e_p_a, d_a_r0, e_r0_a, d_a_l, e_l_a, d_a_x, e_x_a, d_a_q, e_q_a, d_p_r0, e_r0_p, d_p_l, e_l_p, d_p_x, e_x_p, d_p_q, e_q_p, d_r0_l, e_l_r0, d_r0_x, e_x_r0, d_r0_q, e_q_r0, d_l_x, e_x_l, d_l_q, e_q_l, d_x_q, e_q_x, lt_a, lt_p, lt_r0, lt_l, lt_x, lt_q, hnx, hnq, hra, hrootp, hql, hql2, h1, h2, h3, h4, h5, h8, h9]
  · rcases hxl : np.left with _ | x <;> rcases hpq : na.parent with _ | q <;>
      simp only [hxl, hpq] at hx hpa hroot
    · have hr : t.root = some a := hroot.mpr trivial
      rw [hr] at hdesc
      have e_p_a : p ≠ a := fun e => d_a_p e.symm
      have c_a_p := fun (h : Heap) m m' => Heap.put_comm h e_p_a m m'
      have e_r0_a : r0 ≠ a := fun e => d_a_r0 e.symm
      have c_a_r0 := fun (h : Heap) m m' => Heap.put_comm h e_r0_a m m'
      have e_l_a : l ≠ a := fun e => d_a_l e.symm
      have c_a_l := fun (h : Heap) m m' => Heap.put_comm h e_l_a m m'
      have e_g_a : g ≠ a := fun e => d_a_g e.symm
      have c_a_g := fun (h : Heap) m m' => Heap.put_comm h e_g_a m m'
      have e_r0_p : r0 ≠ p := fun e => d_p_r0 e.symm
      have c_p_r0 := fun (h : Heap) m m' => Heap.put_comm h e_r0_p m m'
      have e_l_p : l ≠ p := fun e => d_p_l e.symm
      have c_p_l := fun (h : Heap) m m' => Heap.put_comm h e_l_p m m'
      have e_g_p : g ≠ p := fun e => d_p_g e.symm
      have c_p_g := fun (h : Heap) m m' => Heap.put_comm h e_g_p m m'
      have e_l_r0 : l ≠ r0 := fun e => d_r0_l e.symm
      have c_r0_l := fun (h : Heap) m m' => Heap.put_comm h e_l_r0 m m'
      have e_g_r0 : g ≠ r0 := fun e => d_r0_g e.symm
      have c_r0_g := fun (h : Heap) m m' => Heap.put_comm h e_g_r0 m m'
      have e_g_l : g ≠ l := fun e => d_l_g e.symm
      have c_l_g := fun (h : Heap) m m' => Heap.put_comm h e_g_l m m'
      have lt_a := Heap.lookup_lt hna
      have lt_p := Heap.lookup_lt hnp
      have lt_r0 := Heap.lookup_lt hnr0
      have lt_l := Heap.lookup_lt hnl
      have lt_g := Heap.lookup_lt hng
      apply Exists.intro
      refine ⟨?_, ?_⟩
      · simp [BinarySearchTree.remove, hdesc, hpred, Tree.getNode, hna, hnl0, hno,
BinarySearchTree.nodeSwap, Tree.setParent, Tree.setLeft, Tree.setRight, Tree.setBalance,
Tree.modify, Tree.delete, hnp, hnr0, hnl, hng, hal, har, hpr, hpp, hxl, hpq, hgp, hga, hgp2, hga2,
Heap.lookup_put, Heap.length_put, Heap.put_put, d_a_p, e_p_a, d_a_r0, e_r0_a, d_a_l, e_l_a, d_a_g, e_g_a, d_p_r0, e_r0_p, d_p_l, e_l_p, d_p_g, e_g_p, d_r0_l, e_l_r0, d_r0_g, e_g_r0, d_l_g, e_g_l, lt_a, lt_p, lt_r0, lt_l, lt_g, hr, c_a_p, c_a_r0, c_a_l, c_a_g, c_p_r0, c_p_l, c_p_g, c_r0_l, c_r0_g, c_l_g]
        rfl
      · refine ⟨?_, ?_, ?_, ?_, ?_, ?_, ?_, ?_, ?_, ?_⟩
        · simp [Tree.fuel, Heap.length_put, Heap.lookup_put, Heap.lookup_set_none,
hxl, hpq, hna, hnp, hnr0, hnl, hng, d_a_p, e_p_a, d_a_r0, e_r0_a, d_a_l, e_l_a, d_a_g, e_g_a, d_p_r0, e_r0_p, d_p_l, e_l_p, d_p_g, e_g_p, d_r0_l, e_l_r0, d_r0_g, e_g_r0, d_l_g, e_g_l, lt_a, lt_p, lt_r0, lt_l, lt_g, hr]
        · simp [Tree.fuel, Heap.length_put, Heap.lookup_put, Heap.lookup_set_none,
hxl, hpq, hna, hnp, hnr0, hnl, hng, d_a_p, e_p_a, d_a_r0, e_r0_a, d_a_l, e_l_a, d_a_g, e_g_a, d_p_r0, e_r0_p, d_p_l, e_l_p, d_p_g, e_g_p, d_r0_l, e_l_r0, d_r0_g, e_g_r0, d_l_g, e_g_l, lt_a, lt_p, lt_r0, lt_l, lt_g, hr]
        · simp [Tree.fuel, Heap.length_put, Heap.lookup_put, Heap.lookup_set_none,
hxl, hpq, hna, hnp, hnr0, hnl, hng, d_a_p, e_p_a, d_a_r0, e_r0_a, d_a_l, e_l_a, d_a_g, e_g_a, d_p_r0, e_r0_p, d_p_l, e_l_p, d_p_g, e_g_p, d_r0_l, e_l_r0, d_r0_g, e_g_r0, d_l_g, e_g_l, lt_a, lt_p, lt_r0, lt_l, lt_g, hr]
        · simp [Tree.fuel, Heap.length_put, Heap.lookup_put, Heap.lookup_set_none,
hxl, hpq, hna, hnp, hnr0, hnl, hng, d_a_p, e_p_a, d_a_r0, e_r0_a, d_a_l, e_l_a, d_a_g, e_g_a, d_p_r0, e_r0_p, d_p_l, e_l_p, d_p_g, e_g_p, d_r0_l, e_l_r0, d_r0_g, e_g_r0, d_l_g, e_g_l, lt_a, lt_p, lt_r0, lt_l, lt_g, hr]
        · simp [Tree.fuel, Heap.length_put, Heap.lookup_put, Heap.lookup_set_none,
hxl, hpq, hna, hnp, hnr0, hnl, hng, d_a_p, e_p_a, d_a_r0, e_r0_a, d_a_l, e_l_a, d_a_g, e_g_a, d_p_r0, e_r0_p, d_p_l, e_l_p, d_p_g, e_g_p, d_r0_l, e_l_r0, d_r0_g, e_g_r0, d_l_g, e_g_l, lt_a, lt_p, lt_r0, lt_l, lt_g, hr]
        · simp [Tree.fuel, Heap.length_put, Heap.lookup_put, Heap.lookup_set_none,
hxl, hpq, hna, hnp, hnr0, hnl, hng, d_a_p, e_p_a, d_a_r0, e_r0_a, d_a_l, e_l_a, d_a_g, e_g_a, d_p_r0, e_r0_p, d_p_l, e_l_p, d_p_g, e_g_p, d_r0_l, e_l_r0, d_r0_g, e_g_r0, d_l_g, e_g_l, lt_a, lt_p, lt_r0, lt_l, lt_g, hr]
        · intro _; simp [Tree.fuel, Heap.length_put, Heap.lookup_put, Heap.lookup_set_none,
hxl, hpq, hna, hnp, hnr0, hnl, hng, d_a_p, e_p_a, d_a_r0, e_r0_a, d_a_l, e_l_a, d_a_g, e_g_a, d_p_r0, e_r0_p, d_p_l, e_l_p, d_p_g, e_g_p, d_r0_l, e_l_r0, d_r0_g, e_g_r0, d_l_g, e_g_l, lt_a, lt_p, lt_r0, lt_l, lt_g, hr]
        · intro x1 nx1 h1
          cases h1
        · intro q1 nq1 h1
          cases h1
        · intro y h1 h2 h3 h4 h5 h6 h7
          simp [Tree.fuel, Heap.length_put, Heap.lookup_put, Heap.lookup_set_none,
hxl, hpq, hna, hnp, hnr0, hnl, hng, d_a_p, e_p_a, d_a_r0, e_r0_a, d_a_l, e_l_a, d_a_g, e_g_a, d_p_r0, e_r0_p, d_p_l, e_l_p, d_p_g, e_g_p, d_r0_l, e_l_r0, d_r0_g, e_g_r0, d_l_g, e_g_l, lt_a, lt_p, lt_r0, lt_l, lt_g, hr, h1, h2, h3, h4, h5]
    · obtain ⟨d_a_q, d_p_q, d_r0_q, d_l_q, d_g_q, hqx, nq, hnq⟩ := hpa q rfl
      have hra : ¬ t.root = some a := by rw [hroot]; simp
      by_cases hql : nq.left = some a
      · have e_p_a : p ≠ a := fun e => d_a_p e.symm
        have c_a_p := fun (h : Heap) m m' => Heap.put_comm h e_p_a m m'
        have e_r0_a : r0 ≠ a := fun e => d_a_r0 e.symm
        have c_a_r0 := fun (h : Heap) m m' => Heap.put_comm h e_r0_a m m'
        have e_l_a : l ≠ a := fun e => d_a_l e.symm
        have c_a_l := fun (h : Heap) m m' => Heap.put_comm h e_l_a m m'
        have e_g_a : g ≠ a := fun e => d_a_g e.symm
        have c_a_g := fun (h : Heap) m m' => Heap.put_comm h e_g_a m m'
        have e_q_a : q ≠ a := fun e => d_a_q e.symm
        have c_a_q := fun (h : Heap) m m' => Heap.put_comm h e_q_a m m'
        have e_r0_p : r0 ≠ p := fun e => d_p_r0 e.symm
        have c_p_r0 := fun (h : Heap) m m' => Heap.put_comm h e_r0_p m m'
        have e_l_p : l ≠ p := fun e => d_p_l e.symm
        have c_p_l := fun (h : Heap) m m' => Heap.put_comm h e_l_p m m'
        have e_g_p : g ≠ p := fun e => d_p_g e.symm
        have c_p_g := fun (h : Heap) m m' => Heap.put_comm h e_g_p m m'
        have e_q_p : q ≠ p := fun e => d_p_q e.symm
        have c_p_q := fun (h : Heap) m m' => Heap.put_comm h e_q_p m m'
        have e_l_r0 : l ≠ r0 := fun e => d_r0_l e.symm
        have c_r0_l := fun (h : Heap) m m' => Heap.put_comm h e_l_r0 m m'
        have e_g_r0 : g ≠ r0 := fun e => d_r0_g e.symm
        have c_r0_g := fun (h : Heap) m m' => Heap.put_comm h e_g_r0 m m'
        have e_q_r0 : q ≠ r0 := fun e => d_r0_q e.symm
        have c_r0_q := fun (h : Heap) m m' => Heap.put_comm h e_q_r0 m m'
        have e_g_l : g ≠ l := fun e => d_l_g e.symm
        have c_l_g := fun (h : Heap) m m' => Heap.put_comm h e_g_l m m'
        have e_q_l : q ≠ l := fun e => d_l_q e.symm
        have c_l_q := fun (h : Heap) m m' => Heap.put_comm h e_q_l m m'
        have e_q_g : q ≠ g := fun e => d_g_q e.symm
        have c_g_q := fun (h : Heap) m m' => Heap.put_comm h e_q_g m m'
        have lt_a := Heap.lookup_lt hna
        have lt_p := Heap.lookup_lt hnp
        have lt_r0 := Heap.lookup_lt hnr0
        have lt_l := Heap.lookup_lt hnl
        have lt_g := Heap.lookup_lt hng
        have lt_q := Heap.lookup_lt hnq
        apply Exists.intro
        refine ⟨?_, ?_⟩
        · simp [BinarySearchTree.remove, hdesc, hpred, Tree.getNode, hna, hnl0, hno,
BinarySearchTree.nodeSwap, Tree.setParent, Tree.setLeft, Tree.setRight, Tree.setBalance,
Tree.modify, Tree.delete, hnp, hnr0, hnl, hng, hal, har, hpr, hpp, hxl, hpq, hgp, hga, hgp2, hga2,
Heap.lookup_put, Heap.length_put, Heap.put_put, d_a_p, e_p_a, d_a_r0, e_r0_a, d_a_l, e_l_a, d_a_g, e_g_a, d_a_q, e_q_a, d_p_r0, e_r0_p, d_p_l, e_l_p, d_p_g, e_g_p, d_p_q, e_q_p, d_r0_l, e_l_r0, d_r0_g, e_g_r0, d_r0_q, e_q_r0, d_l_g, e_g_l, d_l_q, e_q_l, d_g_q, e_q_g, lt_a, lt_p, lt_r0, lt_l, lt_g, lt_q, hnq, hra, hrootp, hql, c_a_p, c_a_r0, c_a_l, c_a_g, c_a_q, c_p_r0, c_p_l, c_p_g, c_p_q, c_r0_l, c_r0_g, c_r0_q, c_l_g, c_l_q, c_g_q]
          rfl
        · refine ⟨?_, ?_, ?_, ?_, ?_, ?_, ?_, ?_, ?_, ?_⟩
          · simp [Tree.fuel, Heap.length_put, Heap.lookup_put, Heap.lookup_set_none,
hxl, hpq, hna, hnp, hnr0, hnl, hng, d_a_p, e_p_a, d_a_r0, e_r0_a, d_a_l, e_l_a, d_a_g, e_g_a, d_a_q, e_q_a, d_p_r0, e_r0_p, d_p_l, e_l_p, d_p_g, e_g_p, d_p_q, e_q_p, d_r0_l, e_l_r0, d_r0_g, e_g_r0, d_r0_q, e_q_r0, d_l_g, e_g_l, d_l_q, e_q_l, d_g_q, e_q_g, lt_a, lt_p, lt_r0, lt_l, lt_g, lt_q, hnq, hra, hrootp, hql]
          · simp [Tree.fuel, Heap.length_put, Heap.lookup_put, Heap.lookup_set_none,
hxl, hpq, hna, hnp, hnr0, hnl, hng, d_a_p, e_p_a, d_a_r0, e_r0_a, d_a_l, e_l_a, d_a_g, e_g_a, d_a_q, e_q_a, d_p_r0, e_r0_p, d_p_l, e_l_p, d_p_g, e_g_p, d_p_q, e_q_p, d_r0_l, e_l_r0, d_r0_g, e_g_r0, d_r0_q, e_q_r0, d_l_g, e_g_l, d_l_q, e_q_l, d_g_q, e_q_g, lt_a, lt_p, lt_r0, lt_l, lt_g, lt_q, hnq, hra, hrootp, hql]
          · simp [Tree.fuel, Heap.length_put, Heap.lookup_put, Heap.lookup_set_none,
hxl, hpq, hna, hnp, hnr0, hnl, hng, d_a_p, e_p_a, d_a_r0, e_r0_a, d_a_l, e_l_a, d_a_g, e_g_a, d_a_q, e_q_a, d_p_r0, e_r0_p, d_p_l, e_l_p, d_p_g, e_g_p, d_p_q, e_q_p, d_r0_l, e_l_r0, d_r0_g, e_g_r0, d_r0_q, e_q_r0, d_l_g, e_g_l, d_l_q, e_q_l, d_g_q, e_q_g, lt_a, lt_p, lt_r0, lt_l, lt_g, lt_q, hnq, hra, hrootp, hql]
          · simp [Tree.fuel, Heap.length_put, Heap.lookup_put, Heap.lookup_set_none,
hxl, hpq, hna, hnp, hnr0, hnl, hng, d_a_p, e_p_a, d_a_r0, e_r0_a, d_a_l, e_l_a, d_a_g, e_g_a, d_a_q, e_q_a, d_p_r0, e_r0_p, d_p_l, e_l_p, d_p_g, e_g_p, d_p_q, e_q_p, d_r0_l, e_l_r0, d_r0_g, e_g_r0, d_r0_q, e_q_r0, d_l_g, e_g_l, d_l_q, e_q_l, d_g_q, e_q_g, lt_a, lt_p, lt_r0, lt_l, lt_g, lt_q, hnq, hra, hrootp, hql]
          · simp [Tree.fuel, Heap.length_put, Heap.lookup_put, Heap.lookup_set_none,
hxl, hpq, hna, hnp, hnr0, hnl, hng, d_a_p, e_p_a, d_a_r0, e_r0_a, d_a_l, e_l_a, d_a_g, e_g_a, d_a_q, e_q_a, d_p_r0, e_r0_p, d_p_l, e_l_p, d_p_g, e_g_p, d_p_q, e_q_p, d_r0_l, e_l_r0, d_r0_g, e_g_r0, d_r0_q, e_q_r0, d_l_g, e_g_l, d_l_q, e_q_l, d_g_q, e_q_g, lt_a, lt_p, lt_r0, lt_l, lt_g, lt_q, hnq, hra, hrootp, hql]
          · simp [Tree.fuel, Heap.length_put, Heap.lookup_put, Heap.lookup_set_none,
hxl, hpq, hna, hnp, hnr0, hnl, hng, d_a_p, e_p_a, d_a_r0, e_r0_a, d_a_l, e_l_a, d_a_g, e_g_a, d_a_q, e_q_a, d_p_r0, e_r0_p, d_p_l, e_l_p, d_p_g, e_g_p, d_p_q, e_q_p, d_r0_l, e_l_r0, d_r0_g, e_g_r0, d_r0_q, e_q_r0, d_l_g, e_g_l, d_l_q, e_q_l, d_g_q, e_q_g, lt_a, lt_p, lt_r0, lt_l, lt_g, lt_q, hnq, hra, hrootp, hql]
          · intro _; simp [Tree.fuel, Heap.length_put, Heap.lookup_put, Heap.lookup_set_none,
hxl, hpq, hna, hnp, hnr0, hnl, hng, d_a_p, e_p_a, d_a_r0, e_r0_a, d_a_l, e_l_a, d_a_g, e_g_a, d_a_q, e_q_a, d_p_r0, e_r0_p, d_p_l, e_l_p, d_p_g, e_g_p, d_p_q, e_q_p, d_r0_l, e_l_r0, d_r0_g, e_g_r0, d_r0_q, e_q_r0, d_l_g, e_g_l, d_l_q, e_q_l, d_g_q, e_q_g, lt_a, lt_p, lt_r0, lt_l, lt_g, lt_q, hnq, hra, hrootp, hql]
          · intro x1 nx1 h1
            cases h1
          · intro q1 nq1 h1 h2
            have e1 : q1 = q := Option.some.inj (h1.symm.trans rfl)
            subst e1
            have e2 : nq1 = nq := Option.some.inj (h2.symm.trans hnq)
            subst e2
            simp [Tree.fuel, Heap.length_put, Heap.lookup_put, Heap.lookup_set_none,
hxl, hpq, hna, hnp, hnr0, hnl, hng, d_a_p, e_p_a, d_a_r0, e_r0_a, d_a_l, e_l_a, d_a_g, e_g_a, d_a_q, e_q_a, d_p_r0, e_r0_p, d_p_l, e_l_p, d_p_g, e_g_p, d_p_q, e_q_p, d_r0_l, e_l_r0, d_r0_g, e_g_r0, d_r0_q, e_q_r0, d_l_g, e_g_l, d_l_q, e_q_l, d_g_q, e_q_g, lt_a, lt_p, lt_r0, lt_l, lt_g, lt_q, hnq, hra, hrootp, hql]
          · intro y h1 h2 h3 h4 h5 h6 h7
            have h9 : y ≠ q := fun e => h7 (by rw [e])
            simp [Tree.fuel, Heap.length_put, Heap.lookup_put, Heap.lookup_set_none,
hxl, hpq, hna, hnp, hnr0, hnl, hng, d_a_p, e_p_a, d_a_r0, e_r0_a, d_a_l, e_l_a, d_a_g, e_g_a, d_a_q, e_q_a, d_p_r0, e_r0_p, d_p_l, e_l_p, d_p_g, e_g_p, d_p_q, e_q_p, d_r0_l, e_l_r0, d_r0_g, e_g_r0, d_r0_q, e_q_r0, d_l_g, e_g_l, d_l_q, e_q_l, d_g_q, e_q_g, lt_a, lt_p, lt_r0, lt_l, lt_g, lt_q, hnq, hra, hrootp, hql, h1, h2, h3, h4, h5, h9]
      · have hql2 : ¬ some a = nq.left := fun e => hql e.symm
        have e_p_a : p ≠ a := fun e => d_a_p e.symm
        have c_a_p := fun (h : Heap) m m' => Heap.put_comm h e_p_a m m'
        have e_r0_a : r0 ≠ a := fun e => d_a_r0 e.symm
        have c_a_r0 := fun (h : Heap) m m' => Heap.put_comm h e_r0_a m m'
        have e_l_a : l ≠ a := fun e => d_a_l e.symm
        have c_a_l := fun (h : Heap) m m' => Heap.put_comm h e_l_a m m'
        have e_g_a : g ≠ a := fun e => d_a_g e.symm
        have c_a_g := fun (h : Heap) m m' => Heap.put_comm h e_g_a m m'
        have e_q_a : q ≠ a := fun e => d_a_q e.symm
        have c_a_q := fun (h : Heap) m m' => Heap.put_comm h e_q_a m m'
        have e_r0_p : r0 ≠ p := fun e => d_p_r0 e.symm
        have c_p_r0 := fun (h : Heap) m m' => Heap.put_comm h e_r0_p m m'
        have e_l_p : l ≠ p := fun e => d_p_l e.symm
        have c_p_l := fun (h : Heap) m m' => Heap.put_comm h e_l_p m m'
        have e_g_p : g ≠ p := fun e => d_p_g e.symm
        have c_p_g := fun (h : Heap) m m' => Heap.put_comm h e_g_p m m'
        have e_q_p : q ≠ p := fun e => d_p_q e.symm
        have c_p_q := fun (h : Heap) m m' => Heap.put_comm h e_q_p m m'
        have e_l_r0 : l ≠ r0 := fun e => d_r0_l e.symm
        have c_r0_l := fun (h : Heap) m m' => Heap.put_comm h e_l_r0 m m'
        have e_g_r0 : g ≠ r0 := fun e => d_r0_g e.symm
        have c_r0_g := fun (h : Heap) m m' => Heap.put_comm h e_g_r0 m m'
        have e_q_r0 : q ≠ r0 := fun e => d_r0_q e.symm
        have c_r0_q := fun (h : Heap) m m' => Heap.put_comm h e_q_r0 m m'
        have e_g_l : g ≠ l := fun e => d_l_g e.symm
        have c_l_g := fun (h : Heap) m m' => Heap.put_comm h e_g_l m m'
        have e_q_l : q ≠ l := fun e => d_l_q e.symm
        have c_l_q := fun (h : Heap) m m' => Heap.put_comm h e_q_l m m'
        have e_q_g : q ≠ g := fun e => d_g_q e.symm
        have c_g_q := fun (h : Heap) m m' => Heap.put_comm h e_q_g m m'
        have lt_a := Heap.lookup_lt hna
        have lt_p := Heap.lookup_lt hnp
        have lt_r0 := Heap.lookup_lt hnr0
        have lt_l := Heap.lookup_lt hnl
        have lt_g := Heap.lookup_lt hng
        have lt_q := Heap.lookup_lt hnq
        apply Exists.intro
        refine ⟨?_, ?_⟩
        · simp [BinarySearchTree.remove, hdesc, hpred, Tree.getNode, hna, hnl0, hno,
BinarySearchTree.nodeSwap, Tree.setParent, Tree.setLeft, Tree.setRight, Tree.setBalance,
Tree.modify, Tree.delete, hnp, hnr0, hnl, hng, hal, har, hpr, hpp, hxl, hpq, hgp, hga, hgp2, hga2,
Heap.lookup_put, Heap.length_put, Heap.put_put, d_a_p, e_p_a, d_a_r0, e_r0_a, d_a_l, e_l_a, d_a_g, e_g_a, d_a_q, e_q_a, d_p_r0, e_r0_p, d_p_l, e_l_p, d_p_g, e_g_p, d_p_q, e_q_p, d_r0_l, e_l_r0, d_r0_g, e_g_r0, d_r0_q, e_q_r0, d_l_g, e_g_l, d_l_q, e_q_l, d_g_q, e_q_g, lt_a, lt_p, lt_r0, lt_l, lt_g, lt_q, hnq, hra, hrootp, hql, hql2, c_a_p, c_a_r0, c_a_l, c_a_g, c_a_q, c_p_r0, c_p_l, c_p_g, c_p_q, c_r0_l, c_r0_g, c_r0_q, c_l_g, c_l_q, c_g_q]
          rfl
        · refine ⟨?_, ?_, ?_, ?_, ?_, ?_, ?_, ?_, ?_, ?_⟩
          · simp [Tree.fuel, Heap.length_put, Heap.lookup_put, Heap.lookup_set_none,
hxl, hpq, hna, hnp, hnr0, hnl, hng, d_a_p, e_p_a, d_a_r0, e_r0_a, d_a_l, e_l_a, d_a_g, e_g_a, d_a_q, e_q_a, d_p_r0, e_r0_p, d_p_l, e_l_p, d_p_g, e_g_p, d_p_q, e_q_p, d_r0_l, e_l_r0, d_r0_g, e_g_r0, d_r0_q, e_q_r0, d_l_g, e_g_l, d_l_q, e_q_l, d_g_q, e_q_g, lt_a, lt_p, lt_r0, lt_l, lt_g, lt_q, hnq, hra, hrootp, hql, hql2]
          · simp [Tree.fuel, Heap.length_put, Heap.lookup_put, Heap.lookup_set_none,
hxl, hpq, hna, hnp, hnr0, hnl, hng, d_a_p, e_p_a, d_a_r0, e_r0_a, d_a_l, e_l_a, d_a_g, e_g_a, d_a_q, e_q_a, d_p_r0, e_r0_p, d_p_l, e_l_p, d_p_g, e_g_p, d_p_q, e_q_p, d_r0_l, e_l_r0, d_r0_g, e_g_r0, d_r0_q, e_q_r0, d_l_g, e_g_l, d_l_q, e_q_l, d_g_q, e_q_g, lt_a, lt_p, lt_r0, lt_l, lt_g, lt_q, hnq, hra, hrootp, hql, hql2]
          · simp [Tree.fuel, Heap.length_put, Heap.lookup_put, Heap.lookup_set_none,
hxl, hpq, hna, hnp, hnr0, hnl, hng, d_a_p, e_p_a, d_a_r0, e_r0_a, d_a_l, e_l_a, d_a_g, e_g_a, d_a_q, e_q_a, d_p_r0, e_r0_p, d_p_l, e_l_p, d_p_g, e_g_p, d_p_q, e_q_p, d_r0_l, e_l_r0, d_r0_g, e_g_r0, d_r0_q, e_q_r0, d_l_g, e_g_l, d_l_q, e_q_l, d_g_q, e_q_g, lt_a, lt_p, lt_r0, lt_l, lt_g, lt_q, hnq, hra, hrootp, hql, hql2]
          · simp [Tree.fuel, Heap.length_put, Heap.lookup_put, Heap.lookup_set_none,
hxl, hpq, hna, hnp, hnr0, hnl, hng, d_a_p, e_p_a, d_a_r0, e_r0_a, d_a_l, e_l_a, d_a_g, e_g_a, d_a_q, e_q_a, d_p_r0, e_r0_p, d_p_l, e_l_p, d_p_g, e_g_p, d_p_q, e_q_p, d_r0_l, e_l_r0, d_r0_g, e_g_r0, d_r0_q, e_q_r0, d_l_g, e_g_l, d_l_q, e_q_l, d_g_q, e_q_g, lt_a, lt_p, lt_r0, lt_l, lt_g, lt_q, hnq, hra, hrootp, hql, hql2]
          · simp [Tree.fuel, Heap.length_put, Heap.lookup_put, Heap.lookup_set_none,
hxl, hpq, hna, hnp, hnr0, hnl, hng, d_a_p, e_p_a, d_a_r0, e_r0_a, d_a_l, e_l_a, d_a_g, e_g_a, d_a_q, e_q_a, d_p_r0, e_r0_p, d_p_l, e_l_p, d_p_g, e_g_p, d_p_q, e_q_p, d_r0_l, e_l_r0, d_r0_g, e_g_r0, d_r0_q, e_q_r0, d_l_g, e_g_l, d_l_q, e_q_l, d_g_q, e_q_g, lt_a, lt_p, lt_r0, lt_l, lt_g, lt_q, hnq, hra, hrootp, hql, hql2]
          · simp [Tree.fuel, Heap.length_put, Heap.lookup_put, Heap.lookup_set_none,
hxl, hpq, hna, hnp, hnr0, hnl, hng, d_a_p, e_p_a, d_a_r0, e_r0_a, d_a_l, e_l_a, d_a_g, e_g_a, d_a_q, e_q_a, d_p_r0, e_r0_p, d_p_l, e_l_p, d_p_g, e_g_p, d_p_q, e_q_p, d_r0_l, e_l_r0, d_r0_g, e_g_r0, d_r0_q, e_q_r0, d_l_g, e_g_l, d_l_q, e_q_l, d_g_q, e_q_g, lt_a, lt_p, lt_r0, lt_l, lt_g, lt_q, hnq, hra, hrootp, hql, hql2]
          · intro _; simp [Tree.fuel, Heap.length_put, Heap.lookup_put, Heap.lookup_set_none,
hxl, hpq, hna, hnp, hnr0, hnl, hng, d_a_p, e_p_a, d_a_r0, e_r0_a, d_a_l, e_l_a, d_a_g, e_g_a, d_a_q, e_q_a, d_p_r0, e_r0_p, d_p_l, e_l_p, d_p_g, e_g_p, d_p_q, e_q_p, d_r0_l, e_l_r0, d_r0_g, e_g_r0, d_r0_q, e_q_r0, d_l_g, e_g_l, d_l_q, e_q_l, d_g_q, e_q_g, lt_a, lt_p, lt_r0, lt_l, lt_g, lt_q, hnq, hra, hrootp, hql, hql2]
          · intro x1 nx1 h1
            cases h1
          · intro q1 nq1 h1 h2
            have e1 : q1 = q := Option.some.inj (h1.symm.trans rfl)
            subst e1
            have e2 : nq1 = nq := Option.some.inj (h2.symm.trans hnq)
            subst e2
            simp [Tree.fuel, Heap.length_put, Heap.lookup_put, Heap.lookup_set_none,
hxl, hpq, hna, hnp, hnr0, hnl, hng, d_a_p, e_p_a, d_a_r0, e_r0_a, d_a_l, e_l_a, d_a_g, e_g_a, d_a_q, e_q_a, d_p_r0, e_r0_p, d_p_l, e_l_p, d_p_g, e_g_p, d_p_q, e_q_p, d_r0_l, e_l_r0, d_r0_g, e_g_r0, d_r0_q, e_q_r0, d_l_g, e_g_l, d_l_q, e_q_l, d_g_q, e_q_g, lt_a, lt_p, lt_r0, lt_l, lt_g, lt_q, hnq, hra, hrootp, hql, hql2]
          · intro y h1 h2 h3 h4 h5 h6 h7
            have h9 : y ≠ q := fun e => h7 (by rw [e])
            simp [Tree.fuel, Heap.length_put, Heap.lookup_put, Heap.lookup_set_none,
hxl, hpq, hna, hnp, hnr0, hnl, hng, d_a_p, e_p_a, d_a_r0, e_r0_a, d_a_l, e_l_a, d_a_g, e_g_a, d_a_q, e_q_a, d_p_r0, e_r0_p, d_p_l, e_l_p, d_p_g, e_g_p, d_p_q, e_q_p, d_r0_l, e_l_r0, d_r0_g, e_g_r0, d_r0_q, e_q_r0, d_l_g, e_g_l, d_l_q, e_q_l, d_g_q, e_q_g, lt_a, lt_p, lt_r0, lt_l, lt_g, lt_q, hnq, hra, hrootp, hql, hql2, h1, h2, h3, h4, h5, h9]
    · have hr : t.root = some a := hroot.mpr trivial
      rw [hr] at hdesc
      obtain ⟨d_a_x, d_p_x, d_r0_x, d_l_x, d_g_x, nx, hnx⟩ := hx x rfl
      have e_p_a : p ≠ a := fun e => d_a_p e.symm
      have c_a_p := fun (h : Heap) m m' => Heap.put_comm h e_p_a m m'
      have e_r0_a : r0 ≠ a := fun e => d_a_r0 e.symm
      have c_a_r0 := fun (h : Heap) m m' => Heap.put_comm h e_r0_a m m'
      have e_l_a : l ≠ a := fun e => d_a_l e.symm
      have c_a_l := fun (h : Heap) m m' => Heap.put_comm h e_l_a m m'
      have e_g_a : g ≠ a := fun e => d_a_g e.symm
      have c_a_g := fun (h : Heap) m m' => Heap.put_comm h e_g_a m m'
      have e_x_a : x ≠ a := fun e => d_a_x e.symm
      have c_a_x := fun (h : Heap) m m' => Heap.put_comm h e_x_a m m'
      have e_r0_p : r0 ≠ p := fun e => d_p_r0 e.symm
      have c_p_r0 := fun (h : Heap) m m' => Heap.put_comm h e_r0_p m m'
      have e_l_p : l ≠ p := fun e => d_p_l e.symm
      have c_p_l := fun (h : Heap) m m' => Heap.put_comm h e_l_p m m'
      have e_g_p : g ≠ p := fun e => d_p_g e.symm
      have c_p_g := fun (h : Heap) m m' => Heap.put_comm h e_g_p m m'
      have e_x_p : x ≠ p := fun e => d_p_x e.symm
      have c_p_x := fun (h : Heap) m m' => Heap.put_comm h e_x_p m m'
      have e_l_r0 : l ≠ r0 := fun e => d_r0_l e.symm
      have c_r0_l := fun (h : Heap) m m' => Heap.put_comm h e_l_r0 m m'
      have e_g_r0 : g ≠ r0 := fun e => d_r0_g e.symm
      have c_r0_g := fun (h : Heap) m m' => Heap.put_comm h e_g_r0 m m'
      have e_x_r0 : x ≠ r0 := fun e => d_r0_x e.symm
      have c_r0_x := fun (h : Heap) m m' => Heap.put_comm h e_x_r0 m m'
      have e_g_l : g ≠ l := fun e => d_l_g e.symm
      have c_l_g := fun (h : Heap) m m' => Heap.put_comm h e_g_l m m'
      have e_x_l : x ≠ l := fun e => d_l_x e.symm
      have c_l_x := fun (h : Heap) m m' => Heap.put_comm h e_x_l m m'
      have e_x_g : x ≠ g := fun e => d_g_x e.symm
      have c_g_x := fun (h : Heap) m m' => Heap.put_comm h e_x_g m m'
      have lt_a := Heap.lookup_lt hna
      have lt_p := Heap.lookup_lt hnp
      have lt_r0 := Heap.lookup_lt hnr0
      have lt_l := Heap.lookup_lt hnl
      have lt_g := Heap.lookup_lt hng
      have lt_x := Heap.lookup_lt hnx
      apply Exists.intro
      refine ⟨?_, ?_⟩
      · simp [BinarySearchTree.remove, hdesc, hpred, Tree.getNode, hna, hnl0, hno,
BinarySearchTree.nodeSwap, Tree.setParent, Tree.setLeft, Tree.setRight, Tree.setBalance,
Tree.modify, Tree.delete, hnp, hnr0, hnl, hng, hal, har, hpr, hpp, hxl, hpq, hgp, hga, hgp2, hga2,
Heap.lookup_put, Heap.length_put, Heap.put_put, d_a_p, e_p_a, d_a_r0, e_r0_a, d_a_l, e_l_a, d_a_g, e_g_a, d_a_x, e_x_a, d_p_r0, e_r0_p, d_p_l, e_l_p, d_p_g, e_g_p, d_p_x, e_x_p, d_r0_l, e_l_r0, d_r0_g, e_g_r0, d_r0_x, e_x_r0, d_l_g, e_g_l, d_l_x, e_x_l, d_g_x, e_x_g, lt_a, lt_p, lt_r0, lt_l, lt_g, lt_x, hnx, hr, c_a_p, c_a_r0, c_a_l, c_a_g, c_a_x, c_p_r0, c_p_l, c_p_g, c_p_x, c_r0_l, c_r0_g, c_r0_x, c_l_g, c_l_x, c_g_x]
        rfl
      · refine ⟨?_, ?_, ?_, ?_, ?_, ?_, ?_, ?_, ?_, ?_⟩
        · simp [Tree.fuel, Heap.length_put, Heap.lookup_put, Heap.lookup_set_none,
hxl, hpq, hna, hnp, hnr0, hnl, hng, d_a_p, e_p_a, d_a_r0, e_r0_a, d_a_l, e_l_a, d_a_g, e_g_a, d_a_x, e_x_a, d_p_r0, e_r0_p, d_p_l, e_l_p, d_p_g, e_g_p, d_p_x, e_x_p, d_r0_l, e_l_r0, d_r0_g, e_g_r0, d_r0_x, e_x_r0, d_l_g, e_g_l, d_l_x, e_x_l, d_g_x, e_x_g, lt_a, lt_p, lt_r0, lt_l, lt_g, lt_x, hnx, hr]
        · simp [Tree.fuel, Heap.length_put, Heap.lookup_put, Heap.lookup_set_none,
hxl, hpq, hna, hnp, hnr0, hnl, hng, d_a_p, e_p_a, d_a_r0, e_r0_a, d_a_l, e_l_a, d_a_g, e_g_a, d_a_x, e_x_a, d_p_r0, e_r0_p, d_p_l, e_l_p, d_p_g, e_g_p, d_p_x, e_x_p, d_r0_l, e_l_r0, d_r0_g, e_g_r0, d_r0_x, e_x_r0, d_l_g, e_g_l, d_l_x, e_x_l, d_g_x, e_x_g, lt_a, lt_p, lt_r0, lt_l, lt_g, lt_x, hnx, hr]
        · simp [Tree.fuel, Heap.length_put, Heap.lookup_put, Heap.lookup_set_none,
hxl, hpq, hna, hnp, hnr0, hnl, hng, d_a_p, e_p_a, d_a_r0, e_r0_a, d_a_l, e_l_a, d_a_g, e_g_a, d_a_x, e_x_a, d_p_r0, e_r0_p, d_p_l, e_l_p, d_p_g, e_g_p, d_p_x, e_x_p, d_r0_l, e_l_r0, d_r0_g, e_g_r0, d_r0_x, e_x_r0, d_l_g, e_g_l, d_l_x, e_x_l, d_g_x, e_x_g, lt_a, lt_p, lt_r0, lt_l, lt_g, lt_x, hnx, hr]
        · simp [Tree.fuel, Heap.length_put, Heap.lookup_put, Heap.lookup_set_none,
hxl, hpq, hna, hnp, hnr0, hnl, hng, d_a_p, e_p_a, d_a_r0, e_r0_a, d_a_l, e_l_a, d_a_g, e_g_a, d_a_x, e_x_a, d_p_r0, e_r0_p, d_p_l, e_l_p, d_p_g, e_g_p, d_p_x, e_x_p, d_r0_l, e_l_r0, d_r0_g, e_g_r0, d_r0_x, e_x_r0, d_l_g, e_g_l, d_l_x, e_x_l, d_g_x, e_x_g, lt_a, lt_p, lt_r0, lt_l, lt_g, lt_x, hnx, hr]
        · simp [Tree.fuel, Heap.length_put, Heap.lookup_put, Heap.lookup_set_none,
hxl, hpq, hna, hnp, hnr0, hnl, hng, d_a_p, e_p_a, d_a_r0, e_r0_a, d_a_l, e_l_a, d_a_g, e_g_a, d_a_x, e_x_a, d_p_r0, e_r0_p, d_p_l, e_l_p, d_p_g, e_g_p, d_p_x, e_x_p, d_r0_l, e_l_r0, d_r0_g, e_g_r0, d_r0_x, e_x_r0, d_l_g, e_g_l, d_l_x, e_x_l, d_g_x, e_x_g, lt_a, lt_p, lt_r0, lt_l, lt_g, lt_x, hnx, hr]
        · simp [Tree.fuel, Heap.length_put, Heap.lookup_put, Heap.lookup_set_none,
hxl, hpq, hna, hnp, hnr0, hnl, hng, d_a_p, e_p_a, d_a_r0, e_r0_a, d_a_l, e_l_a, d_a_g, e_g_a, d_a_x, e_x_a, d_p_r0, e_r0_p, d_p_l, e_l_p, d_p_g, e_g_p, d_p_x, e_x_p, d_r0_l, e_l_r0, d_r0_g, e_g_r0, d_r0_x, e_x_r0, d_l_g, e_g_l, d_l_x, e_x_l, d_g_x, e_x_g, lt_a, lt_p, lt_r0, lt_l, lt_g, lt_x, hnx, hr]
        · intro _; simp [Tree.fuel, Heap.length_put, Heap.lookup_put, Heap.lookup_set_none,
hxl, hpq, hna, hnp, hnr0, hnl, hng, d_a_p, e_p_a, d_a_r0, e_r0_a, d_a_l, e_l_a, d_a_g, e_g_a, d_a_x, e_x_a, d_p_r0, e_r0_p, d_p_l, e_l_p, d_p_g, e_g_p, d_p_x, e_x_p, d_r0_l, e_l_r0, d_r0_g, e_g_r0, d_r0_x, e_x_r0, d_l_g, e_g_l, d_l_x, e_x_l, d_g_x, e_x_g, lt_a, lt_p, lt_r0, lt_l, lt_g, lt_x, hnx, hr]
        · intro x1 nx1 h1 h2
          have e1 : x1 = x := Option.some.inj (h1.symm.trans rfl)
          subst e1
          have e2 : nx1 = nx := Option.some.inj (h2.symm.trans hnx)
          subst e2
          simp [Tree.fuel, Heap.length_put, Heap.lookup_put, Heap.lookup_set_none,
hxl, hpq, hna, hnp, hnr0, hnl, hng, d_a_p, e_p_a, d_a_r0, e_r0_a, d_a_l, e_l_a, d_a_g, e_g_a, d_a_x, e_x_a, d_p_r0, e_r0_p, d_p_l, e_l_p, d_p_g, e_g_p, d_p_x, e_x_p, d_r0_l, e_l_r0, d_r0_g, e_g_r0, d_r0_x, e_x_r0, d_l_g, e_g_l, d_l_x, e_x_l, d_g_x, e_x_g, lt_a, lt_p, lt_r0, lt_l, lt_g, lt_x, hnx, hr]
        · intro q1 nq1 h1
          cases h1
        · intro y h1 h2 h3 h4 h5 h6 h7
          have h8 : y ≠ x := fun e => h6 (by rw [e])
          simp [Tree.fuel, Heap.length_put, Heap.lookup_put, Heap.lookup_set_none,
hxl, hpq, hna, hnp, hnr0, hnl, hng, d_a_p, e_p_a, d_a_r0, e_r0_a, d_a_l, e_l_a, d_a_g, e_g_a, d_a_x, e_x_a, d_p_r0, e_r0_p, d_p_l, e_l_p, d_p_g, e_g_p, d_p_x, e_x_p, d_r0_l, e_l_r0, d_r0_g, e_g_r0, d_r0_x, e_x_r0, d_l_g, e_g_l, d_l_x, e_x_l, d_g_x, e_x_g, lt_a, lt_p, lt_r0, lt_l, lt_g, lt_x, hnx, hr, h1, h2, h3, h4, h5, h8]
    · obtain ⟨d_a_x, d_p_x, d_r0_x, d_l_x, d_g_x, nx, hnx⟩ := hx x rfl
      obtain ⟨d_a_q, d_p_q, d_r0_q, d_l_q, d_g_q, hqx, nq, hnq⟩ := hpa q rfl
      have hra : ¬ t.root = some a := by rw [hroot]; simp
      have d_x_q : x ≠ q := fun e => hqx (by rw [e])
      by_cases hql : nq.left = some a
      · have e_p_a : p ≠ a := fun e => d_a_p e.symm
        have c_a_p := fun (h : Heap) m m' => Heap.put_comm h e_p_a m m'
        have e_r0_a : r0 ≠ a := fun e => d_a_r0 e.symm
        have c_a_r0 := fun (h : Heap) m m' => Heap.put_comm h e_r0_a m m'
        have e_l_a : l ≠ a := fun e => d_a_l e.symm
        have c_a_l := fun (h : Heap) m m' => Heap.put_comm h e_l_a m m'
        have e_g_a : g ≠ a := fun e => d_a_g e.symm
        have c_a_g := fun (h : Heap) m m' => Heap.put_comm h e_g_a m m'
        have e_x_a : x ≠ a := fun e => d_a_x e.symm
        have c_a_x := fun (h : Heap) m m' => Heap.put_comm h e_x_a m m'
        have e_q_a : q ≠ a := fun e => d_a_q e.symm
        have c_a_q := fun (h : Heap) m m' => Heap.put_comm h e_q_a m m'
        have e_r0_p : r0 ≠ p := fun e => d_p_r0 e.symm
        have c_p_r0 := fun (h : Heap) m m' => Heap.put_comm h e_r0_p m m'
        have e_l_p : l ≠ p := fun e => d_p_l e.symm
        have c_p_l := fun (h : Heap) m m' => Heap.put_comm h e_l_p m m'
        have e_g_p : g ≠ p := fun e => d_p_g e.symm
        have c_p_g := fun (h : Heap) m m' => Heap.put_comm h e_g_p m m'
        have e_x_p : x ≠ p := fun e => d_p_x e.symm
        have c_p_x := fun (h : Heap) m m' => Heap.put_comm h e_x_p m m'
        have e_q_p : q ≠ p := fun e => d_p_q e.symm
        have c_p_q := fun (h : Heap) m m' => Heap.put_comm h e_q_p m m'
        have e_l_r0 : l ≠ r0 := fun e => d_r0_l e.symm
        have c_r0_l := fun (h : Heap) m m' => Heap.put_comm h e_l_r0 m m'
        have e_g_r0 : g ≠ r0 := fun e => d_r0_g e.symm
        have c_r0_g := fun (h : Heap) m m' => Heap.put_comm h e_g_r0 m m'
        have e_x_r0 : x ≠ r0 := fun e => d_r0_x e.symm
        have c_r0_x := fun (h : Heap) m m' => Heap.put_comm h e_x_r0 m m'
        have e_q_r0 : q ≠ r0 := fun e => d_r0_q e.symm
        have c_r0_q := fun (h : Heap) m m' => Heap.put_comm h e_q_r0 m m'
        have e_g_l : g ≠ l := fun e => d_l_g e.symm
        have c_l_g := fun (h : Heap) m m' => Heap.put_comm h e_g_l m m'
        have e_x_l : x ≠ l := fun e => d_l_x e.symm
        have c_l_x := fun (h : Heap) m m' => Heap.put_comm h e_x_l m m'
        have e_q_l : q ≠ l := fun e => d_l_q e.symm
        have c_l_q := fun (h : Heap) m m' => Heap.put_comm h e_q_l m m'
        have e_x_g : x ≠ g := fun e => d_g_x e.symm
        have c_g_x := fun (h : Heap) m m' => Heap.put_comm h e_x_g m m'
        have e_q_g : q ≠ g := fun e => d_g_q e.symm
        have c_g_q := fun (h : Heap) m m' => Heap.put_comm h e_q_g m m'
        have e_q_x : q ≠ x := fun e => d_x_q e.symm
        have c_x_q := fun (h : Heap) m m' => Heap.put_comm h e_q_x m m'
        have lt_a := Heap.lookup_lt hna
        have lt_p := Heap.lookup_lt hnp
        have lt_r0 := Heap.lookup_lt hnr0
        have lt_l := Heap.lookup_lt hnl
        have lt_g := Heap.lookup_lt hng
        have lt_x := Heap.lookup_lt hnx
        have lt_q := Heap.lookup_lt hnq
        apply Exists.intro
        refine ⟨?_, ?_⟩
        · simp [BinarySearchTree.remove, hdesc, hpred, Tree.getNode, hna, hnl0, hno,
BinarySearchTree.nodeSwap, Tree.setParent, Tree.setLeft, Tree.setRight, Tree.setBalance,
Tree.modify, Tree.delete, hnp, hnr0, hnl, hng, hal, har, hpr, hpp, hxl, hpq, hgp, hga, hgp2, hga2,
Heap.lookup_put, Heap.length_put, Heap.put_put, d_a_p, e_p_a, d_a_r0, e_r0_a, d_a_l, e_l_a, d_a_g, e_g_a, d_a_x, e_x_a, d_a_q, e_q_a, d_p_r0, e_r0_p, d_p_l, e_l_p, d_p_g, e_g_p, d_p_x, e_x_p, d_p_q, e_q_p, d_r0_l, e_l_r0, d_r0_g, e_g_r0, d_r0_x, e_x_r0, d_r0_q, e_q_r0, d_l_g, e_g_l, d_l_x, e_x_l, d_l_q, e_q_l, d_g_x, e_x_g, d_g_q, e_q_g, d_x_q, e_q_x, lt_a, lt_p, lt_r0, lt_l, lt_g, lt_x, lt_q, hnx, hnq, hra, hrootp, hql, c_a_p, c_a_r0, c_a_l, c_a_g, c_a_x, c_a_q, c_p_r0, c_p_l, c_p_g, c_p_x, c_p_q, c_r0_l, c_r0_g, c_r0_x, c_r0_q, c_l_g, c_l_x, c_l_q, c_g_x, c_g_q, c_x_q]
          rfl
        · refine ⟨?_, ?_, ?_, ?_, ?_, ?_, ?_, ?_, ?_, ?_⟩
          · simp [Tree.fuel, Heap.length_put, Heap.lookup_put, Heap.lookup_set_none,
hxl, hpq, hna, hnp, hnr0, hnl, hng, d_a_p, e_p_a, d_a_r0, e_r0_a, d_a_l, e_l_a, d_a_g, e_g_a, d_a_x, e_x_a, d_a_q, e_q_a, d_p_r0, e_r0_p, d_p_l, e_l_p, d_p_g, e_g_p, d_p_x, e_x_p, d_p_q, e_q_p, d_r0_l, e_l_r0, d_r0_g, e_g_r0, d_r0_x, e_x_r0, d_r0_q, e_q_r0, d_l_g, e_g_l, d_l_x, e_x_l, d_l_q, e_q_l, d_g_x, e_x_g, d_g_q, e_q_g, d_x_q, e_q_x, lt_a, lt_p, lt_r0, lt_l, lt_g, lt_x, lt_q, hnx, hnq, hra, hrootp, hql]
          · simp [Tree.fuel, Heap.length_put, Heap.lookup_put, Heap.lookup_set_none,
hxl, hpq, hna, hnp, hnr0, hnl, hng, d_a_p, e_p_a, d_a_r0, e_r0_a, d_a_l, e_l_a, d_a_g, e_g_a, d_a_x, e_x_a, d_a_q, e_q_a, d_p_r0, e_r0_p, d_p_l, e_l_p, d_p_g, e_g_p, d_p_x, e_x_p, d_p_q, e_q_p, d_r0_l, e_l_r0, d_r0_g, e_g_r0, d_r0_x, e_x_r0, d_r0_q, e_q_r0, d_l_g, e_g_l, d_l_x, e_x_l, d_l_q, e_q_l, d_g_x, e_x_g, d_g_q, e_q_g, d_x_q, e_q_x, lt_a, lt_p, lt_r0, lt_l, lt_g, lt_x, lt_q, hnx, hnq, hra, hrootp, hql]
          · simp [Tree.fuel, Heap.length_put, Heap.lookup_put, Heap.lookup_set_none,
hxl, hpq, hna, hnp, hnr0, hnl, hng, d_a_p, e_p_a, d_a_r0, e_r0_a, d_a_l, e_l_a, d_a_g, e_g_a, d_a_x, e_x_a, d_a_q, e_q_a, d_p_r0, e_r0_p, d_p_l, e_l_p, d_p_g, e_g_p, d_p_x, e_x_p, d_p_q, e_q_p, d_r0_l, e_l_r0, d_r0_g, e_g_r0, d_r0_x, e_x_r0, d_r0_q, e_q_r0, d_l_g, e_g_l, d_l_x, e_x_l, d_l_q, e_q_l, d_g_x, e_x_g, d_g_q, e_q_g, d_x_q, e_q_x, lt_a, lt_p, lt_r0, lt_l, lt_g, lt_x, lt_q, hnx, hnq, hra, hrootp, hql]
          · simp [Tree.fuel, Heap.length_put, Heap.lookup_put, Heap.lookup_set_none,
hxl, hpq, hna, hnp, hnr0, hnl, hng, d_a_p, e_p_a, d_a_r0, e_r0_a, d_a_l, e_l_a, d_a_g, e_g_a, d_a_x, e_x_a, d_a_q, e_q_a, d_p_r0, e_r0_p, d_p_l, e_l_p, d_p_g, e_g_p, d_p_x, e_x_p, d_p_q, e_q_p, d_r0_l, e_l_r0, d_r0_g, e_g_r0, d_r0_x, e_x_r0, d_r0_q, e_q_r0, d_l_g, e_g_l, d_l_x, e_x_l, d_l_q, e_q_l, d_g_x, e_x_g, d_g_q, e_q_g, d_x_q, e_q_x, lt_a, lt_p, lt_r0, lt_l, lt_g, lt_x, lt_q, hnx, hnq, hra, hrootp, hql]
          · simp [Tree.fuel, Heap.length_put, Heap.lookup_put, Heap.lookup_set_none,
hxl, hpq, hna, hnp, hnr0, hnl, hng, d_a_p, e_p_a, d_a_r0, e_r0_a, d_a_l, e_l_a, d_a_g, e_g_a, d_a_x, e_x_a, d_a_q, e_q_a, d_p_r0, e_r0_p, d_p_l, e_l_p, d_p_g, e_g_p, d_p_x, e_x_p, d_p_q, e_q_p, d_r0_l, e_l_r0, d_r0_g, e_g_r0, d_r0_x, e_x_r0, d_r0_q, e_q_r0, d_l_g, e_g_l, d_l_x, e_x_l, d_l_q, e_q_l, d_g_x, e_x_g, d_g_q, e_q_g, d_x_q, e_q_x, lt_a, lt_p, lt_r0, lt_l, lt_g, lt_x, lt_q, hnx, hnq, hra, hrootp, hql]
          · simp [Tree.fuel, Heap.length_put, Heap.lookup_put, Heap.lookup_set_none,
hxl, hpq, hna, hnp, hnr0, hnl, hng, d_a_p, e_p_a, d_a_r0, e_r0_a, d_a_l, e_l_a, d_a_g, e_g_a, d_a_x, e_x_a, d_a_q, e_q_a, d_p_r0, e_r0_p, d_p_l, e_l_p, d_p_g, e_g_p, d_p_x, e_x_p, d_p_q, e_q_p, d_r0_l, e_l_r0, d_r0_g, e_g_r0, d_r0_x, e_x_r0, d_r0_q, e_q_r0, d_l_g, e_g_l, d_l_x, e_x_l, d_l_q, e_q_l, d_g_x, e_x_g, d_g_q, e_q_g, d_x_q, e_q_x, lt_a, lt_p, lt_r0, lt_l, lt_g, lt_x, lt_q, hnx, hnq, hra, hrootp, hql]
          · intro _; simp [Tree.fuel, Heap.length_put, Heap.lookup_put, Heap.lookup_set_none,
hxl, hpq, hna, hnp, hnr0, hnl, hng, d_a_p, e_p_a, d_a_r0, e_r0_a, d_a_l, e_l_a, d_a_g, e_g_a, d_a_x, e_x_a, d_a_q, e_q_a, d_p_r0, e_r0_p, d_p_l, e_l_p, d_p_g, e_g_p, d_p_x, e_x_p, d_p_q, e_q_p, d_r0_l, e_l_r0, d_r0_g, e_g_r0, d_r0_x, e_x_r0, d_r0_q, e_q_r0, d_l_g, e_g_l, d_l_x, e_x_l, d_l_q, e_q_l, d_g_x, e_x_g, d_g_q, e_q_g, d_x_q, e_q_x, lt_a, lt_p, lt_r0, lt_l, lt_g, lt_x, lt_q, hnx, hnq, hra, hrootp, hql]
          · intro x1 nx1 h1 h2
            have e1 : x1 = x := Option.some.inj (h1.symm.trans rfl)
            subst e1
            have e2 : nx1 = nx := Option.some.inj (h2.symm.trans hnx)
            subst e2
            simp [Tree.fuel, Heap.length_put, Heap.lookup_put, Heap.lookup_set_none,
hxl, hpq, hna, hnp, hnr0, hnl, hng, d_a_p, e_p_a, d_a_r0, e_r0_a, d_a_l, e_l_a, d_a_g, e_g_a, d_a_x, e_x_a, d_a_q, e_q_a, d_p_r0, e_r0_p, d_p_l, e_l_p, d_p_g, e_g_p, d_p_x, e_x_p, d_p_q, e_q_p, d_r0_l, e_l_r0, d_r0_g, e_g_r0, d_r0_x, e_x_r0, d_r0_q, e_q_r0, d_l_g, e_g_l, d_l_x, e_x_l, d_l_q, e_q_l, d_g_x, e_x_g, d_g_q, e_q_g, d_x_q, e_q_x, lt_a, lt_p, lt_r0, lt_l, lt_g, lt_x, lt_q, hnx, hnq, hra, hrootp, hql]
          · intro q1 nq1 h1 h2
            have e1 : q1 = q := Option.some.inj (h1.symm.trans rfl)
            subst e1
            have e2 : nq1 = nq := Option.some.inj (h2.symm.trans hnq)
            subst e2
            simp [Tree.fuel, Heap.length_put, Heap.lookup_put, Heap.lookup_set_none,
hxl, hpq, hna, hnp, hnr0, hnl, hng, d_a_p, e_p_a, d_a_r0, e_r0_a, d_a_l, e_l_a, d_a_g, e_g_a, d_a_x, e_x_a, d_a_q, e_q_a, d_p_r0, e_r0_p, d_p_l, e_l_p, d_p_g, e_g_p, d_p_x, e_x_p, d_p_q, e_q_p, d_r0_l, e_l_r0, d_r0_g, e_g_r0, d_r0_x, e_x_r0, d_r0_q, e_q_r0, d_l_g, e_g_l, d_l_x, e_x_l, d_l_q, e_q_l, d_g_x, e_x_g, d_g_q, e_q_g, d_x_q, e_q_x, lt_a, lt_p, lt_r0, lt_l, lt_g, lt_x, lt_q, hnx, hnq, hra, hrootp, hql]
          · intro y h1 h2 h3 h4 h5 h6 h7
            have h8 : y ≠ x := fun e => h6 (by rw [e])
            have h9 : y ≠ q := fun e => h7 (by rw [e])
            simp [Tree.fuel, Heap.length_put, Heap.lookup_put, Heap.lookup_set_none,
hxl, hpq, hna, hnp, hnr0, hnl, hng, d_a_p, e_p_a, d_a_r0, e_r0_a, d_a_l, e_l_a, d_a_g, e_g_a, d_a_x, e_x_a, d_a_q, e_q_a, d_p_r0, e_r0_p, d_p_l, e_l_p, d_p_g, e_g_p, d_p_x, e_x_p, d_p_q, e_q_p, d_r0_l, e_l_r0, d_r0_g, e_g_r0, d_r0_x, e_x_r0, d_r0_q, e_q_r0, d_l_g, e_g_l, d_l_x, e_x_l, d_l_q, e_q_l, d_g_x, e_x_g, d_g_q, e_q_g, d_x_q, e_q_x, lt_a, lt_p, lt_r0, lt_l, lt_g, lt_x, lt_q, hnx, hnq, hra, hrootp, hql, h1, h2, h3, h4, h5, h8, h9]
      · have hql2 : ¬ some a = nq.left := fun e => hql e.symm
        have e_p_a : p ≠ a := fun e => d_a_p e.symm
        have c_a_p := fun (h : Heap) m m' => Heap.put_comm h e_p_a m m'
        have e_r0_a : r0 ≠ a := fun e => d_a_r0 e.symm
        have c_a_r0 := fun (h : Heap) m m' => Heap.put_comm h e_r0_a m m'
        have e_l_a : l ≠ a := fun e => d_a_l e.symm
        have c_a_l := fun (h : Heap) m m' => Heap.put_comm h e_l_a m m'
        have e_g_a : g ≠ a := fun e => d_a_g e.symm
        have c_a_g := fun (h : Heap) m m' => Heap.put_comm h e_g_a m m'
        have e_x_a : x ≠ a := fun e => d_a_x e.symm
        have c_a_x := fun (h : Heap) m m' => Heap.put_comm h e_x_a m m'
        have e_q_a : q ≠ a := fun e => d_a_q e.symm
        have c_a_q := fun (h : Heap) m m' => Heap.put_comm h e_q_a m m'
        have e_r0_p : r0 ≠ p := fun e => d_p_r0 e.symm
        have c_p_r0 := fun (h : Heap) m m' => Heap.put_comm h e_r0_p m m'
        have e_l_p : l ≠ p := fun e => d_p_l e.symm
        have c_p_l := fun (h : Heap) m m' => Heap.put_comm h e_l_p m m'
        have e_g_p : g ≠ p := fun e => d_p_g e.symm
        have c_p_g := fun (h : Heap) m m' => Heap.put_comm h e_g_p m m'
        have e_x_p : x ≠ p := fun e => d_p_x e.symm
        have c_p_x := fun (h : Heap) m m' => Heap.put_comm h e_x_p m m'
        have e_q_p : q ≠ p := fun e => d_p_q e.symm
        have c_p_q := fun (h : Heap) m m' => Heap.put_comm h e_q_p m m'
        have e_l_r0 : l ≠ r0 := fun e => d_r0_l e.symm
        have c_r0_l := fun (h : Heap) m m' => Heap.put_comm h e_l_r0 m m'
        have e_g_r0 : g ≠ r0 := fun e => d_r0_g e.symm
        have c_r0_g := fun (h : Heap) m m' => Heap.put_comm h e_g_r0 m m'
        have e_x_r0 : x ≠ r0 := fun e => d_r0_x e.symm
        have c_r0_x := fun (h : Heap) m m' => Heap.put_comm h e_x_r0 m m'
        have e_q_r0 : q ≠ r0 := fun e => d_r0_q e.symm
        have c_r0_q := fun (h : Heap) m m' => Heap.put_comm h e_q_r0 m m'
        have e_g_l : g ≠ l := fun e => d_l_g e.symm
        have c_l_g := fun (h : Heap) m m' => Heap.put_comm h e_g_l m m'
        have e_x_l : x ≠ l := fun e => d_l_x e.symm
        have c_l_x := fun (h : Heap) m m' => Heap.put_comm h e_x_l m m'
        have e_q_l : q ≠ l := fun e => d_l_q e.symm
        have c_l_q := fun (h : Heap) m m' => Heap.put_comm h e_q_l m m'
        have e_x_g : x ≠ g := fun e => d_g_x e.symm
        have c_g_x := fun (h : Heap) m m' => Heap.put_comm h e_x_g m m'
        have e_q_g : q ≠ g := fun e => d_g_q e.symm
        have c_g_q := fun (h : Heap) m m' => Heap.put_comm h e_q_g m m'
        have e_q_x : q ≠ x := fun e => d_x_q e.symm
        have c_x_q := fun (h : Heap) m m' => Heap.put_comm h e_q_x m m'
        have lt_a := Heap.lookup_lt hna
        have lt_p := Heap.lookup_lt hnp
        have lt_r0 := Heap.lookup_lt hnr0
        have lt_l := Heap.lookup_lt hnl
        have lt_g := Heap.lookup_lt hng
        have lt_x := Heap.lookup_lt hnx
        have lt_q := Heap.lookup_lt hnq
        apply Exists.intro
        refine ⟨?_, ?_⟩
        · simp [BinarySearchTree.remove, hdesc, hpred, Tree.getNode, hna, hnl0, hno,
BinarySearchTree.nodeSwap, Tree.setParent, Tree.setLeft, Tree.setRight, Tree.setBalance,
Tree.modify, Tree.delete, hnp, hnr0, hnl, hng, hal, har, hpr, hpp, hxl, hpq, hgp, hga, hgp2, hga2,
Heap.lookup_put, Heap.length_put, Heap.put_put, d_a_p, e_p_a, d_a_r0, e_r0_a, d_a_l, e_l_a, d_a_g, e_g_a, d_a_x, e_x_a, d_a_q, e_q_a, d_p_r0, e_r0_p, d_p_l, e_l_p, d_p_g, e_g_p, d_p_x, e_x_p, d_p_q, e_q_p, d_r0_l, e_l_r0, d_r0_g, e_g_r0, d_r0_x, e_x_r0, d_r0_q, e_q_r0, d_l_g, e_g_l, d_l_x, e_x_l, d_l_q, e_q_l, d_g_x, e_x_g, d_g_q, e_q_g, d_x_q, e_q_x, lt_a, lt_p, lt_r0, lt_l, lt_g, lt_x, lt_q, hnx, hnq, hra, hrootp, hql, hql2, c_a_p, c_a_r0, c_a_l, c_a_g, c_a_x, c_a_q, c_p_r0, c_p_l, c_p_g, c_p_x, c_p_q, c_r0_l, c_r0_g, c_r0_x, c_r0_q, c_l_g, c_l_x, c_l_q, c_g_x, c_g_q, c_x_q]
          rfl
        · refine ⟨?_, ?_, ?_, ?_, ?_, ?_, ?_, ?_, ?_, ?_⟩
          · simp [Tree.fuel, Heap.length_put, Heap.lookup_put, Heap.lookup_set_none,
hxl, hpq, hna, hnp, hnr0, hnl, hng, d_a_p, e_p_a, d_a_r0, e_r0_a, d_a_l, e_l_a, d_a_g, e_g_a, d_a_x, e_x_a, d_a_q, e_q_a, d_p_r0, e_r0_p, d_p_l, e_l_p, d_p_g, e_g_p, d_p_x, e_x_p, d_p_q, e_q_p, d_r0_l, e_l_r0, d_r0_g, e_g_r0, d_r0_x, e_x_r0, d_r0_q, e_q_r0, d_l_g, e_g_l, d_l_x, e_x_l, d_l_q, e_q_l, d_g_x, e_x_g, d_g_q, e_q_g, d_x_q, e_q_x, lt_a, lt_p, lt_r0, lt_l, lt_g, lt_x, lt_q, hnx, hnq, hra, hrootp, hql, hql2]
          · simp [Tree.fuel, Heap.length_put, Heap.lookup_put, Heap.lookup_set_none,
hxl, hpq, hna, hnp, hnr0, hnl, hng, d_a_p, e_p_a, d_a_r0, e_r0_a, d_a_l, e_l_a, d_a_g, e_g_a, d_a_x, e_x_a, d_a_q, e_q_a, d_p_r0, e_r0_p, d_p_l, e_l_p, d_p_g, e_g_p, d_p_x, e_x_p, d_p_q, e_q_p, d_r0_l, e_l_r0, d_r0_g, e_g_r0, d_r0_x, e_x_r0, d_r0_q, e_q_r0, d_l_g, e_g_l, d_l_x, e_x_l, d_l_q, e_q_l, d_g_x, e_x_g, d_g_q, e_q_g, d_x_q, e_q_x, lt_a, lt_p, lt_r0, lt_l, lt_g, lt_x, lt_q, hnx, hnq, hra, hrootp, hql, hql2]
          · simp [Tree.fuel, Heap.length_put, Heap.lookup_put, Heap.lookup_set_none,
hxl, hpq, hna, hnp, hnr0, hnl, hng, d_a_p, e_p_a, d_a_r0, e_r0_a, d_a_l, e_l_a, d_a_g, e_g_a, d_a_x, e_x_a, d_a_q, e_q_a, d_p_r0, e_r0_p, d_p_l, e_l_p, d_p_g, e_g_p, d_p_x, e_x_p, d_p_q, e_q_p, d_r0_l, e_l_r0, d_r0_g, e_g_r0, d_r0_x, e_x_r0, d_r0_q, e_q_r0, d_l_g, e_g_l, d_l_x, e_x_l, d_l_q, e_q_l, d_g_x, e_x_g, d_g_q, e_q_g, d_x_q, e_q_x, lt_a, lt_p, lt_r0, lt_l, lt_g, lt_x, lt_q, hnx, hnq, hra, hrootp, hql, hql2]
          · simp [Tree.fuel, Heap.length_put, Heap.lookup_put, Heap.lookup_set_none,
hxl, hpq, hna, hnp, hnr0, hnl, hng, d_a_p, e_p_a, d_a_r0, e_r0_a, d_a_l, e_l_a, d_a_g, e_g_a, d_a_x, e_x_a, d_a_q, e_q_a, d_p_r0, e_r0_p, d_p_l, e_l_p, d_p_g, e_g_p, d_p_x, e_x_p, d_p_q, e_q_p, d_r0_l, e_l_r0, d_r0_g, e_g_r0, d_r0_x, e_x_r0, d_r0_q, e_q_r0, d_l_g, e_g_l, d_l_x, e_x_l, d_l_q, e_q_l, d_g_x, e_x_g, d_g_q, e_q_g, d_x_q, e_q_x, lt_a, lt_p, lt_r0, lt_l, lt_g, lt_x, lt_q, hnx, hnq, hra, hrootp, hql, hql2]
          · simp [Tree.fuel, Heap.length_put, Heap.lookup_put, Heap.lookup_set_none,
hxl, hpq, hna, hnp, hnr0, hnl, hng, d_a_p, e_p_a, d_a_r0, e_r0_a, d_a_l, e_l_a, d_a_g, e_g_a, d_a_x, e_x_a, d_a_q, e_q_a, d_p_r0, e_r0_p, d_p_l, e_l_p, d_p_g, e_g_p, d_p_x, e_x_p, d_p_q, e_q_p, d_r0_l, e_l_r0, d_r0_g, e_g_r0, d_r0_x, e_x_r0, d_r0_q, e_q_r0, d_l_g, e_g_l, d_l_x, e_x_l, d_l_q, e_q_l, d_g_x, e_x_g, d_g_q, e_q_g, d_x_q, e_q_x, lt_a, lt_p, lt_r0, lt_l, lt_g, lt_x, lt_q, hnx, hnq, hra, hrootp, hql, hql2]
          · simp [Tree.fuel, Heap.length_put, Heap.lookup_put, Heap.lookup_set_none,
hxl, hpq, hna, hnp, hnr0, hnl, hng, d_a_p, e_p_a, d_a_r0, e_r0_a, d_a_l, e_l_a, d_a_g, e_g_a, d_a_x, e_x_a, d_a_q, e_q_a, d_p_r0, e_r0_p, d_p_l, e_l_p, d_p_g, e_g_p, d_p_x, e_x_p, d_p_q, e_q_p, d_r0_l, e_l_r0, d_r0_g, e_g_r0, d_r0_x, e_x_r0, d_r0_q, e_q_r0, d_l_g, e_g_l, d_l_x, e_x_l, d_l_q, e_q_l, d_g_x, e_x_g, d_g_q, e_q_g, d_x_q, e_q_x, lt_a, lt_p, lt_r0, lt_l, lt_g, lt_x, lt_q, hnx, hnq, hra, hrootp, hql, hql2]
          · intro _; simp [Tree.fuel, Heap.length_put, Heap.lookup_put, Heap.lookup_set_none,
hxl, hpq, hna, hnp, hnr0, hnl, hng, d_a_p, e_p_a, d_a_r0, e_r0_a, d_a_l, e_l_a, d_a_g, e_g_a, d_a_x, e_x_a, d_a_q, e_q_a, d_p_r0, e_r0_p, d_p_l, e_l_p, d_p_g, e_g_p, d_p_x, e_x_p, d_p_q, e_q_p, d_r0_l, e_l_r0, d_r0_g, e_g_r0, d_r0_x, e_x_r0, d_r0_q, e_q_r0, d_l_g, e_g_l, d_l_x, e_x_l, d_l_q, e_q_l, d_g_x, e_x_g, d_g_q, e_q_g, d_x_q, e_q_x, lt_a, lt_p, lt_r0, lt_l, lt_g, lt_x, lt_q, hnx, hnq, hra, hrootp, hql, hql2]
          · intro x1 nx1 h1 h2
            have e1 : x1 = x := Option.some.inj (h1.symm.trans rfl)
            subst e1
            have e2 : nx1 = nx := Option.some.inj (h2.symm.trans hnx)
            subst e2
            simp [Tree.fuel, Heap.length_put, Heap.lookup_put, Heap.lookup_set_none,
hxl, hpq, hna, hnp, hnr0, hnl, hng, d_a_p, e_p_a, d_a_r0, e_r0_a, d_a_l, e_l_a, d_a_g, e_g_a, d_a_x, e_x_a, d_a_q, e_q_a, d_p_r0, e_r0_p, d_p_l, e_l_p, d_p_g, e_g_p, d_p_x, e_x_p, d_p_q, e_q_p, d_r0_l, e_l_r0, d_r0_g, e_g_r0, d_r0_x, e_x_r0, d_r0_q, e_q_r0, d_l_g, e_g_l, d_l_x, e_x_l, d_l_q, e_q_l, d_g_x, e_x_g, d_g_q, e_q_g, d_x_q, e_q_x, lt_a, lt_p, lt_r0, lt_l, lt_g, lt_x, lt_q, hnx, hnq, hra, hrootp, hql, hql2]
          · intro q1 nq1 h1 h2
            have e1 : q1 = q := Option.some.inj (h1.symm.trans rfl)
            subst e1
            have e2 : nq1 = nq := Option.some.inj (h2.symm.trans hnq)
            subst e2
            simp [Tree.fuel, Heap.length_put, Heap.lookup_put, Heap.lookup_set_none,
hxl, hpq, hna, hnp, hnr0, hnl, hng, d_a_p, e_p_a, d_a_r0, e_r0_a, d_a_l, e_l_a, d_a_g, e_g_a, d_a_x, e_x_a, d_a_q, e_q_a, d_p_r0, e_r0_p, d_p_l, e_l_p, d_p_g, e_g_p, d_p_x, e_x_p, d_p_q, e_q_p, d_r0_l, e_l_r0, d_r0_g, e_g_r0, d_r0_x, e_x_r0, d_r0_q, e_q_r0, d_l_g, e_g_l, d_l_x, e_x_l, d_l_q, e_q_l, d_g_x, e_x_g, d_g_q, e_q_g, d_x_q, e_q_x, lt_a, lt_p, lt_r0, lt_l, lt_g, lt_x, lt_q, hnx, hnq, hra, hrootp, hql, hql2]
          · intro y h1 h2 h3 h4 h5 h6 h7
            have h8 : y ≠ x := fun e => h6 (by rw [e])
            have h9 : y ≠ q := fun e => h7 (by rw [e])
            simp [Tree.fuel, Heap.length_put, Heap.lookup_put, Heap.lookup_set_none,
hxl, hpq, hna, hnp, hnr0, hnl, hng, d_a_p, e_p_a, d_a_r0, e_r0_a, d_a_l, e_l_a, d_a_g, e_g_a, d_a_x, e_x_a, d_a_q, e_q_a, d_p_r0, e_r0_p, d_p_l, e_l_p, d_p_g, e_g_p, d_p_x, e_x_p, d_p_q, e_q_p, d_r0_l, e_l_r0, d_r0_g, e_g_r0, d_r0_x, e_x_r0, d_r0_q, e_q_r0, d_l_g, e_g_l, d_l_x, e_x_l, d_l_q, e_q_l, d_g_x, e_x_g, d_g_q, e_q_g, d_x_q, e_q_x, lt_a, lt_p, lt_r0, lt_l, lt_g, lt_x, lt_q, hnx, hnq, hra, hrootp, hql, hql2, h1, h2, h3, h4, h5, h8, h9]

/-- The code of `BinarySearchTree::remove` for a node with two children whose predecessor is its left
child: the predecessor takes the node's place. -/
theorem BinarySearchTree.remove_pred_child {t : Tree} {c : List Frame} {PL R : Shape} {a p : Nat}
    (key : Int) (hz : t.Zipped c (.node (.node PL p .nil) a R)) (hR : R ≠ .nil)
    (hdesc : removeDescend t.fuel t key t.root = .ok (some a))
    (hpred : BinarySearchTree.predecessor t (some a) = .ok (some p)) :
    ∃ t1, BinarySearchTree.remove t key = .ok t1 ∧
      t1.Zipped c (.node PL p R) ∧ t1.heap.length = t.heap.length ∧
      (∀ y, y ≠ a → t1.item y = t.item y) ∧ t1.heap.lookup a = none := by
  -- the nodes involved
  obtain ⟨na, hna, hpa, hla, hra, hLh, hRh⟩ := hz.sub
  obtain ⟨np, hnp, hpp, hpl, hpr, hPLh, -⟩ := hLh
  obtain ⟨r0, hr0⟩ : ∃ r0, R.ptr = some r0 := by
    cases R with
    | nil => exact absurd rfl hR
    | node Rl r0 Rr => exact ⟨r0, rfl⟩
  have hmr : r0 ∈ R.addrs := Shape.ptr_mem hr0
  -- separation of the parts of the subtree
  have hnd := hz.nodupSub
  simp only [Shape.addrs, List.nodup_append, List.nodup_cons, List.Disjoint, List.mem_cons,
    List.mem_append, List.not_mem_nil, or_false, List.append_nil] at hnd
  obtain ⟨⟨hPLn, -, hpPL⟩, ⟨haR, hRn⟩, hdLR⟩ := hnd
  have hS : ∀ y, (y ∈ PL.addrs ∨ y = p ∨ y = a ∨ y ∈ R.addrs) →
      y ∈ (Shape.node (.node PL p .nil) a R).addrs := by
    intro y hy
    simp only [Shape.addrs, List.mem_append, List.mem_cons, List.not_mem_nil, or_false]
    tauto
  have hap : a ≠ p := fun e => hdLR (Or.inr rfl) (Or.inl e.symm)
  have har0 : a ≠ r0 := fun e => haR (e ▸ hmr)
  have hpr0 : p ≠ r0 := fun e => hdLR (Or.inr rfl) (Or.inr (e ▸ hmr))
  obtain ⟨nr0, hnr0⟩ := hRh.live hmr
  have hproot : t.root ≠ some p := by
    intro e
    cases c with
    | nil =>
      have := hz.root
      simp only [ctxRoot, Shape.ptr] at this
      rw [this] at e
      exact hap (Option.some.inj e)
    | cons f c =>
      obtain ⟨x, hx, hxm⟩ := ctxRoot_cons_mem f c (Shape.node (.node PL p .nil) a R).ptr
      rw [← hz.root, e] at hx
      cases hx
      exact hz.ctx_not_mem hxm (hS _ (Or.inr (Or.inl rfl)))
  have hrootiff : t.root = some a ↔ na.parent = none := by
    rw [hz.root_eq_iff, hpa]
    cases c <;> simp [ctxParent]
  obtain ⟨t1, hrun, hlen, hroot1, hl1a, hl1p, hl1r, hl1x, hl1q, hl1o⟩ :=
    BinarySearchTree.remove_pred_child_run key hdesc hpred hna hnp hnr0 hla (hra.trans hr0) hpr hpp
      hap har0 hpr0
      (by
        intro x hx
        have hxm : x ∈ PL.addrs := Shape.ptr_mem (hpl.symm.trans hx)
        refine ⟨?_, ?_, ?_, hPLh.live hxm⟩
        · rintro rfl; exact hdLR (Or.inl hxm) (Or.inl rfl)
        · rintro rfl; exact hpPL hxm rfl
        · rintro rfl; exact hdLR (Or.inl hxm) (Or.inr hmr))
      (by
        intro q hq
        have hcq : ctxParent c = some q := hpa.symm.trans hq
        have hne : ∀ y, y ∈ (Shape.node (.node PL p .nil) a R).addrs → q ≠ y := by
          intro y hy e
          exact hz.parent_ne hy (e ▸ hcq)
        refine ⟨hne _ (hS _ (Or.inr (Or.inr (Or.inl rfl)))), hne _ (hS _ (Or.inr (Or.inl rfl))),
          hne _ (hS _ (Or.inr (Or.inr (Or.inr hmr)))), ?_, ?_⟩
        · intro e
          exact hne q (hS _ (Or.inl (Shape.ptr_mem (hpl.symm.trans e)))) rfl
        · cases c with
          | nil => simp [ctxParent] at hcq
          | cons f c =>
            simp only [ctxParent, Option.some.injEq] at hcq
            subst hcq
            obtain ⟨nq, hnq, -⟩ := hz.ctx
            exact ⟨nq, hnq⟩)
      hrootiff hproot
  refine ⟨t1, hrun, ?_, hlen, ?_, hl1a⟩
  · -- the shape: unlink the predecessor, then put it at the place of the node
    have hzbig : t.Zipped (⟨a, .left, R⟩ :: c) (.node PL p .nil) := Tree.Zipped.up.mpr hz
    obtain ⟨tv, hzv, hvhead, hvx, hvo⟩ := splice_virtual hzbig
    have hzv' : tv.Zipped c (.node PL a R) := Tree.Zipped.up.mp hzv
    have hva := (hvhead na hna).1 rfl
    simp only at hva hvx hvo
    refine replace_zipped hzv' ?_ ?_ ?_ ?_ ?_ ?_ ?_
    · -- the predecessor is not in the tree once unlinked
      rw [plug_addrs]
      simp only [Shape.addrs, List.mem_append, List.mem_cons, not_or]
      have hd := hz.disjoint p (hS _ (Or.inr (Or.inl rfl)))
      refine ⟨⟨hd.1, fun h => hpPL h rfl, fun e => hap e.symm, ?_⟩, hd.2⟩
      intro h
      exact hdLR (Or.inr rfl) (Or.inr h)
    · rw [hroot1]
      cases c with
      | nil => simp [ctxParent] at hpa; simp [hpa, ctxRoot]
      | cons f c =>
        simp only [ctxParent] at hpa
        simp only [hpa, ctxRoot]
        exact hz.root
    · exact ⟨_, hl1p, hpa, hpl, hr0.symm⟩
    · rintro f c' rfl nq hnq
      have hq : na.parent = some f.addr := hpa
      have hfa : f.addr ≠ a := fun e => hz.parent_ne (hS _ (Or.inr (Or.inr (Or.inl rfl))))
        (by simp [ctxParent, e])
      have hfx : PL.ptr ≠ some f.addr := fun e =>
        hz.parent_ne (hS _ (Or.inl (Shape.ptr_mem e))) rfl
      rw [hvo f.addr hfa hfx] at hnq
      obtain ⟨nq', hnq', -, hd, -, -⟩ := hz.ctx
      rw [hnq] at hnq'
      cases hnq'
      have := hl1q f.addr nq hq hnq
      refine ⟨_, this, ?_, ?_, ?_⟩
      · split <;> rfl
      · intro hdir
        simp only [hdir, Shape.ptr] at hd
        simp [hd.1]
      · intro hdir
        simp only [hdir, Shape.ptr] at hd
        have hne : nq.left ≠ some a := by
          rw [hd.1]
          intro e
          exact (hz.not_mem_ctx (hS _ (Or.inr (Or.inr (Or.inl rfl))))).2.1 (Shape.ptr_mem e)
        simp [hne]
    · intro x nx hx hnx
      have hxm : x ∈ PL.addrs := Shape.ptr_mem hx
      obtain ⟨nx0, hnx0⟩ := hPLh.live hxm
      rw [hvx x nx0 hx hnx0] at hnx
      cases hnx
      exact ⟨_, hl1x x nx0 (hpl.trans hx) hnx0, rfl, rfl, rfl⟩
    · intro x nx hx hnx
      rw [hr0] at hx
      cases hx
      have h1 : r0 ≠ a := fun e => har0 e.symm
      have h2 : PL.ptr ≠ some r0 := fun e => hdLR (Or.inl (Shape.ptr_mem e)) (Or.inr hmr)
      rw [hvo r0 h1 h2, hnr0] at hnx
      cases hnx
      exact ⟨_, hl1r, rfl, rfl, rfl⟩
    · intro y hya hyp hyc hyl hyr
      have h3 : y ≠ r0 := fun e => hyr (e ▸ hr0)
      have h4 : np.left ≠ some y := fun e => hyl (hpl.symm.trans e)
      have h5 : na.parent ≠ some y := fun e => hyc (hpa.symm.trans e)
      exact .of_eq ((hl1o y hya hyp h3 h4 h5).trans (hvo y hya hyl).symm)
  · intro y hy
    by_cases hyp : y = p
    · subst hyp
      rw [Tree.item_of_lookup hl1p, Tree.item_of_lookup hnp]
    by_cases hyr : y = r0
    · subst hyr
      rw [Tree.item_of_lookup hl1r, Tree.item_of_lookup hnr0]
    by_cases hyx : np.left = some y
    · obtain ⟨nx, hnx⟩ := hPLh.live (Shape.ptr_mem (hpl.symm.trans hyx))
      rw [Tree.item_of_lookup (hl1x y nx hyx hnx), Tree.item_of_lookup hnx]
    by_cases hyq : na.parent = some y
    · obtain ⟨nq, hnq⟩ : ∃ nq, t.heap.lookup y = some nq := by
        cases c with
        | nil => simp [ctxParent, hpa] at hyq
        | cons f c =>
          simp only [hpa, ctxParent, Option.some.injEq] at hyq
          subst hyq
          obtain ⟨nq, hnq, -⟩ := hz.ctx
          exact ⟨nq, hnq⟩
      rw [Tree.item_of_lookup (hl1q y nq hyq hnq), Tree.item_of_lookup hnq]
      split <;> rfl
    exact Tree.item_congr (hl1o y hy hyp hyr hyx hyq)

/-- The code of `BinarySearchTree::remove` for a node with two children whose predecessor lies deeper in
the left subtree: the predecessor is unlinked from its parent and
takes the node's place. -/
theorem BinarySearchTree.remove_pred_deep {t : Tree} {c cL : List Frame} {f1 : Frame} {PL R : Shape}
    {a p : Nat} (key : Int)
    (hz : t.Zipped c (.node (plug (f1 :: cL) (.node PL p .nil)) a R)) (hf1 : f1.dir = .right)
    (hR : R ≠ .nil)
    (hdesc : removeDescend t.fuel t key t.root = .ok (some a))
    (hpred : BinarySearchTree.predecessor t (some a) = .ok (some p)) :
    ∃ t1, BinarySearchTree.remove t key = .ok t1 ∧
      t1.Zipped c (.node (plug (f1 :: cL) PL) p R) ∧ t1.heap.length = t.heap.length ∧
      (∀ y, y ≠ a → t1.item y = t.item y) ∧ t1.heap.lookup a = none := by
  have hzbig : t.Zipped (f1 :: (cL ++ ⟨a, .left, R⟩ :: c)) (.node PL p .nil) :=
    (@Tree.Zipped.append t (f1 :: cL) (⟨a, .left, R⟩ :: c) (.node PL p .nil)).mpr
      (Tree.Zipped.up.mpr hz)
  obtain ⟨L, hLdef⟩ : ∃ L, L = plug (f1 :: cL) (.node PL p .nil) := ⟨_, rfl⟩
  rw [← hLdef] at hz
  -- the nodes involved
  obtain ⟨na, hna, hpa, hla, hra, hLh, hRh⟩ := hz.sub
  obtain ⟨np, hnp, hpp, hpl, hpr, hPLh, -⟩ := hzbig.sub
  obtain ⟨ng, hng, -, hd, -, -⟩ := hzbig.ctx
  simp only [hf1] at hd
  obtain ⟨hgl, hgr⟩ := hd
  simp only [ctxParent] at hpp
  obtain ⟨r0, hr0⟩ : ∃ r0, R.ptr = some r0 := by
    cases R with
    | nil => exact absurd rfl hR
    | node Rl r0 Rr => exact ⟨r0, rfl⟩
  have hmr : r0 ∈ R.addrs := Shape.ptr_mem hr0
  obtain ⟨l, hlr, hlm⟩ := ctxRoot_cons_mem f1 cL (Shape.node PL p .nil).ptr
  have hLptr : L.ptr = some l := by rw [hLdef, plug_ptr]; exact hlr
  have hLaddrs : L.addrs = ctxBefore (f1 :: cL) ++ (Shape.node PL p .nil).addrs ++
      ctxAfter (f1 :: cL) := by rw [hLdef, plug_addrs]
  -- separation of the parts of the subtree
  have hnd := hz.nodupSub
  simp only [Shape.addrs, List.nodup_append, List.nodup_cons, List.Disjoint, List.mem_cons] at hnd
  obtain ⟨hLn, ⟨haR, hRn⟩, hdLR⟩ := hnd
  have hLn' := hLn
  rw [hLaddrs, nodup_around] at hLn'
  obtain ⟨hPn, -, hLsep⟩ := hLn'
  simp only [Shape.addrs, List.nodup_append, List.nodup_cons, List.Disjoint, List.mem_cons,
    List.mem_append, List.not_mem_nil, or_false, List.append_nil] at hPn hLsep
  obtain ⟨hPLn, -, hpPL⟩ := hPn
  have hctxL : ∀ y, (y ∈ ctxBefore (f1 :: cL) ∨ y ∈ ctxAfter (f1 :: cL)) → y ∈ L.addrs := by
    intro y hy
    rw [hLaddrs]
    simp only [List.mem_append]
    tauto
  have hsubL : ∀ y, (y ∈ PL.addrs ∨ y = p) → y ∈ L.addrs := by
    intro y hy
    rw [hLaddrs]
    simp only [Shape.addrs, List.mem_append, List.mem_cons, List.not_mem_nil, or_false]
    tauto
  have hS : ∀ y, (y ∈ L.addrs ∨ y = a ∨ y ∈ R.addrs) → y ∈ (Shape.node L a R).addrs := by
    intro y hy
    simp only [Shape.addrs, List.mem_append, List.mem_cons]
    tauto
  have hgm : f1.addr ∈ ctxBefore (f1 :: cL) ∨ f1.addr ∈ ctxAfter (f1 :: cL) :=
    (mem_ctxAddrs_cons f1 cL f1.addr).mpr (Or.inl (Or.inl rfl))
  have hsibm : ∀ y ∈ f1.sib.addrs, y ∈ ctxBefore (f1 :: cL) ∨ y ∈ ctxAfter (f1 :: cL) :=
    fun y hy => (mem_ctxAddrs_cons f1 cL y).mpr (Or.inl (Or.inr hy))
  have hsep : ∀ y z, (y ∈ PL.addrs ∨ y = p) →
      (z ∈ ctxBefore (f1 :: cL) ∨ z ∈ ctxAfter (f1 :: cL)) → y ≠ z := by
    rintro y z hy hz' rfl
    rcases hz' with h | h
    · exact (hLsep y hy).1 h
    · exact (hLsep y hy).2 h
  have hpL : p ∈ L.addrs := hsubL p (Or.inr rfl)
  have hlL : l ∈ L.addrs := hctxL l hlm
  have hgL : f1.addr ∈ L.addrs := hctxL _ hgm
  have hLa : ∀ y ∈ L.addrs, a ≠ y := fun y hy e => hdLR hy (Or.inl e.symm)
  have hLr : ∀ y ∈ L.addrs, r0 ≠ y := fun y hy e => hdLR hy (Or.inr (e ▸ hmr))
  have har0 : a ≠ r0 := fun e => haR (e ▸ hmr)
  obtain ⟨nr0, hnr0⟩ := hRh.live hmr
  obtain ⟨nl, hnl⟩ := hLh.live hlL
  have hproot : t.root ≠ some p := by
    intro e
    cases c with
    | nil =>
      have := hz.root
      simp only [ctxRoot, Shape.ptr] at this
      rw [this] at e
      exact hLa p hpL (Option.some.inj e)
    | cons f c =>
      obtain ⟨x, hx, hxm⟩ := ctxRoot_cons_mem f c (Shape.node L a R).ptr
      rw [← hz.root, e] at hx
      cases hx
      exact hz.ctx_not_mem hxm (hS _ (Or.inl hpL))
  have hrootiff : t.root = some a ↔ na.parent = none := by
    rw [hz.root_eq_iff, hpa]
    cases c <;> simp [ctxParent]
  have hqne : ∀ q, na.parent = some q → ∀ y, y ∈ (Shape.node L a R).addrs → y ≠ q := by
    intro q hq y hy e
    exact hz.parent_ne hy (e ▸ hpa.symm.trans hq)
  have hqlive : ∀ q, na.parent = some q → ∃ nq, t.heap.lookup q = some nq := by
    intro q hq
    have hcq : ctxParent c = some q := hpa.symm.trans hq
    cases c with
    | nil => simp [ctxParent] at hcq
    | cons f c =>
      simp only [ctxParent, Option.some.injEq] at hcq
      subst hcq
      obtain ⟨nq, hnq, -⟩ := hz.ctx
      exact ⟨nq, hnq⟩
  obtain ⟨t1, hrun, hlen, hroot1, hl1a, hl1p, hl1r, hl1l, hl1g, hl1x, hl1q, hl1o⟩ :=
    BinarySearchTree.remove_pred_deep_run key hdesc hpred hna hnp hnr0 hnl hng (hla.trans hLptr)
      (hra.trans hr0) hpr hpp
      (by
        rw [hgl]
        intro e
        exact hsep p p (Or.inr rfl) (hsibm p (Shape.ptr_mem e)) rfl)
      (by
        rw [hgl]
        intro e
        exact hLa a (hctxL a (hsibm a (Shape.ptr_mem e))) rfl)
      (hLa p hpL) har0 (hLr p hpL).symm (hLa l hlL) (hsep p l (Or.inr rfl) hlm)
      (hLr l hlL) (hLa _ hgL) (hsep p _ (Or.inr rfl) hgm) (hLr _ hgL)
      (by
        intro x hx
        have hxm : x ∈ PL.addrs := Shape.ptr_mem (hpl.symm.trans hx)
        have hxL := hsubL x (Or.inl hxm)
        refine ⟨hLa x hxL, ?_, hLr x hxL, (hsep x l (Or.inl hxm) hlm).symm,
          (hsep x _ (Or.inl hxm) hgm).symm, hPLh.live hxm⟩
        rintro rfl
        exact hpPL hxm rfl)
      (by
        intro q hq
        have h := hqne q hq
        refine ⟨h a (hS _ (Or.inr (Or.inl rfl))), h p (hS _ (Or.inl hpL)),
          h r0 (hS _ (Or.inr (Or.inr hmr))), h l (hS _ (Or.inl hlL)),
          h _ (hS _ (Or.inl hgL)), ?_, hqlive q hq⟩
        intro e
        exact h q (hS _ (Or.inl (hsubL q (Or.inl (Shape.ptr_mem (hpl.symm.trans e)))))) rfl)
      hrootiff hproot
  refine ⟨t1, hrun, ?_, hlen, ?_, hl1a⟩
  · -- the shape: unlink the predecessor, then put it at the place of the node
    obtain ⟨tv, hzv, hvhead, hvx, hvo⟩ := splice_virtual hzbig
    have hzv' : tv.Zipped c (.node (plug (f1 :: cL) PL) a R) :=
      Tree.Zipped.up.mp ((@Tree.Zipped.append tv (f1 :: cL) (⟨a, .left, R⟩ :: c) PL).mp hzv)
    have hvg := (hvhead ng hng).2 hf1
    have hL'ptr : (plug (f1 :: cL) PL).ptr = some l := by rw [plug_ptr]; exact hlr
    have hPLl : PL.ptr ≠ some l := fun e => hsep l l (Or.inl (Shape.ptr_mem e)) hlm rfl
    have hPLg : PL.ptr ≠ some f1.addr := fun e =>
      hsep _ _ (Or.inl (Shape.ptr_mem e)) hgm rfl
    refine replace_zipped hzv' ?_ ?_ ?_ ?_ ?_ ?_ ?_
    · -- the predecessor is not in the tree once unlinked
      rw [plug_addrs]
      simp only [Shape.addrs, List.mem_append, List.mem_cons, not_or, plug_addrs]
      have hd := hz.disjoint p (hS _ (Or.inl hpL))
      have hs := hLsep p (Or.inr rfl)
      exact ⟨⟨hd.1, ⟨⟨hs.1, fun h => hpPL h rfl⟩, hs.2⟩, (hLa p hpL).symm,
        fun h => hdLR hpL (Or.inr h)⟩, hd.2⟩
    · rw [hroot1]
      cases c with
      | nil => simp [ctxParent] at hpa; simp [hpa, ctxRoot]
      | cons f c =>
        simp only [ctxParent] at hpa
        simp only [hpa, ctxRoot]
        exact hz.root
    · exact ⟨_, hl1p, hpa, hL'ptr.symm, hr0.symm⟩
    · rintro f c' rfl nq hnq
      have hq : na.parent = some f.addr := hpa
      have h := hqne _ hq
      rw [hvo f.addr (h _ (hS _ (Or.inl hgL))).symm
        (fun e => h _ (hS _ (Or.inl (hsubL _ (Or.inl (Shape.ptr_mem e))))) rfl)] at hnq
      obtain ⟨nq', hnq', -, hd, -, -⟩ := hz.ctx
      rw [hnq] at hnq'
      cases hnq'
      have := hl1q f.addr nq hq hnq
      refine ⟨_, this, ?_, ?_, ?_⟩
      · split <;> rfl
      · intro hdir
        simp only [hdir, Shape.ptr] at hd
        simp [hd.1]
      · intro hdir
        simp only [hdir, Shape.ptr] at hd
        have hne : nq.left ≠ some a := by
          rw [hd.1]
          intro e
          exact (hz.not_mem_ctx (hS _ (Or.inr (Or.inl rfl)))).2.1 (Shape.ptr_mem e)
        simp [hne]
    · intro y ny hy hny
      rw [hL'ptr] at hy
      cases hy
      by_cases hlg : l = f1.addr
      · subst hlg
        rw [hng] at hnl
        cases hnl
        rw [hvg] at hny
        cases hny
        refine ⟨_, hl1l, ?_, ?_, ?_⟩ <;> simp [hpl]
      · rw [hvo l hlg hPLl, hnl] at hny
        cases hny
        refine ⟨_, hl1l, ?_, ?_, ?_⟩ <;> simp [hlg]
    · intro x nx hx hnx
      rw [hr0] at hx
      cases hx
      rw [hvo r0 (hLr _ hgL) (fun e => hLr _ (hsubL _ (Or.inl (Shape.ptr_mem e))) rfl),
        hnr0] at hnx
      cases hnx
      exact ⟨_, hl1r, rfl, rfl, rfl⟩
    · intro y hya hyp hyc hyl hyr
      have h3 : y ≠ r0 := fun e => hyr (e ▸ hr0)
      have h4 : y ≠ l := fun e => hyl (e ▸ hL'ptr)
      have h5 : na.parent ≠ some y := fun e => hyc (hpa.symm.trans e)
      by_cases hyg : y = f1.addr
      · subst hyg
        refine .of_eq ?_
        rw [hvg, hl1g (fun e => h4 e.symm), hpl]
      by_cases hyx : PL.ptr = some y
      · obtain ⟨nx, hnx⟩ := hPLh.live (Shape.ptr_mem hyx)
        refine .of_eq ?_
        rw [hvx y nx hyx hnx, hl1x y nx (hpl.trans hyx) hnx]
      · refine .of_eq ?_
        rw [hvo y hyg hyx]
        exact hl1o y hya hyp h3 h4 hyg (fun e => hyx (hpl.symm.trans e)) h5
  · intro y hy
    by_cases hyp : y = p
    · subst hyp
      rw [Tree.item_of_lookup hl1p, Tree.item_of_lookup hnp]
    by_cases hyr : y = r0
    · subst hyr
      rw [Tree.item_of_lookup hl1r, Tree.item_of_lookup hnr0]
    by_cases hyl : y = l
    · subst hyl
      rw [Tree.item_of_lookup hl1l, Tree.item_of_lookup hnl]
      split <;> rfl
    by_cases hyg : y = f1.addr
    · subst hyg
      rw [Tree.item_of_lookup (hl1g (fun e => hyl e.symm)), Tree.item_of_lookup hng]
    by_cases hyx : np.left = some y
    · obtain ⟨nx, hnx⟩ := hPLh.live (Shape.ptr_mem (hpl.symm.trans hyx))
      rw [Tree.item_of_lookup (hl1x y nx hyx hnx), Tree.item_of_lookup hnx]
    by_cases hyq : na.parent = some y
    · obtain ⟨nq, hnq⟩ := hqlive y hyq
      rw [Tree.item_of_lookup (hl1q y nq hyq hnq), Tree.item_of_lookup hnq]
      split <;> rfl
    exact Tree.item_congr (hl1o y hy hyp hyr hyl hyg hyx hyq)

/-- The code of `BinarySearchTree::remove` for a node with two children: the predecessor is the
rightmost node of the left subtree; it is unlinked there, its left subtree taking its place, and
put at the place of the removed node. -/
theorem BinarySearchTree.remove_two {t : Tree} {c : List Frame} {L R : Shape} {a : Nat}
    (key : Int) (hz : t.Zipped c (.node L a R)) (hLne : L ≠ .nil) (hRne : R ≠ .nil)
    (hdesc : removeDescend t.fuel t key t.root = .ok (some a)) :
    ∃ cL PL p t1, L = plug cL (.node PL p .nil) ∧ (∀ f ∈ cL, f.dir = .right) ∧
      BinarySearchTree.predecessor t (some a) = .ok (some p) ∧
      BinarySearchTree.remove t key = .ok t1 ∧
      t1.Zipped c (.node (plug cL PL) p R) ∧ t1.heap.length = t.heap.length ∧
      (∀ y, y ≠ a → t1.item y = t.item y) ∧ t1.heap.lookup a = none := by
  obtain ⟨na, hna, -, hla, -, hLh, -⟩ := hz.sub
  have hnd := hz.nodupSub
  simp only [Shape.addrs, List.nodup_append] at hnd
  have hLfuel : L.height < t.fuel + 1 := by
    have h1 := L.height_le_length
    have h2 := hLh.length_le hnd.1
    simp only [Tree.fuel]
    omega
  obtain ⟨p, cL, PL, hright, hsplit, hdir⟩ := rightmost_spec t L (some a) t.fuel hLne hLh hLfuel
  have hpred : BinarySearchTree.predecessor t (some a) = .ok (some p) := by
    have hne : na.left ≠ none := by
      rw [hla]
      intro e
      exact hLne (Shape.ptr_eq_none e)
    have hne' : ¬ L.ptr = none := fun e => hLne (Shape.ptr_eq_none e)
    simp [BinarySearchTree.predecessor, Tree.getNode, hna, hne', hla, hright]
  subst hsplit
  cases cL with
  | nil =>
    obtain ⟨t1, hrun, hz1, hlen, hit, hgone⟩ :=
      BinarySearchTree.remove_pred_child key hz hRne hdesc hpred
    exact ⟨[], PL, p, t1, rfl, hdir, hpred, hrun, hz1, hlen, hit, hgone⟩
  | cons f1 cL =>
    obtain ⟨t1, hrun, hz1, hlen, hit, hgone⟩ :=
      BinarySearchTree.remove_pred_deep key hz (hdir f1 (List.mem_cons_self _ _)) hRne hdesc hpred
    exact ⟨f1 :: cL, PL, p, t1, rfl, hdir, hpred, hrun, hz1, hlen, hit, hgone⟩

/-! ## The depth check of `equal-paths.cpp` -/

theorem wrap32_small {x : Int} (h1 : -2147483648 ≤ x) (h2 : x < 2147483648) : wrap32 x = x := by
  unfold wrap32
  omega

theorem EqualPaths.Node.leafDepths_node {α : Type} (k : α) (l r : EqualPaths.Node α) (d : Nat) :
    (EqualPaths.Node.node k l r).leafDepths d =
      if l.isNull && r.isNull then [d] else l.leafDepths (d + 1) ++ r.leafDepths (d + 1) := by
  cases l <;> cases r <;> simp [EqualPaths.Node.leafDepths, EqualPaths.Node.isNull]

theorem EqualPaths.Node.height_pos_of_not_null {α : Type} {t : EqualPaths.Node α}
    (h : t.isNull = false) : 0 < t.height := by
  cases t with
  | null => simp [EqualPaths.Node.isNull] at h
  | node k l r => simp [EqualPaths.Node.height]

/-- What `depthCheckHelper` computes: it returns true exactly if all leaves of the subtree are
at one depth, which is the depth recorded in `leafDepth` if one is recorded; in that case the
depth of the leaves of the subtree, if there are any, is recorded on return. -/
theorem EqualPaths.depthCheckHelper_spec {α : Type} :
    ∀ (t : EqualPaths.Node α) (d : Nat) (ld : Int), d + t.height ≤ 2147483648 →
      ((EqualPaths.depthCheckHelper t d ld).1 = true ↔
        ∃ e : Int, (ld ≠ -1 → e = ld) ∧ ∀ x ∈ t.leafDepths d, (x : Int) = e) ∧
      ((EqualPaths.depthCheckHelper t d ld).1 = true →
        (ld ≠ -1 → (EqualPaths.depthCheckHelper t d ld).2 = ld) ∧
        (∀ x ∈ t.leafDepths d, (x : Int) = (EqualPaths.depthCheckHelper t d ld).2) ∧
        (ld = -1 → t.leafDepths d = [] → (EqualPaths.depthCheckHelper t d ld).2 = -1)) := by
  intro t
  induction t with
  | null =>
    intro d ld _
    refine ⟨⟨fun _ => ⟨ld, fun _ => rfl, fun x hx => ?_⟩, fun _ => rfl⟩,
      fun _ => ⟨fun _ => rfl, fun x hx => ?_, fun h _ => h⟩⟩
    · simp [EqualPaths.Node.leafDepths] at hx
    · simp [EqualPaths.Node.leafDepths] at hx
  | node k l r ihl ihr =>
    intro d ld hh
    rw [EqualPaths.Node.leafDepths_node]
    simp only [EqualPaths.depthCheckHelper]
    by_cases hleaf : (l.isNull && r.isNull) = true
    · simp only [hleaf, if_true]
      by_cases hld : ld = -1
      · subst hld
        have e1 : (if (-1 : Int) = -1 then (d : Int) else -1) = d := if_pos rfl
        rw [e1]
        refine ⟨⟨fun _ => ⟨d, fun h => absurd rfl h, fun x hx => ?_⟩, fun _ => by simp⟩,
          fun _ => ⟨fun h => absurd rfl h, fun x hx => ?_, fun _ h => by cases h⟩⟩
        · rw [List.mem_singleton.mp hx]
        · rw [List.mem_singleton.mp hx]
      · have e1 : (if ld = -1 then (d : Int) else ld) = ld := if_neg hld
        rw [e1]
        refine ⟨⟨fun h => ⟨ld, fun _ => rfl, fun x hx => ?_⟩, fun ⟨e, he, hx⟩ => ?_⟩, fun h => ?_⟩
        · rw [List.mem_singleton.mp hx]
          exact (of_decide_eq_true h).symm
        · apply decide_eq_true
          rw [← he hld]
          exact (hx d (List.mem_singleton_self d)).symm
        · refine ⟨fun _ => rfl, fun x hx => ?_, fun h0 => absurd h0 hld⟩
          rw [List.mem_singleton.mp hx]
          exact (of_decide_eq_true h).symm
    · have hleaf' : (l.isNull && r.isNull) = false := by simpa using hleaf
      simp only [hleaf', Bool.false_eq_true, if_false]
      -- an inner node: the subtrees are one level down, and no overflow occurs
      have hpos : 2 ≤ (EqualPaths.Node.node k l r).height := by
        simp only [EqualPaths.Node.height]
        cases hl : l.isNull with
        | false =>
          have := EqualPaths.Node.height_pos_of_not_null hl
          have := Nat.le_max_left l.height r.height
          omega
        | true =>
          have hr : r.isNull = false := by simpa [hl] using hleaf'
          have := EqualPaths.Node.height_pos_of_not_null hr
          have := Nat.le_max_right l.height r.height
          omega
      have hhl : (d + 1) + l.height ≤ 2147483648 := by
        simp only [EqualPaths.Node.height] at hh
        have := Nat.le_max_left l.height r.height
        omega
      have hhr : (d + 1) + r.height ≤ 2147483648 := by
        simp only [EqualPaths.Node.height] at hh
        have := Nat.le_max_right l.height r.height
        omega
      have hw : wrap32 ((d : Int) + 1) = ((d + 1 : Nat) : Int) := by
        rw [wrap32_small (by omega) (by omega)]
        simp
      rw [hw]
      obtain ⟨hiffl, hpostl⟩ := ihl (d + 1) ld hhl
      generalize hrl : EqualPaths.depthCheckHelper l ((d + 1 : Nat) : Int) ld = rl at hiffl hpostl
      obtain ⟨b1, ld1⟩ := rl
      simp only at hiffl hpostl ⊢
      cases b1 with
      | false =>
        simp only [Bool.false_eq_true, if_false, false_iff, false_implies, and_true]
        rintro ⟨e, he, hx⟩
        exact absurd (hiffl.mpr ⟨e, he, fun x hx' => hx x (List.mem_append_left _ hx')⟩) (by simp)
      | true =>
        simp only [if_true]
        obtain ⟨hk1, hall1, hnil1⟩ := hpostl rfl
        obtain ⟨hiffr, hpostr⟩ := ihr (d + 1) ld1 hhr
        have hne1 : ∀ x ∈ l.leafDepths (d + 1), ld1 ≠ -1 := by
          intro x hx e
          have := hall1 x hx
          omega
        refine ⟨⟨fun h => ?_, fun ⟨e, he, hx⟩ => ?_⟩, fun h => ?_⟩
        · obtain ⟨e2, he2, hx2⟩ := hiffr.mp h
          by_cases h1 : ld1 = -1
          · refine ⟨e2, fun hld => absurd ((hk1 hld).symm.trans h1) hld, fun x hx => ?_⟩
            rcases List.mem_append.mp hx with hx | hx
            · exact absurd h1 (hne1 x hx)
            · exact hx2 x hx
          · refine ⟨ld1, fun hld => hk1 hld, fun x hx => ?_⟩
            rcases List.mem_append.mp hx with hx | hx
            · exact hall1 x hx
            · exact (hx2 x hx).trans (he2 h1)
        · refine hiffr.mpr ⟨e, fun h1 => ?_, fun x hx' => hx x (List.mem_append_right _ hx')⟩
          by_cases hld : ld = -1
          · cases hL : l.leafDepths (d + 1) with
            | nil => exact absurd (hnil1 hld hL) h1
            | cons y ys =>
              have hy : y ∈ l.leafDepths (d + 1) := by rw [hL]; exact List.mem_cons_self _ _
              exact (hx y (List.mem_append_left _ hy)).symm.trans (hall1 y hy)
          · exact (he hld).trans (hk1 hld).symm
        · obtain ⟨hk2, hall2, hnil2⟩ := hpostr h
          refine ⟨fun hld => ?_, fun x hx => ?_, fun hld hnil => ?_⟩
          · have h1 : ld1 ≠ -1 := by rw [hk1 hld]; exact hld
            exact (hk2 h1).trans (hk1 hld)
          · rcases List.mem_append.mp hx with hx | hx
            · exact (hall1 x hx).trans (hk2 (hne1 x hx)).symm
            · exact hall2 x hx
          · obtain ⟨hl0, hr0⟩ := List.append_eq_nil.mp hnil
            exact hnil2 (hnil1 hld hl0) hr0

/-! ## Claims settled by running the code -/

/-- C1 (fails on the code): after insert 2, insert 1, insert 3, remove 3, insert 0 on an empty
AVL tree the calls all return, and `isBalanced()` on the resulting tree returns false: the tree
is the chain 2 - 1 - 0, whose root has a left subtree of height 2 and an empty right subtree. -/
theorem C1_height_invariant_violated :
    (AVLTree.run [.insert 2 20, .insert 1 10, .insert 3 30, .remove 3, .insert 0 0] Tree.empty).bind
      (fun t => do
        let root ← t.getNode t.root
        pure (← BinarySearchTree.isBalanced t, ← BinarySearchTree.findHeight t root.left,
          ← BinarySearchTree.findHeight t root.right))
      = .ok (false, 2, 0) := by
  decide

/-- C2 (fails on the code): after insert 1, insert 2, remove 2 on an empty AVL tree the only
node left, the root with key 1, still has the stored balance 1, while the difference of the
heights of its right and left subtrees computed by `findHeight` is 0. -/
theorem C2_stored_balance_stale :
    (AVLTree.run [.insert 1 10, .insert 2 20, .remove 2] Tree.empty).bind
      (fun t => do
        let root ← t.getNode t.root
        pure (root.key, root.left, root.right, root.balance, ← AVLTree.findBalance t t.root))
      = .ok (1, none, none, 1, 0) := by
  decide

/-- C4 (fails on the code): the tree `staleTree` is reached from the empty tree by public calls,
its in-order key sequence 5, 10, 15 is strictly increasing, the key 3 is not in it, and
`insert((3, 30))` on it dereferences a null pointer in `insertFix` instead of returning. -/
theorem C4_insert_null_dereference :
    AVLTree.run [.insert 10 100, .insert 5 50, .insert 15 150, .insert 7 70, .remove 7,
        .insert 7 70, .remove 7] Tree.empty = .ok staleTree ∧
      staleTree.inorder = .ok [(5, 50), (10, 100), (15, 150)] ∧
      AVLTree.insert staleTree 3 30 = .fault .nullDeref := by
  decide

/-- C8 (fails on the code): on the tree reached by inserting 10, 5, 15, 7, removing 7, inserting
7 and removing 7, the key 3 is absent (`find` returns `end()`), and the round trip of
`insert((3, 30))` followed by `remove(3)` yields no tree: the insert dereferences a null pointer. -/
theorem C8_round_trip_faults :
    (AVLTree.run [.insert 10 100, .insert 5 50, .insert 15 150, .insert 7 70, .remove 7,
        .insert 7 70, .remove 7] Tree.empty).bind
      (fun t => do
        let before ← t.inorder
        let found ← BinarySearchTree.find t 3
        pure (before, found, AVLTree.run [.insert 3 30, .remove 3] t))
      = .ok ([(5, 50), (10, 100), (15, 150)], none, .fault .nullDeref) := by
  decide

/-- C12 (fails on the code): after insert 1, insert 2, remove 2, insert 2 on an empty AVL tree
all four calls have returned, the tree has the two nodes 1 (root) and 2 (its right child), and
the stored balance of the root is 2, outside -1, 0, 1. -/
theorem C12_balance_out_of_range :
    (AVLTree.run [.insert 1 10, .insert 2 20, .remove 2, .insert 2 20] Tree.empty).bind
      (fun t => do
        let root ← t.getNode t.root
        let child ← t.getNode root.right
        pure (← t.inorder, root.key, child.key, root.balance))
      = .ok ([(1, 10), (2, 20)], 1, 2, 2) := by
  decide

/-- C13 (fails on the code): on the three-node tree built by inserting 20, 10, 30, `clear()`
returns with `root_` null and `empty()` true, but it has deleted only the leaf 10 (address 1):
the nodes 20 and 30 (addresses 0 and 2) are never released. -/
theorem C13_clear_releases_one_node :
    AVLTree.run [.insert 20 200, .insert 10 100, .insert 30 300] Tree.empty = .ok sampleTree ∧
      (BinarySearchTree.clear sampleTree).bind
        (fun t => pure (t.root, BinarySearchTree.empty t, t.heap.map Option.isSome))
        = .ok (none, true, [true, false, true]) := by
  decide

/-- C15: inserting 1, 2, ..., 7 in ascending order into an empty AVL tree returns the perfect
tree 4(2(1,3),6(5,7)): its root holds key 4, `findHeight` of the root is 3, and `isBalanced()`
is true. -/
theorem C15_ascending_inserts_perfect :
    AVLTree.run [.insert 1 10, .insert 2 20, .insert 3 30, .insert 4 40, .insert 5 50,
        .insert 6 60, .insert 7 70] Tree.empty = .ok perfectTree ∧
      perfectTree.keyAt 3 = 4 ∧ perfectTree.root = some 3 ∧
      BinarySearchTree.findHeight perfectTree perfectTree.root = .ok 3 ∧
      BinarySearchTree.isBalanced perfectTree = .ok true ∧
      perfectTree.inorder = .ok [(1, 10), (2, 20), (3, 30), (4, 40), (5, 50), (6, 60), (7, 70)] := by
  decide

/-- C16: inserting 10, 20, 30 into an empty AVL tree returns the tree with root 20, left child
10 and right child 30, all three stored balances 0. The third insert calls `insertFix` on the
chain 10 - 20 - 30 (`chainTree`), and its result is one left rotation at the node 10 followed
only by the two balance writes of the RR case. -/
theorem C16_three_keys_one_left_rotation :
    AVLTree.run [.insert 10 100, .insert 20 200, .insert 30 300] Tree.empty = .ok rotatedTree ∧
      (AVLTree.run [.insert 10 100, .insert 20 200] Tree.empty).bind
          (fun t => AVLTree.insert t 30 300)
        = AVLTree.insertFix chainTree.fuel chainTree (some 1) (some 0) ∧
      AVLTree.insertFix chainTree.fuel chainTree (some 1) (some 0)
        = (AVLTree.rotateLeft chainTree (some 0)).bind
            (fun t => (t.setBalance (some 0) 0).bind (fun t => t.setBalance (some 1) 0)) ∧
      rotatedTree.inorder = .ok [(10, 100), (20, 200), (30, 300)] ∧
      (rotatedTree.getNode rotatedTree.root).bind
          (fun root => do
            let l ← rotatedTree.getNode root.left
            let r ← rotatedTree.getNode root.right
            pure (root.key, l.key, r.key, root.balance, l.balance, r.balance))
        = .ok (20, 10, 30, 0, 0, 0) := by
  decide

/-- C17 (fails on the code): in the AVL tree built by inserting 10, 20, 30, `remove(20)` leaves
the two-node tree with root 10 and right child 30, height-balanced, but the stored balance of
the surviving root is 0, while its right subtree is one higher than its left. -/
theorem C17_root_removal_balance_zero :
    (AVLTree.run [.insert 10 100, .insert 20 200, .insert 30 300, .remove 20] Tree.empty).bind
      (fun t => do
        let root ← t.getNode t.root
        let child ← t.getNode root.right
        pure (root.key, root.left, child.key, ← BinarySearchTree.isBalanced t,
          root.balance, ← AVLTree.findBalance t t.root))
      = .ok (10, none, 30, true, 0, 1) := by
  decide

/-- C19 (fails on the code): `lrTree` is the state in which inserting 40 after 50, 20, 60, 10, 30
calls `insertFix`: parent 50 has balance -2, its left child 20 has balance +1, and the middle
node 30 had balance +1 before the rotations. `insertFix` returns with parent balance -1 and
child balance 0 (middle 0), not parent 0 and child -1. -/
theorem C19_lr_case_reads_rotated_balance :
    (AVLTree.run [.insert 50 500, .insert 20 200, .insert 60 600, .insert 10 100,
          .insert 30 300] Tree.empty).bind (fun t => AVLTree.insert t 40 400)
        = AVLTree.insertFix lrTree.fuel lrTree (some 1) (some 0) ∧
      (lrTree.getNode (some 0)).bind
          (fun parent => do
            let child ← lrTree.getNode parent.left
            let middle ← lrTree.getNode child.right
            pure (parent.left, child.right, parent.balance, child.balance, middle.balance))
        = .ok (some 1, some 4, -2, 1, 1) ∧
      (AVLTree.insertFix lrTree.fuel lrTree (some 1) (some 0)).bind
          (fun t => pure (t.root, t.balanceAt 0, t.balanceAt 1, t.balanceAt 4))
        = .ok (some 4, -1, 0, 0) := by
  decide

/-- C20 (fails on the code): `rlTree` is the state in which inserting 60 after 50, 20, 80, 70, 90
calls `insertFix`: parent 50 has balance +2, its right child 80 has balance -1, and the middle
node 70 had balance -1 before the rotations. `insertFix` returns with parent balance -1 and
child balance 0 (middle 0), not parent 0 and child +1. -/
theorem C20_rl_case_is_not_the_mirror :
    (AVLTree.run [.insert 50 500, .insert 20 200, .insert 80 800, .insert 70 700,
          .insert 90 900] Tree.empty).bind (fun t => AVLTree.insert t 60 600)
        = AVLTree.insertFix rlTree.fuel rlTree (some 2) (some 0) ∧
      (rlTree.getNode (some 0)).bind
          (fun parent => do
            let child ← rlTree.getNode parent.right
            let middle ← rlTree.getNode child.left
            pure (parent.right, child.left, parent.balance, child.balance, middle.balance))
        = .ok (some 2, some 3, 2, -1, -1) ∧
      (AVLTree.insertFix rlTree.fuel rlTree (some 2) (some 0)).bind
          (fun t => pure (t.root, t.balanceAt 0, t.balanceAt 2, t.balanceAt 3))
        = .ok (some 3, -1, 0, 0) := by
  decide

/-- C21 (fails on the code): in the AVL tree built by inserting 10 and 20 the stored balances of
the root 10 (+1) and of its right child 20 (0) are the true height differences. After
`rotateLeft` on the root, the node 20 is the root with the stored balance +1, while its true
height difference is -1 (its only child is the left child 10). -/
theorem C21_rotation_balance_wrong_sign :
    (AVLTree.run [.insert 10 100, .insert 20 200] Tree.empty).bind
      (fun t => do
        let x ← t.getNode t.root
        let y ← t.getNode x.right
        pure (x.key, x.balance, ← AVLTree.findBalance t t.root,
          y.key, y.balance, ← AVLTree.findBalance t x.right))
      = .ok (10, 1, 1, 20, 0, 0) ∧
    (AVLTree.run [.insert 10 100, .insert 20 200] Tree.empty).bind
      (fun t => do
        let t' ← AVLTree.rotateLeft t t.root
        let y ← t'.getNode t'.root
        let x ← t'.getNode y.left
        pure (y.key, y.right, x.key, y.balance, ← AVLTree.findBalance t' t'.root))
      = .ok (20, none, 10, 1, -1) := by
  decide

/-- C24 (fails on the code): `zigzagTree` is the state in which `remove(40)` calls
`removeFix(node, -1)` after inserting 30, 10, 40, 20: node 30 has balance -1, so balance + diff
is -2, and its left child 10 has balance +1. The call rotates left at the child 10 and then
right at 10 again, not at the node 30: the result keeps 30 as the root, with the left child 20,
whose left child is 10, and no right child. It is the result of the public calls, and it is not
height-balanced. -/
theorem C24_double_rotation_second_at_child :
    (zigzagTree.balanceAt 0, zigzagTree.balanceAt 1) = (-1, 1) ∧
    AVLTree.run [.insert 30 300, .insert 10 100, .insert 40 400, .insert 20 200, .remove 40]
        Tree.empty = AVLTree.removeFix zigzagTree.fuel zigzagTree (some 0) (-1) ∧
    (AVLTree.removeFix zigzagTree.fuel zigzagTree (some 0) (-1)).bind
      (fun t => do
        let root ← t.getNode t.root
        let l ← t.getNode root.left
        let ll ← t.getNode l.left
        pure (root.key, root.right, l.key, l.right, ll.key, ← BinarySearchTree.isBalanced t))
      = .ok (30, none, 20, none, 10, false) := by
  decide

/-- C25 (fails on the code): `leftChainTree` is the state in which `remove(40)` calls
`removeFix(node, -1)` after inserting 30, 20, 40, 10: node 30 has balance -1, so balance + diff
is -2, and its left child 20 has balance -1. The call rotates right at 30, which makes 20 the
root with the children 10 and 30, but the stored balances afterwards are +1 at the node 30 and
-3 at the child 20, not 0 and 0. It is the result of the public calls. -/
theorem C25_single_rotation_balances_not_zero :
    (leftChainTree.balanceAt 0, leftChainTree.balanceAt 1) = (-1, -1) ∧
    AVLTree.run [.insert 30 300, .insert 20 200, .insert 40 400, .insert 10 100, .remove 40]
        Tree.empty = AVLTree.removeFix leftChainTree.fuel leftChainTree (some 0) (-1) ∧
    (AVLTree.removeFix leftChainTree.fuel leftChainTree (some 0) (-1)).bind
      (fun t => do
        let c ← t.getNode t.root
        let l ← t.getNode c.left
        let node ← t.getNode c.right
        pure (c.key, l.key, node.key, node.balance, c.balance))
      = .ok (20, 10, 30, 1, -3) := by
  decide

/-- C29 (fails on the code): the same eight operations are applied from the empty tree to an
AVL tree and to a plain binary search tree. The plain tree ends with the in-order sequence
(3, 30), (5, 50), (10, 100), (15, 150); the AVL tree yields no sequence, because its last
`insert` dereferences a null pointer. -/
theorem C29_avl_faults_where_bst_returns :
    (AVLTree.run [.insert 10 100, .insert 5 50, .insert 15 150, .insert 7 70, .remove 7,
        .insert 7 70, .remove 7, .insert 3 30] Tree.empty).bind (fun t => t.inorder)
      = .fault .nullDeref ∧
    (BinarySearchTree.run [.insert 10 100, .insert 5 50, .insert 15 150, .insert 7 70, .remove 7,
        .insert 7 70, .remove 7, .insert 3 30] Tree.empty).bind (fun t => t.inorder)
      = .ok [(3, 30), (5, 50), (10, 100), (15, 150)] := by
  decide

/-! ## Claims about lookups and no-op calls -/

theorem sampleTree_searchTree : sampleTree.SearchTree sampleShape := by
  refine ⟨⟨rfl, ?_, by decide⟩, by decide⟩
  refine ⟨_, rfl, rfl, rfl, rfl, ?_, ?_⟩ <;> exact ⟨_, rfl, rfl, rfl, rfl, trivial, trivial⟩

theorem sampleTree_built :
    AVLTree.run [.insert 20 200, .insert 10 100, .insert 30 300] Tree.empty = .ok sampleTree := by
  decide

theorem Tree.SearchTree.internalFind_eq {t : Tree} {s : Shape} (hs : t.SearchTree s) (key : Int) :
    BinarySearchTree.internalFind t key = .ok (s.locate t key) := by
  unfold BinarySearchTree.internalFind
  by_cases hr : t.root = none
  · have : s = .nil := by
      cases s with
      | nil => rfl
      | node l a r => have := hs.1.1; simp [Shape.ptr, hr] at this
    subst this
    simp [hr, Shape.locate]
  · simp only [hr, ↓reduceIte]
    rw [hs.1.1]
    exact internalFindLoop_eq t key s none _ hs.1.2.1 (by have := hs.1.height_lt_fuel; omega)

/-- C10: on a tree satisfying the BST ordering invariant, `internalFind(k)` (and `find(k)`)
returns; it returns the address of a node exactly when that node is in the tree and holds
key k, and it returns the null/end sentinel exactly when no node of the tree holds k. -/
theorem C10_find_exact (t : Tree) (s : Shape) (key : Int) (hs : t.SearchTree s) :
    ∃ p, BinarySearchTree.internalFind t key = .ok p ∧ BinarySearchTree.find t key = .ok p ∧
      (∀ a, p = some a ↔ a ∈ s.addrs ∧ t.keyAt a = key) ∧
      (p = none ↔ key ∉ s.addrs.map t.keyAt) :=
  ⟨s.locate t key, hs.internalFind_eq key, hs.internalFind_eq key,
    Shape.locate_eq_some t key s hs.2, Shape.locate_eq_none t key s hs.2⟩

theorem C10_find_exact_witness :
    sampleTree.SearchTree sampleShape ∧
      ∃ p, BinarySearchTree.internalFind sampleTree 30 = .ok p ∧
        BinarySearchTree.find sampleTree 30 = .ok p ∧
        (∀ a, p = some a ↔ a ∈ sampleShape.addrs ∧ sampleTree.keyAt a = 30) ∧
        (p = none ↔ (30 : Int) ∉ sampleShape.addrs.map sampleTree.keyAt) :=
  ⟨sampleTree_searchTree, C10_find_exact sampleTree sampleShape 30 sampleTree_searchTree⟩

/-- C9: on a tree satisfying the BST ordering invariant, `operator[](k)` throws
`std::out_of_range` exactly when no node of the tree holds k, and when a node holds k it
returns the value stored in that node (the call is a pure read: it yields no new tree). -/
theorem C9_index_fails_iff_absent (t : Tree) (s : Shape) (key : Int) (hs : t.SearchTree s) :
    (BinarySearchTree.index t key = .fault .outOfRange ↔ key ∉ s.addrs.map t.keyAt) ∧
      (∀ a ∈ s.addrs, t.keyAt a = key → BinarySearchTree.index t key = .ok (t.item a).2) := by
  have hf := hs.internalFind_eq key
  constructor
  · rw [← Shape.locate_eq_none t key s hs.2]
    unfold BinarySearchTree.index
    rw [hf]
    cases hloc : s.locate t key with
    | none => simp
    | some a =>
      obtain ⟨ha, -⟩ := (Shape.locate_eq_some t key s hs.2 a).mp hloc
      obtain ⟨n, hn⟩ := hs.1.2.1.live ha
      simp [Tree.getNode_some hn]
  · intro a ha hk
    have hloc := (Shape.locate_eq_some t key s hs.2 a).mpr ⟨ha, hk⟩
    obtain ⟨n, hn⟩ := hs.1.2.1.live ha
    unfold BinarySearchTree.index
    rw [hf, hloc]
    simp [Tree.getNode_some hn, Tree.item, hn]

theorem C9_index_fails_iff_absent_witness :
    sampleTree.SearchTree sampleShape ∧
      (BinarySearchTree.index sampleTree 25 = .fault .outOfRange ↔
        (25 : Int) ∉ sampleShape.addrs.map sampleTree.keyAt) ∧
      (∀ a ∈ sampleShape.addrs, sampleTree.keyAt a = 25 →
        BinarySearchTree.index sampleTree 25 = .ok (sampleTree.item a).2) :=
  ⟨sampleTree_searchTree, C9_index_fails_iff_absent sampleTree sampleShape 25 sampleTree_searchTree⟩

/-- C7: on a tree satisfying the BST ordering invariant, `remove(k)` for a key k held by no
node returns normally and returns the very same tree (same heap, same `root_`), both for
`AVLTree::remove` and for `BinarySearchTree::remove`. -/
theorem C7_remove_absent_is_noop (t : Tree) (s : Shape) (key : Int) (hs : t.SearchTree s)
    (habs : key ∉ s.addrs.map t.keyAt) :
    AVLTree.remove t key = .ok t ∧ BinarySearchTree.remove t key = .ok t := by
  have hloc := (Shape.locate_eq_none t key s hs.2).mpr habs
  have hd : removeDescend t.fuel t key t.root = .ok none := by
    rw [hs.1.1, ← hloc]
    exact removeDescend_eq t key s none _ hs.1.2.1 (by have := hs.1.height_lt_fuel; omega)
  constructor
  · simp [AVLTree.remove, hd]
  · simp [BinarySearchTree.remove, hd]

theorem C7_remove_absent_is_noop_witness :
    sampleTree.SearchTree sampleShape ∧ (25 : Int) ∉ sampleShape.addrs.map sampleTree.keyAt ∧
      AVLTree.remove sampleTree 25 = .ok sampleTree ∧
      BinarySearchTree.remove sampleTree 25 = .ok sampleTree :=
  ⟨sampleTree_searchTree, by decide,
    C7_remove_absent_is_noop sampleTree sampleShape 25 sampleTree_searchTree (by decide)⟩

/-- C6: on a tree satisfying the BST ordering invariant, `insert((k, v))` for a key k held by
the node at address a returns the tree in which that node's value is v and nothing else
differs: same `root_`, same heap slots, and in the slot of a the same key, links and balance.
This holds for `AVLTree::insert` and for `BinarySearchTree::insert`. -/
theorem C6_overwrite_changes_only_value (t : Tree) (s : Shape) (key value : Int) (a : Nat)
    (n : Node) (hs : t.SearchTree s) (ha : a ∈ s.addrs) (hn : t.heap.lookup a = some n)
    (hk : n.key = key) :
    AVLTree.insert t key value =
        .ok { t with heap := t.heap.put a { n with value := value } } ∧
      BinarySearchTree.insert t key value =
        .ok { t with heap := t.heap.put a { n with value := value } } := by
  have hloc : s.locate t key = some a :=
    (Shape.locate_eq_some t key s hs.2 a).mpr ⟨ha, by rw [Tree.keyAt_of_lookup hn, hk]⟩
  have hroot : t.root ≠ none := by
    have := hs.1.1
    cases s with
    | nil => simp [Shape.addrs] at ha
    | node l b r => simp [this, Shape.ptr]
  have hd := insertDescend_found t key value s none none t.fuel a n hs.1.2.1
    (by have := hs.1.height_lt_fuel; omega) hloc hn
  rw [← hs.1.1] at hd
  constructor
  · simp [AVLTree.insert, hroot, hd]
  · simp [BinarySearchTree.insert, hroot, hd]

theorem C6_overwrite_changes_only_value_witness :
    sampleTree.SearchTree sampleShape ∧ 2 ∈ sampleShape.addrs ∧
      AVLTree.insert sampleTree 30 7 =
        .ok { sampleTree with heap := sampleTree.heap.put 2 ⟨30, 7, some 0, none, none, 0⟩ } ∧
      BinarySearchTree.insert sampleTree 30 7 =
        .ok { sampleTree with heap := sampleTree.heap.put 2 ⟨30, 7, some 0, none, none, 0⟩ } :=
  ⟨sampleTree_searchTree, by decide,
    C6_overwrite_changes_only_value sampleTree sampleShape 30 7 2 ⟨30, 300, some 0, none, none, 0⟩
      sampleTree_searchTree (by decide) rfl rfl⟩

/-! ## Claims about the height checks -/

/-- C14: on every well-formed tree `isBalanced()` returns, and it returns true exactly when at
every node the heights that `findHeight` computes for the left and right subtrees (0 for an
empty subtree) differ by at most 1, which is height balance of the tree's shape; `findHeight`
of the root is the height of the shape. On the empty tree it returns true, and on the plain
binary search tree built by inserting 1, 2, ..., 7 it returns false, that tree having
height 7. -/
theorem C14_isBalanced_exact (t : Tree) (s : Shape) (hv : t.Valid s) :
    BinarySearchTree.isBalanced t = .ok (decide s.Balanced) ∧
      BinarySearchTree.findHeight t t.root = .ok (s.height : Int) ∧
      BinarySearchTree.findHeight t none = .ok 0 ∧
      (BinarySearchTree.isBalanced t = .ok true ↔
        ∀ a ∈ s.addrs, ∃ n hl hr, t.heap.lookup a = some n ∧
          BinarySearchTree.findHeight t n.left = .ok hl ∧
          BinarySearchTree.findHeight t n.right = .ok hr ∧ |hl - hr| ≤ 1) ∧
      BinarySearchTree.isBalanced Tree.empty = .ok true ∧
      (BinarySearchTree.run [.insert 1 10, .insert 2 20, .insert 3 30, .insert 4 40,
          .insert 5 50, .insert 6 60, .insert 7 70] Tree.empty).bind
        (fun t => do
          pure (← BinarySearchTree.isBalanced t, ← BinarySearchTree.findHeight t t.root))
        = .ok (false, 7) := by
  have hf := hv.height_lt_fuel
  have hb : BinarySearchTree.isBalanced t = .ok (decide s.Balanced) := by
    unfold BinarySearchTree.isBalanced
    rw [hv.1]
    exact balanceHelperAux_eq t s none _ hv.2.1 (by omega) (by omega)
  refine ⟨hb, ?_, ?_, ?_, by decide, by decide⟩
  · unfold BinarySearchTree.findHeight
    rw [hv.1]
    exact findHeightAux_eq t s none _ hv.2.1 (by omega)
  · simp [BinarySearchTree.findHeight, Tree.fuel, findHeightAux]
  · rw [hb, ← balanced_iff_heights t s none hv.2.1 (by omega)]
    simp

theorem C14_isBalanced_exact_witness :
    sampleTree.Valid sampleShape ∧
      BinarySearchTree.isBalanced sampleTree = .ok (decide sampleShape.Balanced) ∧
      BinarySearchTree.findHeight sampleTree sampleTree.root = .ok (sampleShape.height : Int) ∧
      BinarySearchTree.findHeight sampleTree none = .ok 0 ∧
      (BinarySearchTree.isBalanced sampleTree = .ok true ↔
        ∀ a ∈ sampleShape.addrs, ∃ n hl hr, sampleTree.heap.lookup a = some n ∧
          BinarySearchTree.findHeight sampleTree n.left = .ok hl ∧
          BinarySearchTree.findHeight sampleTree n.right = .ok hr ∧ |hl - hr| ≤ 1) ∧
      BinarySearchTree.isBalanced Tree.empty = .ok true ∧
      (BinarySearchTree.run [.insert 1 10, .insert 2 20, .insert 3 30, .insert 4 40,
          .insert 5 50, .insert 6 60, .insert 7 70] Tree.empty).bind
        (fun t => do
          pure (← BinarySearchTree.isBalanced t, ← BinarySearchTree.findHeight t t.root))
        = .ok (false, 7) :=
  ⟨sampleTree_searchTree.1, C14_isBalanced_exact sampleTree sampleShape sampleTree_searchTree.1⟩

/-! ## Claims about the ordering invariant -/

/-- C3: every tree that a finite sequence of `AVLTree::insert` and `AVLTree::remove` calls
returns, started on the empty tree, is well formed and satisfies the BST ordering invariant: its
in-order traversal returns, and the keys it yields are strictly increasing. -/
theorem C3_reachable_trees_are_ordered (ops : List Op) (t : Tree)
    (h : AVLTree.run ops Tree.empty = .ok t) :
    ∃ s, t.SearchTree s ∧ t.inorderAddrs = .ok s.addrs ∧
      t.inorder = .ok (s.addrs.map t.item) ∧
      ((s.addrs.map t.item).map Prod.fst).Pairwise (· < ·) := by
  obtain ⟨s, hs⟩ := AVLTree.run_searchTree ops Tree.empty .nil Tree.empty_searchTree t h
  refine ⟨s, hs, hs.1.inorderAddrs_eq, hs.1.inorder_eq, ?_⟩
  have := hs.2
  rw [List.map_map]
  exact this

theorem C3_reachable_trees_are_ordered_witness :
    AVLTree.run [.insert 20 200, .insert 10 100, .insert 30 300] Tree.empty = .ok sampleTree ∧
      ∃ s, sampleTree.SearchTree s ∧ sampleTree.inorderAddrs = .ok s.addrs ∧
        sampleTree.inorder = .ok (s.addrs.map sampleTree.item) ∧
        ((s.addrs.map sampleTree.item).map Prod.fst).Pairwise (· < ·) :=
  ⟨by decide, C3_reachable_trees_are_ordered
    [.insert 20 200, .insert 10 100, .insert 30 300] sampleTree (by decide)⟩

/-- C5: on a tree satisfying the BST ordering invariant, `AVLTree::remove(k)` for a key k that is
in the tree returns, in each of the three structural cases and whatever `removeFix` does, a tree
that satisfies the invariant again and whose in-order sequence of (key, value) pairs is the old
one with the pair of k taken out: one node fewer, k no longer a key, `find(k)` equal to `end()`,
every other key still there with its value. -/
theorem C5_remove_is_map_deletion (t : Tree) (s : Shape) (key : Int) (hs : t.SearchTree s)
    (hk : key ∈ s.addrs.map t.keyAt) :
    ∃ t' s' b e v, AVLTree.remove t key = .ok t' ∧ t'.SearchTree s' ∧
      t.inorder = .ok (b ++ (key, v) :: e) ∧ t'.inorder = .ok (b ++ e) ∧
      key ∉ (b ++ e).map Prod.fst ∧ s'.addrs.length + 1 = s.addrs.length ∧
      BinarySearchTree.find t' key = .ok none := by
  obtain ⟨a, ha, hka⟩ := List.mem_map.mp hk
  obtain ⟨t', s', hrun, hs', -, hit, bs, es, hold, hnew⟩ := AVLTree.remove_present key hs ha hka
  have hnd := hs.1.2.2
  rw [hold] at hnd
  have hanew : a ∉ bs ++ es := by
    rw [List.nodup_append] at hnd
    intro h
    rcases List.mem_append.mp h with h | h
    · exact hnd.2.2 h (List.mem_cons_self _ _)
    · exact (List.nodup_cons.mp hnd.2.1).1 h
  have hitems : (bs ++ es).map t'.item = (bs ++ es).map t.item :=
    List.map_congr_left (fun y hy => hit y (fun e => hanew (e ▸ hy)))
  have hia : t.item a = (key, (t.item a).2) := by
    have : (t.item a).1 = key := hka
    rw [← this]
  have hsorted := hs.2
  rw [hold, List.map_append, List.map_cons, List.pairwise_append, List.pairwise_cons] at hsorted
  obtain ⟨-, ⟨hes, -⟩, hbs⟩ := hsorted
  have hkeys : key ∉ (bs ++ es).map t.keyAt := by
    rw [List.map_append, List.mem_append]
    rintro (h | h)
    · have := hbs _ h _ (List.mem_cons_self _ _)
      rw [hka] at this
      exact lt_irrefl _ this
    · have := hes _ h
      rw [hka] at this
      exact lt_irrefl _ this
  have hkeys' : key ∉ s'.addrs.map t'.keyAt := by
    rw [hnew]
    have : (bs ++ es).map t'.keyAt = (bs ++ es).map t.keyAt :=
      List.map_congr_left
        (fun y hy => Tree.keyAt_eq_of_item (hit y (fun e => hanew (e ▸ hy))))
    rw [this]
    exact hkeys
  refine ⟨t', s', bs.map t.item, es.map t.item, (t.item a).2, hrun, hs', ?_, ?_, ?_, ?_, ?_⟩
  · rw [hs.1.inorder_eq, hold, List.map_append, List.map_cons, ← hia]
  · rw [hs'.1.inorder_eq, hnew, hitems, List.map_append]
  · rw [← List.map_append, List.map_map]
    exact hkeys
  · rw [hold, hnew]
    simp only [List.length_append, List.length_cons]
    omega
  · have hf : BinarySearchTree.find t' key = .ok (s'.locate t' key) := hs'.internalFind_eq key
    rw [hf, (Shape.locate_eq_none t' key s' hs'.2).mpr hkeys']

theorem C5_remove_is_map_deletion_witness :
    sampleTree.SearchTree sampleShape ∧ (20 : Int) ∈ sampleShape.addrs.map sampleTree.keyAt ∧
      ∃ t' s' b e v, AVLTree.remove sampleTree 20 = .ok t' ∧ t'.SearchTree s' ∧
        sampleTree.inorder = .ok (b ++ (20, v) :: e) ∧ t'.inorder = .ok (b ++ e) ∧
        (20 : Int) ∉ (b ++ e).map Prod.fst ∧ s'.addrs.length + 1 = sampleShape.addrs.length ∧
        BinarySearchTree.find t' 20 = .ok none :=
  ⟨sampleTree_searchTree, by decide,
    C5_remove_is_map_deletion sampleTree sampleShape 20 sampleTree_searchTree (by decide)⟩

/-! ## Claims about iterators -/

/-- C11: let t be a tree returned by a sequence of `AVLTree::insert` and `AVLTree::remove` calls
started on the empty tree, or any tree satisfying the BST ordering invariant. Then `begin()`
returns the first node in in-order (the node with the smallest key; `end()` if the tree is
empty), `operator++` moves from every node to the node with the next larger key and from the
last node to `end()`, and the loop from `begin()` to `end()` visits every node of the tree
exactly once, in strictly increasing key order, in as many steps as there are nodes. -/
theorem C11_iteration_in_key_order (t : Tree)
    (h : (∃ ops, AVLTree.run ops Tree.empty = .ok t) ∨ ∃ s, t.SearchTree s) :
    ∃ s, t.SearchTree s ∧
      BinarySearchTree.begin t = .ok s.addrs.head? ∧
      (s.addrs = [] → BinarySearchTree.begin t = .ok (BinarySearchTree.end t)) ∧
      (∀ b x e, s.addrs = b ++ x :: e →
        BinarySearchTree.iterator.increment t (some x) = .ok e.head?) ∧
      BinarySearchTree.iterate t = .ok s.addrs ∧
      s.addrs.Nodup ∧ (s.addrs.map t.keyAt).Pairwise (· < ·) ∧
      t.inorderAddrs = .ok s.addrs := by
  obtain ⟨s, hs⟩ : ∃ s, t.SearchTree s := by
    rcases h with ⟨ops, hops⟩ | h
    · exact AVLTree.run_searchTree ops Tree.empty .nil Tree.empty_searchTree t hops
    · exact h
  refine ⟨s, hs, begin_spec hs.1, ?_, fun b x e hsplit => increment_spec hs.1 hsplit,
    iterate_spec hs.1, hs.1.2.2, hs.2, hs.1.inorderAddrs_eq⟩
  intro he
  rw [begin_spec hs.1, he]
  rfl

theorem C11_iteration_in_key_order_witness :
    ((∃ ops, AVLTree.run ops Tree.empty = .ok sampleTree) ∨ ∃ s, sampleTree.SearchTree s) ∧
      ∃ s, sampleTree.SearchTree s ∧
        BinarySearchTree.begin sampleTree = .ok s.addrs.head? ∧
        (s.addrs = [] → BinarySearchTree.begin sampleTree = .ok (BinarySearchTree.end sampleTree)) ∧
        (∀ b x e, s.addrs = b ++ x :: e →
          BinarySearchTree.iterator.increment sampleTree (some x) = .ok e.head?) ∧
        BinarySearchTree.iterate sampleTree = .ok s.addrs ∧
        s.addrs.Nodup ∧ (s.addrs.map sampleTree.keyAt).Pairwise (· < ·) ∧
        sampleTree.inorderAddrs = .ok s.addrs :=
  ⟨Or.inl ⟨[.insert 20 200, .insert 10 100, .insert 30 300], by decide⟩,
    C11_iteration_in_key_order sampleTree
      (Or.inl ⟨[.insert 20 200, .insert 10 100, .insert 30 300], by decide⟩)⟩

/-! ## Claims about rebalancing after an insert -/

/-- C18: on a tree that satisfies the BST ordering invariant, is height-balanced at every node
and stores at every node the true difference of the heights of its right and left subtrees,
`AVLTree::insert` returns, and the tree it returns satisfies the ordering invariant and is
height-balanced at every node (`isBalanced()` is true). Its shape is the old shape (key already
there) or the old shape with the new leaf attached, changed by at most one fix-up: a single or a
double rotation at one node. -/
theorem C18_single_insert_keeps_balance (t : Tree) (s : Shape) (key value : Int)
    (hs : t.SearchTree s) (hb : s.Balanced) (ht : t.BalancesTrue s) :
    ∃ t' s', AVLTree.insert t key value = .ok t' ∧ t'.SearchTree s' ∧ s'.Balanced ∧
      BinarySearchTree.isBalanced t' = .ok true ∧
      ∃ sAtt, (sAtt = s ∨ ∃ c, s = plug c .nil ∧ sAtt = plug c (.node .nil t.heap.length .nil)) ∧
        (s' = sAtt ∨ ∃ c X X', sAtt = plug c X ∧ s' = plug c X' ∧ X.FixUp X') := by
  cases hloc : s.locate t key with
  | some a =>
    obtain ⟨ha, hk⟩ := (Shape.locate_eq_some t key s hs.2 a).mp hloc
    obtain ⟨t', hrun, hs', -⟩ := AVLTree.insert_present key value hs ha hk
    refine ⟨t', s, hrun, hs', hb, ?_, s, Or.inl rfl, Or.inl rfl⟩
    rw [hs'.1.isBalanced_eq]
    simp [hb]
  | none =>
    -- the precise result: the tree returned and its shape
    have hprecise : ∃ t' s', AVLTree.insert t key value = .ok t' ∧ t'.Valid s' ∧ s'.Balanced ∧
        ∃ sAtt, (sAtt = s ∨ ∃ c, s = plug c .nil ∧
            sAtt = plug c (.node .nil t.heap.length .nil)) ∧
          (s' = sAtt ∨ ∃ c X X', sAtt = plug c X ∧ s' = plug c X' ∧ X.FixUp X') := by
      cases s with
      | nil =>
        have hroot : t.root = none := hs.1.1
        refine ⟨Tree.mk (t.heap ++ [some (Node.mk key value none none none 0)])
          (some t.heap.length), .node .nil t.heap.length .nil, ?_, ⟨rfl, ?_, ?_⟩, ?_,
          _, Or.inr ⟨[], rfl, rfl⟩, Or.inl rfl⟩
        · simp [AVLTree.insert, hroot, Tree.newNode]
        · exact ⟨Node.mk key value none none none 0, by simp [Heap.lookup_append], rfl, rfl, rfl,
            trivial, trivial⟩
        · simp [Shape.addrs]
        · simp [Shape.Balanced, Shape.height]
      | node l0 a0 r0 =>
        obtain ⟨f, c, t2, hplug, hins, hz2, hlen2, hbal2, hbnew⟩ :=
          AVLTree.insert_attach key value hs hloc
        rw [← hplug] at hb ht hs
        obtain ⟨-, -, hctx⟩ := plug_true_split t (f :: c) .nil hb ht
        have hlive : ∀ y, (y ∈ ctxBefore (f :: c) ∨ y ∈ ctxAfter (f :: c)) →
            y ≠ t.heap.length := by
          intro y hy
          have hz : t.Zipped (f :: c) .nil := (Tree.valid_plug_iff t _ _).mp hs.1
          obtain ⟨ny, hny⟩ := hz.ctx_live hy
          exact Nat.ne_of_lt (Heap.lookup_lt hny)
        have hctx2 : t2.CtxTrue (f :: c) 0 :=
          Tree.CtxTrue.transfer (f :: c) 0 (fun y hy => hbal2 y (hlive y hy)) hctx
        have hfuel : (f :: c).length < t2.fuel := by
          have h1 := ctx_length_le (f :: c)
          have h2 := hs.1.2.1.length_le hs.1.2.2
          rw [plug_addrs] at h2
          simp only [Shape.addrs, List.append_nil, List.length_append] at h1 h2
          simp only [Tree.fuel, hlen2]
          omega
        obtain ⟨t', s', hrun, hz', hb', -, hfix⟩ :=
          insertClimb_balanced (f :: c) (.node .nil t.heap.length .nil) t2 0 t2.fuel hz2
            (by simp [Shape.Balanced, Shape.height]) (by simp [Shape.height]) (Or.inl rfl)
            hctx2 hfuel
        exact ⟨t', s', hins.trans hrun, hz'.valid, hb', _, Or.inr ⟨f :: c, hplug.symm, rfl⟩, hfix⟩
    obtain ⟨t', s', hrun, hv', hb', hshape⟩ := hprecise
    rcases AVLTree.insert_new key value hs hloc with hfault | ⟨t'', s'', hrun'', hs'', -⟩
    · rw [hrun] at hfault
      cases hfault
    · rw [hrun] at hrun''
      cases hrun''
      have hss : s'' = s' := hs''.1.shape_unique hv'
      subst hss
      refine ⟨t', s'', hrun, hs'', hb', ?_, hshape⟩
      rw [hv'.isBalanced_eq]
      simp [hb']

theorem C18_single_insert_keeps_balance_witness :
    sampleTree.SearchTree sampleShape ∧ sampleShape.Balanced ∧
      sampleTree.BalancesTrue sampleShape ∧
      ∃ t' s', AVLTree.insert sampleTree 25 250 = .ok t' ∧ t'.SearchTree s' ∧ s'.Balanced ∧
        BinarySearchTree.isBalanced t' = .ok true ∧
        ∃ sAtt, (sAtt = sampleShape ∨ ∃ c, sampleShape = plug c .nil ∧
            sAtt = plug c (.node .nil sampleTree.heap.length .nil)) ∧
          (s' = sAtt ∨ ∃ c X X', sAtt = plug c X ∧ s' = plug c X' ∧ X.FixUp X') :=
  ⟨sampleTree_searchTree, by decide, by decide,
    C18_single_insert_keeps_balance sampleTree sampleShape 25 250 sampleTree_searchTree
      (by decide) (by decide)⟩

/-! ## Claims about rotations -/

/-- C22: let `t` be a well-formed tree in which the node x has the left subtree A and the right
child y, whose subtrees are B and C, below any context `c` (the path up to the root with the
subtrees hanging off it; empty if x is the root). Then `rotateLeft(x)` returns a well-formed
tree with the same context, so y hangs where x did (same side of the same parent, or `root_`),
x is the left child of y, B is the right subtree of x, and A, C and the context are as before;
every node keeps its key and value and, except for x and y, its stored balance. `rotateRight`
is the mirror image, stated for a second tree `u`. -/
theorem C22_rotation_shape (t u : Tree) (c d : List Frame) (A B C D E F : Shape) (x y v w : Nat)
    (hl : t.Valid (plug c (.node A x (.node B y C))))
    (hr : u.Valid (plug d (.node (.node D w E) v F))) :
    (∃ t', AVLTree.rotateLeft t (some x) = .ok t' ∧
      t'.Valid (plug c (.node (.node A x B) y C)) ∧ t'.root = ctxRoot c (some y) ∧
      (∀ a, t'.item a = t.item a) ∧ (∀ a, a ≠ x → a ≠ y → t'.balanceAt a = t.balanceAt a) ∧
      t'.heap.length = t.heap.length) ∧
    (∃ u', AVLTree.rotateRight u (some v) = .ok u' ∧
      u'.Valid (plug d (.node D w (.node E v F))) ∧ u'.root = ctxRoot d (some w) ∧
      (∀ a, u'.item a = u.item a) ∧ (∀ a, a ≠ v → a ≠ w → u'.balanceAt a = u.balanceAt a) ∧
      u'.heap.length = u.heap.length) := by
  have hzl := (Tree.valid_plug_iff t c _).mp hl
  have hzr := (Tree.valid_plug_iff u d _).mp hr
  obtain ⟨t', hrun, hz', hit, hlen⟩ := rotateLeft_zipped hzl
  obtain ⟨u', hrun2, hz2, hit2, hlen2⟩ := rotateRight_zipped hzr
  exact ⟨⟨t', hrun, (Tree.valid_plug_iff t' c _).mpr hz', hz'.root, hit,
      rotateLeft_balances hzl hrun, hlen⟩,
    ⟨u', hrun2, (Tree.valid_plug_iff u' d _).mpr hz2, hz2.root, hit2,
      rotateRight_balances hzr hrun2, hlen2⟩⟩

theorem C22_rotation_shape_witness :
    perfectTree.Valid (plug [⟨3, .left, .node (.node .nil 4 .nil) 5 (.node .nil 6 .nil)⟩]
        (.node (.node .nil 0 .nil) 1 (.node .nil 2 .nil))) ∧
    perfectTree.Valid (plug [⟨3, .right, .node (.node .nil 0 .nil) 1 (.node .nil 2 .nil)⟩]
        (.node (.node .nil 4 .nil) 5 (.node .nil 6 .nil))) ∧
    (∃ t', AVLTree.rotateLeft perfectTree (some 1) = .ok t' ∧
      t'.Valid (plug [⟨3, .left, .node (.node .nil 4 .nil) 5 (.node .nil 6 .nil)⟩]
        (.node (.node (.node .nil 0 .nil) 1 .nil) 2 .nil)) ∧
      t'.root = ctxRoot [⟨3, .left, .node (.node .nil 4 .nil) 5 (.node .nil 6 .nil)⟩] (some 2) ∧
      (∀ a, t'.item a = perfectTree.item a) ∧
      (∀ a, a ≠ 1 → a ≠ 2 → t'.balanceAt a = perfectTree.balanceAt a) ∧
      t'.heap.length = perfectTree.heap.length) ∧
    (∃ u', AVLTree.rotateRight perfectTree (some 5) = .ok u' ∧
      u'.Valid (plug [⟨3, .right, .node (.node .nil 0 .nil) 1 (.node .nil 2 .nil)⟩]
        (.node .nil 4 (.node .nil 5 (.node .nil 6 .nil)))) ∧
      u'.root = ctxRoot [⟨3, .right, .node (.node .nil 0 .nil) 1 (.node .nil 2 .nil)⟩] (some 4) ∧
      (∀ a, u'.item a = perfectTree.item a) ∧
      (∀ a, a ≠ 5 → a ≠ 4 → u'.balanceAt a = perfectTree.balanceAt a) ∧
      u'.heap.length = perfectTree.heap.length) :=
  ⟨perfectTree_searchTree.1, perfectTree_searchTree.1,
    C22_rotation_shape perfectTree perfectTree
      [⟨3, .left, .node (.node .nil 4 .nil) 5 (.node .nil 6 .nil)⟩]
      [⟨3, .right, .node (.node .nil 0 .nil) 1 (.node .nil 2 .nil)⟩]
      (.node .nil 0 .nil) .nil .nil .nil .nil (.node .nil 6 .nil) 1 2 5 4
      perfectTree_searchTree.1 perfectTree_searchTree.1⟩

/-- C23: on a well-formed tree and for every node x of it, `rotateLeft(x)` and `rotateRight(x)`
return, and the in-order sequence of (key, value) pairs of the tree returned is the in-order
sequence of the tree before the call. -/
theorem C23_rotations_keep_inorder (t : Tree) (s : Shape) (x : Nat) (hv : t.Valid s)
    (hx : x ∈ s.addrs) :
    ∃ l, t.inorder = .ok l ∧
      (∃ t', AVLTree.rotateLeft t (some x) = .ok t' ∧ t'.inorder = .ok l) ∧
      (∃ t', AVLTree.rotateRight t (some x) = .ok t' ∧ t'.inorder = .ok l) := by
  refine ⟨s.addrs.map t.item, hv.inorder_eq, ?_, ?_⟩
  · obtain ⟨t', s', hrun, hz', hadd, hit, -⟩ := rotateLeft_within hv.zipped hx
    refine ⟨t', hrun, ?_⟩
    rw [hz'.valid.inorder_eq, hadd]
    exact congrArg Res.ok (List.map_congr_left (fun y _ => hit y))
  · obtain ⟨t', s', hrun, hz', hadd, hit, -⟩ := rotateRight_within hv.zipped hx
    refine ⟨t', hrun, ?_⟩
    rw [hz'.valid.inorder_eq, hadd]
    exact congrArg Res.ok (List.map_congr_left (fun y _ => hit y))

theorem C23_rotations_keep_inorder_witness :
    perfectTree.Valid perfectShape ∧ 1 ∈ perfectShape.addrs ∧
      ∃ l, perfectTree.inorder = .ok l ∧
        (∃ t', AVLTree.rotateLeft perfectTree (some 1) = .ok t' ∧ t'.inorder = .ok l) ∧
        (∃ t', AVLTree.rotateRight perfectTree (some 1) = .ok t' ∧ t'.inorder = .ok l) :=
  ⟨perfectTree_searchTree.1, by decide,
    C23_rotations_keep_inorder perfectTree perfectShape 1 perfectTree_searchTree.1 (by decide)⟩

/-- C28: if the node x has no right child, `rotateLeft(x)` returns the tree it was given: the
same root pointer and the same heap, so every link, key, value and balance is as before. The
same holds for `rotateRight(y)` when the node y has no left child. -/
theorem C28_rotation_without_child_is_noop (t : Tree) (x y : Nat) (nx ny : Node)
    (hx : t.heap.lookup x = some nx) (hxr : nx.right = none)
    (hy : t.heap.lookup y = some ny) (hyl : ny.left = none) :
    AVLTree.rotateLeft t (some x) = .ok t ∧ AVLTree.rotateRight t (some y) = .ok t :=
  ⟨rotateLeft_nil hx hxr, rotateRight_nil hy hyl⟩

theorem C28_rotation_without_child_is_noop_witness :
    AVLTree.rotateLeft chainTree (some 2) = .ok chainTree ∧
      AVLTree.rotateRight chainTree (some 1) = .ok chainTree :=
  C28_rotation_without_child_is_noop chainTree 2 1 ⟨30, 300, some 1, none, none, 0⟩
    ⟨20, 200, some 0, none, some 2, 1⟩ rfl rfl rfl rfl

/-! ## Claims about the predecessor -/

/-- C27: on a tree that satisfies the BST ordering invariant (with consistent parent links) and
for every node x of it, `predecessor(x)` returns; the result is null if and only if no key of
the tree is smaller than the key of x, and otherwise it is a node of the tree whose key is
smaller than the key of x and at least as large as every key of the tree that is smaller than
the key of x. It is the node just before x in in-order. -/
theorem C27_predecessor_largest_smaller (t : Tree) (s : Shape) (x : Nat) (hs : t.SearchTree s)
    (hx : x ∈ s.addrs) :
    ∃ r, BinarySearchTree.predecessor t (some x) = .ok r ∧
      (r = none ↔ ∀ y ∈ s.addrs, t.keyAt x ≤ t.keyAt y) ∧
      (∀ p, r = some p → p ∈ s.addrs ∧ t.keyAt p < t.keyAt x ∧
        ∀ y ∈ s.addrs, t.keyAt y < t.keyAt x → t.keyAt y ≤ t.keyAt p) ∧
      ∃ b e, s.addrs = b ++ x :: e ∧ r = b.getLast? := by
  obtain ⟨b, e, hsplit⟩ := List.append_of_mem hx
  have hrun := predecessor_spec hs.1 hsplit
  have hsorted := hs.2
  rw [hsplit, List.map_append, List.map_cons, List.pairwise_append] at hsorted
  obtain ⟨hbs, hxe, hbxe⟩ := hsorted
  rw [List.pairwise_cons] at hxe
  have hbx : ∀ y ∈ b, t.keyAt y < t.keyAt x := fun y hy =>
    hbxe _ (List.mem_map_of_mem _ hy) _ (List.mem_cons_self _ _)
  have hxe' : ∀ y ∈ e, t.keyAt x < t.keyAt y := fun y hy =>
    hxe.1 _ (List.mem_map_of_mem _ hy)
  refine ⟨b.getLast?, hrun, ?_, ?_, b, e, hsplit, rfl⟩
  · constructor
    · intro hnone y hy
      have hbnil : b = [] := List.getLast?_eq_none_iff.mp hnone
      subst hbnil
      rw [hsplit] at hy
      simp only [List.nil_append, List.mem_cons] at hy
      rcases hy with rfl | hy
      · exact le_refl _
      · exact le_of_lt (hxe' y hy)
    · intro hall
      cases b with
      | nil => rfl
      | cons z zs =>
        have h1 := hbx z (List.mem_cons_self _ _)
        have h2 := hall z (by rw [hsplit]; simp)
        omega
  · intro p hp
    have hpb : p ∈ b := List.mem_of_getLast?_eq_some hp
    refine ⟨by rw [hsplit]; simp [hpb], hbx p hpb, ?_⟩
    intro y hy hlt
    rw [hsplit] at hy
    simp only [List.mem_append, List.mem_cons] at hy
    rcases hy with hy | rfl | hy
    · obtain ⟨b', hb'⟩ : ∃ b', b = b' ++ [p] := by
        obtain ⟨b', hb'⟩ := List.getLast?_eq_some_iff.mp hp
        exact ⟨b', hb'⟩
      subst hb'
      rw [List.map_append, List.pairwise_append] at hbs
      simp only [List.mem_append, List.mem_singleton] at hy
      rcases hy with hy | rfl
      · exact le_of_lt (hbs.2.2 _ (List.mem_map_of_mem _ hy) _ (by simp))
      · exact le_refl _
    · exact absurd hlt (lt_irrefl _)
    · have := hxe' y hy
      omega

theorem C27_predecessor_largest_smaller_witness :
    sampleTree.SearchTree sampleShape ∧ 0 ∈ sampleShape.addrs ∧
      ∃ r, BinarySearchTree.predecessor sampleTree (some 0) = .ok r ∧
        (r = none ↔ ∀ y ∈ sampleShape.addrs, sampleTree.keyAt 0 ≤ sampleTree.keyAt y) ∧
        (∀ p, r = some p → p ∈ sampleShape.addrs ∧ sampleTree.keyAt p < sampleTree.keyAt 0 ∧
          ∀ y ∈ sampleShape.addrs, sampleTree.keyAt y < sampleTree.keyAt 0 →
            sampleTree.keyAt y ≤ sampleTree.keyAt p) ∧
        ∃ b e, sampleShape.addrs = b ++ 0 :: e ∧ r = b.getLast? :=
  ⟨sampleTree_searchTree, by decide,
    C27_predecessor_largest_smaller sampleTree sampleShape 0 sampleTree_searchTree (by decide)⟩

/-! ## Claims about the stored balances after a removal -/

/-- C30: let the key be stored in a node with at most one child, in a tree that satisfies the
BST ordering invariant. Then `remove(key)` returns, and if `removeFix` calls neither
`rotateLeft` nor `rotateRight` during the call (the counter of the counting copy
`removeCount` of the code is 0), every node other than the removed one has the stored balance
it had before the call. -/
theorem C30_no_rotation_keeps_balances (t : Tree) (s : Shape) (key : Int) (a : Nat) (n : Node)
    (hs : t.SearchTree s) (ha : a ∈ s.addrs) (hn : t.heap.lookup a = some n) (hk : n.key = key)
    (hc : n.left = none ∨ n.right = none) :
    ∃ t' k, AVLTree.removeCount t key = .ok (t', k) ∧ AVLTree.remove t key = .ok t' ∧
      (k = 0 → ∀ y, y ≠ a → t'.balanceAt y = t.balanceAt y) := by
  have hka : t.keyAt a = key := by rw [Tree.keyAt_of_lookup hn]; exact hk
  have hloc : s.locate t key = some a := (Shape.locate_eq_some t key s hs.2 a).mpr ⟨ha, hka⟩
  have hdesc : removeDescend t.fuel t key t.root = .ok (some a) := by
    rw [hs.1.1, ← hloc]
    exact removeDescend_eq t key s none _ hs.1.2.1 (by have := hs.1.height_lt_fuel; omega)
  obtain ⟨c, L, R, rfl⟩ := Shape.focus ha
  have hz : t.Zipped c (.node L a R) := (Tree.valid_plug_iff t c _).mp hs.1
  obtain ⟨na, hna, -, hla, hra, -, -⟩ := hz.sub
  rw [hn] at hna
  cases hna
  have hun : ∃ t1 diff s1, AVLTree.remove t key = AVLTree.removeFix t1.fuel t1 (ctxParent c) diff ∧
      AVLTree.removeCount t key = AVLTree.removeFixCount t1.fuel t1 (ctxParent c) diff ∧
      t1.Zipped c s1 ∧ ∀ y, y ≠ a → t1.balanceAt y = t.balanceAt y := by
    cases hL : L with
    | nil =>
      cases hR : R with
      | nil =>
        subst hL hR
        obtain ⟨t1, diff, h1, h2, hz1, -, -, hb⟩ := AVLTree.remove_leaf_count key hz hdesc
        exact ⟨t1, diff, _, h1, h2, hz1, hb⟩
      | node Rl x Rr =>
        subst hL hR
        obtain ⟨t1, diff, h1, h2, hz1, -, -, hb⟩ :=
          AVLTree.remove_one_child_count key hz (Or.inl ⟨rfl, rfl⟩) hdesc
        exact ⟨t1, diff, _, h1, h2, hz1, hb⟩
    | node Ll x Lr =>
      cases hR : R with
      | nil =>
        subst hL hR
        obtain ⟨t1, diff, h1, h2, hz1, -, -, hb⟩ :=
          AVLTree.remove_one_child_count key hz (Or.inr ⟨rfl, rfl⟩) hdesc
        exact ⟨t1, diff, _, h1, h2, hz1, hb⟩
      | node Rl r0 Rr =>
        subst hL hR
        rcases hc with h | h
        · rw [hla] at h; cases h
        · rw [hra] at h; cases h
  obtain ⟨t1, diff, s1, hrun, hrunC, hz1, hbal⟩ := hun
  have hv1 : t1.Valid (plug c s1) := (Tree.valid_plug_iff t1 c s1).mpr hz1
  have hfuel : c.length < t1.fuel := by
    have h1 := ctx_length_le c
    have h2 := hv1.2.1.length_le hv1.2.2
    rw [plug_addrs] at h2
    simp only [List.length_append] at h1 h2
    simp only [Tree.fuel]
    omega
  obtain ⟨t', hfix, -, -⟩ :=
    removeFix_arranged c s1.addrs t1 diff t1.fuel ⟨s1, hz1, rfl⟩ hfuel
  have hsim := AVLTree.removeFixCount_fst t1.fuel t1 (ctxParent c) diff
  rw [hfix] at hsim
  obtain ⟨r, hr, hr1⟩ := Res.bind_eq_ok.mp hsim.symm
  obtain ⟨t2, k⟩ := r
  simp only [Res.pure_eq, Res.ok.injEq] at hr1
  subst hr1
  refine ⟨t2, k, hrunC.trans hr, hrun.trans hfix, ?_⟩
  intro hk0 y hy
  subst hk0
  rw [AVLTree.removeFixCount_zero _ _ _ _ _ hr]
  exact hbal y hy

theorem C30_no_rotation_keeps_balances_witness :
    sampleTree.SearchTree sampleShape ∧ 1 ∈ sampleShape.addrs ∧
      sampleTree.heap.lookup 1 = some ⟨10, 100, some 0, none, none, 0⟩ ∧
      AVLTree.removeCount sampleTree 10 =
        .ok (⟨[some ⟨20, 200, none, none, some 2, 0⟩, none,
          some ⟨30, 300, some 0, none, none, 0⟩], some 0⟩, 0) ∧
      ∃ t' k, AVLTree.removeCount sampleTree 10 = .ok (t', k) ∧
        AVLTree.remove sampleTree 10 = .ok t' ∧
        (k = 0 → ∀ y, y ≠ 1 → t'.balanceAt y = sampleTree.balanceAt y) :=
  ⟨sampleTree_searchTree, by decide, rfl, by decide,
    C30_no_rotation_keeps_balances sampleTree sampleShape 10 1 ⟨10, 100, some 0, none, none, 0⟩
      sampleTree_searchTree (by decide) rfl rfl (Or.inl rfl)⟩

/-! ## Claims about the removal of a node with two children -/

/-- C26: let the key be stored in a node `a` with two children, in a plain binary search tree
that satisfies the BST ordering invariant. Then `predecessor(a)` is the rightmost node `p` of
the left subtree of `a` (its maximum), and `BinarySearchTree::remove(key)` returns a tree that
satisfies the ordering invariant and has the shape of the old tree with two changes: the
position of `a` holds `p`, with the key and the value `p` had, and the former position of `p`
holds the former left subtree `PL` of `p` (nothing if it was empty). The context `c` above `a`,
the right subtree `R` of `a` and the chain of right links `cL` from the left child of `a` down
to `p` are as before; the node `a` is deleted and every other node keeps its key and value. -/
theorem C26_two_child_removal_uses_predecessor (t : Tree) (s : Shape) (key : Int) (a : Nat)
    (n : Node) (hs : t.SearchTree s) (ha : a ∈ s.addrs) (hn : t.heap.lookup a = some n)
    (hk : n.key = key) (hl : n.left ≠ none) (hr : n.right ≠ none) :
    ∃ c cL PL p R t',
      s = plug c (.node (plug cL (.node PL p .nil)) a R) ∧ (∀ f ∈ cL, f.dir = .right) ∧
      BinarySearchTree.predecessor t (some a) = .ok (some p) ∧
      BinarySearchTree.remove t key = .ok t' ∧
      t'.SearchTree (plug c (.node (plug cL PL) p R)) ∧
      (∀ y, y ≠ a → t'.item y = t.item y) ∧ t'.heap.lookup a = none ∧
      t'.heap.length = t.heap.length := by
  have hka : t.keyAt a = key := by rw [Tree.keyAt_of_lookup hn]; exact hk
  have hloc : s.locate t key = some a := (Shape.locate_eq_some t key s hs.2 a).mpr ⟨ha, hka⟩
  have hdesc : removeDescend t.fuel t key t.root = .ok (some a) := by
    rw [hs.1.1, ← hloc]
    exact removeDescend_eq t key s none _ hs.1.2.1 (by have := hs.1.height_lt_fuel; omega)
  obtain ⟨c, L, R, rfl⟩ := Shape.focus ha
  have hz : t.Zipped c (.node L a R) := (Tree.valid_plug_iff t c _).mp hs.1
  obtain ⟨na, hna, -, hla, hra, -, -⟩ := hz.sub
  rw [hn] at hna
  cases hna
  have hLne : L ≠ .nil := by
    rintro rfl
    exact hl hla
  have hRne : R ≠ .nil := by
    rintro rfl
    exact hr hra
  obtain ⟨cL, PL, p, t1, hsplit, hdir, hpred, hrun, hz1, hlen, hit, hgone⟩ :=
    BinarySearchTree.remove_two key hz hLne hRne hdesc
  subst hsplit
  refine ⟨c, cL, PL, p, R, t1, rfl, hdir, hpred, hrun,
    ⟨(Tree.valid_plug_iff t1 c _).mpr hz1, ?_⟩, hit, hgone, hlen⟩
  have hLa : (plug cL (.node PL p .nil)).addrs = (plug cL PL).addrs ++ [p] := by
    rw [plug_addrs, plug_addrs, ctxAfter_right cL hdir]
    simp [Shape.addrs]
  have hold : (plug c (.node (plug cL (.node PL p .nil)) a R)).addrs =
      (ctxBefore c ++ ((plug cL PL).addrs ++ [p])) ++ a :: (R.addrs ++ ctxAfter c) := by
    rw [plug_addrs]; simp [Shape.addrs, hLa]
  have hnew : (plug c (.node (plug cL PL) p R)).addrs =
      (ctxBefore c ++ ((plug cL PL).addrs ++ [p])) ++ (R.addrs ++ ctxAfter c) := by
    rw [plug_addrs]; simp [Shape.addrs]
  have hnd := hs.1.2.2
  rw [hold] at hnd
  have hanew : a ∉ (ctxBefore c ++ ((plug cL PL).addrs ++ [p])) ++ (R.addrs ++ ctxAfter c) := by
    rw [List.nodup_append] at hnd
    intro h
    rcases List.mem_append.mp h with h | h
    · exact hnd.2.2 h (List.mem_cons_self _ _)
    · exact (List.nodup_cons.mp hnd.2.1).1 h
  have hsorted := hs.2
  rw [hold] at hsorted
  rw [hnew]
  have hsub : ((ctxBefore c ++ ((plug cL PL).addrs ++ [p])) ++ (R.addrs ++ ctxAfter c)).Sublist
      ((ctxBefore c ++ ((plug cL PL).addrs ++ [p])) ++ a :: (R.addrs ++ ctxAfter c)) :=
    List.Sublist.append (List.Sublist.refl _) (List.sublist_cons_self _ _)
  have hmap : ((ctxBefore c ++ ((plug cL PL).addrs ++ [p])) ++ (R.addrs ++ ctxAfter c)).map
        t1.keyAt =
      ((ctxBefore c ++ ((plug cL PL).addrs ++ [p])) ++ (R.addrs ++ ctxAfter c)).map t.keyAt := by
    apply List.map_congr_left
    intro y hy
    exact Tree.keyAt_eq_of_item (hit y (fun e => hanew (e ▸ hy)))
  rw [hmap]
  exact (hsorted.sublist (hsub.map _))

theorem C26_two_child_removal_uses_predecessor_witness :
    perfectTree.SearchTree perfectShape ∧ 3 ∈ perfectShape.addrs ∧
      perfectTree.heap.lookup 3 = some ⟨4, 40, none, some 1, some 5, 0⟩ ∧
      (BinarySearchTree.remove perfectTree 4).bind (fun t => t.inorder) =
        .ok [(1, 10), (2, 20), (3, 30), (5, 50), (6, 60), (7, 70)] ∧
      ∃ c cL PL p R t',
        perfectShape = plug c (.node (plug cL (.node PL p .nil)) 3 R) ∧
        (∀ f ∈ cL, f.dir = .right) ∧
        BinarySearchTree.predecessor perfectTree (some 3) = .ok (some p) ∧
        BinarySearchTree.remove perfectTree 4 = .ok t' ∧
        t'.SearchTree (plug c (.node (plug cL PL) p R)) ∧
        (∀ y, y ≠ 3 → t'.item y = perfectTree.item y) ∧ t'.heap.lookup 3 = none ∧
        t'.heap.length = perfectTree.heap.length :=
  ⟨perfectTree_searchTree, by decide, rfl, by decide,
    C26_two_child_removal_uses_predecessor perfectTree perfectShape 4 3
      ⟨4, 40, none, some 1, some 5, 0⟩ perfectTree_searchTree (by decide) rfl rfl
      (by decide) (by decide)⟩

/-! ## Claims about `equalPaths` -/

/-- C31: for every binary tree whose depths fit the type `int` (at most 2^31 nodes on a path
from the root), `equalPaths(root)` returns true if and only if all leaves, the nodes with no
children, lie at the same depth from the root; it returns true for the empty tree and for a
tree of a single node. -/
theorem C31_equalPaths_leaf_depths {α : Type} (root : EqualPaths.Node α) (k : α)
    (h : root.height ≤ 2147483648) :
    (EqualPaths.equalPaths root = true ↔
      ∀ x ∈ root.leafDepths 0, ∀ y ∈ root.leafDepths 0, x = y) ∧
    EqualPaths.equalPaths (EqualPaths.Node.null : EqualPaths.Node α) = true ∧
    EqualPaths.equalPaths (EqualPaths.Node.node k .null .null) = true := by
  refine ⟨?_, rfl, ?_⟩
  · have hspec := (EqualPaths.depthCheckHelper_spec root 0 (-1) (by omega)).1
    unfold EqualPaths.equalPaths
    simp only [Nat.cast_zero] at hspec
    rw [hspec]
    constructor
    · rintro ⟨e, -, he⟩ x hx y hy
      have h1 := he x hx
      have h2 := he y hy
      omega
    · intro hall
      cases hL : root.leafDepths 0 with
      | nil => exact ⟨0, fun h0 => absurd rfl h0, fun x hx => by cases hx⟩
      | cons z zs =>
        refine ⟨(z : Int), fun h0 => absurd rfl h0, fun x hx => ?_⟩
        rw [← hL] at hx
        have := hall x hx z (by rw [hL]; exact List.mem_cons_self _ _)
        rw [this]
  · simp [EqualPaths.equalPaths, EqualPaths.depthCheckHelper, EqualPaths.Node.isNull]

theorem C31_equalPaths_leaf_depths_witness :
    EqualPaths.unevenTree.height ≤ 2147483648 ∧
      EqualPaths.unevenTree.leafDepths 0 = [2, 2, 1] ∧
      EqualPaths.equalPaths EqualPaths.unevenTree = false ∧
      EqualPaths.evenTree.leafDepths 0 = [2, 2, 2] ∧
      EqualPaths.equalPaths EqualPaths.evenTree = true ∧
      ((EqualPaths.equalPaths EqualPaths.unevenTree = true ↔
        ∀ x ∈ EqualPaths.unevenTree.leafDepths 0, ∀ y ∈ EqualPaths.unevenTree.leafDepths 0,
          x = y) ∧
      EqualPaths.equalPaths (EqualPaths.Node.null : EqualPaths.Node Int) = true ∧
      EqualPaths.equalPaths (EqualPaths.Node.node (7 : Int) .null .null) = true) :=
  ⟨by decide, by decide, by decide, by decide, by decide,
    C31_equalPaths_leaf_depths EqualPaths.unevenTree 7 (by decide)⟩

end HW4
